import Mathlib

/-!
# Time2Meet: transactional ticket inventory core

A shallow embedding of the transactional core of the repository
(`pkg/apperror`, `internal/domain/valueobject`, the ticket and batch use
cases, and the postgres `TxManager`, `AuditContextSetter`, `TicketTxQueries`
and `BatchImporter`), a model of the store behind the SQL connection, and the
properties proved about them.

Conventions of the embedding

* Stateful Go code is written in explicit state-passing style over a
  `World σ`: the state `σ` of the SQL connection and the ordered record of
  the calls made on the collaborators.
* A Go `error` result is an `Option GoError` (`none` is `nil`).
* Multiple return values are tuples, in the order of the Go signature.
-/

namespace Time2Meet

/-! ## pkg/apperror/errors.go -/

/-- The error codes of `apperror.Code`. -/
inductive Code
  | CodeNotFound
  | CodeConflict
  | CodeValidation
  | CodeUnauthorized
  | CodeForbidden
  | CodeInternal
  | CodeInvalidState
  | CodeUnavailable
  deriving DecidableEq, Repr

/-- A Go `error` value: either an `*apperror.AppError` (code, message and an
optional cause) or an error made elsewhere (`fmt.Errorf`, the SQL driver),
of which only the text is kept. -/
inductive GoError
  | other (text : String)
  | app (Code : Code) (Message : String) (Cause : Option GoError)
  deriving Repr

mutual
/-- Equality of errors is decidable. -/
def GoError.decEq : (x y : GoError) → Decidable (x = y)
  | GoError.other s, GoError.other t =>
    if h : s = t then isTrue (by rw [h]) else isFalse (fun e => h (GoError.other.inj e))
  | GoError.other _, GoError.app _ _ _ => isFalse (fun e => GoError.noConfusion e)
  | GoError.app _ _ _, GoError.other _ => isFalse (fun e => GoError.noConfusion e)
  | GoError.app c m o, GoError.app c2 m2 o2 =>
    if hc : c = c2 then
      if hm : m = m2 then
        match GoError.decEqCause o o2 with
        | isTrue ho => isTrue (by rw [hc, hm, ho])
        | isFalse ho => isFalse (fun e => ho (GoError.app.inj e).2.2)
      else isFalse (fun e => hm (GoError.app.inj e).2.1)
    else isFalse (fun e => hc (GoError.app.inj e).1)
/-- Equality of optional causes is decidable. -/
def GoError.decEqCause : (x y : Option GoError) → Decidable (x = y)
  | none, none => isTrue rfl
  | none, some _ => isFalse (fun e => Option.noConfusion e)
  | some _, none => isFalse (fun e => Option.noConfusion e)
  | some a, some b =>
    match GoError.decEq a b with
    | isTrue h => isTrue (by rw [h])
    | isFalse h => isFalse (fun e => h (Option.some.inj e))
end

instance : DecidableEq GoError := GoError.decEq

/-- `apperror.New(code, msg, cause)`. -/
def New (code : Code) (msg : String) (cause : Option GoError) : GoError :=
  GoError.app code msg cause

/-- The code carried by an error, when it is an `AppError`. -/
def GoError.code? : GoError → Option Code
  | GoError.other _ => none
  | GoError.app c _ _ => some c

/-- The message carried by an error, when it is an `AppError`. -/
def GoError.message? : GoError → Option String
  | GoError.other _ => none
  | GoError.app _ m _ => some m

/-- The string value of a `Code`. -/
def Code.text : Code → String
  | Code.CodeNotFound => "not_found"
  | Code.CodeConflict => "conflict"
  | Code.CodeValidation => "validation"
  | Code.CodeUnauthorized => "unauthorized"
  | Code.CodeForbidden => "forbidden"
  | Code.CodeInternal => "internal"
  | Code.CodeInvalidState => "invalid_state"
  | Code.CodeUnavailable => "unavailable"

mutual
/-- `AppError.Error` (and the text of any other error). -/
def GoError.Error : GoError → String
  | GoError.other t => t
  | GoError.app c m cause => c.text ++ ": " ++ m ++ GoError.causeText cause
/-- The part of `AppError.Error` printed for the cause. -/
def GoError.causeText : Option GoError → String
  | none => ""
  | some e => ": " ++ GoError.Error e
end

/-- The error `sql.ErrNoRows`. -/
def ErrNoRows : GoError := GoError.other "sql: no rows in result set"

/-- The error `sql.ErrTxDone`. -/
def ErrTxDone : GoError :=
  GoError.other "sql: transaction has already been committed or rolled back"

/-! ## The decimal library used by the money value (github.com/shopspring/decimal)

`decimal.Decimal` is a pair of an arbitrary-precision integer `value` and an
exponent `exp`; it denotes `value * 10 ^ exp`. The functions below follow the
library functions of the same names. -/

/-- A `decimal.Decimal`: the number `value * 10 ^ exp`. -/
structure Decimal where
  value : Int
  exp : Int
  deriving DecidableEq, Repr

/-- The rational number a decimal denotes. -/
def Decimal.toRat (d : Decimal) : ℚ := (d.value : ℚ) * (10 : ℚ) ^ d.exp

/-- `Decimal.IsNegative`: the sign of `value` is negative. -/
def Decimal.IsNegative (d : Decimal) : Bool := decide (d.value < 0)

/-- `Decimal.rescale`: the same number with exponent `exp`, the digits that do
not fit being cut off (`big.Int.Quo` truncates towards zero). -/
def Decimal.rescale (d : Decimal) (exp : Int) : Decimal :=
  if d.exp = exp then d
  else if exp > d.exp then
    { value := Int.tdiv d.value ((10 : Int) ^ (exp - d.exp).natAbs), exp := exp }
  else
    { value := d.value * (10 : Int) ^ (exp - d.exp).natAbs, exp := exp }

/-- `Decimal.Round`: cut to `places + 1` digits, add half a unit with the sign
of the number, divide by ten (`big.Int.DivMod` is Euclidean) and move a
negative quotient with a remainder one up. -/
def Decimal.Round (d : Decimal) (places : Int) : Decimal :=
  if d.exp = -places then d
  else
    let ret := d.rescale (-places - 1)
    let v := if ret.value < 0 then ret.value - 5 else ret.value + 5
    let q := v / 10
    let m := v % 10
    { value := if q < 0 ∧ m ≠ 0 then q + 1 else q, exp := ret.exp + 1 }

/-- The decimal digits of a natural number (`big.Int.String` of a
non-negative value). -/
def natString (n : Nat) : List Char := Nat.toDigits 10 n

/-- `Decimal.string(false)`: the digits of `|value|` with the decimal point
placed `-exp` digits from the right, padded with zeros, and the sign. -/
def Decimal.string (d : Decimal) : List Char :=
  if d.exp ≥ 0 then
    let v := (d.rescale 0).value
    if v < 0 then [ '-'] ++ natString v.natAbs else natString v.natAbs
  else
    let str := natString d.value.natAbs
    let dExpInt := (-d.exp).toNat
    let intPart := if str.length > dExpInt then str.take (str.length - dExpInt) else [ '0']
    let fractionalPart :=
      if str.length > dExpInt then str.drop (str.length - dExpInt)
      else List.replicate (dExpInt - str.length) '0' ++ str
    let number := if fractionalPart.length > 0 then intPart ++ [ '.'] ++ fractionalPart else intPart
    if d.value < 0 then [ '-'] ++ number else number

/-- `Decimal.StringFixed(places)`: round, then print. -/
def Decimal.StringFixed (d : Decimal) (places : Int) : String :=
  String.mk (d.Round places).string

/-- The digits of an unsigned decimal numeral; `none` when the text is empty
or holds anything but digits. -/
def parseDigits (s : List Char) : Option Nat :=
  if s = [] then none
  else s.foldl (fun acc c =>
    match acc with
    | none => none
    | some n => if c.isDigit then some (n * 10 + (c.toNat - 48)) else none) (some 0)

/-- A signed decimal integer numeral, as `strconv.ParseInt(s, 10, _)` and
`big.Int.SetString(s, 10)` read it: an optional sign and at least one digit. -/
def parseInteger (s : List Char) : Option Int :=
  match s with
  | '+' :: r => (parseDigits r).map Int.ofNat
  | '-' :: r => (parseDigits r).map (fun n => -(Int.ofNat n))
  | r => (parseDigits r).map Int.ofNat

/-- `decimal.NewFromString`: an optional exponent after the first `E` or `e`,
at most one decimal point, and an integer numeral made of the remaining
characters; the exponent must fit 32 bits. -/
def NewFromString (value : String) : Decimal × Option GoError :=
  let cs := value.data
  let mant := cs.takeWhile (fun c => !(c == 'E' || c == 'e'))
  let hasE := decide (mant.length < cs.length)
  let expPart : Option Int :=
    if hasE then
      match parseInteger (cs.drop (mant.length + 1)) with
      | some e => if e < -2147483648 ∨ e > 2147483647 then none else some e
      | none => none
    else some 0
  match expPart with
  | none => (⟨0, 0⟩, some (GoError.other "exponent is not numeric"))
  | some exp0 =>
    if mant.count '.' > 1 then (⟨0, 0⟩, some (GoError.other "too many .s"))
    else
      let intPart := mant.takeWhile (fun c => !(c == '.'))
      let fracPart := mant.drop (intPart.length + 1)
      let exp := exp0 - (fracPart.length : Int)
      match parseInteger (intPart ++ fracPart) with
      | none => (⟨0, 0⟩, some (GoError.other "not a decimal"))
      | some v =>
        if exp < -2147483648 ∨ exp > 2147483647 then
          (⟨0, 0⟩, some (GoError.other "fractional part too long"))
        else (⟨v, exp⟩, none)

/-! ## internal/domain/valueobject/money.go -/

/-- The value `valueobject.Money`. -/
structure Money where
  Amount : Decimal
  deriving DecidableEq, Repr

/-- `valueobject.NewMoney`. The zero `Money{}` returned with an error holds the
zero decimal. -/
def NewMoney (amount : Decimal) : Money × Option GoError :=
  if amount.IsNegative then (⟨⟨0, 0⟩⟩, some (GoError.other "amount must be >= 0"))
  else (⟨amount.Round 2⟩, none)

/-! ## internal/domain/valueobject/uuid.go -/

/-- A `uuid.UUID`, kept as the number its 16 bytes spell. -/
abbrev UUID := Nat

/-- The value `valueobject.Nil` (`uuid.Nil`, all bytes zero). -/
def Nil : UUID := 0

/-- `UUID.String`: the text of an id. The text form is abstracted to the decimal
numeral of the number. -/
def UUID.String (u : UUID) : String := String.mk (natString u)

/-- `strings.TrimSpace` on a list of characters. -/
def trimSpace (s : List Char) : List Char :=
  ((s.dropWhile Char.isWhitespace).reverse.dropWhile Char.isWhitespace).reverse

/-- `valueobject.ParseUUID`. -/
def ParseUUID (s : String) : UUID × Option GoError :=
  if trimSpace s.data = [] then (Nil, some (GoError.other "uuid is empty"))
  else
    match parseDigits (trimSpace s.data) with
    | none => (Nil, some (GoError.other "invalid uuid"))
    | some u => (u, none)

/-- A `time.Time` instant, kept as a number of nanoseconds. -/
abbrev Time := Nat

/-! ## internal/application/port/batchimport/batchimport.go -/

/-- One failed row of a batch. -/
structure BatchError where
  Index : Nat
  Error : String
  deriving DecidableEq, Repr

/-- The outcome `batchimport.Result` of a batch. -/
structure Result where
  Total : Nat
  Success : Nat
  Failed : Nat
  Errors : List BatchError
  deriving DecidableEq, Repr

/-- A row of `ImportUsers`. -/
structure ImportUsersItem where
  Email : String
  PasswordHash : String
  FullName : String
  Phone : String
  Role : String
  deriving DecidableEq, Repr

/-- A row of `ImportEvents`. -/
structure ImportEventsItem where
  OrganizerID : String
  Title : String
  Description : String
  Status : String
  IsPublic : Bool
  MaxParticipants : Option Int
  CoverImage : String
  deriving DecidableEq, Repr

/-- A row of `ImportTickets`. -/
structure ImportTicketsItem where
  TicketTypeID : String
  BuyerID : String
  PurchaseDate : Option Time
  Status : String
  QRCode : String
  AmountPaid : String
  deriving DecidableEq, Repr

/-! ## Calls on the collaborators -/

/-- One invocation of a method of a collaborator, with its arguments. -/
inductive Call
  | WithTx
  | BeginTxx
  | Callback
  | Commit
  | Rollback
  | Set (userID : UUID) (ip : String)
  | LockTicketTypeForUpdate (ticketTypeID : UUID)
  | InsertPaidTicket (ticketTypeID buyerID : UUID) (purchaseDate : Time)
      (qrCode amountPaid : String)
  | MarkTicketUsed (ticketID : UUID) (usedAt : Time)
  | ImportUsers (items : List ImportUsersItem) (continueOnError : Bool)
  | ImportEvents (items : List ImportEventsItem) (continueOnError : Bool)
  | ImportTickets (items : List ImportTicketsItem) (continueOnError : Bool)
  deriving DecidableEq, Repr

/-- The state of a run: the state of the SQL connection and the calls made so
far, oldest first. -/
structure World (σ : Type) where
  st : σ
  calls : List Call

/-- Perform the collaborator operation `op` and record it as the call `c`. -/
def World.run {σ α : Type} (w : World σ) (c : Call) (op : σ → α × σ) : α × World σ :=
  ((op w.st).1, { st := (op w.st).2, calls := w.calls ++ [c] })

/-- Record the call `c` without touching the connection. -/
def World.note {σ : Type} (w : World σ) (c : Call) : World σ :=
  { st := w.st, calls := w.calls ++ [c] }

/-! ## The SQL statements issued by the postgres adapters -/

/-- The statements of `audit_context.go`, `ticket_tx_queries.go` and
`batch_importer.go`, with their parameters in the order of the placeholders. -/
inductive Stmt
  /-- `SELECT set_config('app.user_id', $1, true)` -/
  | SetConfigUserID (userID : String)
  /-- `SELECT set_config('app.ip', $1, true)` -/
  | SetConfigIP (ip : String)
  /-- The statement `SELECT quantity_total, quantity_sold FROM ticket_types WHERE id = $1 FOR UPDATE`. -/
  | SelectTicketTypeForUpdate (id : String)
  /-- `INSERT INTO tickets (...) VALUES ($1, $2, $3, 'paid', $4, $5) RETURNING id` -/
  | InsertPaidTicket (ticketTypeID buyerID : String) (purchaseDate : Time)
      (qrCode amountPaid : String)
  /-- `UPDATE tickets SET status = 'used', used_at = $1 WHERE id = $2 AND status IN ('paid', 'used')` -/
  | UpdateTicketUsed (usedAt : Time) (id : String)
  /-- The statement `SAVEPOINT sp_item`. -/
  | Savepoint
  /-- The statement `ROLLBACK TO SAVEPOINT sp_item`. -/
  | RollbackToSavepoint
  /-- The statement `RELEASE SAVEPOINT sp_item`. -/
  | ReleaseSavepoint
  /-- `INSERT INTO users (...) VALUES ($1, $2, $3, NULLIF($4,''), $5, true)` -/
  | InsertUser (it : ImportUsersItem)
  /-- `INSERT INTO events (...) VALUES ($1, $2, NULLIF($3,''), $4, $5, $6, NULLIF($7,''))` -/
  | InsertEvent (it : ImportEventsItem)
  /-- The statement `INSERT INTO tickets (ticket_type_id, buyer_id, purchase_date, status, qr_code,
  amount_paid) VALUES ($1, $2, COALESCE($3, NOW()), $4, $5, $6)`. -/
  | InsertTicket (it : ImportTicketsItem)
  deriving DecidableEq, Repr

/-- A column value handed to `Scan`. -/
inductive Value
  | int (i : Int)
  | text (s : String)
  deriving DecidableEq, Repr

/-- The SQL connection as the adapters use it: `db.BeginTxx`, `txx.Commit`,
`txx.Rollback`, `tx.ExecContext` (the rows affected and the error) and
`tx.QueryRowxContext` (the columns of the first row and the error). -/
structure SqlDB (σ : Type) where
  BeginTxx : σ → Option GoError × σ
  Commit : σ → Option GoError × σ
  Rollback : σ → Option GoError × σ
  ExecContext : Stmt → σ → (Int × Option GoError) × σ
  QueryRowxContext : Stmt → σ → (List Value × Option GoError) × σ

/-! ## internal/infrastructure/persistence/postgres/tx_manager.go -/

/-- `TxManager.WithTx`. The callback `fn` may assign variables it captures;
they are threaded as `locals`. The deferred `txx.Rollback()` runs on every
return after a successful begin and its result is discarded. -/
def TxManager.WithTx {σ κ : Type} (db : SqlDB σ)
    (fn : κ → World σ → (Option GoError × κ) × World σ)
    (locals : κ) (w : World σ) : (Option GoError × κ) × World σ :=
  match (w.note Call.WithTx).run Call.BeginTxx db.BeginTxx with
  | (some err, w1) => ((some (New Code.CodeUnavailable "begin tx failed" (some err)), locals), w1)
  | (none, w1) =>
    match fn locals (w1.note Call.Callback) with
    | ((some err, locals2), w2) =>
      ((some err, locals2), (w2.run Call.Rollback db.Rollback).2)
    | ((none, locals2), w2) =>
      match w2.run Call.Commit db.Commit with
      | (some err, w3) =>
        ((some (New Code.CodeUnavailable "commit failed" (some err)), locals2),
          (w3.run Call.Rollback db.Rollback).2)
      | (none, w3) => ((none, locals2), (w3.run Call.Rollback db.Rollback).2)

/-! ## internal/application/port: the collaborators of the use cases -/

/-- The port `auditctx.Setter`. -/
structure Setter (σ : Type) where
  Set : UUID → String → σ → Option GoError × σ

/-- The port `tickettx.Queries`. -/
structure Queries (σ : Type) where
  LockTicketTypeForUpdate : UUID → σ → (Int × Int × Option GoError) × σ
  InsertPaidTicket : UUID → UUID → Time → String → String → σ → (UUID × Option GoError) × σ
  MarkTicketUsed : UUID → Time → σ → (Bool × Option GoError) × σ

/-- The port `batchimport.Importer`. -/
structure Importer (σ : Type) where
  ImportUsers : List ImportUsersItem → Bool → σ → (Result × Option GoError) × σ
  ImportEvents : List ImportEventsItem → Bool → σ → (Result × Option GoError) × σ
  ImportTickets : List ImportTicketsItem → Bool → σ → (Result × Option GoError) × σ

/-! ## internal/application/usecase/ticket/purchase_uc.go -/

/-- The input `PurchaseInput`. -/
structure PurchaseInput where
  UserID : UUID
  IP : String
  TicketTypeID : UUID
  QRCode : String
  AmountPaid : String
  Currency : String
  deriving DecidableEq, Repr

/-- The output `PurchaseOutput`; the empty output `PurchaseOutput{}` holds the
nil id. -/
structure PurchaseOutput where
  TicketID : UUID
  deriving DecidableEq, Repr

/-- The function passed to `WithTx` by `Purchase` (lines 60 to 79). It captures
the input, the validated `money` and the variable `out`, which it assigns;
`now` is the value of `time.Now().UTC()`. -/
def purchaseTx {σ : Type} (audit : Setter σ) (q : Queries σ) (now : Time)
    (inp : PurchaseInput) (money : Money)
    (out : PurchaseOutput) (w : World σ) : (Option GoError × PurchaseOutput) × World σ :=
  match w.run (Call.Set inp.UserID inp.IP) (audit.Set inp.UserID inp.IP) with
  | (some err, w1) => ((some err, out), w1)
  | (none, w1) =>
    match w1.run (Call.LockTicketTypeForUpdate inp.TicketTypeID)
        (q.LockTicketTypeForUpdate inp.TicketTypeID) with
    | ((_, _, some err), w2) => ((some err, out), w2)
    | ((qtyTotal, qtySold, none), w2) =>
      if qtySold ≥ qtyTotal then
        ((some (New Code.CodeConflict "sold out" none), out), w2)
      else
        match w2.run
            (Call.InsertPaidTicket inp.TicketTypeID inp.UserID now inp.QRCode
              (money.Amount.StringFixed 2))
            (q.InsertPaidTicket inp.TicketTypeID inp.UserID now inp.QRCode
              (money.Amount.StringFixed 2)) with
        | ((_, some err), w3) => ((some err, out), w3)
        | ((ticketID, none), w3) => ((none, { TicketID := ticketID }), w3)

/-- `PurchaseUseCase.Purchase`, the transaction manager being the postgres
`TxManager` over the connection `db`. -/
def Purchase {σ : Type} (db : SqlDB σ) (audit : Setter σ) (q : Queries σ) (now : Time)
    (inp : PurchaseInput) (w : World σ) : (PurchaseOutput × Option GoError) × World σ :=
  if inp.UserID = Nil then
    (({ TicketID := Nil }, some (New Code.CodeValidation "user_id is required" none)), w)
  else if inp.TicketTypeID = Nil then
    (({ TicketID := Nil }, some (New Code.CodeValidation "ticket_type_id is required" none)), w)
  else if inp.QRCode = "" then
    (({ TicketID := Nil }, some (New Code.CodeValidation "qr_code is required" none)), w)
  else
    match NewFromString inp.AmountPaid with
    | (_, some err) =>
      (({ TicketID := Nil },
        some (New Code.CodeValidation "amount_paid must be decimal string" (some err))), w)
    | (amt, none) =>
      match NewMoney amt with
      | (_, some err) =>
        (({ TicketID := Nil }, some (New Code.CodeValidation "invalid money" (some err))), w)
      | (money, none) =>
        match TxManager.WithTx db (purchaseTx audit q now inp money) { TicketID := Nil } w with
        | ((some err, _), w1) => (({ TicketID := Nil }, some err), w1)
        | ((none, out), w1) => ((out, none), w1)

/-! ## internal/application/usecase/ticket/validate_uc.go -/

/-- The input `ValidateInput`. -/
structure ValidateInput where
  UserID : UUID
  IP : String
  TicketID : UUID
  deriving DecidableEq, Repr

/-- The function passed to `WithTx` by `Validate`; it captures nothing it
assigns. -/
def validateTx {σ : Type} (audit : Setter σ) (q : Queries σ) (now : Time)
    (inp : ValidateInput) (u : Unit) (w : World σ) : (Option GoError × Unit) × World σ :=
  match w.run (Call.Set inp.UserID inp.IP) (audit.Set inp.UserID inp.IP) with
  | (some err, w1) => ((some err, u), w1)
  | (none, w1) =>
    match w1.run (Call.MarkTicketUsed inp.TicketID now) (q.MarkTicketUsed inp.TicketID now) with
    | ((_, some err), w2) => ((some err, u), w2)
    | ((ok, none), w2) =>
      if !ok then
        ((some (New Code.CodeNotFound "ticket not found or invalid state" none), u), w2)
      else ((none, u), w2)

/-- `ValidateUseCase.Validate`, the transaction manager being the postgres
`TxManager` over the connection `db`. -/
def Validate {σ : Type} (db : SqlDB σ) (audit : Setter σ) (q : Queries σ) (now : Time)
    (inp : ValidateInput) (w : World σ) : Option GoError × World σ :=
  if inp.UserID = Nil then
    (some (New Code.CodeValidation "user_id is required" none), w)
  else if inp.TicketID = Nil then
    (some (New Code.CodeValidation "ticket_id is required" none), w)
  else
    ((TxManager.WithTx db (validateTx audit q now inp) () w).1.1,
      (TxManager.WithTx db (validateTx audit q now inp) () w).2)

/-! ## internal/application/usecase/batch/batch_uc.go -/

/-- The input `ImportUsersInput`. -/
structure ImportUsersInput where
  UserID : UUID
  IP : String
  ContinueOnError : Bool
  Items : List ImportUsersItem

/-- The input `ImportEventsInput`. -/
structure ImportEventsInput where
  UserID : UUID
  IP : String
  ContinueOnError : Bool
  Items : List ImportEventsItem

/-- The input `ImportTicketsInput`. -/
structure ImportTicketsInput where
  UserID : UUID
  IP : String
  ContinueOnError : Bool
  Items : List ImportTicketsItem

/-- The zero value of `batchimport.Result` (`var res batchimport.Result`). -/
def Result.zero : Result := { Total := 0, Success := 0, Failed := 0, Errors := [] }

/-- `UseCase.ImportUsers`: the callback assigns the captured `res`. -/
def UseCase.ImportUsers {σ : Type} (db : SqlDB σ) (audit : Setter σ) (imp : Importer σ)
    (inp : ImportUsersInput) (w : World σ) : (Result × Option GoError) × World σ :=
  match TxManager.WithTx db (fun (res : Result) (w0 : World σ) =>
      match w0.run (Call.Set inp.UserID inp.IP) (audit.Set inp.UserID inp.IP) with
      | (some err, w1) => ((some err, res), w1)
      | (none, w1) =>
        match w1.run (Call.ImportUsers inp.Items inp.ContinueOnError)
            (imp.ImportUsers inp.Items inp.ContinueOnError) with
        | ((out, err), w2) => ((err, out), w2)) Result.zero w with
  | ((err, res), w3) => ((res, err), w3)

/-- `UseCase.ImportEvents`: the callback assigns the captured `res`. -/
def UseCase.ImportEvents {σ : Type} (db : SqlDB σ) (audit : Setter σ) (imp : Importer σ)
    (inp : ImportEventsInput) (w : World σ) : (Result × Option GoError) × World σ :=
  match TxManager.WithTx db (fun (res : Result) (w0 : World σ) =>
      match w0.run (Call.Set inp.UserID inp.IP) (audit.Set inp.UserID inp.IP) with
      | (some err, w1) => ((some err, res), w1)
      | (none, w1) =>
        match w1.run (Call.ImportEvents inp.Items inp.ContinueOnError)
            (imp.ImportEvents inp.Items inp.ContinueOnError) with
        | ((out, err), w2) => ((err, out), w2)) Result.zero w with
  | ((err, res), w3) => ((res, err), w3)

/-- `UseCase.ImportTickets`: the callback assigns the captured `res`. -/
def UseCase.ImportTickets {σ : Type} (db : SqlDB σ) (audit : Setter σ) (imp : Importer σ)
    (inp : ImportTicketsInput) (w : World σ) : (Result × Option GoError) × World σ :=
  match TxManager.WithTx db (fun (res : Result) (w0 : World σ) =>
      match w0.run (Call.Set inp.UserID inp.IP) (audit.Set inp.UserID inp.IP) with
      | (some err, w1) => ((some err, res), w1)
      | (none, w1) =>
        match w1.run (Call.ImportTickets inp.Items inp.ContinueOnError)
            (imp.ImportTickets inp.Items inp.ContinueOnError) with
        | ((out, err), w2) => ((err, out), w2)) Result.zero w with
  | ((err, res), w3) => ((res, err), w3)

/-! ## internal/infrastructure/persistence/postgres/audit_context.go -/

/-- `AuditContextSetter.Set`. -/
def AuditContextSetter.Set {σ : Type} (db : SqlDB σ) (userID : UUID) (ip : String)
    (s : σ) : Option GoError × σ :=
  let first : Option GoError × σ :=
    if userID ≠ Nil then
      match db.ExecContext (Stmt.SetConfigUserID (UUID.String userID)) s with
      | ((_, some err), s1) =>
        (some (New Code.CodeInternal "set audit user_id failed" (some err)), s1)
      | ((_, none), s1) => (none, s1)
    else (none, s)
  match first with
  | (some e, s1) => (some e, s1)
  | (none, s1) =>
    if ip ≠ "" then
      match db.ExecContext (Stmt.SetConfigIP ip) s1 with
      | ((_, some err), s2) => (some (New Code.CodeInternal "set audit ip failed" (some err)), s2)
      | ((_, none), s2) => (none, s2)
    else (none, s1)

/-- The adapter `AuditContextSetter` as a `Setter`. -/
def AuditContextSetter {σ : Type} (db : SqlDB σ) : Setter σ :=
  { Set := AuditContextSetter.Set db }

/-! ## internal/infrastructure/persistence/postgres/ticket_tx_queries.go -/

/-- `Scan(&qtyTotal, &qtySold)`: two integer columns, or a scan error. -/
def scanTwoInts (row : List Value) : Option (Int × Int) :=
  match row with
  | [Value.int a, Value.int b] => some (a, b)
  | _ => none

/-- `Scan(&id)`: one text column, or a scan error. -/
def scanText (row : List Value) : Option String :=
  match row with
  | [Value.text a] => some a
  | _ => none

/-- The error of a `Scan` whose destinations do not fit the row. -/
def ErrScan : GoError := GoError.other "sql: Scan error"

/-- `TicketTxQueries.LockTicketTypeForUpdate`. -/
def TicketTxQueries.LockTicketTypeForUpdate {σ : Type} (db : SqlDB σ) (ticketTypeID : UUID)
    (s : σ) : (Int × Int × Option GoError) × σ :=
  match db.QueryRowxContext (Stmt.SelectTicketTypeForUpdate (UUID.String ticketTypeID)) s with
  | ((_, some err), s1) =>
    if err = ErrNoRows then
      ((0, 0, some (New Code.CodeNotFound "ticket type not found" (some err))), s1)
    else ((0, 0, some (New Code.CodeInternal "lock ticket type failed" (some err))), s1)
  | ((row, none), s1) =>
    match scanTwoInts row with
    | none => ((0, 0, some (New Code.CodeInternal "lock ticket type failed" (some ErrScan))), s1)
    | some (qtyTotal, qtySold) => ((qtyTotal, qtySold, none), s1)

/-- `TicketTxQueries.InsertPaidTicket`. -/
def TicketTxQueries.InsertPaidTicket {σ : Type} (db : SqlDB σ) (ticketTypeID buyerID : UUID)
    (purchaseDate : Time) (qrCode amountPaid : String) (s : σ) : (UUID × Option GoError) × σ :=
  match db.QueryRowxContext
      (Stmt.InsertPaidTicket (UUID.String ticketTypeID) (UUID.String buyerID) purchaseDate
        qrCode amountPaid) s with
  | ((_, some err), s1) => ((Nil, some (New Code.CodeInternal "insert ticket failed" (some err))), s1)
  | ((row, none), s1) =>
    match scanText row with
    | none => ((Nil, some (New Code.CodeInternal "insert ticket failed" (some ErrScan))), s1)
    | some id =>
      match ParseUUID id with
      | (_, some err) =>
        ((Nil, some (New Code.CodeInternal "invalid uuid returned from db" (some err))), s1)
      | (uid, none) => ((uid, none), s1)

/-- `TicketTxQueries.MarkTicketUsed`. -/
def TicketTxQueries.MarkTicketUsed {σ : Type} (db : SqlDB σ) (ticketID : UUID) (usedAt : Time)
    (s : σ) : (Bool × Option GoError) × σ :=
  match db.ExecContext (Stmt.UpdateTicketUsed usedAt (UUID.String ticketID)) s with
  | ((_, some err), s1) =>
    ((false, some (New Code.CodeInternal "validate ticket failed" (some err))), s1)
  | ((aff, none), s1) => ((decide (aff > 0), none), s1)

/-- The adapter `TicketTxQueries` as a `Queries`. -/
def TicketTxQueries {σ : Type} (db : SqlDB σ) : Queries σ :=
  { LockTicketTypeForUpdate := TicketTxQueries.LockTicketTypeForUpdate db
    InsertPaidTicket := TicketTxQueries.InsertPaidTicket db
    MarkTicketUsed := TicketTxQueries.MarkTicketUsed db }

/-! ## internal/infrastructure/persistence/postgres/batch_importer.go

Each importer is the loop of the Go function: `i` is the index of the head of
the remaining items and `res` the result so far. The warning written to the
log on a failed row changes nothing and is left out. -/

/-- The loop of `BatchImporter.ImportUsers`. -/
def BatchImporter.importUsersFrom {σ : Type} (db : SqlDB σ) (continueOnError : Bool) :
    List ImportUsersItem → Nat → Result → σ → (Result × Option GoError) × σ
  | [], _, res, s => ((res, none), s)
  | it :: rest, i, res, s =>
    match db.ExecContext Stmt.Savepoint s with
    | ((_, some err), s1) => ((res, some (New Code.CodeInternal "savepoint failed" (some err))), s1)
    | ((_, none), s1) =>
      match db.ExecContext (Stmt.InsertUser it) s1 with
      | ((_, some err), s2) =>
        let s3 := (db.ExecContext Stmt.RollbackToSavepoint s2).2
        let s4 := (db.ExecContext Stmt.ReleaseSavepoint s3).2
        let res2 : Result :=
          { res with Failed := res.Failed + 1,
                     Errors := res.Errors ++ [{ Index := i, Error := err.Error }] }
        if !continueOnError then
          ((res2, some (New Code.CodeConflict "batch import users failed" (some err))), s4)
        else BatchImporter.importUsersFrom db continueOnError rest (i + 1) res2 s4
      | ((_, none), s2) =>
        let s3 := (db.ExecContext Stmt.ReleaseSavepoint s2).2
        BatchImporter.importUsersFrom db continueOnError rest (i + 1)
          { res with Success := res.Success + 1 } s3

/-- `BatchImporter.ImportUsers`. -/
def BatchImporter.ImportUsers {σ : Type} (db : SqlDB σ) (items : List ImportUsersItem)
    (continueOnError : Bool) (s : σ) : (Result × Option GoError) × σ :=
  BatchImporter.importUsersFrom db continueOnError items 0
    { Total := items.length, Success := 0, Failed := 0, Errors := [] } s

/-- The loop of `BatchImporter.ImportEvents`. -/
def BatchImporter.importEventsFrom {σ : Type} (db : SqlDB σ) (continueOnError : Bool) :
    List ImportEventsItem → Nat → Result → σ → (Result × Option GoError) × σ
  | [], _, res, s => ((res, none), s)
  | it :: rest, i, res, s =>
    match db.ExecContext Stmt.Savepoint s with
    | ((_, some err), s1) => ((res, some (New Code.CodeInternal "savepoint failed" (some err))), s1)
    | ((_, none), s1) =>
      match db.ExecContext (Stmt.InsertEvent it) s1 with
      | ((_, some err), s2) =>
        let s3 := (db.ExecContext Stmt.RollbackToSavepoint s2).2
        let s4 := (db.ExecContext Stmt.ReleaseSavepoint s3).2
        let res2 : Result :=
          { res with Failed := res.Failed + 1,
                     Errors := res.Errors ++ [{ Index := i, Error := err.Error }] }
        if !continueOnError then
          ((res2, some (New Code.CodeConflict "batch import events failed" (some err))), s4)
        else BatchImporter.importEventsFrom db continueOnError rest (i + 1) res2 s4
      | ((_, none), s2) =>
        let s3 := (db.ExecContext Stmt.ReleaseSavepoint s2).2
        BatchImporter.importEventsFrom db continueOnError rest (i + 1)
          { res with Success := res.Success + 1 } s3

/-- `BatchImporter.ImportEvents`. -/
def BatchImporter.ImportEvents {σ : Type} (db : SqlDB σ) (items : List ImportEventsItem)
    (continueOnError : Bool) (s : σ) : (Result × Option GoError) × σ :=
  BatchImporter.importEventsFrom db continueOnError items 0
    { Total := items.length, Success := 0, Failed := 0, Errors := [] } s

/-- The loop of `BatchImporter.ImportTickets`. -/
def BatchImporter.importTicketsFrom {σ : Type} (db : SqlDB σ) (continueOnError : Bool) :
    List ImportTicketsItem → Nat → Result → σ → (Result × Option GoError) × σ
  | [], _, res, s => ((res, none), s)
  | it :: rest, i, res, s =>
    match db.ExecContext Stmt.Savepoint s with
    | ((_, some err), s1) => ((res, some (New Code.CodeInternal "savepoint failed" (some err))), s1)
    | ((_, none), s1) =>
      match db.ExecContext (Stmt.InsertTicket it) s1 with
      | ((_, some err), s2) =>
        let s3 := (db.ExecContext Stmt.RollbackToSavepoint s2).2
        let s4 := (db.ExecContext Stmt.ReleaseSavepoint s3).2
        let res2 : Result :=
          { res with Failed := res.Failed + 1,
                     Errors := res.Errors ++ [{ Index := i, Error := err.Error }] }
        if !continueOnError then
          ((res2, some (New Code.CodeConflict "batch import tickets failed" (some err))), s4)
        else BatchImporter.importTicketsFrom db continueOnError rest (i + 1) res2 s4
      | ((_, none), s2) =>
        let s3 := (db.ExecContext Stmt.ReleaseSavepoint s2).2
        BatchImporter.importTicketsFrom db continueOnError rest (i + 1)
          { res with Success := res.Success + 1 } s3

/-- `BatchImporter.ImportTickets`. -/
def BatchImporter.ImportTickets {σ : Type} (db : SqlDB σ) (items : List ImportTicketsItem)
    (continueOnError : Bool) (s : σ) : (Result × Option GoError) × σ :=
  BatchImporter.importTicketsFrom db continueOnError items 0
    { Total := items.length, Success := 0, Failed := 0, Errors := [] } s

/-- The adapter `BatchImporter` as an `Importer`. -/
def BatchImporter {σ : Type} (db : SqlDB σ) : Importer σ :=
  { ImportUsers := BatchImporter.ImportUsers db
    ImportEvents := BatchImporter.ImportEvents db
    ImportTickets := BatchImporter.ImportTickets db }

/-! ## The store behind the connection

A model of the PostgreSQL connection the adapters talk to, as far as the
statements above use it: the committed tables, the working copy of the open
transaction with its savepoints, and a script of injected failures that
stands for everything that can make a call fail without the model knowing why
(constraints of the schema, a lost connection). -/

/-- A row of `ticket_types`, as far as the core reads it. -/
structure TicketTypeRow where
  id : String
  quantity_total : Int
  quantity_sold : Int
  deriving DecidableEq, Repr

/-- A row of `tickets`. -/
structure TicketRow where
  id : String
  ticket_type_id : String
  buyer_id : String
  purchase_date : Time
  status : String
  qr_code : String
  amount_paid : String
  used_at : Option Time
  deriving DecidableEq, Repr

/-- A row of `users` written by the importer. -/
structure UserRow where
  email : String
  password_hash : String
  full_name : String
  phone : Option String
  role : String
  is_active : Bool
  deriving DecidableEq, Repr

/-- A row of `events` written by the importer. -/
structure EventRow where
  organizer_id : String
  title : String
  description : Option String
  status : String
  is_public : Bool
  max_participants : Option Int
  cover_image : Option String
  deriving DecidableEq, Repr

/-- The tables the core touches. -/
structure Tables where
  ticket_types : List TicketTypeRow
  tickets : List TicketRow
  users : List UserRow
  events : List EventRow
  deriving DecidableEq, Repr

/-- The open transaction: its working copy of the tables, the savepoints named
`sp_item` (innermost first), whether a failed statement has put it in the
aborted state, and the transaction-local settings written by `set_config`. -/
structure TxState where
  tables : Tables
  savepoints : List Tables
  aborted : Bool
  user_id : Option String
  ip : Option String
  deriving DecidableEq, Repr

/-- The connection: the committed tables, the open transaction if any, the
outcomes injected into the coming calls (`some msg` makes the call fail with
that message; an exhausted script injects nothing), the next generated id and
the value of `NOW()`. -/
structure Conn where
  committed : Tables
  tx : Option TxState
  script : List (Option String)
  nextID : Nat
  now : Time
  deriving DecidableEq, Repr

/-- The SQL function `NULLIF(x, empty)`. -/
def nullIfEmpty (x : String) : Option String := if x = "" then none else some x

/-- Modelled from the spec: the count-derivation mechanism of the ticket-type
storage, which is not part of the Go sources. The spec (section 4.4) has an
inserted ticket raise `quantity_sold` of its ticket type by one, with no
capacity check of its own (section 4.3). -/
def bumpSold (ticketTypeID : String) (rows : List TicketTypeRow) : List TicketTypeRow :=
  rows.map (fun r =>
    if r.id = ticketTypeID then { r with quantity_sold := r.quantity_sold + 1 } else r)

/-- The effect on the tables of inserting a ticket row. -/
def Tables.insertTicket (t : Tables) (row : TicketRow) : Tables :=
  { t with tickets := t.tickets ++ [row],
           ticket_types := bumpSold row.ticket_type_id t.ticket_types }

/-- The rows the `UPDATE` of `MarkTicketUsed` matches. -/
def TicketRow.matchesUsed (id : String) (r : TicketRow) : Bool :=
  r.id = id ∧ (r.status = "paid" ∨ r.status = "used")

/-- The effect of an uninjected statement on an open, unaborted transaction:
the row returned, the rows affected, the error of the statement itself, and
the transaction after it. `fresh` is the id generated for an inserted row and
`now` the value of `NOW()`. -/
def TxState.apply (t : TxState) (fresh : String) (now : Time) :
    Stmt → (List Value × Int × Option GoError) × TxState
  | Stmt.SetConfigUserID v => (([Value.text v], 1, none), { t with user_id := some v })
  | Stmt.SetConfigIP v => (([Value.text v], 1, none), { t with ip := some v })
  | Stmt.SelectTicketTypeForUpdate id =>
    match t.tables.ticket_types.find? (fun r => r.id = id) with
    | none => (([], 0, some ErrNoRows), t)
    | some r => (([Value.int r.quantity_total, Value.int r.quantity_sold], 1, none), t)
  | Stmt.InsertPaidTicket tt buyer date qr amount =>
    let row : TicketRow :=
      { id := fresh, ticket_type_id := tt, buyer_id := buyer, purchase_date := date,
        status := "paid", qr_code := qr, amount_paid := amount, used_at := none }
    (([Value.text fresh], 1, none), { t with tables := t.tables.insertTicket row })
  | Stmt.UpdateTicketUsed usedAt id =>
    let updated : List TicketRow := t.tables.tickets.map (fun r =>
      if TicketRow.matchesUsed id r then { r with status := "used", used_at := some usedAt }
      else r)
    (([], ((t.tables.tickets.filter (TicketRow.matchesUsed id)).length : Int), none),
      { t with tables := { t.tables with tickets := updated } })
  | Stmt.Savepoint => (([], 0, none), { t with savepoints := t.tables :: t.savepoints })
  | Stmt.RollbackToSavepoint =>
    match t.savepoints with
    | [] => (([], 0, some (GoError.other "savepoint sp_item does not exist")),
        { t with aborted := true })
    | sp :: _ => (([], 0, none), { t with tables := sp, aborted := false })
  | Stmt.ReleaseSavepoint =>
    match t.savepoints with
    | [] => (([], 0, some (GoError.other "savepoint sp_item does not exist")),
        { t with aborted := true })
    | _ :: rest => (([], 0, none), { t with savepoints := rest })
  | Stmt.InsertUser it =>
    let row : UserRow :=
      { email := it.Email, password_hash := it.PasswordHash, full_name := it.FullName,
        phone := nullIfEmpty it.Phone, role := it.Role, is_active := true }
    (([], 1, none), { t with tables := { t.tables with users := t.tables.users ++ [row] } })
  | Stmt.InsertEvent it =>
    let row : EventRow :=
      { organizer_id := it.OrganizerID, title := it.Title,
        description := nullIfEmpty it.Description, status := it.Status,
        is_public := it.IsPublic, max_participants := it.MaxParticipants,
        cover_image := nullIfEmpty it.CoverImage }
    (([], 1, none), { t with tables := { t.tables with events := t.tables.events ++ [row] } })
  | Stmt.InsertTicket it =>
    let row : TicketRow :=
      { id := fresh, ticket_type_id := it.TicketTypeID, buyer_id := it.BuyerID,
        purchase_date := it.PurchaseDate.getD now, status := it.Status,
        qr_code := it.QRCode, amount_paid := it.AmountPaid, used_at := none }
    (([], 1, none), { t with tables := t.tables.insertTicket row })

/-- A statement on the connection. Outside a transaction it fails; in an
aborted transaction everything but `ROLLBACK TO SAVEPOINT` fails; an injected
failure aborts the transaction and changes nothing else. -/
def Conn.statement (stmt : Stmt) (c : Conn) : (List Value × Int × Option GoError) × Conn :=
  match c.tx with
  | none => (([], 0, some ErrTxDone), { c with script := c.script.tail })
  | some t =>
    if t.aborted ∧ stmt ≠ Stmt.RollbackToSavepoint then
      (([], 0, some (GoError.other "current transaction is aborted")),
        { c with script := c.script.tail })
    else
      match c.script.head? with
      | some (some msg) =>
        (([], 0, some (GoError.other msg)),
          { c with script := c.script.tail, tx := some { t with aborted := true } })
      | _ =>
        ((t.apply (UUID.String c.nextID) c.now stmt).1,
          { c with script := c.script.tail, nextID := c.nextID + 1,
                   tx := some (t.apply (UUID.String c.nextID) c.now stmt).2 })

/-- The connection as the driver the adapters use. Beginning copies the
committed tables; a commit installs the working copy unless it is injected to
fail or the transaction is aborted or gone, and ends the transaction either
way; a rollback drops the working copy. -/
def pg : SqlDB Conn where
  BeginTxx := fun c =>
    match c.script.head? with
    | some (some msg) => (some (GoError.other msg), { c with script := c.script.tail })
    | _ =>
      let t : TxState :=
        { tables := c.committed, savepoints := [], aborted := false, user_id := none, ip := none }
      (none, { c with script := c.script.tail, tx := some t })
  Commit := fun c =>
    match c.tx with
    | none => (some ErrTxDone, { c with script := c.script.tail })
    | some t =>
      match c.script.head? with
      | some (some msg) => (some (GoError.other msg), { c with script := c.script.tail, tx := none })
      | _ =>
        if t.aborted then
          (some (GoError.other "commit unexpectedly resulted in rollback"),
            { c with script := c.script.tail, tx := none })
        else (none, { c with script := c.script.tail, tx := none, committed := t.tables })
  Rollback := fun c =>
    match c.tx with
    | none => (some ErrTxDone, c)
    | some _ => (none, { c with tx := none })
  ExecContext := fun stmt c =>
    (((Conn.statement stmt c).1.2.1, (Conn.statement stmt c).1.2.2), (Conn.statement stmt c).2)
  QueryRowxContext := fun stmt c =>
    (((Conn.statement stmt c).1.1, (Conn.statement stmt c).1.2.2), (Conn.statement stmt c).2)

/-- The invariant of section 3 on one ticket type. -/
def TicketTypeRow.wellFormed (r : TicketTypeRow) : Prop :=
  0 ≤ r.quantity_sold ∧ r.quantity_sold ≤ r.quantity_total

instance (r : TicketTypeRow) : Decidable r.wellFormed := by
  unfold TicketTypeRow.wellFormed; infer_instance

/-- The invariant `0 ≤ quantity_sold ≤ quantity_total` on every ticket type. -/
def Tables.Inv (t : Tables) : Prop := ∀ r ∈ t.ticket_types, r.wellFormed

instance (t : Tables) : Decidable t.Inv := by
  unfold Tables.Inv; infer_instance

/-! ## The capacity invariant on a connection -/

/-- The ids of the ticket types are pairwise distinct (`id` is the primary
key). -/
def Tables.uniqueIds (t : Tables) : Prop := (t.ticket_types.map (fun r => r.id)).Nodup

/-- Tables that satisfy the capacity invariant and the key constraint. -/
def Tables.Good (t : Tables) : Prop := t.Inv ∧ t.uniqueIds

/-- A connection all of whose tables are good: the committed ones, the working
copy of the open transaction and its savepoints. -/
def Conn.Sound (c : Conn) : Prop :=
  c.committed.Good ∧
    ∀ t, c.tx = some t → t.tables.Good ∧ ∀ sp ∈ t.savepoints, Tables.Good sp

/-- The open transaction sees room left in the ticket type `id`. -/
def Conn.hasRoom (id : String) (c : Conn) : Prop :=
  ∀ t, c.tx = some t → ∀ r ∈ t.tables.ticket_types, r.id = id →
    r.quantity_sold < r.quantity_total

/-- The statements that add a row to `tickets`. -/
def Stmt.insertsTicket : Stmt → Bool
  | Stmt.InsertPaidTicket _ _ _ _ _ => true
  | Stmt.InsertTicket _ => true
  | _ => false

/-! ## Sample values

Concrete stores, scripts and inputs at which the theorems below are
instantiated and the code is evaluated. -/

/-- A store with one ticket type of capacity one, nothing sold. -/
def sampleTables : Tables :=
  { ticket_types := [{ id := "7", quantity_total := 1, quantity_sold := 0 }],
    tickets := [], users := [], events := [] }

/-- The same store once its only ticket is sold. -/
def soldOutTables : Tables :=
  { ticket_types := [{ id := "7", quantity_total := 1, quantity_sold := 1 }],
    tickets := [{ id := "50", ticket_type_id := "7", buyer_id := "3", purchase_date := 1,
                  status := "paid", qr_code := "QR-0", amount_paid := "20.00",
                  used_at := none }],
    users := [], events := [] }

/-- A connection on `tables` with the given script of injected outcomes. -/
def sampleConn (tables : Tables) (script : List (Option String)) : Conn :=
  { committed := tables, tx := none, script := script, nextID := 100, now := 5 }

/-- A run that starts on `tables` with no call made yet. -/
def sampleWorld (tables : Tables) (script : List (Option String)) : World Conn :=
  { st := sampleConn tables script, calls := [] }

/-- A valid purchase of ticket type 7 by user 3. -/
def sampleInput : PurchaseInput :=
  { UserID := 3, IP := "10.0.0.1", TicketTypeID := 7, QRCode := "QR-1",
    AmountPaid := "19.999", Currency := "RUB" }

/-- A callback that fails with a business error. -/
def failingCallback (u : Unit) (w : World Conn) : (Option GoError × Unit) × World Conn :=
  ((some (New Code.CodeConflict "sold out" none), u), w)

/-- A callback that succeeds. -/
def passingCallback (u : Unit) (w : World Conn) : (Option GoError × Unit) × World Conn :=
  ((none, u), w)

/-- A batch of one paid ticket of type 7. -/
def sampleImport : ImportTicketsInput :=
  { UserID := 3, IP := "10.0.0.1", ContinueOnError := true,
    Items := [{ TicketTypeID := "7", BuyerID := "3", PurchaseDate := none, Status := "paid",
                QRCode := "QR-2", AmountPaid := "20.00" }] }

/-- A script that lets a purchase through to its commit and fails there:
begin, two audit statements, lock and insert pass. -/
def commitFails : List (Option String) :=
  [none, none, none, none, none, some "broken pipe"]

/-! ## The order of the calls in a use case -/

/-- The calls of a use case in which the audit stamp is the first operation on
the transaction: no call at all (the input was refused), a failed begin, or
begin, callback and `Set` followed by the rest; when the stamp failed the rest
is the deferred rollback alone. -/
def StampFirst (userID : UUID) (ip : String) (stampFailed : Bool) (calls : List Call) : Prop :=
  calls = [] ∨ calls = [Call.WithTx, Call.BeginTxx] ∨
    ∃ more, calls = [Call.WithTx, Call.BeginTxx, Call.Callback, Call.Set userID ip] ++ more ∧
      (stampFailed = true → more = [Call.Rollback])

/-! ## A record of the statements sent -/

/-- One statement sent to the connection and the error it came back with. -/
structure Sent where
  stmt : Stmt
  err : Option GoError
  deriving DecidableEq, Repr

/-- The connection `db` with a record of every statement sent through
`ExecContext` and `QueryRowxContext`, oldest first, each with its error; what
the statements return and do to `db` is untouched. -/
def SqlDB.recording {σ : Type} (db : SqlDB σ) : SqlDB (σ × List Sent) where
  BeginTxx := fun s => ((db.BeginTxx s.1).1, ((db.BeginTxx s.1).2, s.2))
  Commit := fun s => ((db.Commit s.1).1, ((db.Commit s.1).2, s.2))
  Rollback := fun s => ((db.Rollback s.1).1, ((db.Rollback s.1).2, s.2))
  ExecContext := fun stmt s =>
    ((db.ExecContext stmt s.1).1,
      ((db.ExecContext stmt s.1).2, s.2 ++ [⟨stmt, (db.ExecContext stmt s.1).1.2⟩]))
  QueryRowxContext := fun stmt s =>
    ((db.QueryRowxContext stmt s.1).1,
      ((db.QueryRowxContext stmt s.1).2, s.2 ++ [⟨stmt, (db.QueryRowxContext stmt s.1).1.2⟩]))

/-! ## Reading the store -/

/-- The `tickets` table as the connection sees it: the working copy inside a
transaction, the committed table outside. -/
def Conn.tickets (c : Conn) : List TicketRow :=
  match c.tx with
  | some t => t.tables.tickets
  | none => c.committed.tickets

/-- Whether the script injects a failure into the next call. -/
def Conn.nextFails (c : Conn) : Bool :=
  match c.script.head? with
  | some (some _) => true
  | _ => false

/-- The effect of a validation at `usedAt` on one ticket row: a paid or used
row with the id `id` becomes used at `usedAt`, any other row stays. -/
def TicketRow.validated (id : String) (usedAt : Time) (r : TicketRow) : TicketRow :=
  if r.id = id ∧ (r.status = "paid" ∨ r.status = "used") then
    { r with status := "used", used_at := some usedAt }
  else r

/-- A connection into which the script injects no failure at all. -/
def Conn.quiet (c : Conn) : Prop := ∀ o ∈ c.script, o = none

/-- A quiet connection inside a live transaction whose working copy is `T`
and whose committed tables are `C`. -/
def Conn.liveOn (C T : Tables) (c : Conn) : Prop :=
  c.quiet ∧ c.committed = C ∧ ∃ t, c.tx = some t ∧ t.aborted = false ∧ t.tables = T

/-- The tables after a validation of the ticket `id` at `usedAt`. -/
def Tables.validated (T : Tables) (id : String) (usedAt : Time) : Tables :=
  { T with tickets := T.tickets.map (TicketRow.validated id usedAt) }

/-- The use case `Validate` wired as `router.go` wires it: the postgres
transaction manager, audit setter and ticket queries, here over the store. -/
def pgValidate (now : Time) (inp : ValidateInput) (w : World Conn) : Option GoError × World Conn :=
  Validate pg (AuditContextSetter pg) (TicketTxQueries pg) now inp w

instance (c : Conn) : Decidable c.quiet := by
  unfold Conn.quiet; infer_instance

/-- A store whose ticket 50 was used at time 2. -/
def usedTables : Tables :=
  { ticket_types := [{ id := "7", quantity_total := 1, quantity_sold := 1 }],
    tickets := [{ id := "50", ticket_type_id := "7", buyer_id := "3", purchase_date := 1,
                  status := "used", qr_code := "QR-0", amount_paid := "20.00",
                  used_at := some 2 }],
    users := [], events := [] }

/-- A store whose ticket 50 was refunded. -/
def refundedTables : Tables :=
  { ticket_types := [{ id := "7", quantity_total := 1, quantity_sold := 1 }],
    tickets := [{ id := "50", ticket_type_id := "7", buyer_id := "3", purchase_date := 1,
                  status := "refunded", qr_code := "QR-0", amount_paid := "20.00",
                  used_at := none }],
    users := [], events := [] }

/-! ## The statuses of inserted tickets -/

/-- Every ticket of `T` is a ticket of `T0` or has a status that `ok` allows. -/
def Tables.grownBy (T : Tables) (ok : String → Prop) (T0 : Tables) : Prop :=
  ∀ r ∈ T.tickets, r ∈ T0.tickets ∨ ok r.status

/-- The same of every table of the connection: the committed ones, the working
copy of the open transaction and its savepoints. -/
def Conn.grownBy (c : Conn) (ok : String → Prop) (T0 : Tables) : Prop :=
  c.committed.grownBy ok T0 ∧
    ∀ t, c.tx = some t → t.tables.grownBy ok T0 ∧ ∀ sp ∈ t.savepoints, Tables.grownBy sp ok T0

/-- The statements that change no ticket row or add one with a status that `ok`
allows: the insert of `Purchase` writes the literal paid, the insert of the
importer writes the status of its item, and the update of `MarkTicketUsed`
rewrites rows. -/
def Stmt.adds (ok : String → Prop) : Stmt → Prop
  | Stmt.InsertPaidTicket _ _ _ _ _ => ok "paid"
  | Stmt.InsertTicket it => ok it.Status
  | Stmt.UpdateTicketUsed _ _ => False
  | _ => True

/-- The use case `Purchase` wired as `router.go` wires it, over the store. -/
def pgPurchase (now : Time) (inp : PurchaseInput) (w : World Conn) :
    (PurchaseOutput × Option GoError) × World Conn :=
  Purchase pg (AuditContextSetter pg) (TicketTxQueries pg) now inp w

/-- The use case `ImportTickets` wired as `router.go` wires it, over the store. -/
def pgImportTickets (inp : ImportTicketsInput) (w : World Conn) :
    (Result × Option GoError) × World Conn :=
  UseCase.ImportTickets pg (AuditContextSetter pg) (BatchImporter pg) inp w

/-- A batch of one refunded ticket of type 7. -/
def refundedImport : ImportTicketsInput :=
  { UserID := 3, IP := "10.0.0.1", ContinueOnError := true,
    Items := [{ TicketTypeID := "7", BuyerID := "3", PurchaseDate := none,
                Status := "refunded", QRCode := "QR-3", AmountPaid := "20.00" }] }

/-! ## The protocol of the importers -/

/-- The loop the three importers share, with the row insert `insert` and the
message `failed` of the final error as parameters. It is used to reason about
the three loops at once; each is shown equal to its instance of this one. -/
def importFrom {σ α : Type} (db : SqlDB σ) (insert : α → Stmt) (failed : String)
    (continueOnError : Bool) : List α → Nat → Result → σ → (Result × Option GoError) × σ
  | [], _, res, s => ((res, none), s)
  | it :: rest, i, res, s =>
    match db.ExecContext Stmt.Savepoint s with
    | ((_, some err), s1) => ((res, some (New Code.CodeInternal "savepoint failed" (some err))), s1)
    | ((_, none), s1) =>
      match db.ExecContext (insert it) s1 with
      | ((_, some err), s2) =>
        let s3 := (db.ExecContext Stmt.RollbackToSavepoint s2).2
        let s4 := (db.ExecContext Stmt.ReleaseSavepoint s3).2
        let res2 : Result :=
          { res with Failed := res.Failed + 1,
                     Errors := res.Errors ++ [{ Index := i, Error := err.Error }] }
        if !continueOnError then
          ((res2, some (New Code.CodeConflict failed (some err))), s4)
        else importFrom db insert failed continueOnError rest (i + 1) res2 s4
      | ((_, none), s2) =>
        let s3 := (db.ExecContext Stmt.ReleaseSavepoint s2).2
        importFrom db insert failed continueOnError rest (i + 1)
          { res with Success := res.Success + 1 } s3

/-- The statements that insert a row of a batch. -/
def Stmt.isRowInsert : Stmt → Bool
  | Stmt.InsertUser _ => true
  | Stmt.InsertEvent _ => true
  | Stmt.InsertTicket _ => true
  | _ => false

/-- The row inserts among the statements sent, in the order they were sent. -/
def rowInserts (log : List Sent) : List Sent := log.filter (fun e => e.stmt.isRowInsert)

/-- Every `SAVEPOINT` among the statements sent succeeded. -/
def savepointsPass (log : List Sent) : Prop := ∀ e ∈ log, e.stmt = Stmt.Savepoint → e.err = none

/-- The entries of `Errors` that a list of row inserts calls for, the first
insert being row `i`: one per failed insert, with the position of its row and
the text of its error. -/
def failedRows : List Sent → Nat → List BatchError
  | [], _ => []
  | e :: rest, i =>
    match e.err with
    | none => failedRows rest (i + 1)
    | some err => { Index := i, Error := err.Error } :: failedRows rest (i + 1)

instance (log : List Sent) : Decidable (savepointsPass log) := by
  unfold savepointsPass; infer_instance

/-- The summary of a batch that continued on error, read off the statements
sent: no error; the row inserts are `stmts`, one per item and in their order;
`Total` is their number, `Success` and `Failed` the numbers of inserts that
passed and failed, which add up to `Total`; `Errors` holds one entry per
failed insert, with the 0-based position of its row and its error text, the
positions strictly increasing. -/
def BatchSummary (stmts : List Stmt) (res : Result) (err : Option GoError)
    (log : List Sent) : Prop :=
  err = none ∧
  (rowInserts log).map Sent.stmt = stmts ∧
  res.Total = stmts.length ∧
  res.Success = ((rowInserts log).filter (fun e => e.err.isNone)).length ∧
  res.Failed = ((rowInserts log).filter (fun e => e.err.isSome)).length ∧
  res.Success + res.Failed = res.Total ∧
  res.Errors = failedRows (rowInserts log) 0 ∧
  res.Errors.length = res.Failed ∧
  (res.Errors.map (fun b => b.Index)).Pairwise (fun a b => a < b)

/-- Three users to import. -/
def sampleUsers : List ImportUsersItem :=
  [{ Email := "a@x.io", PasswordHash := "h1", FullName := "A", Phone := "", Role := "user" },
   { Email := "a@x.io", PasswordHash := "h2", FullName := "B", Phone := "1", Role := "user" },
   { Email := "c@x.io", PasswordHash := "h3", FullName := "C", Phone := "", Role := "admin" }]

/-- A script under which the insert of the second of three rows fails: the
begin and the three statements of the first row pass, then the savepoint of
the second row passes and its insert fails. -/
def secondRowFails : List (Option String) :=
  [none, none, none, none, none, some "duplicate key value violates unique constraint"]

/-! ## The batch use cases on the store -/

/-- The callback the three batch use cases pass to `WithTx`, with the call
recorded for the importer and the importer itself as parameters: stamp, then
import, the result of the importer being assigned to the captured `res`. It is
used to reason about the three use cases at once; each is shown equal to its
instance of this one. -/
def importTx {σ : Type} (audit : Setter σ) (userID : UUID) (ip : String) (call : Call)
    (run : σ → (Result × Option GoError) × σ) (res : Result) (w0 : World σ) :
    (Option GoError × Result) × World σ :=
  match w0.run (Call.Set userID ip) (audit.Set userID ip) with
  | (some err, w1) => ((some err, res), w1)
  | (none, w1) =>
    match w1.run call run with
    | ((out, err), w2) => ((err, out), w2)

/-- The number of statements the audit stamp sends. -/
def stamps (userID : UUID) (ip : String) : Nat :=
  (if userID = Nil then 0 else 1) + (if ip = "" then 0 else 1)

/-- The outcomes injected into the statements of one row whose insert is to
pass (`none`) or to fail with a message: the savepoint passes, the insert has
the outcome asked for, and the rollback to the savepoint and the release
pass. -/
def rowScript : Option String → List (Option String)
  | none => [none, none, none]
  | some msg => [none, some msg, none, none]

/-- The script of the rows of a batch, given the outcome of each insert. -/
def rowsScript : List (Option String) → List (Option String)
  | [] => []
  | o :: rest => rowScript o ++ rowsScript rest

/-- The script of a batch use case in which nothing fails but the inserts
marked in `outcomes`: the begin, the statements of the stamp and the rows. The
commit finds the script exhausted, which injects nothing. -/
def batchScript (userID : UUID) (ip : String) (outcomes : List (Option String)) :
    List (Option String) :=
  none :: (List.replicate (stamps userID ip) none ++ rowsScript outcomes)

/-- The tables with the row of the insert `stmt` added, `fresh` being the id
generated for it. -/
def Tables.withRow (T : Tables) (fresh : String) (now : Time) (stmt : Stmt) : Tables :=
  (TxState.apply { tables := T, savepoints := [], aborted := false, user_id := none, ip := none }
    fresh now stmt).2.tables

/-- The tables after the rows of a batch whose inserts passed, and none of the
rows whose inserts failed. The connection generates an id with each statement
that passes, three to a row, so the insert of a row that starts at `n` draws
`n + 1`. -/
def keptRows (now : Time) : List Stmt → List (Option String) → Nat → Tables → Tables
  | stmt :: rest, none :: os, n, T =>
    keptRows now rest os (n + 3) (T.withRow (UUID.String (n + 1)) now stmt)
  | _ :: rest, some _ :: os, n, T => keptRows now rest os (n + 3) T
  | _, _, _, T => T

/-- The entries of `Errors` for the inserts marked as failing in `outcomes`,
the first outcome being that of row `i`. -/
def failedAt : List (Option String) → Nat → List BatchError
  | [], _ => []
  | none :: os, i => failedAt os (i + 1)
  | some msg :: os, i => { Index := i, Error := msg } :: failedAt os (i + 1)

/-- The result of a batch that continued on error, given the outcome of each
insert. -/
def resultOf (outcomes : List (Option String)) : Result :=
  { Total := outcomes.length,
    Success := (outcomes.filter (fun o => o.isNone)).length,
    Failed := (outcomes.filter (fun o => o.isSome)).length,
    Errors := failedAt outcomes 0 }

/-- The user row written for an item. -/
def userRow (it : ImportUsersItem) : UserRow :=
  { email := it.Email, password_hash := it.PasswordHash, full_name := it.FullName,
    phone := nullIfEmpty it.Phone, role := it.Role, is_active := true }

/-- The items whose inserts passed. -/
def passed {α : Type} : List α → List (Option String) → List α
  | it :: rest, none :: os => it :: passed rest os
  | _ :: rest, some _ :: os => passed rest os
  | _, _ => []

/-- A batch of the three sample users that continues on error. -/
def sampleUsersInput : ImportUsersInput :=
  { UserID := 3, IP := "10.0.0.1", ContinueOnError := true, Items := sampleUsers }

/-- The second of three inserts fails. -/
def secondFails : List (Option String) :=
  [none, some "duplicate key value violates unique constraint", none]

/-! ## A batch that stops at its first failing row -/

/-- What a batch that does not continue on error returns and sends when the
insert of row `k` fails with `e`: the statements end with the four of that row
(nothing is sent after its release), the row inserts sent are those of rows 0
to `k`, all passing but the last, the error is a `Conflict` that wraps `e`, and
the result counts `k` successes and the one failure. -/
def HardAbort (stmts : List Stmt) (failed : String) (res : Result) (err : Option GoError)
    (log : List Sent) : Prop :=
  ∃ (k : Nat) (e : GoError) (pre : List Sent) (st : Stmt) (r1 r2 : Option GoError),
    k < stmts.length ∧
    log = pre ++ [⟨Stmt.Savepoint, none⟩, ⟨st, some e⟩, ⟨Stmt.RollbackToSavepoint, r1⟩,
      ⟨Stmt.ReleaseSavepoint, r2⟩] ∧
    (rowInserts log).map Sent.stmt = stmts.take (k + 1) ∧
    (rowInserts log).map Sent.err = List.replicate k none ++ [some e] ∧
    err = some (New Code.CodeConflict failed (some e)) ∧
    res = { Total := stmts.length, Success := k, Failed := 1,
            Errors := [{ Index := k, Error := e.Error }] }

/-- The batch use case for users wired as `router.go` wires it, over the store
with a record of the statements sent, which starts empty. -/
def recImportUsers (inp : ImportUsersInput) (w : World Conn) :
    (Result × Option GoError) × World (Conn × List Sent) :=
  UseCase.ImportUsers pg.recording (AuditContextSetter pg.recording)
    (BatchImporter pg.recording) inp ⟨(w.st, []), w.calls⟩

/-- The batch use case for events over the store with a record of the
statements sent. -/
def recImportEvents (inp : ImportEventsInput) (w : World Conn) :
    (Result × Option GoError) × World (Conn × List Sent) :=
  UseCase.ImportEvents pg.recording (AuditContextSetter pg.recording)
    (BatchImporter pg.recording) inp ⟨(w.st, []), w.calls⟩

/-- The batch use case for tickets over the store with a record of the
statements sent. -/
def recImportTickets (inp : ImportTicketsInput) (w : World Conn) :
    (Result × Option GoError) × World (Conn × List Sent) :=
  UseCase.ImportTickets pg.recording (AuditContextSetter pg.recording)
    (BatchImporter pg.recording) inp ⟨(w.st, []), w.calls⟩

/-- The sample batch of users, stopping at the first failure. -/
def sampleUsersStop : ImportUsersInput :=
  { UserID := 3, IP := "10.0.0.1", ContinueOnError := false, Items := sampleUsers }

/-! ## The errors a use case returns -/

/-- The codes of the taxonomy of the core: `Validation`, `NotFound`,
`Conflict`, `Internal` and `Unavailable`. -/
def Code.inTaxonomy : Code → Bool
  | Code.CodeValidation => true
  | Code.CodeNotFound => true
  | Code.CodeConflict => true
  | Code.CodeInternal => true
  | Code.CodeUnavailable => true
  | _ => false

/-- An error that is an `AppError` with a code of the taxonomy and a message
that is not empty. -/
def GoError.typed : GoError → Prop
  | GoError.app c m _ => c.inTaxonomy = true ∧ m ≠ ""
  | GoError.other _ => False

instance (e : GoError) : Decidable e.typed := by
  cases e <;> unfold GoError.typed <;> infer_instance

/-- A valid purchase of a ticket type that the sample store does not hold. -/
def unknownTypeInput : PurchaseInput :=
  { UserID := 3, IP := "10.0.0.1", TicketTypeID := 8, QRCode := "QR-9",
    AmountPaid := "20", Currency := "RUB" }

/-! ## The savepoint protocol -/

/-- The statements of one processed row whose insert is `ins`: a savepoint that
passed, the insert, and then one release when the insert passed, or the
rollback to the savepoint and one release when it failed. What the rollback
and the release returned is left open. -/
def RowBlock (ins : Stmt) (b : List Sent) : Prop :=
  (∃ r, b = [⟨Stmt.Savepoint, none⟩, ⟨ins, none⟩, ⟨Stmt.ReleaseSavepoint, r⟩]) ∨
  (∃ e r1 r2, b = [⟨Stmt.Savepoint, none⟩, ⟨ins, some e⟩, ⟨Stmt.RollbackToSavepoint, r1⟩,
    ⟨Stmt.ReleaseSavepoint, r2⟩])

/-- The number of savepoints established in a record: the `SAVEPOINT`
statements that passed. -/
def established (log : List Sent) : Nat :=
  (log.filter (fun e => decide (e.stmt = Stmt.Savepoint ∧ e.err = none))).length

/-- The number of `RELEASE SAVEPOINT` statements in a record. -/
def released (log : List Sent) : Nat :=
  (log.filter (fun e => decide (e.stmt = Stmt.ReleaseSavepoint))).length

/-- A record that follows the savepoint protocol for the rows whose inserts are
`stmts`, the importer having returned `err`: the record is the blocks of the
rows processed, in the order of the rows, followed by nothing or by the one
savepoint that failed; after a nil error every row has its block; and after
each block, as at the end, as many releases were sent as savepoints were
established. -/
def SavepointProtocol (stmts : List Stmt) (err : Option GoError) (log : List Sent) : Prop :=
  ∃ (blocks : List (List Sent)) (tail : List Sent),
    log = blocks.flatten ++ tail ∧
    blocks.length ≤ stmts.length ∧
    List.Forall₂ RowBlock (stmts.take blocks.length) blocks ∧
    (tail = [] ∨ ∃ e, tail = [⟨Stmt.Savepoint, some e⟩]) ∧
    (err = none → blocks.length = stmts.length ∧ tail = []) ∧
    (∀ k, established (blocks.take k).flatten = released (blocks.take k).flatten) ∧
    established log = released log

/-! ## One protocol for the three importers -/

/-- `AppError.Unwrap`: the cause of an `AppError`; an error made elsewhere
wraps nothing. -/
def GoError.Unwrap : GoError → Option GoError
  | GoError.app _ _ cause => cause
  | GoError.other _ => none

/-- A connection that treats every row insert alike: what it returns and does
depends on the statement being a row insert, not on which one it is. -/
def SqlDB.rowBlind {σ : Type} (db : SqlDB σ) : Prop :=
  ∀ (st1 st2 : Stmt) (s : σ), st1.isRowInsert = true → st2.isRowInsert = true →
    db.ExecContext st1 s = db.ExecContext st2 s

/-- A connection that answers each statement with the next outcome of a script,
whatever the statement is: `some msg` is a failure with that message, and an
exhausted script lets everything pass. -/
def scripted : SqlDB (List (Option String)) where
  BeginTxx := fun s => (none, s)
  Commit := fun s => (none, s)
  Rollback := fun s => (none, s)
  ExecContext := fun _ s => ((0, (s.head?.getD none).map GoError.other), s.tail)
  QueryRowxContext := fun _ s => (([], (s.head?.getD none).map GoError.other), s.tail)

/-- Two events to import. -/
def twoEvents : List ImportEventsItem :=
  [{ OrganizerID := "3", Title := "Opening", Description := "", Status := "draft",
     IsPublic := true, MaxParticipants := none, CoverImage := "" },
   { OrganizerID := "3", Title := "Closing", Description := "last day", Status := "draft",
     IsPublic := false, MaxParticipants := some 50, CoverImage := "" }]

/-- Two tickets to import. -/
def twoTickets : List ImportTicketsItem :=
  [{ TicketTypeID := "7", BuyerID := "3", PurchaseDate := none, Status := "paid",
     QRCode := "QR-4", AmountPaid := "20.00" },
   { TicketTypeID := "7", BuyerID := "4", PurchaseDate := some 2, Status := "paid",
     QRCode := "QR-5", AmountPaid := "20.00" }]

/-- Two users to import. -/
def twoUsers : List ImportUsersItem := sampleUsers.take 2

/-- The second insert fails. -/
def secondInsertFails : List (Option String) :=
  [none, none, none, none, some "value too long", some "broken pipe"]

/-! ## The amount of a purchase -/

/-- A call with the amount of an `InsertPaidTicket` blanked out. -/
def Call.withoutAmount : Call → Call
  | Call.InsertPaidTicket tt buyer date qr _ => Call.InsertPaidTicket tt buyer date qr ""
  | c => c

/-! ## A savepoint that cannot be established -/

/-- What an importer returns and sends when a savepoint fails with `e`: the
failed savepoint is the last statement sent, every savepoint before it passed,
the error is an `Internal` one that wraps `e`, the row inserts sent are those
of the rows before the one whose savepoint failed, fewer than there are items,
`Total` is the number of items, and the other counts and `Errors` cover the
rows before only. -/
def StoppedAtSavepoint (stmts : List Stmt) (res : Result) (err : Option GoError)
    (log : List Sent) : Prop :=
  ∃ (pre : List Sent) (e : GoError),
    log = pre ++ [⟨Stmt.Savepoint, some e⟩] ∧ savepointsPass pre ∧
    err = some (New Code.CodeInternal "savepoint failed" (some e)) ∧
    (rowInserts log).length < stmts.length ∧
    (rowInserts log).map Sent.stmt = stmts.take (rowInserts log).length ∧
    res.Total = stmts.length ∧
    res.Success = ((rowInserts log).filter (fun x => x.err.isNone)).length ∧
    res.Failed = ((rowInserts log).filter (fun x => x.err.isSome)).length ∧
    res.Success + res.Failed = (rowInserts log).length ∧
    res.Errors = failedRows (rowInserts log) 0

/-- A script in which the begin and the first row pass and the savepoint of the
second row fails. -/
def secondSavepointFails : List (Option String) :=
  [none, none, none, none, some "connection reset"]

/-! ## What the result of an importer depends on -/

/-- The savepoints and the row inserts among the statements sent, each with
the error it came back with, in the order they were sent. -/
def keyOutcomes (log : List Sent) : List Sent :=
  log.filter (fun e => decide (e.stmt = Stmt.Savepoint) || e.stmt.isRowInsert)

/-- The result and the error of an importer as a function of the outcomes of
its savepoints and row inserts alone: a failed savepoint ends the batch with an
`Internal` error, a passed insert counts as a success, and a failed insert
counts as a failure and, unless the batch continues on error, ends it with a
`Conflict`. `i` is the position of the row the next insert belongs to. -/
def verdict (failed : String) (c : Bool) : List Sent → Nat → Result → Result × Option GoError
  | [], _, res => (res, none)
  | e :: rest, i, res =>
    if e.stmt = Stmt.Savepoint then
      match e.err with
      | some err => (res, some (New Code.CodeInternal "savepoint failed" (some err)))
      | none => verdict failed c rest i res
    else
      match e.err with
      | none => verdict failed c rest (i + 1) { res with Success := res.Success + 1 }
      | some err =>
        if !c then
          ({ res with Failed := res.Failed + 1,
                      Errors := res.Errors ++ [{ Index := i, Error := err.Error }] },
            some (New Code.CodeConflict failed (some err)))
        else
          verdict failed c rest (i + 1)
            { res with Failed := res.Failed + 1,
                       Errors := res.Errors ++ [{ Index := i, Error := err.Error }] }

/-- A script in which the first insert fails, and so do the rollback to the
savepoint and the release that follow it. -/
def cleanupFails : List (Option String) :=
  [none, some "duplicate key", some "rollback failed", some "release failed"]

/-- A script in which the first insert fails and the last release fails. -/
def lastReleaseFails : List (Option String) :=
  [none, some "duplicate key", none, none, none, none, some "release failed"]

/-! ## internal/infrastructure/persistence/postgres/ticket_repo.go: the amount

Of `TicketRepo.Create` and `mapTicketRow` only what they do with the amount of
a ticket is kept: the text the first binds to `amount_paid` and the money value
the second makes of the text it reads. -/

/-- The value `TicketRepo.Create` binds to the column `amount_paid`:
`t.AmountPaid.Amount.StringFixed(2)`. -/
def TicketRepo.Create.amountPaid (m : Money) : String := m.Amount.StringFixed 2

/-- The money value `mapTicketRow` makes of the column `amount_paid`:
`decimal.NewFromString`, then `NewMoney`, each error wrapped by `fmt.Errorf`;
with an error the zero value is returned. -/
def mapTicketRow.amountPaid (text : String) : Money × Option GoError :=
  match NewFromString text with
  | (_, some err) => (⟨⟨0, 0⟩⟩, some (GoError.other ("invalid amount_paid in db: " ++ err.Error)))
  | (amt, none) =>
    match NewMoney amt with
    | (_, some err) => (⟨⟨0, 0⟩⟩, some (GoError.other ("invalid money in db: " ++ err.Error)))
    | (paid, none) => (paid, none)

/-! ## The rows an import of tickets writes -/

/-- The ticket row `r` carries the item `it`: every column the insert of the
importer binds holds the value of that item, the purchase date being that of
the item or `now` when it has none, and the row is not used. The id is the one
the store generated. -/
def TicketRow.carries (now : Time) (r : TicketRow) (it : ImportTicketsItem) : Prop :=
  r.ticket_type_id = it.TicketTypeID ∧ r.buyer_id = it.BuyerID ∧
  r.purchase_date = it.PurchaseDate.getD now ∧ r.status = it.Status ∧
  r.qr_code = it.QRCode ∧ r.amount_paid = it.AmountPaid ∧ r.used_at = none

/-- The tickets of `T` are those of `T0` followed by rows that carry, one for
one and in their order, some of the items `done`. -/
def Tables.importedFrom (T : Tables) (T0 : Tables) (now : Time)
    (done : List ImportTicketsItem) : Prop :=
  ∃ (rows : List TicketRow) (sub : List ImportTicketsItem),
    T.tickets = T0.tickets ++ rows ∧ sub.Sublist done ∧
    List.Forall₂ (TicketRow.carries now) rows sub

/-- The same of the working copy of a transaction and of its savepoints. -/
def TxState.importedFrom (t : TxState) (T0 : Tables) (now : Time)
    (done : List ImportTicketsItem) : Prop :=
  t.tables.importedFrom T0 now done ∧ ∀ sp ∈ t.savepoints, Tables.importedFrom sp T0 now done

/-- The same of every table of a connection whose clock shows `now`. -/
def Conn.importedFrom (c : Conn) (T0 : Tables) (now : Time)
    (done : List ImportTicketsItem) : Prop :=
  c.now = now ∧ c.committed.importedFrom T0 now done ∧
    ∀ t, c.tx = some t → t.importedFrom T0 now done

/-- The statements of the stamp and of the savepoints, which write no ticket
row. -/
def Stmt.keepsTickets : Stmt → Prop
  | Stmt.SetConfigUserID _ => True
  | Stmt.SetConfigIP _ => True
  | Stmt.Savepoint => True
  | Stmt.RollbackToSavepoint => True
  | Stmt.ReleaseSavepoint => True
  | _ => False

/-- A batch of three tickets of type 7 with three different statuses. -/
def mixedImport : ImportTicketsInput :=
  { UserID := 3, IP := "10.0.0.1", ContinueOnError := true,
    Items := [{ TicketTypeID := "7", BuyerID := "3", PurchaseDate := none,
                Status := "refunded", QRCode := "QR-3", AmountPaid := "20.00" },
              { TicketTypeID := "7", BuyerID := "4", PurchaseDate := some 2,
                Status := "paid", QRCode := "QR-6", AmountPaid := "20.00" },
              { TicketTypeID := "7", BuyerID := "5", PurchaseDate := none,
                Status := "void", QRCode := "QR-7", AmountPaid := "0.00" }] }

/-! # Properties -/

/-- C9. When the transaction begins, a callback error `e` is what `WithTx`
returns, unchanged, and after the callback `WithTx` only rolls back (it makes
no `Commit` call); when the callback returns nil, `WithTx` calls `Commit`, and
if that succeeds it returns nil. -/
theorem WithTx_callback_result {σ κ : Type} (db : SqlDB σ)
    (fn : κ → World σ → (Option GoError × κ) × World σ) (locals : κ) (w : World σ)
    (s1 : σ) (r : Option GoError) (l2 : κ) (w2 : World σ)
    (hbegin : db.BeginTxx w.st = (none, s1))
    (hfn : fn locals { st := s1, calls := w.calls ++ [Call.WithTx, Call.BeginTxx, Call.Callback] }
      = ((r, l2), w2)) :
    (∀ e, r = some e →
      (TxManager.WithTx db fn locals w).1 = (some e, l2) ∧
      (TxManager.WithTx db fn locals w).2.calls = w2.calls ++ [Call.Rollback]) ∧
    (r = none →
      (TxManager.WithTx db fn locals w).2.calls = w2.calls ++ [Call.Commit, Call.Rollback] ∧
      ((db.Commit w2.st).1 = none → (TxManager.WithTx db fn locals w).1 = (none, l2))) := by
  refine ⟨?_, ?_⟩
  · intro e he
    subst he
    simp [TxManager.WithTx, World.note, World.run, hbegin, hfn]
  · intro hr
    subst hr
    cases hc : db.Commit w2.st with
    | mk ce s3 =>
      cases ce with
      | none => simp [TxManager.WithTx, World.note, World.run, hbegin, hfn, hc]
      | some e => simp [TxManager.WithTx, World.note, World.run, hbegin, hfn, hc]

/-- C9 at a sample store: a failing callback and a passing one. -/
theorem WithTx_callback_result_witness :
    (TxManager.WithTx pg failingCallback () (sampleWorld sampleTables [])).1
        = (some (New Code.CodeConflict "sold out" none), ()) ∧
    (TxManager.WithTx pg failingCallback () (sampleWorld sampleTables [])).2.calls
        = [Call.WithTx, Call.BeginTxx, Call.Callback, Call.Rollback] ∧
    (TxManager.WithTx pg passingCallback () (sampleWorld sampleTables [])).2.calls
        = [Call.WithTx, Call.BeginTxx, Call.Callback, Call.Commit, Call.Rollback] ∧
    (TxManager.WithTx pg passingCallback () (sampleWorld sampleTables [])).1 = (none, ()) :=
  ⟨((WithTx_callback_result pg failingCallback () (sampleWorld sampleTables []) _ _ _ _
      rfl rfl).1 _ rfl).1,
   ((WithTx_callback_result pg failingCallback () (sampleWorld sampleTables []) _ _ _ _
      rfl rfl).1 _ rfl).2,
   ((WithTx_callback_result pg passingCallback () (sampleWorld sampleTables []) _ _ _ _
      rfl rfl).2 rfl).1,
   ((WithTx_callback_result pg passingCallback () (sampleWorld sampleTables []) _ _ _ _
      rfl rfl).2 rfl).2 rfl⟩

/-- C10. `WithTx` makes an `Unavailable` error in exactly two cases: when
beginning fails (the callback is then not invoked: the run ends right after
`BeginTxx` with the captured variables untouched), and when the callback
returns nil but `Commit` fails. In every other case its error result is the
callback's own result: that error unchanged, or nil after a successful
commit. -/
theorem WithTx_unavailable {σ κ : Type} (db : SqlDB σ)
    (fn : κ → World σ → (Option GoError × κ) × World σ) (locals : κ) (w : World σ) :
    (∀ e s1, db.BeginTxx w.st = (some e, s1) →
      TxManager.WithTx db fn locals w
        = ((some (New Code.CodeUnavailable "begin tx failed" (some e)), locals),
           { st := s1, calls := w.calls ++ [Call.WithTx, Call.BeginTxx] })) ∧
    (∀ s1 l2 w2 e s3, db.BeginTxx w.st = (none, s1) →
      fn locals { st := s1, calls := w.calls ++ [Call.WithTx, Call.BeginTxx, Call.Callback] }
        = ((none, l2), w2) →
      db.Commit w2.st = (some e, s3) →
      (TxManager.WithTx db fn locals w).1
        = (some (New Code.CodeUnavailable "commit failed" (some e)), l2)) ∧
    (∀ s1 r l2 w2, db.BeginTxx w.st = (none, s1) →
      fn locals { st := s1, calls := w.calls ++ [Call.WithTx, Call.BeginTxx, Call.Callback] }
        = ((r, l2), w2) →
      (r ≠ none ∨ (db.Commit w2.st).1 = none) →
      (TxManager.WithTx db fn locals w).1 = (r, l2)) := by
  refine ⟨?_, ?_, ?_⟩
  · intro e s1 hbegin
    simp [TxManager.WithTx, World.note, World.run, hbegin]
  · intro s1 l2 w2 e s3 hbegin hfn hc
    simp [TxManager.WithTx, World.note, World.run, hbegin, hfn, hc]
  · intro s1 r l2 w2 hbegin hfn hcase
    cases r with
    | some e => simp [TxManager.WithTx, World.note, World.run, hbegin, hfn]
    | none =>
      have hc : (db.Commit w2.st).1 = none := by
        cases hcase with
        | inl h => exact absurd rfl h
        | inr h => exact h
      cases hcm : db.Commit w2.st with
      | mk ce s3 =>
        rw [hcm] at hc
        simp only at hc
        subst hc
        simp [TxManager.WithTx, World.note, World.run, hbegin, hfn, hcm]

/-- C10 at a sample store: a failed begin, a failed commit, and a callback
error that passes through. -/
theorem WithTx_unavailable_witness :
    TxManager.WithTx pg passingCallback () (sampleWorld sampleTables [some "connection refused"])
      = ((some (New Code.CodeUnavailable "begin tx failed"
            (some (GoError.other "connection refused"))), ()),
         { st := sampleConn sampleTables [], calls := [Call.WithTx, Call.BeginTxx] }) ∧
    (TxManager.WithTx pg passingCallback () (sampleWorld sampleTables [none, some "broken pipe"])).1
      = (some (New Code.CodeUnavailable "commit failed" (some (GoError.other "broken pipe"))), ()) ∧
    (TxManager.WithTx pg failingCallback () (sampleWorld sampleTables [])).1
      = (some (New Code.CodeConflict "sold out" none), ()) :=
  ⟨(WithTx_unavailable pg passingCallback ()
      (sampleWorld sampleTables [some "connection refused"])).1 _ _ rfl,
   (WithTx_unavailable pg passingCallback ()
      (sampleWorld sampleTables [none, some "broken pipe"])).2.1 _ _ _ _ _ rfl rfl rfl,
   (WithTx_unavailable pg failingCallback ()
      (sampleWorld sampleTables [])).2.2 _ _ _ _ rfl rfl (Or.inl (by simp))⟩

/-- A valid input reaches the transaction: `Purchase` is then `WithTx` on the
purchase callback with the amount rounded to two places. -/
theorem Purchase_of_valid {σ : Type} (db : SqlDB σ) (audit : Setter σ) (q : Queries σ)
    (now : Time) (inp : PurchaseInput) (w : World σ) (amt : Decimal)
    (hU : inp.UserID ≠ Nil) (hT : inp.TicketTypeID ≠ Nil) (hQ : inp.QRCode ≠ "")
    (hParse : NewFromString inp.AmountPaid = (amt, none)) (hSign : amt.IsNegative = false) :
    Purchase db audit q now inp w =
      match TxManager.WithTx db (purchaseTx audit q now inp { Amount := amt.Round 2 })
          { TicketID := Nil } w with
      | ((some err, _), w1) => (({ TicketID := Nil }, some err), w1)
      | ((none, out), w1) => ((out, none), w1) := by
  simp [Purchase, hU, hT, hQ, hParse, NewMoney, hSign]

/-- C3. A valid purchase whose audit stamp succeeds and whose lock reports
`quantitySold ≥ quantityTotal` returns the `Conflict` error "sold out" with the
empty output; the calls it makes are `WithTx`, `BeginTxx`, the callback, `Set`,
`LockTicketTypeForUpdate` and the deferred `Rollback`, so `InsertPaidTicket` is
not invoked and nothing is committed. -/
theorem Purchase_sold_out {σ : Type} (db : SqlDB σ) (audit : Setter σ) (q : Queries σ)
    (now : Time) (inp : PurchaseInput) (w : World σ) (amt : Decimal) (s1 s2 s3 : σ)
    (qtyTotal qtySold : Int)
    (hU : inp.UserID ≠ Nil) (hT : inp.TicketTypeID ≠ Nil) (hQ : inp.QRCode ≠ "")
    (hParse : NewFromString inp.AmountPaid = (amt, none)) (hSign : amt.IsNegative = false)
    (hBegin : db.BeginTxx w.st = (none, s1))
    (hAudit : audit.Set inp.UserID inp.IP s1 = (none, s2))
    (hLock : q.LockTicketTypeForUpdate inp.TicketTypeID s2 = ((qtyTotal, qtySold, none), s3))
    (hSold : qtySold ≥ qtyTotal) :
    (Purchase db audit q now inp w).1
      = ({ TicketID := Nil }, some (New Code.CodeConflict "sold out" none)) ∧
    (Purchase db audit q now inp w).2.calls
      = w.calls ++ [Call.WithTx, Call.BeginTxx, Call.Callback, Call.Set inp.UserID inp.IP,
          Call.LockTicketTypeForUpdate inp.TicketTypeID, Call.Rollback] ∧
    (Purchase db audit q now inp w).2.st = (db.Rollback s3).2 := by
  rw [Purchase_of_valid db audit q now inp w amt hU hT hQ hParse hSign]
  simp [TxManager.WithTx, purchaseTx, World.note, World.run, hBegin, hAudit, hLock, hSold]

/-- C3 at a sample store: the only ticket of type 7 is already sold. -/
theorem Purchase_sold_out_witness :
    (Purchase pg (AuditContextSetter pg) (TicketTxQueries pg) 9 sampleInput
        (sampleWorld soldOutTables [])).1
      = ({ TicketID := Nil }, some (New Code.CodeConflict "sold out" none)) ∧
    (Purchase pg (AuditContextSetter pg) (TicketTxQueries pg) 9 sampleInput
        (sampleWorld soldOutTables [])).2.calls
      = [Call.WithTx, Call.BeginTxx, Call.Callback, Call.Set 3 "10.0.0.1",
          Call.LockTicketTypeForUpdate 7, Call.Rollback] :=
  ⟨(Purchase_sold_out pg (AuditContextSetter pg) (TicketTxQueries pg) 9 sampleInput
      (sampleWorld soldOutTables []) ⟨19999, -3⟩ _ _ _ 1 1 (by decide) (by decide) (by decide)
      (by decide) (by decide) rfl rfl rfl (by decide)).1,
   (Purchase_sold_out pg (AuditContextSetter pg) (TicketTxQueries pg) 9 sampleInput
      (sampleWorld soldOutTables []) ⟨19999, -3⟩ _ _ _ 1 1 (by decide) (by decide) (by decide)
      (by decide) (by decide) rfl rfl rfl (by decide)).2.1⟩

/-- The purchase callback makes no `WithTx` call. -/
theorem purchaseTx_count_WithTx {σ : Type} (audit : Setter σ) (q : Queries σ) (now : Time)
    (inp : PurchaseInput) (money : Money) (out : PurchaseOutput) (w : World σ) :
    (purchaseTx audit q now inp money out w).2.calls.count Call.WithTx
      = w.calls.count Call.WithTx := by
  unfold purchaseTx
  simp only [World.run]
  rcases h1 : audit.Set inp.UserID inp.IP w.st with ⟨_ | e, s1⟩
  · rcases h2 : q.LockTicketTypeForUpdate inp.TicketTypeID s1 with ⟨⟨a, b, _ | e⟩, s2⟩
    · by_cases hs : b ≥ a
      · simp [h1, h2, hs, List.count_append]
      · rcases h3 : q.InsertPaidTicket inp.TicketTypeID inp.UserID now inp.QRCode
            (money.Amount.StringFixed 2) s2 with ⟨⟨id, _ | e⟩, s3⟩
        · simp [h1, h2, hs, h3, List.count_append]
        · simp [h1, h2, hs, h3, List.count_append]
    · simp [h1, h2, List.count_append]
  · simp [h1, List.count_append]

/-- `WithTx` records itself once, whatever it goes on to do, when the callback
records no `WithTx`. -/
theorem WithTx_count_WithTx {σ κ : Type} (db : SqlDB σ)
    (fn : κ → World σ → (Option GoError × κ) × World σ) (locals : κ) (w : World σ)
    (hfn : ∀ l w0, (fn l w0).2.calls.count Call.WithTx = w0.calls.count Call.WithTx) :
    (TxManager.WithTx db fn locals w).2.calls.count Call.WithTx
      = w.calls.count Call.WithTx + 1 := by
  unfold TxManager.WithTx
  simp only [World.run, World.note]
  rcases hb : db.BeginTxx w.st with ⟨_ | e, s1⟩
  · have hcount := hfn locals ⟨s1, w.calls ++ [Call.WithTx, Call.BeginTxx, Call.Callback]⟩
    rcases hf : fn locals ⟨s1, w.calls ++ [Call.WithTx, Call.BeginTxx, Call.Callback]⟩
      with ⟨⟨_ | e, l2⟩, w2⟩
    · rw [hf] at hcount
      rcases hc : db.Commit w2.st with ⟨_ | e, s3⟩
      · simp [hf, hc, List.count_append] at hcount ⊢
        omega
      · simp [hf, hc, List.count_append] at hcount ⊢
        omega
    · rw [hf] at hcount
      simp [hf, List.count_append] at hcount ⊢
      omega
  · simp [List.count_append]

/-- C4. When the actor id or the ticket type id is nil, the QR code is empty,
the amount does not parse, or it parses to a negative decimal, `Purchase`
returns a `Validation` error with the empty output and makes no call at all
(no `WithTx`, no transaction); on every other input `WithTx` is invoked
exactly once. -/
theorem Purchase_validation {σ : Type} (db : SqlDB σ) (audit : Setter σ) (q : Queries σ)
    (now : Time) (inp : PurchaseInput) (w : World σ) :
    ((inp.UserID = Nil ∨ inp.TicketTypeID = Nil ∨ inp.QRCode = "" ∨
        (NewFromString inp.AmountPaid).2 ≠ none ∨
        (NewFromString inp.AmountPaid).1.IsNegative = true) →
      (∃ msg cause, (Purchase db audit q now inp w).1
          = ({ TicketID := Nil }, some (GoError.app Code.CodeValidation msg cause))) ∧
      (Purchase db audit q now inp w).2 = w) ∧
    (¬ (inp.UserID = Nil ∨ inp.TicketTypeID = Nil ∨ inp.QRCode = "" ∨
        (NewFromString inp.AmountPaid).2 ≠ none ∨
        (NewFromString inp.AmountPaid).1.IsNegative = true) →
      (Purchase db audit q now inp w).2.calls.count Call.WithTx
        = w.calls.count Call.WithTx + 1) := by
  refine ⟨?_, ?_⟩
  · intro h
    by_cases hU : inp.UserID = Nil
    · simp [Purchase, hU, New]
    by_cases hT : inp.TicketTypeID = Nil
    · simp [Purchase, hU, hT, New]
    by_cases hQ : inp.QRCode = ""
    · simp [Purchase, hU, hT, hQ, New]
    cases hP : NewFromString inp.AmountPaid with
    | mk amt e =>
      cases e with
      | some err => simp [Purchase, hU, hT, hQ, hP, New]
      | none =>
        have hneg : amt.IsNegative = true := by
          rcases h with h | h | h | h | h
          · exact absurd h hU
          · exact absurd h hT
          · exact absurd h hQ
          · rw [hP] at h; exact absurd rfl h
          · rw [hP] at h; exact h
        simp [Purchase, hU, hT, hQ, hP, NewMoney, hneg, New]
  · intro h
    simp only [not_or] at h
    obtain ⟨hU, hT, hQ, hP, hS⟩ := h
    cases hN : NewFromString inp.AmountPaid with
    | mk amt e =>
      rw [hN] at hP hS
      simp only [ne_eq, not_not] at hP
      subst hP
      have hSign : amt.IsNegative = false := by simpa using hS
      rw [Purchase_of_valid db audit q now inp w amt hU hT hQ hN hSign]
      have hc := WithTx_count_WithTx db (purchaseTx audit q now inp { Amount := amt.Round 2 })
        { TicketID := Nil } w (purchaseTx_count_WithTx audit q now inp { Amount := amt.Round 2 })
      split <;> simp_all

/-- C4 at sample inputs: a negative amount opens no transaction, a valid input
invokes `WithTx` once. -/
theorem Purchase_validation_witness :
    (∃ msg cause,
      (Purchase pg (AuditContextSetter pg) (TicketTxQueries pg) 9
          { sampleInput with AmountPaid := "-1.00" } (sampleWorld sampleTables [])).1
        = ({ TicketID := Nil }, some (GoError.app Code.CodeValidation msg cause))) ∧
    (Purchase pg (AuditContextSetter pg) (TicketTxQueries pg) 9
        { sampleInput with AmountPaid := "-1.00" } (sampleWorld sampleTables [])).2
      = sampleWorld sampleTables [] ∧
    (Purchase pg (AuditContextSetter pg) (TicketTxQueries pg) 9 sampleInput
        (sampleWorld sampleTables [])).2.calls.count Call.WithTx
      = (sampleWorld sampleTables []).calls.count Call.WithTx + 1 :=
  ⟨((Purchase_validation pg (AuditContextSetter pg) (TicketTxQueries pg) 9
      { sampleInput with AmountPaid := "-1.00" } (sampleWorld sampleTables [])).1
      (by decide)).1,
   ((Purchase_validation pg (AuditContextSetter pg) (TicketTxQueries pg) 9
      { sampleInput with AmountPaid := "-1.00" } (sampleWorld sampleTables [])).1
      (by decide)).2,
   (Purchase_validation pg (AuditContextSetter pg) (TicketTxQueries pg) 9 sampleInput
      (sampleWorld sampleTables [])).2 (by decide)⟩

/-! ## The decimal arithmetic of the money value -/

/-- The character of a digit below ten is a decimal digit. -/
theorem digitChar_isDigit : ∀ k, k < 10 → (Nat.digitChar k).isDigit = true := by decide

/-- Every character produced by the base-ten digit loop is a decimal digit. -/
theorem toDigitsCore_isDigit (fuel : Nat) : ∀ (n : Nat) (ds : List Char),
    (∀ c ∈ ds, c.isDigit = true) → ∀ c ∈ Nat.toDigitsCore 10 fuel n ds, c.isDigit = true := by
  induction fuel with
  | zero => intro n ds h c hc; simpa [Nat.toDigitsCore] using h c (by simpa [Nat.toDigitsCore] using hc)
  | succ f ih =>
    intro n ds h c hc
    have hd : (Nat.digitChar (n % 10)).isDigit = true := digitChar_isDigit _ (Nat.mod_lt _ (by decide))
    have hds : ∀ c ∈ Nat.digitChar (n % 10) :: ds, c.isDigit = true := by
      intro c hc
      rcases List.mem_cons.mp hc with h1 | h1
      · rw [h1]; exact hd
      · exact h c h1
    simp only [Nat.toDigitsCore] at hc
    split at hc
    · exact hds c hc
    · exact ih _ _ hds c hc

/-- The numeral of a natural number holds decimal digits only. -/
theorem natString_isDigit (n : Nat) : ∀ c ∈ natString n, c.isDigit = true :=
  toDigitsCore_isDigit _ _ _ (by simp)

/-- Rounding to two places always yields exponent `-2`. -/
theorem Round_two_exp (d : Decimal) : (d.Round 2).exp = -2 := by
  unfold Decimal.Round
  split
  · assumption
  · simp only [Decimal.rescale]
    split
    · rename_i h; simp [h]
    · split <;> simp

/-- Rounding a non-negative decimal to two places yields a non-negative value. -/
theorem Round_two_nonneg (d : Decimal) (h : 0 ≤ d.value) : 0 ≤ (d.Round 2).value := by
  unfold Decimal.Round
  split
  · exact h
  · have hr : 0 ≤ (d.rescale (-2 - 1)).value := by
      unfold Decimal.rescale
      split
      · exact h
      · split
        · exact Int.tdiv_nonneg h (by positivity)
        · exact Int.mul_nonneg h (by positivity)
    simp only
    have h5 : ¬ (d.rescale (-2 - 1)).value < 0 := by omega
    simp only [h5, if_false]
    have hq : 0 ≤ ((d.rescale (-2 - 1)).value + 5) / 10 := by omega
    have : ¬ (((d.rescale (-2 - 1)).value + 5) / 10 < 0 ∧ ((d.rescale (-2 - 1)).value + 5) % 10 ≠ 0) := by omega
    simp only [this, if_false]
    exact hq

/-- A non-negative decimal with exponent `-2` prints as digits, a point and two
digits. -/
theorem string_two_places (d : Decimal) (he : d.exp = -2) (hv : 0 ≤ d.value) :
    ∃ intPart frac, d.string = intPart ++ '.' :: frac ∧ intPart ≠ [] ∧ frac.length = 2 ∧
      ∀ c ∈ intPart ++ frac, c.isDigit = true := by
  have hneg : ¬ d.exp ≥ 0 := by omega
  have hv2 : ¬ d.value < 0 := by omega
  have hdig := natString_isDigit d.value.natAbs
  by_cases hl : (natString d.value.natAbs).length > 2
  · refine ⟨(natString d.value.natAbs).take ((natString d.value.natAbs).length - 2),
      (natString d.value.natAbs).drop ((natString d.value.natAbs).length - 2), ?_, ?_, ?_, ?_⟩
    · simp [Decimal.string, hneg, hv2, he, hl]
      intro hnil
      rw [hnil] at hl
      simp at hl
    · intro h
      have := congrArg List.length h
      simp at this
      omega
    · simp; omega
    · intro c hc
      rw [List.take_append_drop] at hc
      exact hdig c hc
  · refine ⟨[ '0'], List.replicate (2 - (natString d.value.natAbs).length) '0'
      ++ natString d.value.natAbs, ?_, ?_, ?_, ?_⟩
    · simp [Decimal.string, hneg, hv2, he, hl]
      intro h hnil
      rw [hnil] at h
      simp at h
    · simp
    · simp; omega
    · intro c hc
      simp only [List.mem_append, List.mem_singleton, List.mem_replicate] at hc
      rcases hc with h1 | ⟨_, h1⟩ | h1
      · rw [h1]; decide
      · rw [h1]; decide
      · exact hdig c h1

/-- For a non-negative decimal, `rescale (-3)` holds the floor of a thousand
times the number. -/
theorem rescale_three_floor (d : Decimal) (hv : 0 ≤ d.value) :
    (((d.rescale (-3)).value : ℤ) : ℚ) ≤ d.toRat * 1000 ∧
    d.toRat * 1000 < (((d.rescale (-3)).value : ℤ) : ℚ) + 1 := by
  have h10 : (10 : ℚ) ≠ 0 := by norm_num
  unfold Decimal.rescale Decimal.toRat
  split
  · rename_i he
    rw [he]
    have : (10 : ℚ) ^ (-3 : ℤ) * 1000 = 1 := by norm_num [zpow_neg]
    rw [mul_assoc, this]
    constructor <;> linarith
  · split
    · rename_i hne hgt
      obtain ⟨k, hk⟩ := Int.eq_ofNat_of_zero_le (show 0 ≤ -3 - d.exp by omega)
      have he : d.exp = -3 - (k : ℤ) := by omega
      have hna : (-3 - d.exp).natAbs = k := by omega
      simp only [hna]
      have hpos : (0 : ℤ) ≤ 10 ^ k := by positivity
      rw [Int.tdiv_eq_ediv hv hpos]
      have hscale : (10 : ℚ) ^ d.exp * 1000 = 1 / (10 : ℚ) ^ k := by
        rw [he, zpow_sub₀ h10, zpow_neg, zpow_natCast]
        norm_num
        field_simp
      rw [mul_assoc, hscale]
      have hfl : ⌊(d.value : ℚ) / (((10 ^ k : ℕ) : ℕ) : ℚ)⌋ = d.value / (((10 ^ k : ℕ) : ℕ) : ℤ) :=
        Rat.floor_intCast_div_natCast _ _
      have hcast : (((10 ^ k : ℕ) : ℕ) : ℤ) = (10 : ℤ) ^ k := by push_cast; rfl
      have hcastq : (((10 ^ k : ℕ) : ℕ) : ℚ) = (10 : ℚ) ^ k := by push_cast; rfl
      rw [hcast, hcastq] at hfl
      rw [← hfl]
      have hx : (d.value : ℚ) * (1 / (10 : ℚ) ^ k) = (d.value : ℚ) / (10 : ℚ) ^ k := by ring
      rw [hx]
      exact ⟨Int.floor_le _, Int.lt_floor_add_one _⟩
    · rename_i hne hgt
      obtain ⟨k, hk⟩ := Int.eq_ofNat_of_zero_le (show 0 ≤ d.exp + 3 by omega)
      have he : d.exp = (k : ℤ) - 3 := by omega
      have hna : (-3 - d.exp).natAbs = k := by omega
      simp only [hna]
      have hscale : (10 : ℚ) ^ d.exp * 1000 = (10 : ℚ) ^ k := by
        rw [he, zpow_sub₀ h10, zpow_natCast]
        norm_num
      rw [mul_assoc, hscale]
      push_cast
      constructor <;> linarith

/-- Rounding a non-negative decimal to two places takes the floor of a hundred
times the number plus one half. -/
theorem Round_two_value (d : Decimal) (hv : 0 ≤ d.value) :
    (d.Round 2).value = ⌊d.toRat * 100 + 1 / 2⌋ := by
  unfold Decimal.Round
  split
  · rename_i he
    have hx : d.toRat * 100 = (d.value : ℚ) := by
      unfold Decimal.toRat
      rw [he]
      have : (10 : ℚ) ^ (-2 : ℤ) * 100 = 1 := by norm_num [zpow_neg]
      rw [mul_assoc, this, mul_one]
    rw [hx]
    symm
    rw [Int.floor_eq_iff]
    constructor <;> linarith
  · obtain ⟨hlo, hhi⟩ := rescale_three_floor d hv
    have hr : 0 ≤ (d.rescale (-3)).value := by
      have : (-1 : ℚ) < (((d.rescale (-3)).value : ℤ) : ℚ) := by
        have h0 : (0 : ℚ) ≤ d.toRat * 1000 := by
          unfold Decimal.toRat
          have : (0 : ℚ) ≤ (d.value : ℚ) := by exact_mod_cast hv
          positivity
        linarith
      have : (-1 : ℤ) < (d.rescale (-3)).value := by exact_mod_cast this
      omega
    have e3 : (-2 - 1 : ℤ) = -3 := by norm_num
    simp only [e3]
    generalize (d.rescale (-3)).value = r at hlo hhi hr ⊢
    have h5 : ¬ r < 0 := by omega
    have hq : ¬ ((r + 5) / 10 < 0 ∧ (r + 5) % 10 ≠ 0) := by omega
    simp only [h5, if_false, hq]
    symm
    rw [Int.floor_eq_iff]
    have h1 : 10 * ((r + 5) / 10) ≤ r + 5 := by omega
    have h2 : r + 5 ≤ 10 * ((r + 5) / 10) + 9 := by omega
    have h1q : (10 : ℚ) * (((r + 5) / 10 : ℤ) : ℚ) ≤ (r : ℚ) + 5 := by exact_mod_cast h1
    have h2q : (r : ℚ) + 5 ≤ 10 * (((r + 5) / 10 : ℤ) : ℚ) + 9 := by exact_mod_cast h2
    constructor <;> linarith

/-- Rounding a non-negative decimal to two places moves it by at most 0.005. -/
theorem Round_two_near (d : Decimal) (hv : 0 ≤ d.value) :
    |(d.Round 2).toRat - d.toRat| ≤ 1 / 200 := by
  have hval := Round_two_value d hv
  have hexp := Round_two_exp d
  have hlo := Int.floor_le (d.toRat * 100 + 1 / 2)
  have hhi := Int.lt_floor_add_one (d.toRat * 100 + 1 / 2)
  rw [← hval] at hlo hhi
  have ht : (d.Round 2).toRat = ((d.Round 2).value : ℚ) / 100 := by
    unfold Decimal.toRat
    rw [hexp]
    norm_num [zpow_neg]
    ring
  rw [ht, abs_le]
  constructor <;> linarith

/-- Rounding to two places leaves a decimal with exponent `-2` as it is. -/
theorem Round_two_of_exp (d : Decimal) (h : d.exp = -2) : d.Round 2 = d := by
  unfold Decimal.Round
  simp [h]

/-- The number a decimal denotes is negative exactly when its value is. -/
theorem toRat_neg_iff (d : Decimal) : d.toRat < 0 ↔ d.value < 0 := by
  unfold Decimal.toRat
  have hp : (0 : ℚ) < (10 : ℚ) ^ d.exp := by positivity
  constructor
  · intro h
    by_contra hv
    have : (0 : ℚ) ≤ (d.value : ℚ) := by exact_mod_cast (not_lt.mp hv)
    have : (0 : ℚ) ≤ (d.value : ℚ) * (10 : ℚ) ^ d.exp := by positivity
    linarith
  · intro h
    have : (d.value : ℚ) < 0 := by exact_mod_cast h
    exact mul_neg_of_neg_of_pos this hp

/-- C7. `NewMoney` fails exactly on the negative decimals; when it succeeds
the amount is non-negative, has exponent `-2` (two fractional digits) and is
an integer number of hundredths. -/
theorem NewMoney_fails_iff_negative (a : Decimal) :
    ((NewMoney a).2 ≠ none ↔ a.toRat < 0) ∧
    ((NewMoney a).2 = none →
      0 ≤ (NewMoney a).1.Amount.toRat ∧ (NewMoney a).1.Amount.exp = -2 ∧
      ∃ k : ℤ, (NewMoney a).1.Amount.toRat = (k : ℚ) / 100) := by
  rw [toRat_neg_iff]
  by_cases hv : a.value < 0
  · simp [NewMoney, Decimal.IsNegative, hv]
  · have hnn : 0 ≤ a.value := not_lt.mp hv
    have hexp := Round_two_exp a
    have hval := Round_two_nonneg a hnn
    have ht : (a.Round 2).toRat = ((a.Round 2).value : ℚ) / 100 := by
      unfold Decimal.toRat
      rw [hexp]
      norm_num [zpow_neg]
      ring
    simp only [NewMoney, Decimal.IsNegative, hv, decide_False, Bool.false_eq_true, if_false,
      ne_eq, not_true_eq_false, false_iff, not_false_eq_true, true_and, forall_const]
    refine ⟨?_, hexp, (a.Round 2).value, ht⟩
    rw [ht]
    have : (0 : ℚ) ≤ ((a.Round 2).value : ℚ) := by exact_mod_cast hval
    positivity

/-- C7 at the amount 19.999. -/
theorem NewMoney_fails_iff_negative_witness :
    (NewMoney { value := 19999, exp := -3 }).2 = none ∧
    0 ≤ (NewMoney { value := 19999, exp := -3 }).1.Amount.toRat ∧
    (NewMoney { value := 19999, exp := -3 }).1.Amount.exp = -2 ∧
    ∃ k : ℤ, (NewMoney { value := 19999, exp := -3 }).1.Amount.toRat = (k : ℚ) / 100 :=
  ⟨by decide, (NewMoney_fails_iff_negative { value := 19999, exp := -3 }).2 (by decide)⟩

/-- C8. For a non-negative decimal `a`, `NewMoney` succeeds and its amount is
the hundredth nearest to `a`, a tie going up: it has exponent `-2`, its value
is the floor of `100 a + 1/2`, and it differs from `a` by at most 0.005.
Parsing "19.999" gives the amount printed "20.00", "0.00" gives "0.00", and
"-1.00" parses but is refused by `NewMoney`. -/
theorem NewMoney_rounds_to_nearest :
    (∀ a : Decimal, 0 ≤ a.toRat →
      (NewMoney a).2 = none ∧ (NewMoney a).1.Amount.exp = -2 ∧
      (NewMoney a).1.Amount.value = ⌊a.toRat * 100 + 1 / 2⌋ ∧
      |(NewMoney a).1.Amount.toRat - a.toRat| ≤ 1 / 200) ∧
    ((NewFromString "19.999").2 = none ∧ (NewMoney (NewFromString "19.999").1).2 = none ∧
      (NewMoney (NewFromString "19.999").1).1.Amount.StringFixed 2 = "20.00") ∧
    ((NewFromString "0.00").2 = none ∧ (NewMoney (NewFromString "0.00").1).2 = none ∧
      (NewMoney (NewFromString "0.00").1).1.Amount.StringFixed 2 = "0.00") ∧
    ((NewFromString "-1.00").2 = none ∧ (NewMoney (NewFromString "-1.00").1).2 ≠ none) := by
  refine ⟨?_, by decide, by decide, by decide⟩
  intro a ha
  have hv : ¬ a.value < 0 := by
    intro h
    have := (toRat_neg_iff a).mpr h
    linarith
  have hnn : 0 ≤ a.value := not_lt.mp hv
  simp only [NewMoney, Decimal.IsNegative, hv, decide_False, Bool.false_eq_true, if_false,
    true_and]
  exact ⟨Round_two_exp a, Round_two_value a hnn, Round_two_near a hnn⟩

/-- C8 at the tie 0.005, which goes up to 0.01. -/
theorem NewMoney_rounds_to_nearest_witness :
    0 ≤ (Decimal.mk 5 (-3)).toRat ∧
    (NewMoney (Decimal.mk 5 (-3))).2 = none ∧ (NewMoney (Decimal.mk 5 (-3))).1.Amount.exp = -2 ∧
    (NewMoney (Decimal.mk 5 (-3))).1.Amount.value = ⌊(Decimal.mk 5 (-3)).toRat * 100 + 1 / 2⌋ ∧
    |(NewMoney (Decimal.mk 5 (-3))).1.Amount.toRat - (Decimal.mk 5 (-3)).toRat| ≤ 1 / 200 :=
  ⟨by unfold Decimal.toRat; positivity,
   NewMoney_rounds_to_nearest.1 (Decimal.mk 5 (-3)) (by unfold Decimal.toRat; positivity)⟩

/-- C5. A valid purchase whose audit stamp succeeds, whose lock reports
`quantitySold < quantityTotal`, whose insert returns `ticketID` and whose
commit succeeds returns exactly `ticketID`. The calls it makes hold one
`InsertPaidTicket`, with the ticket type of the input, the actor as buyer, the
QR code of the input and the text of the amount rounded to two places; that
text is the print of a decimal with exponent `-2` whose value is the floor of
`100 a + 1/2`, and reads as digits, a point and exactly two digits. -/
theorem Purchase_success {σ : Type} (db : SqlDB σ) (audit : Setter σ) (q : Queries σ)
    (now : Time) (inp : PurchaseInput) (w : World σ) (amt : Decimal) (s1 s2 s3 s4 s5 : σ)
    (qtyTotal qtySold : Int) (ticketID : UUID)
    (hU : inp.UserID ≠ Nil) (hT : inp.TicketTypeID ≠ Nil) (hQ : inp.QRCode ≠ "")
    (hParse : NewFromString inp.AmountPaid = (amt, none)) (hSign : amt.IsNegative = false)
    (hBegin : db.BeginTxx w.st = (none, s1))
    (hAudit : audit.Set inp.UserID inp.IP s1 = (none, s2))
    (hLock : q.LockTicketTypeForUpdate inp.TicketTypeID s2 = ((qtyTotal, qtySold, none), s3))
    (hSold : qtySold < qtyTotal)
    (hInsert : q.InsertPaidTicket inp.TicketTypeID inp.UserID now inp.QRCode
      ((amt.Round 2).StringFixed 2) s3 = ((ticketID, none), s4))
    (hCommit : db.Commit s4 = (none, s5)) :
    (Purchase db audit q now inp w).1 = ({ TicketID := ticketID }, none) ∧
    (Purchase db audit q now inp w).2.calls
      = w.calls ++ [Call.WithTx, Call.BeginTxx, Call.Callback, Call.Set inp.UserID inp.IP,
          Call.LockTicketTypeForUpdate inp.TicketTypeID,
          Call.InsertPaidTicket inp.TicketTypeID inp.UserID now inp.QRCode
            ((amt.Round 2).StringFixed 2),
          Call.Commit, Call.Rollback] ∧
    (amt.Round 2).StringFixed 2 = String.mk (amt.Round 2).string ∧
    (amt.Round 2).exp = -2 ∧ (amt.Round 2).value = ⌊amt.toRat * 100 + 1 / 2⌋ ∧
    ∃ intPart frac, ((amt.Round 2).StringFixed 2).data = intPart ++ '.' :: frac ∧
      intPart ≠ [] ∧ frac.length = 2 ∧ ∀ c ∈ intPart ++ frac, c.isDigit = true := by
  have hnn : 0 ≤ amt.value := by
    simp only [Decimal.IsNegative, decide_eq_false_iff_not] at hSign
    omega
  have hidem : (amt.Round 2).Round 2 = amt.Round 2 :=
    Round_two_of_exp (amt.Round 2) (Round_two_exp amt)
  have hnot : ¬ qtySold ≥ qtyTotal := by omega
  rw [Purchase_of_valid db audit q now inp w amt hU hT hQ hParse hSign]
  refine ⟨?_, ?_, ?_, Round_two_exp amt, Round_two_value amt hnn, ?_⟩
  · simp [TxManager.WithTx, purchaseTx, World.note, World.run, hBegin, hAudit, hLock, hnot,
      hInsert, hCommit]
  · simp [TxManager.WithTx, purchaseTx, World.note, World.run, hBegin, hAudit, hLock, hnot,
      hInsert, hCommit]
  · simp [Decimal.StringFixed, hidem]
  · have hshape := string_two_places (amt.Round 2) (Round_two_exp amt) (Round_two_nonneg amt hnn)
    simpa [Decimal.StringFixed, hidem] using hshape

/-- C5 at the sample store: the amount "19.999" is inserted as "20.00" and the
id generated by the store comes back. -/
theorem Purchase_success_witness :
    (Purchase pg (AuditContextSetter pg) (TicketTxQueries pg) 9 sampleInput
        (sampleWorld sampleTables [])).1 = ({ TicketID := 103 }, none) ∧
    (Purchase pg (AuditContextSetter pg) (TicketTxQueries pg) 9 sampleInput
        (sampleWorld sampleTables [])).2.calls
      = [Call.WithTx, Call.BeginTxx, Call.Callback, Call.Set 3 "10.0.0.1",
          Call.LockTicketTypeForUpdate 7, Call.InsertPaidTicket 7 3 9 "QR-1" "20.00",
          Call.Commit, Call.Rollback] :=
  ⟨(Purchase_success pg (AuditContextSetter pg) (TicketTxQueries pg) 9 sampleInput
      (sampleWorld sampleTables []) ⟨19999, -3⟩ _ _ _ _ _ 1 0 103 (by decide) (by decide)
      (by decide) (by decide) (by decide) rfl rfl rfl (by decide) rfl rfl).1,
   (Purchase_success pg (AuditContextSetter pg) (TicketTxQueries pg) 9 sampleInput
      (sampleWorld sampleTables []) ⟨19999, -3⟩ _ _ _ _ _ 1 0 103 (by decide) (by decide)
      (by decide) (by decide) (by decide) rfl rfl rfl (by decide) rfl rfl).2.1.trans
      (by decide)⟩

/-! ## Atomicity on the store -/

/-- A statement never touches the committed tables. -/
theorem statement_committed (stmt : Stmt) (c : Conn) :
    (Conn.statement stmt c).2.committed = c.committed := by
  unfold Conn.statement
  repeat' split
  all_goals rfl

/-- The driver call `ExecContext` never touches the committed tables. -/
theorem pg_exec_committed (stmt : Stmt) (c : Conn) :
    (pg.ExecContext stmt c).2.committed = c.committed := statement_committed stmt c

/-- The driver call `QueryRowxContext` never touches the committed tables. -/
theorem pg_query_committed (stmt : Stmt) (c : Conn) :
    (pg.QueryRowxContext stmt c).2.committed = c.committed := statement_committed stmt c

/-- Beginning a transaction leaves the committed tables as they are. -/
theorem pg_begin_committed (c : Conn) : (pg.BeginTxx c).2.committed = c.committed := by
  simp only [pg]
  repeat' split
  all_goals rfl

/-- A rollback leaves the committed tables as they are. -/
theorem pg_rollback_committed (c : Conn) : (pg.Rollback c).2.committed = c.committed := by
  simp only [pg]
  repeat' split
  all_goals rfl

/-- A commit that returns an error leaves the committed tables as they are. -/
theorem pg_commit_failed_committed (c : Conn) (h : (pg.Commit c).1 ≠ none) :
    (pg.Commit c).2.committed = c.committed := by
  simp only [pg] at h ⊢
  repeat' split
  all_goals first | rfl | skip
  all_goals simp_all

/-- The audit stamp leaves the committed tables as they are. -/
theorem Set_committed (userID : UUID) (ip : String) (c : Conn) :
    (AuditContextSetter.Set pg userID ip c).2.committed = c.committed := by
  unfold AuditContextSetter.Set
  by_cases hu : userID ≠ Nil
  · rcases h1 : pg.ExecContext (Stmt.SetConfigUserID (UUID.String userID)) c with ⟨⟨n, _ | e⟩, c1⟩
    · have e1 := pg_exec_committed (Stmt.SetConfigUserID (UUID.String userID)) c
      rw [h1] at e1
      by_cases hi : ip ≠ ""
      · rcases h2 : pg.ExecContext (Stmt.SetConfigIP ip) c1 with ⟨⟨m, _ | e⟩, c2⟩
        · have e2 := pg_exec_committed (Stmt.SetConfigIP ip) c1
          rw [h2] at e2
          simp_all
        · have e2 := pg_exec_committed (Stmt.SetConfigIP ip) c1
          rw [h2] at e2
          simp_all
      · simp_all
    · have e1 := pg_exec_committed (Stmt.SetConfigUserID (UUID.String userID)) c
      rw [h1] at e1
      simp_all
  · by_cases hi : ip ≠ ""
    · rcases h2 : pg.ExecContext (Stmt.SetConfigIP ip) c with ⟨⟨m, _ | e⟩, c2⟩
      · have e2 := pg_exec_committed (Stmt.SetConfigIP ip) c
        rw [h2] at e2
        simp_all
      · have e2 := pg_exec_committed (Stmt.SetConfigIP ip) c
        rw [h2] at e2
        simp_all
    · simp_all

/-- The lock query leaves the committed tables as they are. -/
theorem Lock_committed (id : UUID) (c : Conn) :
    (TicketTxQueries.LockTicketTypeForUpdate pg id c).2.committed = c.committed := by
  unfold TicketTxQueries.LockTicketTypeForUpdate
  have e1 := pg_query_committed (Stmt.SelectTicketTypeForUpdate (UUID.String id)) c
  rcases h1 : pg.QueryRowxContext (Stmt.SelectTicketTypeForUpdate (UUID.String id)) c
    with ⟨⟨row, _ | e⟩, c1⟩
  · rw [h1] at e1
    simp only
    split <;> exact e1
  · rw [h1] at e1
    simp only
    split <;> exact e1

/-- Inside the transaction the insert leaves the committed tables as they are. -/
theorem Insert_committed (tt buyer : UUID) (date : Time) (qr amount : String) (c : Conn) :
    (TicketTxQueries.InsertPaidTicket pg tt buyer date qr amount c).2.committed = c.committed := by
  unfold TicketTxQueries.InsertPaidTicket
  have e1 := pg_query_committed
    (Stmt.InsertPaidTicket (UUID.String tt) (UUID.String buyer) date qr amount) c
  rcases h1 : pg.QueryRowxContext
    (Stmt.InsertPaidTicket (UUID.String tt) (UUID.String buyer) date qr amount) c
    with ⟨⟨row, _ | e⟩, c1⟩
  · rw [h1] at e1
    simp only
    repeat' split
    all_goals exact e1
  · rw [h1] at e1
    exact e1

/-- The purchase callback leaves the committed tables as they are. -/
theorem purchaseTx_committed (now : Time) (inp : PurchaseInput) (money : Money)
    (out : PurchaseOutput) (w : World Conn) :
    (purchaseTx (AuditContextSetter pg) (TicketTxQueries pg) now inp money out w).2.st.committed
      = w.st.committed := by
  unfold purchaseTx
  simp only [World.run, AuditContextSetter, TicketTxQueries]
  have e1 := Set_committed inp.UserID inp.IP w.st
  rcases h1 : AuditContextSetter.Set pg inp.UserID inp.IP w.st with ⟨_ | e, c1⟩
  · rw [h1] at e1
    have e2 := Lock_committed inp.TicketTypeID c1
    rcases h2 : TicketTxQueries.LockTicketTypeForUpdate pg inp.TicketTypeID c1
      with ⟨⟨a, b, _ | e⟩, c2⟩
    · rw [h2] at e2
      by_cases hs : b ≥ a
      · simp [h1, h2, hs]
        exact e2.trans e1
      · have e3 := Insert_committed inp.TicketTypeID inp.UserID now inp.QRCode
          (money.Amount.StringFixed 2) c2
        rcases h3 : TicketTxQueries.InsertPaidTicket pg inp.TicketTypeID inp.UserID now inp.QRCode
          (money.Amount.StringFixed 2) c2 with ⟨⟨id, _ | e⟩, c3⟩
        · rw [h3] at e3
          simp [h1, h2, h3, hs]
          exact e3.trans (e2.trans e1)
        · rw [h3] at e3
          simp [h1, h2, h3, hs]
          exact e3.trans (e2.trans e1)
    · rw [h2] at e2
      simp [h1, h2]
      exact e2.trans e1
  · rw [h1] at e1
    simpa [h1] using e1

/-- A transaction that ends in an error leaves the committed tables as they
were, whatever its callback did inside it. -/
theorem WithTx_atomic {κ : Type} (fn : κ → World Conn → (Option GoError × κ) × World Conn)
    (hfn : ∀ l w0, (fn l w0).2.st.committed = w0.st.committed) (locals : κ) (w : World Conn)
    (herr : (TxManager.WithTx pg fn locals w).1.1 ≠ none) :
    (TxManager.WithTx pg fn locals w).2.st.committed = w.st.committed := by
  unfold TxManager.WithTx at herr ⊢
  simp only [World.run, World.note] at herr ⊢
  have eb := pg_begin_committed w.st
  rcases hb : pg.BeginTxx w.st with ⟨_ | e, c1⟩
  · rw [hb] at eb
    simp only [hb, List.append_assoc, List.cons_append, List.nil_append] at herr ⊢
    have ef := hfn locals ⟨c1, w.calls ++ [Call.WithTx, Call.BeginTxx, Call.Callback]⟩
    rcases hf : fn locals ⟨c1, w.calls ++ [Call.WithTx, Call.BeginTxx, Call.Callback]⟩
      with ⟨⟨_ | e, l2⟩, w2⟩
    · rw [hf] at ef
      simp only [hb, hf] at herr ⊢
      have ec := pg_commit_failed_committed w2.st
      rcases hc : pg.Commit w2.st with ⟨_ | e, c3⟩
      · simp [hc] at herr
      · rw [hc] at ec
        simp only [hc]
        rw [pg_rollback_committed]
        exact (ec (by simp)).trans (ef.trans eb)
    · rw [hf] at ef
      simp only [hb, hf]
      rw [pg_rollback_committed]
      exact ef.trans eb
  · rw [hb] at eb
    simpa [hb] using eb

/-- C6. Over the store model, with the postgres transaction manager, audit
setter and ticket queries: whenever `Purchase` returns an error (validation,
failed begin, audit failure, missing ticket type, sold out, insert failure or
commit failure) the committed tables are those from before the call, so no
ticket row of the call persists and every counter is as it was. -/
theorem Purchase_atomic (now : Time) (inp : PurchaseInput) (w : World Conn)
    (herr : (Purchase pg (AuditContextSetter pg) (TicketTxQueries pg) now inp w).1.2 ≠ none) :
    (Purchase pg (AuditContextSetter pg) (TicketTxQueries pg) now inp w).2.st.committed
      = w.st.committed := by
  unfold Purchase at herr ⊢
  by_cases hU : inp.UserID = Nil
  · simp [hU]
  by_cases hT : inp.TicketTypeID = Nil
  · simp [hU, hT]
  by_cases hQ : inp.QRCode = ""
  · simp [hU, hT, hQ]
  simp only [hU, hT, hQ, if_false] at herr ⊢
  rcases hP : NewFromString inp.AmountPaid with ⟨amt, _ | e⟩
  · simp only [hP] at herr ⊢
    rcases hM : NewMoney amt with ⟨money, _ | e⟩
    · simp only [hM] at herr ⊢
      have hat := WithTx_atomic (purchaseTx (AuditContextSetter pg) (TicketTxQueries pg) now inp money)
        (purchaseTx_committed now inp money) { TicketID := Nil } w
      rcases hW : TxManager.WithTx pg
          (purchaseTx (AuditContextSetter pg) (TicketTxQueries pg) now inp money)
          { TicketID := Nil } w with ⟨⟨_ | e, out⟩, w1⟩
      · simp [hW] at herr
      · rw [hW] at hat
        simpa [hW] using hat (by simp)
    · simp [hM]
  · simp [hP]

/-- C6 at the sample store: the commit of an otherwise successful purchase
fails, and the store is as before. -/
theorem Purchase_atomic_witness :
    (Purchase pg (AuditContextSetter pg) (TicketTxQueries pg) 9 sampleInput
        (sampleWorld sampleTables commitFails)).1.2
      = some (New Code.CodeUnavailable "commit failed" (some (GoError.other "broken pipe"))) ∧
    (Purchase pg (AuditContextSetter pg) (TicketTxQueries pg) 9 sampleInput
        (sampleWorld sampleTables commitFails)).2.st.committed = sampleTables :=
  ⟨by decide,
   Purchase_atomic 9 sampleInput (sampleWorld sampleTables commitFails) (by decide)⟩

/-! ## The capacity invariant

`Purchase`, `Validate`, `ImportUsers` and `ImportEvents` keep it; `ImportTickets`
does not. -/

/-- Raising a counter changes no id. -/
theorem bumpSold_ids (id : String) (rows : List TicketTypeRow) :
    (bumpSold id rows).map (fun r => r.id) = rows.map (fun r => r.id) := by
  unfold bumpSold
  rw [List.map_map]
  apply List.map_congr_left
  intro r _
  simp only [Function.comp]
  split <;> rfl

/-- Inserting a ticket keeps the tables good when every ticket type with its id
has room left. -/
theorem insertTicket_Good (t : Tables) (row : TicketRow) (hg : t.Good)
    (hroom : ∀ r ∈ t.ticket_types, r.id = row.ticket_type_id →
      r.quantity_sold < r.quantity_total) :
    (t.insertTicket row).Good := by
  obtain ⟨hinv, huniq⟩ := hg
  refine ⟨?_, ?_⟩
  · intro r hr
    simp only [Tables.insertTicket, bumpSold, List.mem_map] at hr
    obtain ⟨r0, hr0, rfl⟩ := hr
    have h0 := hinv r0 hr0
    unfold TicketTypeRow.wellFormed at h0 ⊢
    by_cases hid : r0.id = row.ticket_type_id
    · have := hroom r0 hr0 hid
      simp only [hid, if_true]
      constructor <;> omega
    · simp only [hid, if_false]
      exact h0
  · unfold Tables.uniqueIds
    simp only [Tables.insertTicket]
    rw [bumpSold_ids]
    exact huniq

/-- A statement keeps the connection sound, provided that a statement adding a
ticket row finds room in its ticket type. -/
theorem statement_Sound (stmt : Stmt) (c : Conn) (hs : c.Sound)
    (hsafe : stmt.insertsTicket = true → c.hasRoom (match stmt with
      | Stmt.InsertPaidTicket tt _ _ _ _ => tt
      | Stmt.InsertTicket it => it.TicketTypeID
      | _ => "")) :
    (Conn.statement stmt c).2.Sound := by
  obtain ⟨hc, ht⟩ := hs
  unfold Conn.statement
  cases htx : c.tx with
  | none => exact ⟨hc, fun t h => by simp [htx] at h⟩
  | some t =>
    obtain ⟨hgt, hsp⟩ := ht t htx
    simp only
    split
    · refine ⟨hc, fun t2 h => ?_⟩
      simp only [htx, Option.some.injEq] at h
      subst h
      exact ⟨hgt, hsp⟩
    · split
      · refine ⟨hc, fun t2 h => ?_⟩
        simp only [Option.some.injEq] at h
        subst h
        exact ⟨hgt, hsp⟩
      · refine ⟨hc, fun t2 h => ?_⟩
        simp only [Option.some.injEq] at h
        subst h
        cases stmt with
        | SetConfigUserID v => exact ⟨hgt, hsp⟩
        | SetConfigIP v => exact ⟨hgt, hsp⟩
        | SelectTicketTypeForUpdate id =>
          simp only [TxState.apply]
          split <;> exact ⟨hgt, hsp⟩
        | InsertPaidTicket tt buyer date qr amount =>
          refine ⟨insertTicket_Good _ _ hgt ?_, hsp⟩
          exact hsafe rfl t htx
        | UpdateTicketUsed usedAt id => exact ⟨hgt, hsp⟩
        | Savepoint =>
          refine ⟨hgt, fun sp h => ?_⟩
          simp only [TxState.apply, List.mem_cons] at h
          rcases h with h | h
          · rw [h]; exact hgt
          · exact hsp sp h
        | RollbackToSavepoint =>
          simp only [TxState.apply]
          cases hsv : t.savepoints with
          | nil => exact ⟨hgt, fun sp h => by simp [hsv] at h⟩
          | cons sp rest =>
            refine ⟨hsp sp (by simp [hsv]), fun sp2 h => hsp sp2 (by simpa [hsv] using h)⟩
        | ReleaseSavepoint =>
          simp only [TxState.apply]
          cases hsv : t.savepoints with
          | nil => exact ⟨hgt, fun sp h => by simp [hsv] at h⟩
          | cons sp rest =>
            refine ⟨hgt, fun sp2 h => hsp sp2 (by simp [hsv]; exact Or.inr h)⟩
        | InsertUser it => exact ⟨hgt, hsp⟩
        | InsertEvent it => exact ⟨hgt, hsp⟩
        | InsertTicket it =>
          refine ⟨insertTicket_Good _ _ hgt ?_, hsp⟩
          exact hsafe rfl t htx

/-- Beginning a transaction keeps the connection sound. -/
theorem pg_begin_Sound (c : Conn) (hs : c.Sound) : (pg.BeginTxx c).2.Sound := by
  obtain ⟨hc, ht⟩ := hs
  simp only [pg]
  split
  · exact ⟨hc, ht⟩
  · refine ⟨hc, fun t h => ?_⟩
    simp only [Option.some.injEq] at h
    subst h
    exact ⟨hc, fun sp h => by simp at h⟩

/-- A commit keeps the connection sound. -/
theorem pg_commit_Sound (c : Conn) (hs : c.Sound) : (pg.Commit c).2.Sound := by
  obtain ⟨hc, ht⟩ := hs
  simp only [pg]
  cases htx : c.tx with
  | none => exact ⟨hc, fun t h => by simp [htx] at h⟩
  | some t =>
    simp only
    split
    · exact ⟨hc, fun t h => by simp at h⟩
    · split
      · exact ⟨hc, fun t h => by simp at h⟩
      · exact ⟨(ht t htx).1, fun t h => by simp at h⟩

/-- A rollback keeps the connection sound. -/
theorem pg_rollback_Sound (c : Conn) (hs : c.Sound) : (pg.Rollback c).2.Sound := by
  obtain ⟨hc, ht⟩ := hs
  simp only [pg]
  cases htx : c.tx with
  | none => exact ⟨hc, fun t h => by simp [htx] at h⟩
  | some t => exact ⟨hc, fun t h => by simp at h⟩

/-- A lock query that returns `sold < total` leaves a transaction that sees
room in that ticket type. -/
theorem select_hasRoom (id : String) (c : Conn) (hs : c.Sound) (a b : Int)
    (hres : (pg.QueryRowxContext (Stmt.SelectTicketTypeForUpdate id) c).1
      = ([Value.int a, Value.int b], none))
    (hlt : b < a) :
    (pg.QueryRowxContext (Stmt.SelectTicketTypeForUpdate id) c).2.hasRoom id := by
  obtain ⟨_, ht⟩ := hs
  simp only [pg, Conn.statement] at hres ⊢
  cases htx : c.tx with
  | none => simp [htx] at hres
  | some t =>
    simp only [htx] at hres ⊢
    have haborted : ¬ (t.aborted = true ∧ Stmt.SelectTicketTypeForUpdate id ≠ Stmt.RollbackToSavepoint) := by
      intro h
      simp [h] at hres
    simp only [haborted, if_false] at hres ⊢
    cases hscript : c.script.head? with
    | none =>
      simp only [hscript, TxState.apply] at hres ⊢
      cases hfind : t.tables.ticket_types.find? (fun r => decide (r.id = id)) with
      | none => simp [hfind] at hres
      | some r =>
        simp only [hfind, Prod.mk.injEq, List.cons.injEq, Value.int.injEq, and_true] at hres
        intro t2 h2 r2 hr2 hid2
        simp only [Option.some.injEq] at h2
        subst h2
        have hrmem := List.mem_of_find?_eq_some hfind
        have hrid : r.id = id := by simpa using List.find?_some hfind
        have := List.inj_on_of_nodup_map (ht t htx).1.2 hr2 hrmem (hid2.trans hrid.symm)
        rw [this]
        omega
    | some o =>
      cases o with
      | some msg => simp [hscript] at hres
      | none =>
        simp only [hscript, TxState.apply] at hres ⊢
        cases hfind : t.tables.ticket_types.find? (fun r => decide (r.id = id)) with
        | none => simp [hfind] at hres
        | some r =>
          simp only [hfind, Prod.mk.injEq, List.cons.injEq, Value.int.injEq, and_true] at hres
          intro t2 h2 r2 hr2 hid2
          simp only [Option.some.injEq] at h2
          subst h2
          have hrmem := List.mem_of_find?_eq_some hfind
          have hrid : r.id = id := by simpa using List.find?_some hfind
          have := List.inj_on_of_nodup_map (ht t htx).1.2 hr2 hrmem (hid2.trans hrid.symm)
          rw [this]
          omega

/-- The driver call `ExecContext` keeps the connection sound on a statement that adds no
ticket row. -/
theorem pg_exec_Sound (stmt : Stmt) (c : Conn) (hs : c.Sound)
    (hsafe : stmt.insertsTicket = false) : (pg.ExecContext stmt c).2.Sound :=
  statement_Sound stmt c hs (fun h => by rw [hsafe] at h; exact absurd h (by simp))

/-- The driver call `QueryRowxContext` keeps the connection sound on a statement that
adds no ticket row. -/
theorem pg_query_Sound (stmt : Stmt) (c : Conn) (hs : c.Sound)
    (hsafe : stmt.insertsTicket = false) : (pg.QueryRowxContext stmt c).2.Sound :=
  statement_Sound stmt c hs (fun h => by rw [hsafe] at h; exact absurd h (by simp))

/-- The audit stamp keeps the connection sound. -/
theorem Set_Sound (userID : UUID) (ip : String) (c : Conn) (hs : c.Sound) :
    (AuditContextSetter.Set pg userID ip c).2.Sound := by
  unfold AuditContextSetter.Set
  have e1 := pg_exec_Sound (Stmt.SetConfigUserID (UUID.String userID)) c hs rfl
  have e2 := fun c1 (h : Conn.Sound c1) => pg_exec_Sound (Stmt.SetConfigIP ip) c1 h rfl
  by_cases hu : userID ≠ Nil
  · rcases h1 : pg.ExecContext (Stmt.SetConfigUserID (UUID.String userID)) c with ⟨⟨n, _ | e⟩, c1⟩
    · rw [h1] at e1
      by_cases hi : ip ≠ ""
      · have e3 := e2 c1 e1
        rcases h2 : pg.ExecContext (Stmt.SetConfigIP ip) c1 with ⟨⟨m, _ | e⟩, c2⟩
        · rw [h2] at e3; simp_all
        · rw [h2] at e3; simp_all
      · simp_all
    · rw [h1] at e1
      simp_all
  · by_cases hi : ip ≠ ""
    · have e3 := e2 c hs
      rcases h2 : pg.ExecContext (Stmt.SetConfigIP ip) c with ⟨⟨m, _ | e⟩, c2⟩
      · rw [h2] at e3; simp_all
      · rw [h2] at e3; simp_all
    · simp_all

/-- The lock keeps the connection sound, and when it reports `sold < total`
the transaction sees room in the ticket type. -/
theorem Lock_Sound (id : UUID) (c : Conn) (hs : c.Sound) :
    (TicketTxQueries.LockTicketTypeForUpdate pg id c).2.Sound ∧
    ∀ a b, (TicketTxQueries.LockTicketTypeForUpdate pg id c).1 = (a, b, none) → b < a →
      (TicketTxQueries.LockTicketTypeForUpdate pg id c).2.hasRoom (UUID.String id) := by
  unfold TicketTxQueries.LockTicketTypeForUpdate
  have e1 := pg_query_Sound (Stmt.SelectTicketTypeForUpdate (UUID.String id)) c hs rfl
  have e2 := select_hasRoom (UUID.String id) c hs
  rcases h1 : pg.QueryRowxContext (Stmt.SelectTicketTypeForUpdate (UUID.String id)) c
    with ⟨⟨row, _ | e⟩, c1⟩
  · rw [h1] at e1 e2
    simp only
    cases hscan : scanTwoInts row with
    | none => exact ⟨e1, fun a b h => by simp at h⟩
    | some p =>
      obtain ⟨x, y⟩ := p
      refine ⟨e1, fun a b h hlt => ?_⟩
      simp only [Prod.mk.injEq, and_true] at h
      obtain ⟨hx, hy⟩ := h
      subst hx hy
      have hrow : row = [Value.int x, Value.int y] := by
        unfold scanTwoInts at hscan
        split at hscan
        · simp only [Option.some.injEq, Prod.mk.injEq] at hscan
          obtain ⟨h1, h2⟩ := hscan
          subst h1 h2
          rfl
        · simp at hscan
      exact e2 x y (by simp [hrow]) hlt
  · rw [h1] at e1
    simp only
    split <;> exact ⟨e1, fun a b h => by simp at h⟩

/-- The insert of a paid ticket keeps the connection sound when the
transaction sees room in the ticket type. -/
theorem Insert_Sound (tt buyer : UUID) (date : Time) (qr amount : String) (c : Conn)
    (hs : c.Sound) (hroom : c.hasRoom (UUID.String tt)) :
    (TicketTxQueries.InsertPaidTicket pg tt buyer date qr amount c).2.Sound := by
  unfold TicketTxQueries.InsertPaidTicket
  have e1 : (pg.QueryRowxContext
      (Stmt.InsertPaidTicket (UUID.String tt) (UUID.String buyer) date qr amount) c).2.Sound :=
    statement_Sound _ c hs (fun _ => hroom)
  rcases h1 : pg.QueryRowxContext
    (Stmt.InsertPaidTicket (UUID.String tt) (UUID.String buyer) date qr amount) c
    with ⟨⟨row, _ | e⟩, c1⟩
  · rw [h1] at e1
    simp only
    repeat' split
    all_goals exact e1
  · rw [h1] at e1
    exact e1

/-- Marking a ticket used keeps the connection sound. -/
theorem Mark_Sound (id : UUID) (usedAt : Time) (c : Conn) (hs : c.Sound) :
    (TicketTxQueries.MarkTicketUsed pg id usedAt c).2.Sound := by
  unfold TicketTxQueries.MarkTicketUsed
  have e1 := pg_exec_Sound (Stmt.UpdateTicketUsed usedAt (UUID.String id)) c hs rfl
  rcases h1 : pg.ExecContext (Stmt.UpdateTicketUsed usedAt (UUID.String id)) c
    with ⟨⟨n, _ | e⟩, c1⟩
  · rw [h1] at e1; exact e1
  · rw [h1] at e1; exact e1

/-- The purchase callback keeps the connection sound: it inserts only after
the lock has reported room. -/
theorem purchaseTx_Sound (now : Time) (inp : PurchaseInput) (money : Money)
    (out : PurchaseOutput) (w : World Conn) (hs : w.st.Sound) :
    (purchaseTx (AuditContextSetter pg) (TicketTxQueries pg) now inp money out w).2.st.Sound := by
  unfold purchaseTx
  simp only [World.run, AuditContextSetter, TicketTxQueries]
  have e1 := Set_Sound inp.UserID inp.IP w.st hs
  rcases h1 : AuditContextSetter.Set pg inp.UserID inp.IP w.st with ⟨_ | e, c1⟩
  · rw [h1] at e1
    have e2 := Lock_Sound inp.TicketTypeID c1 e1
    rcases h2 : TicketTxQueries.LockTicketTypeForUpdate pg inp.TicketTypeID c1
      with ⟨⟨a, b, _ | e⟩, c2⟩
    · rw [h2] at e2
      by_cases hsold : b ≥ a
      · simp [h1, h2, hsold]
        exact e2.1
      · have e3 := Insert_Sound inp.TicketTypeID inp.UserID now inp.QRCode
          (money.Amount.StringFixed 2) c2 e2.1 (e2.2 a b rfl (by omega))
        rcases h3 : TicketTxQueries.InsertPaidTicket pg inp.TicketTypeID inp.UserID now inp.QRCode
          (money.Amount.StringFixed 2) c2 with ⟨⟨id, _ | e⟩, c3⟩
        · rw [h3] at e3
          simp [h1, h2, h3, hsold]
          exact e3
        · rw [h3] at e3
          simp [h1, h2, h3, hsold]
          exact e3
    · rw [h2] at e2
      simp [h1, h2]
      exact e2.1
  · rw [h1] at e1
    simpa [h1] using e1

/-- The validate callback keeps the connection sound. -/
theorem validateTx_Sound (now : Time) (inp : ValidateInput) (u : Unit) (w : World Conn)
    (hs : w.st.Sound) :
    (validateTx (AuditContextSetter pg) (TicketTxQueries pg) now inp u w).2.st.Sound := by
  unfold validateTx
  simp only [World.run, AuditContextSetter, TicketTxQueries]
  have e1 := Set_Sound inp.UserID inp.IP w.st hs
  rcases h1 : AuditContextSetter.Set pg inp.UserID inp.IP w.st with ⟨_ | e, c1⟩
  · rw [h1] at e1
    have e2 := Mark_Sound inp.TicketID now c1 e1
    rcases h2 : TicketTxQueries.MarkTicketUsed pg inp.TicketID now c1 with ⟨⟨ok, _ | e⟩, c2⟩
    · rw [h2] at e2
      cases ok <;> simpa [h1, h2] using e2
    · rw [h2] at e2
      simpa [h1, h2] using e2
  · rw [h1] at e1
    simpa [h1] using e1

/-- A transaction keeps the connection sound when its callback does. -/
theorem WithTx_Sound {κ : Type} (fn : κ → World Conn → (Option GoError × κ) × World Conn)
    (hfn : ∀ l w0, w0.st.Sound → (fn l w0).2.st.Sound) (locals : κ) (w : World Conn)
    (hs : w.st.Sound) : (TxManager.WithTx pg fn locals w).2.st.Sound := by
  unfold TxManager.WithTx
  simp only [World.run, World.note]
  have eb := pg_begin_Sound w.st hs
  rcases hb : pg.BeginTxx w.st with ⟨_ | e, c1⟩
  · rw [hb] at eb
    simp only [hb, List.append_assoc, List.cons_append, List.nil_append]
    have ef := hfn locals ⟨c1, w.calls ++ [Call.WithTx, Call.BeginTxx, Call.Callback]⟩ eb
    rcases hf : fn locals ⟨c1, w.calls ++ [Call.WithTx, Call.BeginTxx, Call.Callback]⟩
      with ⟨⟨_ | e, l2⟩, w2⟩
    · rw [hf] at ef
      simp only [hf]
      have ec := pg_commit_Sound w2.st ef
      rcases hc : pg.Commit w2.st with ⟨_ | e, c3⟩
      · rw [hc] at ec
        simp only [hc]
        exact pg_rollback_Sound _ ec
      · rw [hc] at ec
        simp only [hc]
        exact pg_rollback_Sound _ ec
    · rw [hf] at ef
      simp only [hf]
      exact pg_rollback_Sound _ ef
  · rw [hb] at eb
    simpa [hb] using eb

/-- `Purchase` keeps the capacity invariant: from a sound connection it
reaches a sound connection, whatever fails on the way. -/
theorem Purchase_Sound (now : Time) (inp : PurchaseInput) (w : World Conn) (hs : w.st.Sound) :
    (Purchase pg (AuditContextSetter pg) (TicketTxQueries pg) now inp w).2.st.Sound := by
  unfold Purchase
  by_cases hU : inp.UserID = Nil
  · simpa [hU] using hs
  by_cases hT : inp.TicketTypeID = Nil
  · simpa [hU, hT] using hs
  by_cases hQ : inp.QRCode = ""
  · simpa [hU, hT, hQ] using hs
  simp only [hU, hT, hQ, if_false]
  rcases hP : NewFromString inp.AmountPaid with ⟨amt, _ | e⟩
  · simp only
    rcases hM : NewMoney amt with ⟨money, _ | e⟩
    · simp only
      have hw := WithTx_Sound (purchaseTx (AuditContextSetter pg) (TicketTxQueries pg) now inp money)
        (purchaseTx_Sound now inp money) { TicketID := Nil } w hs
      rcases hW : TxManager.WithTx pg
          (purchaseTx (AuditContextSetter pg) (TicketTxQueries pg) now inp money)
          { TicketID := Nil } w with ⟨⟨_ | e, out⟩, w1⟩
      · rw [hW] at hw; exact hw
      · rw [hW] at hw; exact hw
    · exact hs
  · exact hs

/-- `Validate` keeps the capacity invariant. -/
theorem Validate_Sound (now : Time) (inp : ValidateInput) (w : World Conn) (hs : w.st.Sound) :
    (Validate pg (AuditContextSetter pg) (TicketTxQueries pg) now inp w).2.st.Sound := by
  unfold Validate
  by_cases hU : inp.UserID = Nil
  · simpa [hU] using hs
  by_cases hT : inp.TicketID = Nil
  · simpa [hU, hT] using hs
  simp only [hU, hT, if_false]
  exact WithTx_Sound (validateTx (AuditContextSetter pg) (TicketTxQueries pg) now inp)
    (validateTx_Sound now inp) () w hs

/-- The loop of `ImportUsers` keeps the connection sound. -/
theorem importUsersFrom_Sound (continueOnError : Bool) (items : List ImportUsersItem) :
    ∀ (i : Nat) (res : Result) (c : Conn), c.Sound →
      (BatchImporter.importUsersFrom pg continueOnError items i res c).2.Sound := by
  induction items with
  | nil => intro i res c hs; exact hs
  | cons it rest ih =>
    intro i res c hs
    unfold BatchImporter.importUsersFrom
    have e1 := pg_exec_Sound Stmt.Savepoint c hs rfl
    rcases h1 : pg.ExecContext Stmt.Savepoint c with ⟨⟨n1, _ | err1⟩, c1⟩
    · rw [h1] at e1
      simp only
      have e2 := pg_exec_Sound (Stmt.InsertUser it) c1 e1 rfl
      rcases h2 : pg.ExecContext (Stmt.InsertUser it) c1 with ⟨⟨n2, _ | err2⟩, c2⟩
      · rw [h2] at e2
        simp only
        exact ih _ _ _ (pg_exec_Sound Stmt.ReleaseSavepoint c2 e2 rfl)
      · rw [h2] at e2
        have e4 := pg_exec_Sound Stmt.ReleaseSavepoint _
          (pg_exec_Sound Stmt.RollbackToSavepoint c2 e2 rfl) rfl
        simp only
        split
        · exact e4
        · exact ih _ _ _ e4
    · rw [h1] at e1
      exact e1

/-- The loop of `ImportEvents` keeps the connection sound. -/
theorem importEventsFrom_Sound (continueOnError : Bool) (items : List ImportEventsItem) :
    ∀ (i : Nat) (res : Result) (c : Conn), c.Sound →
      (BatchImporter.importEventsFrom pg continueOnError items i res c).2.Sound := by
  induction items with
  | nil => intro i res c hs; exact hs
  | cons it rest ih =>
    intro i res c hs
    unfold BatchImporter.importEventsFrom
    have e1 := pg_exec_Sound Stmt.Savepoint c hs rfl
    rcases h1 : pg.ExecContext Stmt.Savepoint c with ⟨⟨n1, _ | err1⟩, c1⟩
    · rw [h1] at e1
      simp only
      have e2 := pg_exec_Sound (Stmt.InsertEvent it) c1 e1 rfl
      rcases h2 : pg.ExecContext (Stmt.InsertEvent it) c1 with ⟨⟨n2, _ | err2⟩, c2⟩
      · rw [h2] at e2
        simp only
        exact ih _ _ _ (pg_exec_Sound Stmt.ReleaseSavepoint c2 e2 rfl)
      · rw [h2] at e2
        have e4 := pg_exec_Sound Stmt.ReleaseSavepoint _
          (pg_exec_Sound Stmt.RollbackToSavepoint c2 e2 rfl) rfl
        simp only
        split
        · exact e4
        · exact ih _ _ _ e4
    · rw [h1] at e1
      exact e1

/-- The use case `ImportUsers` keeps the capacity invariant. -/
theorem ImportUsers_Sound (inp : ImportUsersInput) (w : World Conn) (hs : w.st.Sound) :
    (UseCase.ImportUsers pg (AuditContextSetter pg) (BatchImporter pg) inp w).2.st.Sound := by
  unfold UseCase.ImportUsers
  refine WithTx_Sound _ ?_ Result.zero w hs
  intro res w0 h0
  simp only [World.run, AuditContextSetter, BatchImporter]
  have e1 := Set_Sound inp.UserID inp.IP w0.st h0
  rcases h1 : AuditContextSetter.Set pg inp.UserID inp.IP w0.st with ⟨_ | e, c1⟩
  · rw [h1] at e1
    simp only
    exact importUsersFrom_Sound _ _ _ _ _ e1
  · rw [h1] at e1
    exact e1

/-- The use case `ImportEvents` keeps the capacity invariant. -/
theorem ImportEvents_Sound (inp : ImportEventsInput) (w : World Conn) (hs : w.st.Sound) :
    (UseCase.ImportEvents pg (AuditContextSetter pg) (BatchImporter pg) inp w).2.st.Sound := by
  unfold UseCase.ImportEvents
  refine WithTx_Sound _ ?_ Result.zero w hs
  intro res w0 h0
  simp only [World.run, AuditContextSetter, BatchImporter]
  have e1 := Set_Sound inp.UserID inp.IP w0.st h0
  rcases h1 : AuditContextSetter.Set pg inp.UserID inp.IP w0.st with ⟨_ | e, c1⟩
  · rw [h1] at e1
    simp only
    exact importEventsFrom_Sound _ _ _ _ _ e1
  · rw [h1] at e1
    exact e1

/-- C2, the code at the failing input: the store holds one ticket type of
capacity one whose ticket is sold, so the invariant holds; `ImportTickets`
with one row for that type succeeds and commits, and afterwards
`quantity_sold` is 2 against a `quantity_total` of 1. -/
theorem ImportTickets_oversells :
    soldOutTables.Inv ∧
    (UseCase.ImportTickets pg (AuditContextSetter pg) (BatchImporter pg) sampleImport
        (sampleWorld soldOutTables [])).1
      = ({ Total := 1, Success := 1, Failed := 0, Errors := [] }, none) ∧
    (UseCase.ImportTickets pg (AuditContextSetter pg) (BatchImporter pg) sampleImport
        (sampleWorld soldOutTables [])).2.st.committed.ticket_types
      = [{ id := "7", quantity_total := 1, quantity_sold := 2 }] ∧
    ¬ (UseCase.ImportTickets pg (AuditContextSetter pg) (BatchImporter pg) sampleImport
        (sampleWorld soldOutTables [])).2.st.committed.Inv := by
  refine ⟨by decide, by decide, by decide, by decide⟩

/-! ## The end of a transaction -/

/-- The transaction manager always closes what it opened on the store. -/
theorem pg_rollback_closes (c : Conn) : (pg.Rollback c).2.tx = none := by
  simp only [pg]
  cases h : c.tx <;> simp [h]

/-- C11. After a successful begin, whatever the callback returned: `WithTx`
ends with `Commit` then `Rollback` when the callback returned nil and with
`Rollback` alone when it returned an error, so `Commit` is called at most once
and only after a nil result, and `Rollback` is invoked on every path. On the
store no transaction is left open afterwards, and after a callback error the
committed tables are those the callback left: nothing is committed. -/
theorem WithTx_terminates {σ κ : Type} (db : SqlDB σ)
    (fn : κ → World σ → (Option GoError × κ) × World σ) (locals : κ) (w : World σ)
    (s1 : σ) (r : Option GoError) (l2 : κ) (w2 : World σ)
    (hbegin : db.BeginTxx w.st = (none, s1))
    (hfn : fn locals { st := s1, calls := w.calls ++ [Call.WithTx, Call.BeginTxx, Call.Callback] }
      = ((r, l2), w2)) :
    (TxManager.WithTx db fn locals w).2.calls
      = w2.calls ++ (if r = none then [Call.Commit, Call.Rollback] else [Call.Rollback]) ∧
    (∀ (fnc : κ → World Conn → (Option GoError × κ) × World Conn) (wc : World Conn),
      (pg.BeginTxx wc.st).1 = none →
      (TxManager.WithTx pg fnc locals wc).2.st.tx = none ∧
      (∀ e, (fnc locals ⟨(pg.BeginTxx wc.st).2,
              wc.calls ++ [Call.WithTx, Call.BeginTxx, Call.Callback]⟩).1.1 = some e →
        (TxManager.WithTx pg fnc locals wc).2.st.committed
          = (fnc locals ⟨(pg.BeginTxx wc.st).2,
              wc.calls ++ [Call.WithTx, Call.BeginTxx, Call.Callback]⟩).2.st.committed)) := by
  refine ⟨?_, ?_⟩
  · cases r with
    | some e => simp [TxManager.WithTx, World.note, World.run, hbegin, hfn]
    | none =>
      rcases hc : db.Commit w2.st with ⟨_ | e, s3⟩
      · simp [TxManager.WithTx, World.note, World.run, hbegin, hfn, hc]
      · simp [TxManager.WithTx, World.note, World.run, hbegin, hfn, hc]
  · intro fnc wc hb
    rcases hbc : pg.BeginTxx wc.st with ⟨b, c1⟩
    rw [hbc] at hb
    simp only at hb
    subst hb
    rcases hf : fnc locals { st := c1, calls := wc.calls ++ [Call.WithTx, Call.BeginTxx, Call.Callback] }
      with ⟨⟨_ | e, l3⟩, w3⟩
    · refine ⟨?_, fun e he => by simp at he⟩
      rcases hc : pg.Commit w3.st with ⟨_ | e, s3⟩
      · simp [TxManager.WithTx, World.note, World.run, hbc, hf, hc, pg_rollback_closes]
      · simp [TxManager.WithTx, World.note, World.run, hbc, hf, hc, pg_rollback_closes]
    · refine ⟨?_, fun e2 _ => ?_⟩
      · simp [TxManager.WithTx, World.note, World.run, hbc, hf, pg_rollback_closes]
      · simp [TxManager.WithTx, World.note, World.run, hbc, hf, pg_rollback_committed]

/-- C11 at the sample store: a failing callback ends in a rollback alone, a
passing one in a commit and the deferred rollback, and no transaction stays
open. -/
theorem WithTx_terminates_witness :
    (TxManager.WithTx pg failingCallback () (sampleWorld sampleTables [])).2.calls
        = [Call.WithTx, Call.BeginTxx, Call.Callback, Call.Rollback] ∧
    (TxManager.WithTx pg passingCallback () (sampleWorld sampleTables [])).2.calls
        = [Call.WithTx, Call.BeginTxx, Call.Callback, Call.Commit, Call.Rollback] ∧
    (TxManager.WithTx pg failingCallback () (sampleWorld sampleTables [])).2.st.tx = none ∧
    (TxManager.WithTx pg failingCallback () (sampleWorld sampleTables [])).2.st.committed
        = sampleTables :=
  ⟨(WithTx_terminates pg failingCallback () (sampleWorld sampleTables []) _ _ _ _ rfl rfl).1,
   (WithTx_terminates pg passingCallback () (sampleWorld sampleTables []) _ _ _ _ rfl rfl).1,
   ((WithTx_terminates pg failingCallback () (sampleWorld sampleTables []) _ _ _ _ rfl rfl).2
      failingCallback (sampleWorld sampleTables []) rfl).1,
   ((WithTx_terminates pg failingCallback () (sampleWorld sampleTables []) _ _ _ _ rfl rfl).2
      failingCallback (sampleWorld sampleTables []) rfl).2 _ rfl⟩

/-! ## Validate -/

/-- An input with both ids reaches the transaction. -/
theorem Validate_of_valid {σ : Type} (db : SqlDB σ) (audit : Setter σ) (q : Queries σ)
    (now : Time) (inp : ValidateInput) (w : World σ)
    (hU : inp.UserID ≠ Nil) (hT : inp.TicketID ≠ Nil) :
    Validate db audit q now inp w
      = ((TxManager.WithTx db (validateTx audit q now inp) () w).1.1,
         (TxManager.WithTx db (validateTx audit q now inp) () w).2) := by
  simp [Validate, hU, hT]

/-- C15. For an input with non-nil ids whose transaction begins and whose audit
stamp succeeds: when `MarkTicketUsed` returns false, `Validate` returns the
`NotFound` error and ends with `Rollback` alone (no `Commit`); when it returns
true, `Commit` is called, and if it succeeds `Validate` returns nil. -/
theorem Validate_outcome {σ : Type} (db : SqlDB σ) (audit : Setter σ) (q : Queries σ)
    (now : Time) (inp : ValidateInput) (w : World σ) (s1 s2 s3 : σ) (ok : Bool)
    (hU : inp.UserID ≠ Nil) (hT : inp.TicketID ≠ Nil)
    (hBegin : db.BeginTxx w.st = (none, s1))
    (hAudit : audit.Set inp.UserID inp.IP s1 = (none, s2))
    (hMark : q.MarkTicketUsed inp.TicketID now s2 = ((ok, none), s3)) :
    (ok = false →
      (Validate db audit q now inp w).1
        = some (New Code.CodeNotFound "ticket not found or invalid state" none) ∧
      (Validate db audit q now inp w).2.calls
        = w.calls ++ [Call.WithTx, Call.BeginTxx, Call.Callback, Call.Set inp.UserID inp.IP,
            Call.MarkTicketUsed inp.TicketID now, Call.Rollback]) ∧
    (ok = true →
      (Validate db audit q now inp w).2.calls
        = w.calls ++ [Call.WithTx, Call.BeginTxx, Call.Callback, Call.Set inp.UserID inp.IP,
            Call.MarkTicketUsed inp.TicketID now, Call.Commit, Call.Rollback] ∧
      ((db.Commit s3).1 = none → (Validate db audit q now inp w).1 = none)) := by
  rw [Validate_of_valid db audit q now inp w hU hT]
  refine ⟨?_, ?_⟩
  · intro hok
    subst hok
    simp [TxManager.WithTx, validateTx, World.note, World.run, hBegin, hAudit, hMark]
  · intro hok
    subst hok
    rcases hc : db.Commit s3 with ⟨_ | e, s4⟩
    · simp [TxManager.WithTx, validateTx, World.note, World.run, hBegin, hAudit, hMark, hc]
    · simp [TxManager.WithTx, validateTx, World.note, World.run, hBegin, hAudit, hMark, hc]

/-- C15 at the sample store: ticket 50 is paid and gets validated; ticket 51
does not exist. -/
theorem Validate_outcome_witness :
    (Validate pg (AuditContextSetter pg) (TicketTxQueries pg) 9
        { UserID := 3, IP := "10.0.0.1", TicketID := 51 } (sampleWorld soldOutTables [])).1
      = some (New Code.CodeNotFound "ticket not found or invalid state" none) ∧
    (Validate pg (AuditContextSetter pg) (TicketTxQueries pg) 9
        { UserID := 3, IP := "10.0.0.1", TicketID := 50 } (sampleWorld soldOutTables [])).1
      = none :=
  ⟨((Validate_outcome pg (AuditContextSetter pg) (TicketTxQueries pg) 9
      { UserID := 3, IP := "10.0.0.1", TicketID := 51 } (sampleWorld soldOutTables [])
      _ _ _ false (by decide) (by decide) rfl rfl rfl).1 rfl).1,
   ((Validate_outcome pg (AuditContextSetter pg) (TicketTxQueries pg) 9
      { UserID := 3, IP := "10.0.0.1", TicketID := 50 } (sampleWorld soldOutTables [])
      _ _ _ true (by decide) (by decide) rfl rfl rfl).2 rfl).2 rfl⟩

/-- C16. With a nil actor id or a nil ticket id `Validate` returns a
`Validation` error and makes no call at all: no `WithTx`, no `Set`, no
`MarkTicketUsed`, and the connection is untouched. -/
theorem Validate_validation {σ : Type} (db : SqlDB σ) (audit : Setter σ) (q : Queries σ)
    (now : Time) (inp : ValidateInput) (w : World σ)
    (h : inp.UserID = Nil ∨ inp.TicketID = Nil) :
    (∃ msg, (Validate db audit q now inp w).1
        = some (GoError.app Code.CodeValidation msg none)) ∧
    (Validate db audit q now inp w).2 = w := by
  by_cases hU : inp.UserID = Nil
  · simp [Validate, hU, New]
  · have hT : inp.TicketID = Nil := h.resolve_left hU
    simp [Validate, hU, hT, New]

/-- C16 at a sample input with a nil ticket id. -/
theorem Validate_validation_witness :
    (∃ msg, (Validate pg (AuditContextSetter pg) (TicketTxQueries pg) 9
        { UserID := 3, IP := "10.0.0.1", TicketID := Nil } (sampleWorld soldOutTables [])).1
        = some (GoError.app Code.CodeValidation msg none)) ∧
    (Validate pg (AuditContextSetter pg) (TicketTxQueries pg) 9
        { UserID := 3, IP := "10.0.0.1", TicketID := Nil } (sampleWorld soldOutTables [])).2
      = sampleWorld soldOutTables [] :=
  Validate_validation pg (AuditContextSetter pg) (TicketTxQueries pg) 9
    { UserID := 3, IP := "10.0.0.1", TicketID := Nil } (sampleWorld soldOutTables [])
    (Or.inr rfl)

/-! ## The audit stamp comes first -/

/-- A transaction whose callback starts with the stamp, and stops there when
the stamp fails, makes its calls in the order `StampFirst` describes. -/
theorem WithTx_StampFirst {σ κ : Type} (db : SqlDB σ) (audit : Setter σ) (u : UUID)
    (ip : String) (fn : κ → World σ → (Option GoError × κ) × World σ) (locals : κ)
    (w : World σ)
    (hfn : ∀ l (w0 : World σ), ∃ more,
      (fn l w0).2.calls = w0.calls ++ Call.Set u ip :: more ∧
      ((audit.Set u ip w0.st).1.isSome = true →
        more = [] ∧ (fn l w0).1.1.isSome = true)) :
    ∃ L, (TxManager.WithTx db fn locals w).2.calls = w.calls ++ L ∧
      StampFirst u ip (audit.Set u ip (db.BeginTxx w.st).2).1.isSome L := by
  rcases hb : db.BeginTxx w.st with ⟨_ | e, s1⟩
  · obtain ⟨more, hcalls, hfail⟩ :=
      hfn locals ⟨s1, w.calls ++ [Call.WithTx, Call.BeginTxx, Call.Callback]⟩
    rcases hf : fn locals ⟨s1, w.calls ++ [Call.WithTx, Call.BeginTxx, Call.Callback]⟩
      with ⟨⟨_ | e, l2⟩, w2⟩
    · rw [hf] at hcalls hfail
      simp only at hcalls hfail
      rcases hc : db.Commit w2.st with ⟨_ | e, s3⟩
      · refine ⟨[Call.WithTx, Call.BeginTxx, Call.Callback, Call.Set u ip] ++
          (more ++ [Call.Commit, Call.Rollback]), ?_, Or.inr (Or.inr ⟨_, rfl, ?_⟩)⟩
        · simp [TxManager.WithTx, World.note, World.run, hb, hf, hc, hcalls]
        · intro h
          have := (hfail h).2
          simp at this
      · refine ⟨[Call.WithTx, Call.BeginTxx, Call.Callback, Call.Set u ip] ++
          (more ++ [Call.Commit, Call.Rollback]), ?_, Or.inr (Or.inr ⟨_, rfl, ?_⟩)⟩
        · simp [TxManager.WithTx, World.note, World.run, hb, hf, hc, hcalls]
        · intro h
          have := (hfail h).2
          simp at this
    · rw [hf] at hcalls hfail
      simp only at hcalls hfail
      refine ⟨[Call.WithTx, Call.BeginTxx, Call.Callback, Call.Set u ip] ++
        (more ++ [Call.Rollback]), ?_, Or.inr (Or.inr ⟨_, rfl, ?_⟩)⟩
      · simp [TxManager.WithTx, World.note, World.run, hb, hf, hcalls]
      · intro h
        rw [(hfail h).1]
        rfl
  · exact ⟨[Call.WithTx, Call.BeginTxx], by
      simp [TxManager.WithTx, World.note, World.run, hb], Or.inr (Or.inl rfl)⟩

/-- The purchase callback starts with the stamp and stops when it fails. -/
theorem purchaseTx_stamp {σ : Type} (audit : Setter σ) (q : Queries σ) (now : Time)
    (inp : PurchaseInput) (money : Money) (out : PurchaseOutput) (w : World σ) :
    ∃ more, (purchaseTx audit q now inp money out w).2.calls
        = w.calls ++ Call.Set inp.UserID inp.IP :: more ∧
      ((audit.Set inp.UserID inp.IP w.st).1.isSome = true →
        more = [] ∧ (purchaseTx audit q now inp money out w).1.1.isSome = true) := by
  unfold purchaseTx
  simp only [World.run]
  rcases h1 : audit.Set inp.UserID inp.IP w.st with ⟨_ | e, s1⟩
  · rcases h2 : q.LockTicketTypeForUpdate inp.TicketTypeID s1 with ⟨⟨a, b, _ | e⟩, s2⟩
    · by_cases hs : b ≥ a
      · exact ⟨[Call.LockTicketTypeForUpdate inp.TicketTypeID], by simp [h1, h2, hs]⟩
      · rcases h3 : q.InsertPaidTicket inp.TicketTypeID inp.UserID now inp.QRCode
            (money.Amount.StringFixed 2) s2 with ⟨⟨id, _ | e⟩, s3⟩
        · exact ⟨[Call.LockTicketTypeForUpdate inp.TicketTypeID,
            Call.InsertPaidTicket inp.TicketTypeID inp.UserID now inp.QRCode
              (money.Amount.StringFixed 2)], by simp [h1, h2, hs, h3]⟩
        · exact ⟨[Call.LockTicketTypeForUpdate inp.TicketTypeID,
            Call.InsertPaidTicket inp.TicketTypeID inp.UserID now inp.QRCode
              (money.Amount.StringFixed 2)], by simp [h1, h2, hs, h3]⟩
    · exact ⟨[Call.LockTicketTypeForUpdate inp.TicketTypeID], by simp [h1, h2]⟩
  · exact ⟨[], by simp [h1]⟩

/-- The validate callback starts with the stamp and stops when it fails. -/
theorem validateTx_stamp {σ : Type} (audit : Setter σ) (q : Queries σ) (now : Time)
    (inp : ValidateInput) (u : Unit) (w : World σ) :
    ∃ more, (validateTx audit q now inp u w).2.calls
        = w.calls ++ Call.Set inp.UserID inp.IP :: more ∧
      ((audit.Set inp.UserID inp.IP w.st).1.isSome = true →
        more = [] ∧ (validateTx audit q now inp u w).1.1.isSome = true) := by
  unfold validateTx
  simp only [World.run]
  rcases h1 : audit.Set inp.UserID inp.IP w.st with ⟨_ | e, s1⟩
  · rcases h2 : q.MarkTicketUsed inp.TicketID now s1 with ⟨⟨ok, _ | e⟩, s2⟩
    · cases ok <;> exact ⟨[Call.MarkTicketUsed inp.TicketID now], by simp [h1, h2]⟩
    · exact ⟨[Call.MarkTicketUsed inp.TicketID now], by simp [h1, h2]⟩
  · exact ⟨[], by simp [h1]⟩
/-- C14. In each of the five use cases the calls made are those of
`StampFirst`: after `BeginTxx` the callback's first call is `Set`, every lock,
insert, mark-used or import call (and with it every savepoint and row insert)
comes after it, and when `Set` fails nothing follows but the rollback. -/
theorem stamp_comes_first {σ : Type} (db : SqlDB σ) (audit : Setter σ) (q : Queries σ)
    (imp : Importer σ) (w : World σ) :
    (∀ (now : Time) (inp : PurchaseInput), ∃ L,
      (Purchase db audit q now inp w).2.calls = w.calls ++ L ∧
      StampFirst inp.UserID inp.IP
        (audit.Set inp.UserID inp.IP (db.BeginTxx w.st).2).1.isSome L) ∧
    (∀ (now : Time) (inp : ValidateInput), ∃ L,
      (Validate db audit q now inp w).2.calls = w.calls ++ L ∧
      StampFirst inp.UserID inp.IP
        (audit.Set inp.UserID inp.IP (db.BeginTxx w.st).2).1.isSome L) ∧
    (∀ inp : ImportUsersInput, ∃ L,
      (UseCase.ImportUsers db audit imp inp w).2.calls = w.calls ++ L ∧
      StampFirst inp.UserID inp.IP
        (audit.Set inp.UserID inp.IP (db.BeginTxx w.st).2).1.isSome L) ∧
    (∀ inp : ImportEventsInput, ∃ L,
      (UseCase.ImportEvents db audit imp inp w).2.calls = w.calls ++ L ∧
      StampFirst inp.UserID inp.IP
        (audit.Set inp.UserID inp.IP (db.BeginTxx w.st).2).1.isSome L) ∧
    (∀ inp : ImportTicketsInput, ∃ L,
      (UseCase.ImportTickets db audit imp inp w).2.calls = w.calls ++ L ∧
      StampFirst inp.UserID inp.IP
        (audit.Set inp.UserID inp.IP (db.BeginTxx w.st).2).1.isSome L) := by
  refine ⟨?_, ?_, ?_, ?_, ?_⟩
  · intro now inp
    have hnone : ∃ L, w.calls = w.calls ++ L ∧ StampFirst inp.UserID inp.IP
        (audit.Set inp.UserID inp.IP (db.BeginTxx w.st).2).1.isSome L :=
      ⟨[], by simp, Or.inl rfl⟩
    unfold Purchase
    by_cases hU : inp.UserID = Nil
    · simpa [hU] using hnone
    by_cases hT : inp.TicketTypeID = Nil
    · simpa [hU, hT] using hnone
    by_cases hQ : inp.QRCode = ""
    · simpa [hU, hT, hQ] using hnone
    simp only [hU, hT, hQ, if_false]
    rcases hP : NewFromString inp.AmountPaid with ⟨amt, _ | e⟩
    · simp only
      rcases hM : NewMoney amt with ⟨money, _ | e⟩
      · simp only
        have hw := WithTx_StampFirst db audit inp.UserID inp.IP
          (purchaseTx audit q now inp money) { TicketID := Nil } w
          (purchaseTx_stamp audit q now inp money)
        rcases hW : TxManager.WithTx db (purchaseTx audit q now inp money)
            { TicketID := Nil } w with ⟨⟨_ | e, out⟩, w1⟩
        · rw [hW] at hw; exact hw
        · rw [hW] at hw; exact hw
      · exact hnone
    · exact hnone
  · intro now inp
    have hnone : ∃ L, w.calls = w.calls ++ L ∧ StampFirst inp.UserID inp.IP
        (audit.Set inp.UserID inp.IP (db.BeginTxx w.st).2).1.isSome L :=
      ⟨[], by simp, Or.inl rfl⟩
    unfold Validate
    by_cases hU : inp.UserID = Nil
    · simpa [hU] using hnone
    by_cases hT : inp.TicketID = Nil
    · simpa [hU, hT] using hnone
    simp only [hU, hT, if_false]
    exact WithTx_StampFirst db audit inp.UserID inp.IP (validateTx audit q now inp) () w
      (validateTx_stamp audit q now inp)
  · intro inp
    unfold UseCase.ImportUsers
    refine WithTx_StampFirst db audit inp.UserID inp.IP _ Result.zero w ?_
    intro l w0
    simp only [World.run]
    rcases h1 : audit.Set inp.UserID inp.IP w0.st with ⟨_ | e, s1⟩
    · exact ⟨[Call.ImportUsers inp.Items inp.ContinueOnError], by simp⟩
    · exact ⟨[], by simp⟩
  · intro inp
    unfold UseCase.ImportEvents
    refine WithTx_StampFirst db audit inp.UserID inp.IP _ Result.zero w ?_
    intro l w0
    simp only [World.run]
    rcases h1 : audit.Set inp.UserID inp.IP w0.st with ⟨_ | e, s1⟩
    · exact ⟨[Call.ImportEvents inp.Items inp.ContinueOnError], by simp⟩
    · exact ⟨[], by simp⟩
  · intro inp
    unfold UseCase.ImportTickets
    refine WithTx_StampFirst db audit inp.UserID inp.IP _ Result.zero w ?_
    intro l w0
    simp only [World.run]
    rcases h1 : audit.Set inp.UserID inp.IP w0.st with ⟨_ | e, s1⟩
    · exact ⟨[Call.ImportTickets inp.Items inp.ContinueOnError], by simp⟩
    · exact ⟨[], by simp⟩

/-! ## A failed audit stamp -/

/-- C13. When the write of the actor stamp fails, or the write of the address
stamp fails after the actor step passed, `AuditContextSetter.Set` returns an
`Internal` error. Whatever error `e` the stamp returns, each of the five use
cases returns `e` itself with its empty output, and the calls it makes are
`WithTx`, `BeginTxx`, the callback, `Set` and the deferred `Rollback`: no
lock, insert, mark-used or import call and no `Commit`. -/
theorem stamp_failure_is_fatal {σ : Type} (db : SqlDB σ) (audit : Setter σ) (q : Queries σ)
    (imp : Importer σ) (w : World σ) (s1 s2 : σ) (e : GoError)
    (hBegin : db.BeginTxx w.st = (none, s1)) :
    (∀ (userID : UUID) (ip : String) (s s3 : σ) (n : Int) (err : GoError), userID ≠ Nil →
      db.ExecContext (Stmt.SetConfigUserID (UUID.String userID)) s = ((n, some err), s3) →
      AuditContextSetter.Set db userID ip s
        = (some (New Code.CodeInternal "set audit user_id failed" (some err)), s3)) ∧
    (∀ (userID : UUID) (ip : String) (s s3 : σ) (n : Int) (err : GoError),
      (userID = Nil ∨ (db.ExecContext (Stmt.SetConfigUserID (UUID.String userID)) s).1.2 = none) →
      ip ≠ "" →
      db.ExecContext (Stmt.SetConfigIP ip)
          (if userID = Nil then s
           else (db.ExecContext (Stmt.SetConfigUserID (UUID.String userID)) s).2)
        = ((n, some err), s3) →
      AuditContextSetter.Set db userID ip s
        = (some (New Code.CodeInternal "set audit ip failed" (some err)), s3)) ∧
    (∀ (now : Time) (inp : PurchaseInput) (amt : Decimal),
      inp.UserID ≠ Nil → inp.TicketTypeID ≠ Nil → inp.QRCode ≠ "" →
      NewFromString inp.AmountPaid = (amt, none) → amt.IsNegative = false →
      audit.Set inp.UserID inp.IP s1 = (some e, s2) →
      (Purchase db audit q now inp w).1 = ({ TicketID := Nil }, some e) ∧
      (Purchase db audit q now inp w).2.calls
        = w.calls ++ [Call.WithTx, Call.BeginTxx, Call.Callback, Call.Set inp.UserID inp.IP,
            Call.Rollback]) ∧
    (∀ (now : Time) (inp : ValidateInput), inp.UserID ≠ Nil → inp.TicketID ≠ Nil →
      audit.Set inp.UserID inp.IP s1 = (some e, s2) →
      (Validate db audit q now inp w).1 = some e ∧
      (Validate db audit q now inp w).2.calls
        = w.calls ++ [Call.WithTx, Call.BeginTxx, Call.Callback, Call.Set inp.UserID inp.IP,
            Call.Rollback]) ∧
    (∀ inp : ImportUsersInput, audit.Set inp.UserID inp.IP s1 = (some e, s2) →
      (UseCase.ImportUsers db audit imp inp w).1 = (Result.zero, some e) ∧
      (UseCase.ImportUsers db audit imp inp w).2.calls
        = w.calls ++ [Call.WithTx, Call.BeginTxx, Call.Callback, Call.Set inp.UserID inp.IP,
            Call.Rollback]) ∧
    (∀ inp : ImportEventsInput, audit.Set inp.UserID inp.IP s1 = (some e, s2) →
      (UseCase.ImportEvents db audit imp inp w).1 = (Result.zero, some e) ∧
      (UseCase.ImportEvents db audit imp inp w).2.calls
        = w.calls ++ [Call.WithTx, Call.BeginTxx, Call.Callback, Call.Set inp.UserID inp.IP,
            Call.Rollback]) ∧
    (∀ inp : ImportTicketsInput, audit.Set inp.UserID inp.IP s1 = (some e, s2) →
      (UseCase.ImportTickets db audit imp inp w).1 = (Result.zero, some e) ∧
      (UseCase.ImportTickets db audit imp inp w).2.calls
        = w.calls ++ [Call.WithTx, Call.BeginTxx, Call.Callback, Call.Set inp.UserID inp.IP,
            Call.Rollback]) := by
  refine ⟨?_, ?_, ?_, ?_, ?_, ?_, ?_⟩
  · intro userID ip s s3 n err hu hx
    simp [AuditContextSetter.Set, hu, hx]
  · intro userID ip s s3 n err hu hi hx
    by_cases hn : userID = Nil
    · simp only [hn, if_true] at hx
      simp [AuditContextSetter.Set, hn, hi, hx]
    · simp only [hn, if_false] at hx
      have hok : (db.ExecContext (Stmt.SetConfigUserID (UUID.String userID)) s).1.2 = none :=
        hu.resolve_left hn
      rcases hs : db.ExecContext (Stmt.SetConfigUserID (UUID.String userID)) s with ⟨⟨m, r⟩, sa⟩
      rw [hs] at hok hx
      simp only at hok hx
      subst hok
      simp [AuditContextSetter.Set, hn, hi, hs, hx]
  · intro now inp amt hU hT hQ hP hS hA
    rw [Purchase_of_valid db audit q now inp w amt hU hT hQ hP hS]
    simp [TxManager.WithTx, purchaseTx, World.note, World.run, hBegin, hA]
  · intro now inp hU hT hA
    rw [Validate_of_valid db audit q now inp w hU hT]
    simp [TxManager.WithTx, validateTx, World.note, World.run, hBegin, hA]
  · intro inp hA
    simp [UseCase.ImportUsers, TxManager.WithTx, World.note, World.run, hBegin, hA]
  · intro inp hA
    simp [UseCase.ImportEvents, TxManager.WithTx, World.note, World.run, hBegin, hA]
  · intro inp hA
    simp [UseCase.ImportTickets, TxManager.WithTx, World.note, World.run, hBegin, hA]

/-- C13 at the sample store, where the first statement after the begin is
made to fail: the stamp is an `Internal` error and the purchase returns it. -/
theorem stamp_failure_is_fatal_witness :
    AuditContextSetter.Set pg 3 "10.0.0.1" (pg.BeginTxx (sampleConn sampleTables [none, some "boom"])).2
      = (some (New Code.CodeInternal "set audit user_id failed" (some (GoError.other "boom"))),
         (pg.ExecContext (Stmt.SetConfigUserID (UUID.String 3))
           (pg.BeginTxx (sampleConn sampleTables [none, some "boom"])).2).2) ∧
    (Purchase pg (AuditContextSetter pg) (TicketTxQueries pg) 9 sampleInput
        (sampleWorld sampleTables [none, some "boom"])).1
      = ({ TicketID := Nil },
         some (New Code.CodeInternal "set audit user_id failed" (some (GoError.other "boom")))) ∧
    (Purchase pg (AuditContextSetter pg) (TicketTxQueries pg) 9 sampleInput
        (sampleWorld sampleTables [none, some "boom"])).2.calls
      = [Call.WithTx, Call.BeginTxx, Call.Callback, Call.Set 3 "10.0.0.1", Call.Rollback] :=
  ⟨(stamp_failure_is_fatal pg (AuditContextSetter pg) (TicketTxQueries pg) (BatchImporter pg)
      (sampleWorld sampleTables [none, some "boom"]) _ (sampleConn sampleTables [])
      (GoError.other "x") rfl).1
      3 "10.0.0.1" _ _ 0 (GoError.other "boom") (by decide) rfl,
   ((stamp_failure_is_fatal pg (AuditContextSetter pg) (TicketTxQueries pg) (BatchImporter pg)
      (sampleWorld sampleTables [none, some "boom"]) _ _ _ rfl).2.2.1
      9 sampleInput ⟨19999, -3⟩ (by decide) (by decide) (by decide) (by decide) (by decide)
      rfl).1,
   ((stamp_failure_is_fatal pg (AuditContextSetter pg) (TicketTxQueries pg) (BatchImporter pg)
      (sampleWorld sampleTables [none, some "boom"]) _ _ _ rfl).2.2.1
      9 sampleInput ⟨19999, -3⟩ (by decide) (by decide) (by decide) (by decide) (by decide)
      rfl).2⟩

/-! ## The statements of the audit stamp -/

/-- C12. The statements `AuditContextSetter.Set` sends are the actor stamp
exactly when the actor id is not nil, followed by the address stamp exactly
when the actor step did not fail and the address is not empty. With a nil
actor and an empty address it sends nothing, returns nil and leaves the
connection as it was. Recording the statements changes neither the result nor
the connection. -/
theorem Set_statements {σ : Type} (db : SqlDB σ) (userID : UUID) (ip : String) (s : σ)
    (log : List Sent) :
    (AuditContextSetter.Set db.recording userID ip (s, log)).2.2.map Sent.stmt
      = log.map Sent.stmt
        ++ (if userID ≠ Nil then [Stmt.SetConfigUserID (UUID.String userID)] else [])
        ++ (if (userID = Nil ∨
              (db.ExecContext (Stmt.SetConfigUserID (UUID.String userID)) s).1.2 = none)
              ∧ ip ≠ "" then [Stmt.SetConfigIP ip] else []) ∧
    (userID = Nil → ip = "" →
      AuditContextSetter.Set db.recording userID ip (s, log) = (none, (s, log))) ∧
    (AuditContextSetter.Set db.recording userID ip (s, log)).1
      = (AuditContextSetter.Set db userID ip s).1 ∧
    (AuditContextSetter.Set db.recording userID ip (s, log)).2.1
      = (AuditContextSetter.Set db userID ip s).2 := by
  by_cases hu : userID = Nil
  · by_cases hi : ip = ""
    · simp [AuditContextSetter.Set, hu, hi]
    · rcases h2 : db.ExecContext (Stmt.SetConfigIP ip) s with ⟨⟨m, _ | e⟩, s2⟩
      · simp [AuditContextSetter.Set, SqlDB.recording, hu, hi, h2]
      · simp [AuditContextSetter.Set, SqlDB.recording, hu, hi, h2]
  · rcases h1 : db.ExecContext (Stmt.SetConfigUserID (UUID.String userID)) s
      with ⟨⟨n, _ | e⟩, s1⟩
    · by_cases hi : ip = ""
      · simp [AuditContextSetter.Set, SqlDB.recording, hu, hi, h1]
      · rcases h2 : db.ExecContext (Stmt.SetConfigIP ip) s1 with ⟨⟨m, _ | e⟩, s2⟩
        · simp [AuditContextSetter.Set, SqlDB.recording, hu, hi, h1, h2]
        · simp [AuditContextSetter.Set, SqlDB.recording, hu, hi, h1, h2]
    · simp [AuditContextSetter.Set, SqlDB.recording, hu, h1]

/-- C12 at a system job: no actor and no address, so nothing is sent. -/
theorem Set_statements_witness :
    AuditContextSetter.Set pg.recording Nil "" (sampleConn sampleTables [], [])
      = (none, (sampleConn sampleTables [], [])) :=
  (Set_statements pg Nil "" (sampleConn sampleTables []) []).2.1 rfl rfl

/-! ## Marking a ticket used -/

/-- The rows matched by the update are the paid or used rows with the id. -/
theorem matchesUsed_iff (id : String) (r : TicketRow) :
    TicketRow.matchesUsed id r = true ↔ r.id = id ∧ (r.status = "paid" ∨ r.status = "used") := by
  simp [TicketRow.matchesUsed]

/-- What the update statement does inside a live transaction when no failure
is injected. -/
theorem statement_update_used (usedAt : Time) (id : String) (c : Conn) (t : TxState)
    (htx : c.tx = some t) (hlive : t.aborted = false) (hq : c.nextFails = false) :
    Conn.statement (Stmt.UpdateTicketUsed usedAt id) c
      = (([], ((t.tables.tickets.filter (TicketRow.matchesUsed id)).length : Int), none),
         { c with script := c.script.tail, nextID := c.nextID + 1,
                  tx := some { t with tables := { t.tables with
                    tickets := t.tables.tickets.map (TicketRow.validated id usedAt) } } }) := by
  have hmap : (t.tables.tickets.map fun r =>
      if TicketRow.matchesUsed id r = true then
        { r with status := "used", used_at := some usedAt } else r)
      = t.tables.tickets.map (TicketRow.validated id usedAt) := by
    apply List.map_congr_left
    intro r _
    simp [TicketRow.validated, TicketRow.matchesUsed]
  unfold Conn.nextFails at hq
  unfold Conn.statement
  simp only [htx, hlive, Bool.false_eq_true, false_and, if_false]
  split
  · rename_i msg h
    simp [h] at hq
  · simp only [TxState.apply, hmap, hlive]

/-- C17. Inside a live transaction on the store, with no failure injected into
the statement, `MarkTicketUsed` returns no error, and returns true exactly
when some ticket has the id and is paid or used. Afterwards the table is the
old one with every such row set to used at `usedAt` and every other row as it
was; when the result is false the table is the old one. -/
theorem MarkTicketUsed_on_store (ticketID : UUID) (usedAt : Time) (c : Conn) (t : TxState)
    (htx : c.tx = some t) (hlive : t.aborted = false) (hq : c.nextFails = false) :
    (TicketTxQueries.MarkTicketUsed pg ticketID usedAt c).1.2 = none ∧
    ((TicketTxQueries.MarkTicketUsed pg ticketID usedAt c).1.1 = true ↔
      ∃ r ∈ c.tickets, r.id = UUID.String ticketID ∧ (r.status = "paid" ∨ r.status = "used")) ∧
    (TicketTxQueries.MarkTicketUsed pg ticketID usedAt c).2.tickets
      = c.tickets.map (TicketRow.validated (UUID.String ticketID) usedAt) ∧
    ((TicketTxQueries.MarkTicketUsed pg ticketID usedAt c).1.1 = false →
      (TicketTxQueries.MarkTicketUsed pg ticketID usedAt c).2.tickets = c.tickets) := by
  have hst := statement_update_used usedAt (UUID.String ticketID) c t htx hlive hq
  have hpos : (0 < (t.tables.tickets.filter
      (TicketRow.matchesUsed (UUID.String ticketID))).length) ↔
      ∃ r ∈ t.tables.tickets, r.id = UUID.String ticketID ∧
        (r.status = "paid" ∨ r.status = "used") := by
    rw [List.length_pos_iff_exists_mem]
    constructor
    · rintro ⟨r, hr⟩
      rw [List.mem_filter] at hr
      exact ⟨r, hr.1, (matchesUsed_iff _ r).mp hr.2⟩
    · rintro ⟨r, hr, hm⟩
      exact ⟨r, List.mem_filter.mpr ⟨hr, (matchesUsed_iff _ r).mpr hm⟩⟩
  have hct : c.tickets = t.tables.tickets := by simp [Conn.tickets, htx]
  refine ⟨?_, ?_, ?_, ?_⟩
  · simp [TicketTxQueries.MarkTicketUsed, pg, hst]
  · rw [hct, ← hpos]
    simp [TicketTxQueries.MarkTicketUsed, pg, hst]
  · rw [hct]
    simp [TicketTxQueries.MarkTicketUsed, pg, hst, Conn.tickets]
  · intro hfalse
    rw [hct]
    have hnone : ¬ ∃ r ∈ t.tables.tickets, r.id = UUID.String ticketID ∧
        (r.status = "paid" ∨ r.status = "used") := by
      rw [← hpos]
      simpa [TicketTxQueries.MarkTicketUsed, pg, hst] using hfalse
    have hid : t.tables.tickets.map (TicketRow.validated (UUID.String ticketID) usedAt)
        = t.tables.tickets := by
      conv_rhs => rw [← List.map_id t.tables.tickets]
      apply List.map_congr_left
      intro r hr
      have : ¬ (r.id = UUID.String ticketID ∧ (r.status = "paid" ∨ r.status = "used")) :=
        fun h => hnone ⟨r, hr, h⟩
      simp [TicketRow.validated, this]
    simp [TicketTxQueries.MarkTicketUsed, pg, hst, Conn.tickets, hid]

/-- C17 at the sample store, inside a fresh transaction: ticket 50 is paid. -/
theorem MarkTicketUsed_on_store_witness :
    (TicketTxQueries.MarkTicketUsed pg 50 9 (pg.BeginTxx (sampleConn soldOutTables [])).2).1
      = (true, none) ∧
    (TicketTxQueries.MarkTicketUsed pg 50 9 (pg.BeginTxx (sampleConn soldOutTables [])).2).2.tickets
      = (pg.BeginTxx (sampleConn soldOutTables [])).2.tickets.map
          (TicketRow.validated (UUID.String 50) 9) :=
  ⟨by decide,
   (MarkTicketUsed_on_store 50 9 (pg.BeginTxx (sampleConn soldOutTables [])).2 _
      rfl rfl rfl).2.2.1⟩

/-! ## Validation on a quiet store -/

/-- A quiet connection injects nothing into the next call and stays quiet. -/
theorem quiet_next (c : Conn) (h : c.quiet) :
    c.nextFails = false ∧ ∀ o ∈ c.script.tail, o = none := by
  unfold Conn.quiet at h
  unfold Conn.nextFails
  cases hs : c.script with
  | nil => simp
  | cons o rest =>
    rw [hs] at h
    have ho : o = none := h o (by simp)
    subst ho
    refine ⟨by simp, fun o ho => h o ?_⟩
    simp only [List.tail_cons] at ho
    exact List.mem_cons_of_mem _ ho

/-- A statement that adds no ticket and is no savepoint command, sent inside a
live transaction of a quiet connection, succeeds and keeps the transaction
live; it keeps the working copy too unless it is the update. -/
theorem statement_liveOn (stmt : Stmt) (C T : Tables) (c : Conn) (h : c.liveOn C T)
    (hs : stmt = Stmt.SetConfigUserID (match stmt with | Stmt.SetConfigUserID v => v | _ => "")
      ∨ stmt = Stmt.SetConfigIP (match stmt with | Stmt.SetConfigIP v => v | _ => "")) :
    (Conn.statement stmt c).1.2.2 = none ∧ (Conn.statement stmt c).2.liveOn C T := by
  obtain ⟨hq, hc, t, htx, hlive, htab⟩ := h
  obtain ⟨hnf, htail⟩ := quiet_next c hq
  unfold Conn.nextFails at hnf
  unfold Conn.statement
  simp only [htx, hlive, Bool.false_eq_true, false_and, if_false]
  split
  · rename_i msg hm
    simp [hm] at hnf
  · rcases hs with hs | hs
    · rw [hs]
      exact ⟨rfl, htail, hc, _, rfl, hlive, htab⟩
    · rw [hs]
      exact ⟨rfl, htail, hc, _, rfl, hlive, htab⟩

/-- The stamp succeeds inside a live transaction of a quiet connection and
leaves the tables alone. -/
theorem Set_liveOn (userID : UUID) (ip : String) (C T : Tables) (c : Conn) (h : c.liveOn C T) :
    (AuditContextSetter.Set pg userID ip c).1 = none ∧
    (AuditContextSetter.Set pg userID ip c).2.liveOn C T := by
  have e1 := statement_liveOn (Stmt.SetConfigUserID (UUID.String userID)) C T c h (Or.inl rfl)
  by_cases hu : userID = Nil
  · by_cases hi : ip = ""
    · simpa [AuditContextSetter.Set, hu, hi] using h
    · have e2 := statement_liveOn (Stmt.SetConfigIP ip) C T c h (Or.inr rfl)
      rcases h2 : Conn.statement (Stmt.SetConfigIP ip) c with ⟨⟨row, m, r⟩, c2⟩
      rw [h2] at e2
      simp only at e2
      obtain ⟨hr, hl⟩ := e2
      subst hr
      simpa [AuditContextSetter.Set, hu, hi, pg, h2] using hl
  · rcases h1 : Conn.statement (Stmt.SetConfigUserID (UUID.String userID)) c
      with ⟨⟨row, m, r⟩, c1⟩
    rw [h1] at e1
    simp only at e1
    obtain ⟨hr, hl⟩ := e1
    subst hr
    by_cases hi : ip = ""
    · simpa [AuditContextSetter.Set, hu, hi, pg, h1] using hl
    · have e2 := statement_liveOn (Stmt.SetConfigIP ip) C T c1 hl (Or.inr rfl)
      rcases h2 : Conn.statement (Stmt.SetConfigIP ip) c1 with ⟨⟨row2, m2, r2⟩, c2⟩
      rw [h2] at e2
      simp only at e2
      obtain ⟨hr2, hl2⟩ := e2
      subst hr2
      simpa [AuditContextSetter.Set, hu, hi, pg, h1, h2] using hl2
/-- Beginning on a quiet connection opens a live transaction on the committed
tables. -/
theorem pg_begin_liveOn (c : Conn) (h : c.quiet) :
    (pg.BeginTxx c).1 = none ∧ (pg.BeginTxx c).2.liveOn c.committed c.committed := by
  obtain ⟨hnf, htail⟩ := quiet_next c h
  unfold Conn.nextFails at hnf
  simp only [pg]
  split
  · rename_i msg hm
    simp [hm] at hnf
  · exact ⟨rfl, htail, rfl, _, rfl, rfl, rfl⟩

/-- Committing a live transaction of a quiet connection installs its working
copy and closes it. -/
theorem pg_commit_liveOn (C T : Tables) (c : Conn) (h : c.liveOn C T) :
    (pg.Commit c).1 = none ∧ (pg.Commit c).2.committed = T ∧ (pg.Commit c).2.quiet ∧
    (pg.Commit c).2.tx = none := by
  obtain ⟨hq, hc, t, htx, hlive, htab⟩ := h
  obtain ⟨hnf, htail⟩ := quiet_next c hq
  unfold Conn.nextFails at hnf
  simp only [pg, htx]
  split
  · rename_i msg hm
    simp [hm] at hnf
  · simp only [hlive, Bool.false_eq_true, if_false]
    refine ⟨by simp, by simpa using htab, ?_, by simp⟩
    simpa [Conn.quiet] using htail

/-- A rollback keeps a quiet connection quiet. -/
theorem pg_rollback_quiet (c : Conn) (h : c.quiet) : (pg.Rollback c).2.quiet := by
  simp only [pg]
  cases htx : c.tx <;> exact h

/-- Marking a ticket inside a live transaction of a quiet connection: the
result tells whether a row matched, and the working copy holds the validated
rows. -/
theorem Mark_liveOn (ticketID : UUID) (usedAt : Time) (C T : Tables) (c : Conn)
    (h : c.liveOn C T) :
    (TicketTxQueries.MarkTicketUsed pg ticketID usedAt c).1
      = (decide (0 < (T.tickets.filter
          (TicketRow.matchesUsed (UUID.String ticketID))).length), none) ∧
    (TicketTxQueries.MarkTicketUsed pg ticketID usedAt c).2.liveOn C
      (T.validated (UUID.String ticketID) usedAt) := by
  obtain ⟨hq, hc, t, htx, hlive, htab⟩ := h
  obtain ⟨hnf, htail⟩ := quiet_next c hq
  have hst := statement_update_used usedAt (UUID.String ticketID) c t htx hlive hnf
  subst htab
  refine ⟨?_, ?_⟩
  · simp [TicketTxQueries.MarkTicketUsed, pg, hst]
  · simp only [TicketTxQueries.MarkTicketUsed, pg, hst]
    exact ⟨htail, hc, _, rfl, hlive, rfl⟩

/-- `Validate` on a quiet store: when a paid or used ticket has the id, it
returns nil and the committed table holds the validated rows; otherwise it
returns `NotFound` and the committed tables are as before. The store is quiet
again afterwards. -/
theorem Validate_quiet (now : Time) (inp : ValidateInput) (w : World Conn)
    (hq : w.st.quiet) (hU : inp.UserID ≠ Nil) (hT : inp.TicketID ≠ Nil) :
    (Validate pg (AuditContextSetter pg) (TicketTxQueries pg) now inp w).2.st.quiet ∧
    ((∃ r ∈ w.st.committed.tickets, r.id = UUID.String inp.TicketID ∧
        (r.status = "paid" ∨ r.status = "used")) →
      (Validate pg (AuditContextSetter pg) (TicketTxQueries pg) now inp w).1 = none ∧
      (Validate pg (AuditContextSetter pg) (TicketTxQueries pg) now inp w).2.st.committed
        = w.st.committed.validated (UUID.String inp.TicketID) now) ∧
    ((¬ ∃ r ∈ w.st.committed.tickets, r.id = UUID.String inp.TicketID ∧
        (r.status = "paid" ∨ r.status = "used")) →
      (Validate pg (AuditContextSetter pg) (TicketTxQueries pg) now inp w).1
        = some (New Code.CodeNotFound "ticket not found or invalid state" none) ∧
      (Validate pg (AuditContextSetter pg) (TicketTxQueries pg) now inp w).2.st.committed
        = w.st.committed) := by
  have hpos : (0 < (w.st.committed.tickets.filter
      (TicketRow.matchesUsed (UUID.String inp.TicketID))).length) ↔
      ∃ r ∈ w.st.committed.tickets, r.id = UUID.String inp.TicketID ∧
        (r.status = "paid" ∨ r.status = "used") := by
    rw [List.length_pos_iff_exists_mem]
    constructor
    · rintro ⟨r, hr⟩
      rw [List.mem_filter] at hr
      exact ⟨r, hr.1, (matchesUsed_iff _ r).mp hr.2⟩
    · rintro ⟨r, hr, hm⟩
      exact ⟨r, List.mem_filter.mpr ⟨hr, (matchesUsed_iff _ r).mpr hm⟩⟩
  rw [Validate_of_valid pg (AuditContextSetter pg) (TicketTxQueries pg) now inp w hU hT]
  have eb := pg_begin_liveOn w.st hq
  rcases hb : pg.BeginTxx w.st with ⟨b, c1⟩
  rw [hb] at eb
  obtain ⟨hb1, hl1⟩ := eb
  simp only at hb1 hl1
  subst hb1
  have es := Set_liveOn inp.UserID inp.IP _ _ c1 hl1
  rcases hs : AuditContextSetter.Set pg inp.UserID inp.IP c1 with ⟨a, c2⟩
  rw [hs] at es
  obtain ⟨hs1, hl2⟩ := es
  simp only at hs1 hl2
  subst hs1
  have em := Mark_liveOn inp.TicketID now _ _ c2 hl2
  rcases hm : TicketTxQueries.MarkTicketUsed pg inp.TicketID now c2 with ⟨⟨ok, me⟩, c3⟩
  rw [hm] at em
  obtain ⟨hm1, hl3⟩ := em
  simp only [Prod.mk.injEq] at hm1 hl3
  obtain ⟨hok, hme⟩ := hm1
  subst hme
  have ec := pg_commit_liveOn _ _ c3 hl3
  rcases hc : pg.Commit c3 with ⟨ce, c4⟩
  rw [hc] at ec
  obtain ⟨hc1, hc2, hc3, hc4⟩ := ec
  simp only at hc1 hc2 hc3 hc4
  subst hc1
  by_cases hex : ∃ r ∈ w.st.committed.tickets, r.id = UUID.String inp.TicketID ∧
      (r.status = "paid" ∨ r.status = "used")
  · have hokt : ok = true := by rw [hok]; exact decide_eq_true (hpos.mpr hex)
    subst hokt
    have hrun : TxManager.WithTx pg
        (validateTx (AuditContextSetter pg) (TicketTxQueries pg) now inp) () w
        = ((none, ()), ⟨(pg.Rollback c4).2, w.calls ++ [Call.WithTx, Call.BeginTxx,
            Call.Callback, Call.Set inp.UserID inp.IP, Call.MarkTicketUsed inp.TicketID now,
            Call.Commit, Call.Rollback]⟩) := by
      simp [TxManager.WithTx, validateTx, World.note, World.run, hb, AuditContextSetter,
        TicketTxQueries, hs, hm, hc]
    rw [hrun]
    refine ⟨pg_rollback_quiet c4 hc3, fun _ => ⟨rfl, ?_⟩, fun hn => absurd hex hn⟩
    simp only
    rw [pg_rollback_committed, hc2]
  · have hokf : ok = false := by rw [hok]; exact decide_eq_false (fun h => hex (hpos.mp h))
    subst hokf
    have hrun : TxManager.WithTx pg
        (validateTx (AuditContextSetter pg) (TicketTxQueries pg) now inp) () w
        = ((some (New Code.CodeNotFound "ticket not found or invalid state" none), ()),
           ⟨(pg.Rollback c3).2, w.calls ++ [Call.WithTx, Call.BeginTxx,
            Call.Callback, Call.Set inp.UserID inp.IP, Call.MarkTicketUsed inp.TicketID now,
            Call.Rollback]⟩) := by
      simp [TxManager.WithTx, validateTx, World.note, World.run, hb, AuditContextSetter,
        TicketTxQueries, hs, hm]
    rw [hrun]
    refine ⟨pg_rollback_quiet c3 hl3.1, fun h => absurd h hex, fun _ => ⟨rfl, ?_⟩⟩
    simp only
    rw [pg_rollback_committed]
    exact hl3.2.1
/-- Validating at `t2` what was validated at `t1` is validating at `t2`. -/
theorem validated_validated (id : String) (t1 t2 : Time) (r : TicketRow) :
    TicketRow.validated id t2 (TicketRow.validated id t1 r) = TicketRow.validated id t2 r := by
  unfold TicketRow.validated
  by_cases h : r.id = id ∧ (r.status = "paid" ∨ r.status = "used")
  · simp [h, h.1]
  · simp [h]

/-- C18. On a quiet store, for an input with non-nil ids. If a ticket with the
id is already used, two validations in a row both return nil, and afterwards
the table is the first one with the ticket used at the time of the second
call. If every ticket with the id is refunded or void, both calls return
`NotFound` and the committed tables never change. -/
theorem Validate_twice (t1 t2 : Time) (inp : ValidateInput) (w : World Conn)
    (hq : w.st.quiet) (hU : inp.UserID ≠ Nil) (hT : inp.TicketID ≠ Nil) :
    ((∃ r ∈ w.st.committed.tickets, r.id = UUID.String inp.TicketID ∧ r.status = "used") →
      (pgValidate t1 inp w).1 = none ∧
      (pgValidate t2 inp (pgValidate t1 inp w).2).1 = none ∧
      (pgValidate t2 inp (pgValidate t1 inp w).2).2.st.committed
        = w.st.committed.validated (UUID.String inp.TicketID) t2 ∧
      ∀ r ∈ w.st.committed.tickets, r.id = UUID.String inp.TicketID → r.status = "used" →
        { r with used_at := some t2 }
          ∈ (pgValidate t2 inp (pgValidate t1 inp w).2).2.st.committed.tickets) ∧
    ((∀ r ∈ w.st.committed.tickets, r.id = UUID.String inp.TicketID →
        r.status = "refunded" ∨ r.status = "void") →
      (pgValidate t1 inp w).1
        = some (New Code.CodeNotFound "ticket not found or invalid state" none) ∧
      (pgValidate t1 inp w).2.st.committed = w.st.committed ∧
      (pgValidate t2 inp (pgValidate t1 inp w).2).1
        = some (New Code.CodeNotFound "ticket not found or invalid state" none) ∧
      (pgValidate t2 inp (pgValidate t1 inp w).2).2.st.committed = w.st.committed) := by
  unfold pgValidate
  obtain ⟨hq1, hyes1, hno1⟩ := Validate_quiet t1 inp w hq hU hT
  obtain ⟨_, hyes2, hno2⟩ := Validate_quiet t2 inp
    (Validate pg (AuditContextSetter pg) (TicketTxQueries pg) t1 inp w).2 hq1 hU hT
  refine ⟨?_, ?_⟩
  · rintro ⟨r0, hr0, hid0, hst0⟩
    obtain ⟨he1, hc1⟩ := hyes1 ⟨r0, hr0, hid0, Or.inr hst0⟩
    have hin : TicketRow.validated (UUID.String inp.TicketID) t1 r0
        ∈ (Validate pg (AuditContextSetter pg) (TicketTxQueries pg) t1 inp w).2.st.committed.tickets := by
      rw [hc1]
      exact List.mem_map_of_mem _ hr0
    have hv : TicketRow.validated (UUID.String inp.TicketID) t1 r0
        = { r0 with status := "used", used_at := some t1 } := by
      simp [TicketRow.validated, hid0, hst0]
    obtain ⟨he2, hc2⟩ := hyes2 ⟨_, hin, by rw [hv]; exact ⟨hid0, Or.inr rfl⟩⟩
    have hfinal : (Validate pg (AuditContextSetter pg) (TicketTxQueries pg) t2 inp
        (Validate pg (AuditContextSetter pg) (TicketTxQueries pg) t1 inp w).2).2.st.committed
        = w.st.committed.validated (UUID.String inp.TicketID) t2 := by
      rw [hc2, hc1]
      simp only [Tables.validated, List.map_map]
      congr 1
      apply List.map_congr_left
      intro r _
      exact validated_validated _ t1 t2 r
    refine ⟨he1, he2, hfinal, ?_⟩
    intro r hr hid hst
    rw [hfinal]
    simp only [Tables.validated, List.mem_map]
    refine ⟨r, hr, ?_⟩
    simp only [TicketRow.validated, hid, hst, or_true, and_self, if_true]
  · intro hall
    have hnone : ¬ ∃ r ∈ w.st.committed.tickets, r.id = UUID.String inp.TicketID ∧
        (r.status = "paid" ∨ r.status = "used") := by
      rintro ⟨r, hr, hid, hst⟩
      rcases hall r hr hid with h | h <;> rcases hst with h2 | h2 <;> rw [h] at h2 <;>
        exact absurd h2 (by decide)
    obtain ⟨he1, hc1⟩ := hno1 hnone
    obtain ⟨he2, hc2⟩ := hno2 (by rw [hc1]; exact hnone)
    exact ⟨he1, hc1, he2, hc2.trans hc1⟩

/-- C18 at a store whose ticket 50 is used, and at one where it is refunded. -/
theorem Validate_twice_witness :
    ((pgValidate 8 { UserID := 3, IP := "", TicketID := 50 }
        (sampleWorld usedTables [])).1 = none ∧
      (pgValidate 9 { UserID := 3, IP := "", TicketID := 50 }
        (pgValidate 8 { UserID := 3, IP := "", TicketID := 50 }
          (sampleWorld usedTables [])).2).1 = none ∧
      (pgValidate 9 { UserID := 3, IP := "", TicketID := 50 }
        (pgValidate 8 { UserID := 3, IP := "", TicketID := 50 }
          (sampleWorld usedTables [])).2).2.st.committed
        = usedTables.validated (UUID.String 50) 9) ∧
    ((pgValidate 8 { UserID := 3, IP := "", TicketID := 50 }
        (sampleWorld refundedTables [])).1
        = some (New Code.CodeNotFound "ticket not found or invalid state" none) ∧
      (pgValidate 8 { UserID := 3, IP := "", TicketID := 50 }
        (sampleWorld refundedTables [])).2.st.committed = refundedTables) :=
  ⟨⟨((Validate_twice 8 9 { UserID := 3, IP := "", TicketID := 50 } (sampleWorld usedTables [])
        (by decide) (by decide) (by decide)).1 (by decide)).1,
    ((Validate_twice 8 9 { UserID := 3, IP := "", TicketID := 50 } (sampleWorld usedTables [])
        (by decide) (by decide) (by decide)).1 (by decide)).2.1,
    ((Validate_twice 8 9 { UserID := 3, IP := "", TicketID := 50 } (sampleWorld usedTables [])
        (by decide) (by decide) (by decide)).1 (by decide)).2.2.1⟩,
   ⟨((Validate_twice 8 9 { UserID := 3, IP := "", TicketID := 50 }
        (sampleWorld refundedTables []) (by decide) (by decide) (by decide)).2 (by decide)).1,
    ((Validate_twice 8 9 { UserID := 3, IP := "", TicketID := 50 }
        (sampleWorld refundedTables []) (by decide) (by decide) (by decide)).2 (by decide)).2.1⟩⟩

/-! ## The statuses of inserted tickets -/

/-- A statement that `Stmt.adds` admits keeps every table of the connection
grown by allowed statuses only. -/
theorem statement_grown (ok : String → Prop) (T0 : Tables) (stmt : Stmt) (c : Conn)
    (h : c.grownBy ok T0) (hs : Stmt.adds ok stmt) :
    (Conn.statement stmt c).2.grownBy ok T0 := by
  obtain ⟨hc, ht⟩ := h
  unfold Conn.statement
  cases htx : c.tx with
  | none => exact ⟨hc, fun t h => by simp [htx] at h⟩
  | some t =>
    obtain ⟨hgt, hsp⟩ := ht t htx
    simp only
    split
    · refine ⟨hc, fun t2 h => ?_⟩
      simp only [htx, Option.some.injEq] at h
      subst h
      exact ⟨hgt, hsp⟩
    · split
      · refine ⟨hc, fun t2 h => ?_⟩
        simp only [Option.some.injEq] at h
        subst h
        exact ⟨hgt, hsp⟩
      · refine ⟨hc, fun t2 h => ?_⟩
        simp only [Option.some.injEq] at h
        subst h
        cases stmt with
        | SetConfigUserID v => exact ⟨hgt, hsp⟩
        | SetConfigIP v => exact ⟨hgt, hsp⟩
        | SelectTicketTypeForUpdate id =>
          simp only [TxState.apply]
          split <;> exact ⟨hgt, hsp⟩
        | InsertPaidTicket tt buyer date qr amount =>
          refine ⟨fun r hr => ?_, hsp⟩
          simp only [TxState.apply, Tables.insertTicket, List.mem_append,
            List.mem_singleton] at hr
          rcases hr with hr | hr
          · exact hgt r hr
          · rw [hr]; exact Or.inr hs
        | UpdateTicketUsed usedAt id => exact absurd hs (by simp [Stmt.adds])
        | Savepoint =>
          refine ⟨hgt, fun sp h => ?_⟩
          simp only [TxState.apply, List.mem_cons] at h
          rcases h with h | h
          · rw [h]; exact hgt
          · exact hsp sp h
        | RollbackToSavepoint =>
          simp only [TxState.apply]
          cases hsv : t.savepoints with
          | nil => exact ⟨hgt, fun sp h => by simp [hsv] at h⟩
          | cons sp rest =>
            refine ⟨hsp sp (by simp [hsv]), fun sp2 h => hsp sp2 (by simpa [hsv] using h)⟩
        | ReleaseSavepoint =>
          simp only [TxState.apply]
          cases hsv : t.savepoints with
          | nil => exact ⟨hgt, fun sp h => by simp [hsv] at h⟩
          | cons sp rest =>
            refine ⟨hgt, fun sp2 h => hsp sp2 (by simp [hsv]; exact Or.inr h)⟩
        | InsertUser it => exact ⟨hgt, hsp⟩
        | InsertEvent it => exact ⟨hgt, hsp⟩
        | InsertTicket it =>
          refine ⟨fun r hr => ?_, hsp⟩
          simp only [TxState.apply, Tables.insertTicket, List.mem_append,
            List.mem_singleton] at hr
          rcases hr with hr | hr
          · exact hgt r hr
          · rw [hr]; exact Or.inr hs

/-- Beginning keeps the connection grown. -/
theorem pg_begin_grown (ok : String → Prop) (T0 : Tables) (c : Conn) (h : c.grownBy ok T0) :
    (pg.BeginTxx c).2.grownBy ok T0 := by
  obtain ⟨hc, ht⟩ := h
  simp only [pg]
  split
  · exact ⟨hc, ht⟩
  · refine ⟨hc, fun t h => ?_⟩
    simp only [Option.some.injEq] at h
    subst h
    exact ⟨hc, fun sp h => by simp at h⟩

/-- A commit keeps the connection grown. -/
theorem pg_commit_grown (ok : String → Prop) (T0 : Tables) (c : Conn) (h : c.grownBy ok T0) :
    (pg.Commit c).2.grownBy ok T0 := by
  obtain ⟨hc, ht⟩ := h
  simp only [pg]
  cases htx : c.tx with
  | none => exact ⟨hc, fun t h => by simp [htx] at h⟩
  | some t =>
    simp only
    split
    · exact ⟨hc, fun t h => by simp at h⟩
    · split
      · exact ⟨hc, fun t h => by simp at h⟩
      · exact ⟨(ht t htx).1, fun t h => by simp at h⟩

/-- A rollback keeps the connection grown. -/
theorem pg_rollback_grown (ok : String → Prop) (T0 : Tables) (c : Conn)
    (h : c.grownBy ok T0) : (pg.Rollback c).2.grownBy ok T0 := by
  obtain ⟨hc, ht⟩ := h
  simp only [pg]
  cases htx : c.tx with
  | none => exact ⟨hc, fun t h => by simp [htx] at h⟩
  | some t => exact ⟨hc, fun t h => by simp at h⟩

/-- A transaction keeps on the store whatever its begin, commit, rollback and
callback keep. -/
theorem WithTx_keeps {κ : Type} (Q : Conn → Prop)
    (hb : ∀ c, Q c → Q (pg.BeginTxx c).2) (hc : ∀ c, Q c → Q (pg.Commit c).2)
    (hr : ∀ c, Q c → Q (pg.Rollback c).2)
    (fn : κ → World Conn → (Option GoError × κ) × World Conn)
    (hfn : ∀ l w0, Q w0.st → Q (fn l w0).2.st) (locals : κ) (w : World Conn)
    (hs : Q w.st) : Q (TxManager.WithTx pg fn locals w).2.st := by
  unfold TxManager.WithTx
  simp only [World.run, World.note]
  have eb := hb w.st hs
  rcases hbg : pg.BeginTxx w.st with ⟨_ | e, c1⟩
  · rw [hbg] at eb
    simp only [hbg, List.append_assoc, List.cons_append, List.nil_append]
    have ef := hfn locals ⟨c1, w.calls ++ [Call.WithTx, Call.BeginTxx, Call.Callback]⟩ eb
    rcases hf : fn locals ⟨c1, w.calls ++ [Call.WithTx, Call.BeginTxx, Call.Callback]⟩
      with ⟨⟨_ | e, l2⟩, w2⟩
    · rw [hf] at ef
      simp only [hf]
      have ec := hc w2.st ef
      rcases hcm : pg.Commit w2.st with ⟨_ | e, c3⟩
      · rw [hcm] at ec
        simp only [hcm]
        exact hr _ ec
      · rw [hcm] at ec
        simp only [hcm]
        exact hr _ ec
    · rw [hf] at ef
      simp only [hf]
      exact hr _ ef
  · rw [hbg] at eb
    simpa [hbg] using eb
/-- The driver call `ExecContext` keeps the connection grown on an admitted statement. -/
theorem pg_exec_grown (ok : String → Prop) (T0 : Tables) (stmt : Stmt) (c : Conn)
    (h : c.grownBy ok T0) (hs : Stmt.adds ok stmt) : (pg.ExecContext stmt c).2.grownBy ok T0 :=
  statement_grown ok T0 stmt c h hs

/-- The driver call `QueryRowxContext` keeps the connection grown on an admitted
statement. -/
theorem pg_query_grown (ok : String → Prop) (T0 : Tables) (stmt : Stmt) (c : Conn)
    (h : c.grownBy ok T0) (hs : Stmt.adds ok stmt) :
    (pg.QueryRowxContext stmt c).2.grownBy ok T0 :=
  statement_grown ok T0 stmt c h hs

/-- The audit stamp keeps the connection grown. -/
theorem Set_grown (ok : String → Prop) (T0 : Tables) (userID : UUID) (ip : String) (c : Conn)
    (h : c.grownBy ok T0) : (AuditContextSetter.Set pg userID ip c).2.grownBy ok T0 := by
  unfold AuditContextSetter.Set
  have e1 := pg_exec_grown ok T0 (Stmt.SetConfigUserID (UUID.String userID)) c h trivial
  have e2 := fun c1 (h1 : Conn.grownBy c1 ok T0) =>
    pg_exec_grown ok T0 (Stmt.SetConfigIP ip) c1 h1 trivial
  by_cases hu : userID ≠ Nil
  · rcases h1 : pg.ExecContext (Stmt.SetConfigUserID (UUID.String userID)) c with ⟨⟨n, _ | e⟩, c1⟩
    · rw [h1] at e1
      by_cases hi : ip ≠ ""
      · have e3 := e2 c1 e1
        rcases h2 : pg.ExecContext (Stmt.SetConfigIP ip) c1 with ⟨⟨m, _ | e⟩, c2⟩
        · rw [h2] at e3; simp_all
        · rw [h2] at e3; simp_all
      · simp_all
    · rw [h1] at e1
      simp_all
  · by_cases hi : ip ≠ ""
    · have e3 := e2 c h
      rcases h2 : pg.ExecContext (Stmt.SetConfigIP ip) c with ⟨⟨m, _ | e⟩, c2⟩
      · rw [h2] at e3; simp_all
      · rw [h2] at e3; simp_all
    · simp_all

/-- The lock keeps the connection grown. -/
theorem Lock_grown (ok : String → Prop) (T0 : Tables) (id : UUID) (c : Conn)
    (h : c.grownBy ok T0) :
    (TicketTxQueries.LockTicketTypeForUpdate pg id c).2.grownBy ok T0 := by
  unfold TicketTxQueries.LockTicketTypeForUpdate
  have e1 := pg_query_grown ok T0 (Stmt.SelectTicketTypeForUpdate (UUID.String id)) c h trivial
  rcases h1 : pg.QueryRowxContext (Stmt.SelectTicketTypeForUpdate (UUID.String id)) c
    with ⟨⟨row, _ | e⟩, c1⟩
  · rw [h1] at e1
    simp only
    split <;> exact e1
  · rw [h1] at e1
    simp only
    split <;> exact e1

/-- The insert of a paid ticket keeps the connection grown by paid rows. -/
theorem Insert_grown (ok : String → Prop) (hpaid : ok "paid") (T0 : Tables) (tt buyer : UUID)
    (date : Time) (qr amount : String) (c : Conn) (h : c.grownBy ok T0) :
    (TicketTxQueries.InsertPaidTicket pg tt buyer date qr amount c).2.grownBy ok T0 := by
  unfold TicketTxQueries.InsertPaidTicket
  have e1 := pg_query_grown ok T0
    (Stmt.InsertPaidTicket (UUID.String tt) (UUID.String buyer) date qr amount) c h hpaid
  rcases h1 : pg.QueryRowxContext
    (Stmt.InsertPaidTicket (UUID.String tt) (UUID.String buyer) date qr amount) c
    with ⟨⟨row, _ | e⟩, c1⟩
  · rw [h1] at e1
    simp only
    repeat' split
    all_goals exact e1
  · rw [h1] at e1
    exact e1

/-- The purchase callback keeps the connection grown by paid rows. -/
theorem purchaseTx_grown (ok : String → Prop) (hpaid : ok "paid") (T0 : Tables) (now : Time)
    (inp : PurchaseInput) (money : Money) (out : PurchaseOutput) (w : World Conn)
    (h : w.st.grownBy ok T0) :
    (purchaseTx (AuditContextSetter pg) (TicketTxQueries pg) now inp money out w).2.st.grownBy
      ok T0 := by
  unfold purchaseTx
  simp only [World.run, AuditContextSetter, TicketTxQueries]
  have e1 := Set_grown ok T0 inp.UserID inp.IP w.st h
  rcases h1 : AuditContextSetter.Set pg inp.UserID inp.IP w.st with ⟨_ | e, c1⟩
  · rw [h1] at e1
    have e2 := Lock_grown ok T0 inp.TicketTypeID c1 e1
    rcases h2 : TicketTxQueries.LockTicketTypeForUpdate pg inp.TicketTypeID c1
      with ⟨⟨a, b, _ | e⟩, c2⟩
    · rw [h2] at e2
      by_cases hsold : b ≥ a
      · simp [h1, h2, hsold]
        exact e2
      · have e3 := Insert_grown ok hpaid T0 inp.TicketTypeID inp.UserID now inp.QRCode
          (money.Amount.StringFixed 2) c2 e2
        rcases h3 : TicketTxQueries.InsertPaidTicket pg inp.TicketTypeID inp.UserID now inp.QRCode
          (money.Amount.StringFixed 2) c2 with ⟨⟨id, _ | e⟩, c3⟩
        · rw [h3] at e3
          simp [h1, h2, h3, hsold]
          exact e3
        · rw [h3] at e3
          simp [h1, h2, h3, hsold]
          exact e3
    · rw [h2] at e2
      simp [h1, h2]
      exact e2
  · rw [h1] at e1
    simpa [h1] using e1

/-- The loop of `ImportTickets` keeps the connection grown by rows that carry
the status of one of its items. -/
theorem importTicketsFrom_grown (ok : String → Prop) (T0 : Tables) (continueOnError : Bool)
    (items : List ImportTicketsItem) (hok : ∀ it ∈ items, ok it.Status) :
    ∀ (i : Nat) (res : Result) (c : Conn), c.grownBy ok T0 →
      (BatchImporter.importTicketsFrom pg continueOnError items i res c).2.grownBy ok T0 := by
  induction items with
  | nil => intro i res c hs; exact hs
  | cons it rest ih =>
    have ih2 := ih (fun x hx => hok x (List.mem_cons_of_mem _ hx))
    have hit : ok it.Status := hok it (List.mem_cons_self _ _)
    intro i res c hs
    unfold BatchImporter.importTicketsFrom
    have e1 := pg_exec_grown ok T0 Stmt.Savepoint c hs trivial
    rcases h1 : pg.ExecContext Stmt.Savepoint c with ⟨⟨n1, _ | err1⟩, c1⟩
    · rw [h1] at e1
      simp only
      have e2 := pg_exec_grown ok T0 (Stmt.InsertTicket it) c1 e1 hit
      rcases h2 : pg.ExecContext (Stmt.InsertTicket it) c1 with ⟨⟨n2, _ | err2⟩, c2⟩
      · rw [h2] at e2
        simp only
        exact ih2 _ _ _ (pg_exec_grown ok T0 Stmt.ReleaseSavepoint c2 e2 trivial)
      · rw [h2] at e2
        have e4 := pg_exec_grown ok T0 Stmt.ReleaseSavepoint _
          (pg_exec_grown ok T0 Stmt.RollbackToSavepoint c2 e2 trivial) trivial
        simp only
        split
        · exact e4
        · exact ih2 _ _ _ e4
    · rw [h1] at e1
      exact e1

/-- A connection with no transaction open is grown from its own committed
tables. -/
theorem grown_of_closed (ok : String → Prop) (c : Conn) (h : c.tx = none) :
    c.grownBy ok c.committed :=
  ⟨fun r hr => Or.inl hr, fun t ht => by simp [h] at ht⟩

/-! ## Each imported row carries its own item -/

/-- Rows imported from some items are imported from those items and more. -/
theorem Tables_importedFrom_mono (T T0 : Tables) (now : Time) (done more : List ImportTicketsItem)
    (h : T.importedFrom T0 now done) : T.importedFrom T0 now (done ++ more) := by
  obtain ⟨rows, sub, ht, hsub, hall⟩ := h
  exact ⟨rows, sub, ht, hsub.trans (List.sublist_append_left done more), hall⟩

/-- The same of a transaction. -/
theorem TxState_importedFrom_mono (t : TxState) (T0 : Tables) (now : Time)
    (done more : List ImportTicketsItem) (h : t.importedFrom T0 now done) :
    t.importedFrom T0 now (done ++ more) :=
  ⟨Tables_importedFrom_mono _ _ _ _ _ h.1, fun sp hsp => Tables_importedFrom_mono _ _ _ _ _ (h.2 sp hsp)⟩

/-- A statement that writes no ticket row keeps the rows of a transaction. -/
theorem apply_keeps (t : TxState) (T0 : Tables) (now : Time) (done : List ImportTicketsItem)
    (fresh : String) (now2 : Time) (stmt : Stmt) (hs : stmt.keepsTickets)
    (h : t.importedFrom T0 now done) : (t.apply fresh now2 stmt).2.importedFrom T0 now done := by
  obtain ⟨ht, hsp⟩ := h
  cases stmt with
  | SetConfigUserID v => exact ⟨ht, hsp⟩
  | SetConfigIP v => exact ⟨ht, hsp⟩
  | Savepoint =>
    refine ⟨ht, fun sp h => ?_⟩
    simp only [TxState.apply, List.mem_cons] at h
    rcases h with h | h
    · rw [h]; exact ht
    · exact hsp sp h
  | RollbackToSavepoint =>
    simp only [TxState.apply]
    cases hsv : t.savepoints with
    | nil => exact ⟨ht, fun sp h => by simp [hsv] at h⟩
    | cons sp rest =>
      exact ⟨hsp sp (by simp [hsv]), fun sp2 h => hsp sp2 (by simpa [hsv] using h)⟩
  | ReleaseSavepoint =>
    simp only [TxState.apply]
    cases hsv : t.savepoints with
    | nil => exact ⟨ht, fun sp h => by simp [hsv] at h⟩
    | cons sp rest =>
      exact ⟨ht, fun sp2 h => hsp sp2 (by simp [hsv]; exact Or.inr h)⟩
  | SelectTicketTypeForUpdate id => exact absurd hs (by simp [Stmt.keepsTickets])
  | InsertPaidTicket tt buyer date qr amount => exact absurd hs (by simp [Stmt.keepsTickets])
  | UpdateTicketUsed usedAt id => exact absurd hs (by simp [Stmt.keepsTickets])
  | InsertUser it => exact absurd hs (by simp [Stmt.keepsTickets])
  | InsertEvent it => exact absurd hs (by simp [Stmt.keepsTickets])
  | InsertTicket it => exact absurd hs (by simp [Stmt.keepsTickets])

/-- The insert of an item adds a row that carries that item. -/
theorem apply_insert (t : TxState) (T0 : Tables) (now : Time) (done : List ImportTicketsItem)
    (fresh : String) (it : ImportTicketsItem) (h : t.importedFrom T0 now done) :
    (t.apply fresh now (Stmt.InsertTicket it)).2.importedFrom T0 now (done ++ [it]) := by
  obtain ⟨⟨rows, sub, ht, hsub, hall⟩, hsp⟩ := h
  refine ⟨⟨rows ++ [⟨fresh, it.TicketTypeID, it.BuyerID, it.PurchaseDate.getD now, it.Status,
      it.QRCode, it.AmountPaid, none⟩], sub ++ [it], ?_, ?_, ?_⟩,
    fun sp h => Tables_importedFrom_mono _ _ _ _ _ (hsp sp h)⟩
  · simp [TxState.apply, Tables.insertTicket, ht]
  · exact List.Sublist.append hsub (List.Sublist.refl _)
  · exact List.rel_append hall
      (List.Forall₂.cons ⟨rfl, rfl, rfl, rfl, rfl, rfl, rfl⟩ List.Forall₂.nil)
/-- A statement on the store takes the rows imported from `done` to rows
imported from `done2`, when its effect on a live transaction does and `done2`
holds at least what `done` held. -/
theorem statement_imported (T0 : Tables) (now : Time) (done done2 : List ImportTicketsItem)
    (stmt : Stmt) (c : Conn) (h : c.importedFrom T0 now done)
    (hsub : ∀ T : Tables, T.importedFrom T0 now done → T.importedFrom T0 now done2)
    (hstep : ∀ t : TxState, t.importedFrom T0 now done →
      (t.apply (UUID.String c.nextID) now stmt).2.importedFrom T0 now done2) :
    (Conn.statement stmt c).2.importedFrom T0 now done2 := by
  obtain ⟨hnow, hc, ht⟩ := h
  have hlift : ∀ t : TxState, t.importedFrom T0 now done → t.importedFrom T0 now done2 :=
    fun t h => ⟨hsub _ h.1, fun sp hsp => hsub _ (h.2 sp hsp)⟩
  unfold Conn.statement
  cases htx : c.tx with
  | none => exact ⟨hnow, hsub _ hc, fun t h => by simp [htx] at h⟩
  | some t =>
    have hti := ht t htx
    simp only
    split
    · refine ⟨hnow, hsub _ hc, fun t2 h => ?_⟩
      simp only [htx, Option.some.injEq] at h
      subst h
      exact hlift _ hti
    · split
      · refine ⟨hnow, hsub _ hc, fun t2 h => ?_⟩
        simp only [Option.some.injEq] at h
        subst h
        exact hlift _ hti
      · refine ⟨hnow, hsub _ hc, fun t2 h => ?_⟩
        simp only [Option.some.injEq] at h
        subst h
        rw [hnow]
        exact hstep t hti

/-- `ExecContext` of a statement that writes no ticket row keeps the imported
rows. -/
theorem pg_exec_keeps (T0 : Tables) (now : Time) (done : List ImportTicketsItem) (stmt : Stmt)
    (hs : stmt.keepsTickets) (c : Conn) (h : c.importedFrom T0 now done) :
    (pg.ExecContext stmt c).2.importedFrom T0 now done :=
  statement_imported T0 now done done stmt c h (fun _ h => h)
    (fun t ht => apply_keeps t T0 now done _ _ stmt hs ht)

/-- `ExecContext` of the insert of an item adds at most a row that carries
it. -/
theorem pg_exec_insert (T0 : Tables) (now : Time) (done : List ImportTicketsItem)
    (it : ImportTicketsItem) (c : Conn) (h : c.importedFrom T0 now done) :
    (pg.ExecContext (Stmt.InsertTicket it) c).2.importedFrom T0 now (done ++ [it]) :=
  statement_imported T0 now done (done ++ [it]) _ c h
    (fun T hT => Tables_importedFrom_mono T T0 now done [it] hT)
    (fun t ht => apply_insert t T0 now done _ it ht)

/-- Imported rows stay imported when more items are allowed for. -/
theorem Conn_importedFrom_mono (c : Conn) (T0 : Tables) (now : Time)
    (done more : List ImportTicketsItem) (h : c.importedFrom T0 now done) :
    c.importedFrom T0 now (done ++ more) :=
  ⟨h.1, Tables_importedFrom_mono _ _ _ _ _ h.2.1,
    fun t ht => TxState_importedFrom_mono _ _ _ _ _ (h.2.2 t ht)⟩

/-- Beginning keeps the imported rows. -/
theorem pg_begin_imported (T0 : Tables) (now : Time) (done : List ImportTicketsItem) (c : Conn)
    (h : c.importedFrom T0 now done) : (pg.BeginTxx c).2.importedFrom T0 now done := by
  obtain ⟨hnow, hc, ht⟩ := h
  simp only [pg]
  split
  · exact ⟨hnow, hc, ht⟩
  · refine ⟨hnow, hc, fun t h => ?_⟩
    simp only [Option.some.injEq] at h
    subst h
    exact ⟨hc, fun sp h => by simp at h⟩

/-- A commit keeps the imported rows. -/
theorem pg_commit_imported (T0 : Tables) (now : Time) (done : List ImportTicketsItem)
    (c : Conn) (h : c.importedFrom T0 now done) : (pg.Commit c).2.importedFrom T0 now done := by
  obtain ⟨hnow, hc, ht⟩ := h
  simp only [pg]
  cases htx : c.tx with
  | none => exact ⟨hnow, hc, fun t h => by simp [htx] at h⟩
  | some t =>
    simp only
    split
    · exact ⟨hnow, hc, fun t h => by simp at h⟩
    · split
      · exact ⟨hnow, hc, fun t h => by simp at h⟩
      · exact ⟨hnow, (ht t htx).1, fun t h => by simp at h⟩

/-- A rollback keeps the imported rows. -/
theorem pg_rollback_imported (T0 : Tables) (now : Time) (done : List ImportTicketsItem)
    (c : Conn) (h : c.importedFrom T0 now done) :
    (pg.Rollback c).2.importedFrom T0 now done := by
  obtain ⟨hnow, hc, ht⟩ := h
  simp only [pg]
  cases htx : c.tx with
  | none => exact ⟨hnow, hc, fun t h => by simp [htx] at h⟩
  | some t => exact ⟨hnow, hc, fun t h => by simp at h⟩

/-- The audit stamp keeps the imported rows. -/
theorem Set_imported (T0 : Tables) (now : Time) (done : List ImportTicketsItem)
    (userID : UUID) (ip : String) (c : Conn) (h : c.importedFrom T0 now done) :
    (AuditContextSetter.Set pg userID ip c).2.importedFrom T0 now done := by
  unfold AuditContextSetter.Set
  have e1 := pg_exec_keeps T0 now done (Stmt.SetConfigUserID (UUID.String userID)) trivial c h
  have e2 := fun c1 (h1 : Conn.importedFrom c1 T0 now done) =>
    pg_exec_keeps T0 now done (Stmt.SetConfigIP ip) trivial c1 h1
  by_cases hu : userID ≠ Nil
  · rcases h1 : pg.ExecContext (Stmt.SetConfigUserID (UUID.String userID)) c with ⟨⟨n, _ | e⟩, c1⟩
    · rw [h1] at e1
      by_cases hi : ip ≠ ""
      · have e3 := e2 c1 e1
        rcases h2 : pg.ExecContext (Stmt.SetConfigIP ip) c1 with ⟨⟨m, _ | e⟩, c2⟩
        · rw [h2] at e3; simp_all
        · rw [h2] at e3; simp_all
      · simp_all
    · rw [h1] at e1
      simp_all
  · by_cases hi : ip ≠ ""
    · have e3 := e2 c h
      rcases h2 : pg.ExecContext (Stmt.SetConfigIP ip) c with ⟨⟨m, _ | e⟩, c2⟩
      · rw [h2] at e3; simp_all
      · rw [h2] at e3; simp_all
    · simp_all

/-- The loop of `ImportTickets` on the store, whatever fails: started on rows
imported from `done`, it leaves rows imported from `done` and its own items,
each new row carrying the item it was inserted for. -/
theorem importTicketsFrom_imported (T0 : Tables) (now : Time) (continueOnError : Bool)
    (items : List ImportTicketsItem) :
    ∀ (done : List ImportTicketsItem) (i : Nat) (res : Result) (c : Conn),
      c.importedFrom T0 now done →
      (BatchImporter.importTicketsFrom pg continueOnError items i res c).2.importedFrom T0 now
        (done ++ items) := by
  induction items with
  | nil => intro done i res c hs; simpa using hs
  | cons it rest ih =>
    intro done i res c hs
    have hcons : done ++ it :: rest = (done ++ [it]) ++ rest := by simp
    unfold BatchImporter.importTicketsFrom
    have e1 := pg_exec_keeps T0 now done Stmt.Savepoint trivial c hs
    rcases h1 : pg.ExecContext Stmt.Savepoint c with ⟨⟨n1, _ | err1⟩, c1⟩
    · rw [h1] at e1
      simp only
      have e2 := pg_exec_insert T0 now done it c1 e1
      rcases h2 : pg.ExecContext (Stmt.InsertTicket it) c1 with ⟨⟨n2, _ | err2⟩, c2⟩
      · rw [h2] at e2
        simp only
        rw [hcons]
        exact ih _ _ _ _ (pg_exec_keeps T0 now _ Stmt.ReleaseSavepoint trivial c2 e2)
      · rw [h2] at e2
        have e4 := pg_exec_keeps T0 now _ Stmt.ReleaseSavepoint trivial _
          (pg_exec_keeps T0 now _ Stmt.RollbackToSavepoint trivial c2 e2)
        simp only
        rw [hcons]
        split
        · exact Conn_importedFrom_mono _ _ _ _ _ e4
        · exact ih _ _ _ _ e4
    · rw [h1] at e1
      exact Conn_importedFrom_mono _ _ _ _ _ e1

/-- A transaction on the store whose callback takes connections that satisfy
`P` to connections that satisfy `Q`, begin keeping `P` and commit and rollback
keeping `Q`: started on `P`, it ends on `Q`. -/
theorem WithTx_takes {κ : Type} (P Q : Conn → Prop) (hpq : ∀ c, P c → Q c)
    (hb : ∀ c, P c → P (pg.BeginTxx c).2) (hc : ∀ c, Q c → Q (pg.Commit c).2)
    (hr : ∀ c, Q c → Q (pg.Rollback c).2)
    (fn : κ → World Conn → (Option GoError × κ) × World Conn)
    (hfn : ∀ l w0, P w0.st → Q (fn l w0).2.st) (locals : κ) (w : World Conn)
    (hs : P w.st) : Q (TxManager.WithTx pg fn locals w).2.st := by
  unfold TxManager.WithTx
  simp only [World.run, World.note]
  have eb := hb w.st hs
  rcases hbg : pg.BeginTxx w.st with ⟨_ | e, c1⟩
  · rw [hbg] at eb
    simp only [hbg, List.append_assoc, List.cons_append, List.nil_append]
    have ef := hfn locals ⟨c1, w.calls ++ [Call.WithTx, Call.BeginTxx, Call.Callback]⟩ eb
    rcases hf : fn locals ⟨c1, w.calls ++ [Call.WithTx, Call.BeginTxx, Call.Callback]⟩
      with ⟨⟨_ | e, l2⟩, w2⟩
    · rw [hf] at ef
      simp only [hf]
      have ec := hc w2.st ef
      rcases hcm : pg.Commit w2.st with ⟨_ | e, c3⟩
      · rw [hcm] at ec
        simp only [hcm]
        exact hr _ ec
      · rw [hcm] at ec
        simp only [hcm]
        exact hr _ ec
    · rw [hf] at ef
      simp only [hf]
      exact hr _ ef
  · rw [hbg] at eb
    simpa [hbg] using hpq _ eb

/-- The use case `ImportTickets` on the store, started with no transaction
open, whatever fails: the committed tickets afterwards are those before
followed by rows that carry, one for one and in their order, some of the items
of the batch. -/
theorem ImportTickets_imported (inp : ImportTicketsInput) (w : World Conn)
    (htx : w.st.tx = none) :
    (pgImportTickets inp w).2.st.committed.importedFrom w.st.committed w.st.now inp.Items := by
  have h0 : w.st.importedFrom w.st.committed w.st.now [] :=
    ⟨rfl, ⟨[], [], by simp, List.Sublist.refl _, List.Forall₂.nil⟩,
      fun t ht => by simp [htx] at ht⟩
  suffices hs : (pgImportTickets inp w).2.st.importedFrom w.st.committed w.st.now inp.Items from
    hs.2.1
  unfold pgImportTickets UseCase.ImportTickets
  refine WithTx_takes (fun c => c.importedFrom w.st.committed w.st.now [])
    (fun c => c.importedFrom w.st.committed w.st.now inp.Items)
    (fun c h => by simpa using Conn_importedFrom_mono c _ _ [] inp.Items h)
    (pg_begin_imported _ _ _) (pg_commit_imported _ _ _) (pg_rollback_imported _ _ _)
    _ ?_ Result.zero w h0
  intro res w0 hw0
  simp only [World.run, AuditContextSetter, BatchImporter]
  have e1 := Set_imported _ _ _ inp.UserID inp.IP w0.st hw0
  rcases h1 : AuditContextSetter.Set pg inp.UserID inp.IP w0.st with ⟨_ | e, c1⟩
  · rw [h1] at e1
    simp only
    have := importTicketsFrom_imported w.st.committed w.st.now inp.ContinueOnError inp.Items
      [] 0 { Total := inp.Items.length, Success := 0, Failed := 0, Errors := [] } c1 e1
    simpa [BatchImporter.ImportTickets] using this
  · rw [h1] at e1
    simpa using Conn_importedFrom_mono _ _ _ [] inp.Items e1

/-- C19, as amended. Starting with no transaction open, whatever fails: every
ticket row that `Purchase` leaves committed is a row that was there before or
has the status paid; and the tickets that `ImportTickets` leaves committed are
those that were there before followed by new rows, each of which carries the
item it was inserted for: the new rows pair off, one for one and in their
order, with items of the batch, and each row holds the status of its own item,
along with its ticket type, buyer, purchase date, QR code and amount. -/
theorem inserted_ticket_status (w : World Conn) (htx : w.st.tx = none) :
    (∀ (now : Time) (inp : PurchaseInput), ∀ r ∈ (pgPurchase now inp w).2.st.committed.tickets,
      r ∈ w.st.committed.tickets ∨ r.status = "paid") ∧
    (∀ inp : ImportTicketsInput, ∃ (rows : List TicketRow) (sub : List ImportTicketsItem),
      (pgImportTickets inp w).2.st.committed.tickets = w.st.committed.tickets ++ rows ∧
      sub.Sublist inp.Items ∧
      List.Forall₂ (TicketRow.carries w.st.now) rows sub) := by
  refine ⟨?_, ?_⟩
  · intro now inp
    have h0 := grown_of_closed (fun s => s = "paid") w.st htx
    have hkeep := fun (money : Money) => WithTx_keeps (fun c => c.grownBy (fun s => s = "paid") w.st.committed)
      (pg_begin_grown _ _) (pg_commit_grown _ _) (pg_rollback_grown _ _)
      (purchaseTx (AuditContextSetter pg) (TicketTxQueries pg) now inp money)
      (fun l w0 h => purchaseTx_grown (fun s => s = "paid") rfl w.st.committed now inp money l w0 h) { TicketID := Nil } w h0
    suffices hs : (pgPurchase now inp w).2.st.grownBy (fun s => s = "paid") w.st.committed from
      hs.1
    unfold pgPurchase Purchase
    by_cases hU : inp.UserID = Nil
    · simpa [hU] using h0
    by_cases hT : inp.TicketTypeID = Nil
    · simpa [hU, hT] using h0
    by_cases hQ : inp.QRCode = ""
    · simpa [hU, hT, hQ] using h0
    simp only [hU, hT, hQ, if_false]
    rcases hP : NewFromString inp.AmountPaid with ⟨amt, _ | e⟩
    · simp only
      rcases hM : NewMoney amt with ⟨money, _ | e⟩
      · simp only
        have hw := hkeep money
        rcases hW : TxManager.WithTx pg
            (purchaseTx (AuditContextSetter pg) (TicketTxQueries pg) now inp money)
            { TicketID := Nil } w with ⟨⟨_ | e, out⟩, w1⟩
        · rw [hW] at hw; exact hw
        · rw [hW] at hw; exact hw
      · exact h0
    · exact h0
  · exact fun inp => ImportTickets_imported inp w htx

/-- C19 at the sample store: a purchase adds a paid row; a batch of a refunded,
a paid and a void ticket adds three rows with these statuses in this order;
and when the insert of the second fails, the rows added are the refunded and
the void one, each with the QR code of its own item. -/
theorem inserted_ticket_status_witness :
    (∀ r ∈ (pgPurchase 9 sampleInput (sampleWorld sampleTables [])).2.st.committed.tickets,
      r ∈ sampleTables.tickets ∨ r.status = "paid") ∧
    (∃ (rows : List TicketRow) (sub : List ImportTicketsItem),
      (pgImportTickets mixedImport
          (sampleWorld sampleTables (batchScript 3 "10.0.0.1" secondFails))).2.st.committed.tickets
        = sampleTables.tickets ++ rows ∧
      sub.Sublist mixedImport.Items ∧ List.Forall₂ (TicketRow.carries 5) rows sub) ∧
    (pgImportTickets mixedImport (sampleWorld sampleTables [])).2.st.committed.tickets.map
        (fun r => (r.status, r.qr_code))
      = [("refunded", "QR-3"), ("paid", "QR-6"), ("void", "QR-7")] ∧
    (pgImportTickets mixedImport
        (sampleWorld sampleTables (batchScript 3 "10.0.0.1" secondFails))).2.st.committed.tickets.map
        (fun r => (r.status, r.qr_code))
      = [("refunded", "QR-3"), ("void", "QR-7")] :=
  ⟨(inserted_ticket_status (sampleWorld sampleTables []) rfl).1 9 sampleInput,
   (inserted_ticket_status (sampleWorld sampleTables (batchScript 3 "10.0.0.1" secondFails))
      rfl).2 mixedImport,
   by decide, by decide⟩

/-- C19 as stated fails: `ImportTickets` given one item marked refunded
succeeds, and the store then holds that one ticket, with the status refunded
instead of paid, created without any purchase. -/
theorem ImportTickets_status_not_paid :
    (pgImportTickets refundedImport (sampleWorld sampleTables [])).1
      = ({ Total := 1, Success := 1, Failed := 0, Errors := [] }, none) ∧
    (pgImportTickets refundedImport (sampleWorld sampleTables [])).2.st.committed.tickets
      = [{ id := "103", ticket_type_id := "7", buyer_id := "3", purchase_date := 5,
           status := "refunded", qr_code := "QR-3", amount_paid := "20.00", used_at := none }] ∧
    ¬ (∀ r ∈ (pgImportTickets refundedImport
          (sampleWorld sampleTables [])).2.st.committed.tickets,
        r ∈ sampleTables.tickets ∨ r.status = "paid") := by
  refine ⟨by decide, by decide, by decide⟩

/-! ## The result of a batch -/

/-- The loop of `ImportUsers` is the shared loop. -/
theorem importUsersFrom_eq {σ : Type} (db : SqlDB σ) (c : Bool) (items : List ImportUsersItem) :
    ∀ (i : Nat) (res : Result) (s : σ),
      BatchImporter.importUsersFrom db c items i res s
        = importFrom db Stmt.InsertUser "batch import users failed" c items i res s := by
  induction items with
  | nil => intro i res s; rfl
  | cons it rest ih =>
    intro i res s
    unfold BatchImporter.importUsersFrom importFrom
    simp only [ih]

/-- The loop of `ImportEvents` is the shared loop. -/
theorem importEventsFrom_eq {σ : Type} (db : SqlDB σ) (c : Bool)
    (items : List ImportEventsItem) :
    ∀ (i : Nat) (res : Result) (s : σ),
      BatchImporter.importEventsFrom db c items i res s
        = importFrom db Stmt.InsertEvent "batch import events failed" c items i res s := by
  induction items with
  | nil => intro i res s; rfl
  | cons it rest ih =>
    intro i res s
    unfold BatchImporter.importEventsFrom importFrom
    simp only [ih]

/-- The loop of `ImportTickets` is the shared loop. -/
theorem importTicketsFrom_eq {σ : Type} (db : SqlDB σ) (c : Bool)
    (items : List ImportTicketsItem) :
    ∀ (i : Nat) (res : Result) (s : σ),
      BatchImporter.importTicketsFrom db c items i res s
        = importFrom db Stmt.InsertTicket "batch import tickets failed" c items i res s := by
  induction items with
  | nil => intro i res s; rfl
  | cons it rest ih =>
    intro i res s
    unfold BatchImporter.importTicketsFrom importFrom
    simp only [ih]

/-- Recording the statements changes neither the result of the shared loop nor
what it does to the connection. -/
theorem importFrom_recording {σ α : Type} (db : SqlDB σ) (insert : α → Stmt) (failed : String)
    (c : Bool) (items : List α) :
    ∀ (i : Nat) (res : Result) (s : σ) (log : List Sent),
      (importFrom db.recording insert failed c items i res (s, log)).1
        = (importFrom db insert failed c items i res s).1 ∧
      (importFrom db.recording insert failed c items i res (s, log)).2.1
        = (importFrom db insert failed c items i res s).2 := by
  induction items with
  | nil => intro i res s log; exact ⟨rfl, rfl⟩
  | cons it rest ih =>
    intro i res s log
    unfold importFrom
    simp only [SqlDB.recording]
    rcases h1 : db.ExecContext Stmt.Savepoint s with ⟨⟨n1, _ | err1⟩, s1⟩
    · simp only
      rcases h2 : db.ExecContext (insert it) s1 with ⟨⟨n2, _ | err2⟩, s2⟩
      · simp only
        exact ih _ _ _ _
      · simp only
        split
        · exact ⟨rfl, rfl⟩
        · exact ih _ _ _ _
    · exact ⟨rfl, rfl⟩
/-- What the recording connection does on `ExecContext`. -/
theorem recording_exec {σ : Type} (db : SqlDB σ) (stmt : Stmt) (p : σ × List Sent) :
    db.recording.ExecContext stmt p
      = ((db.ExecContext stmt p.1).1,
         ((db.ExecContext stmt p.1).2, p.2 ++ [⟨stmt, (db.ExecContext stmt p.1).1.2⟩])) := rfl

/-- The row inserts of one row's statements followed by more. -/
theorem rowInserts_row (ins : Stmt) (hins : ins.isRowInsert = true) (e : Option GoError)
    (mid tr : List Sent) (hmid : ∀ x ∈ mid, x.stmt.isRowInsert = false) :
    rowInserts (⟨Stmt.Savepoint, none⟩ :: ⟨ins, e⟩ :: (mid ++ tr))
      = ⟨ins, e⟩ :: rowInserts tr := by
  have hm : mid.filter (fun x => x.stmt.isRowInsert) = [] := by
    rw [List.filter_eq_nil_iff]
    intro x hx
    simp [hmid x hx]
  have hsp : Stmt.isRowInsert Stmt.Savepoint = false := rfl
  simp [rowInserts, List.filter_cons, hsp, hins, hm]

/-- What the shared loop sends and returns when it continues on error. The
statements it sends are appended to the record; when every savepoint among
them passed, the loop returns nil, its row inserts are those of the items in
order, and the result counts them. -/
theorem importFrom_trace {σ α : Type} (db : SqlDB σ) (insert : α → Stmt) (failed : String)
    (hins : ∀ a, (insert a).isRowInsert = true) (items : List α) :
    ∀ (i : Nat) (res : Result) (s : σ) (log : List Sent), ∃ tr,
      (importFrom db.recording insert failed true items i res (s, log)).2.2 = log ++ tr ∧
      (savepointsPass tr →
        (importFrom db.recording insert failed true items i res (s, log)).1.2 = none ∧
        (rowInserts tr).map Sent.stmt = items.map insert ∧
        (importFrom db.recording insert failed true items i res (s, log)).1.1
          = { Total := res.Total,
              Success := res.Success + ((rowInserts tr).filter (fun e => e.err.isNone)).length,
              Failed := res.Failed + ((rowInserts tr).filter (fun e => e.err.isSome)).length,
              Errors := res.Errors ++ failedRows (rowInserts tr) i }) := by
  induction items with
  | nil =>
    intro i res s log
    exact ⟨[], by simp [importFrom], fun _ => by simp [importFrom, rowInserts, failedRows]⟩
  | cons it rest ih =>
    intro i res s log
    unfold importFrom
    simp only [recording_exec]
    rcases h1 : db.ExecContext Stmt.Savepoint s with ⟨⟨n1, _ | err1⟩, s1⟩
    · simp only
      rcases h2 : db.ExecContext (insert it) s1 with ⟨⟨n2, _ | err2⟩, s2⟩
      · simp only
        obtain ⟨tr2, hlog, hres⟩ := ih (i + 1) { res with Success := res.Success + 1 }
          (db.ExecContext Stmt.ReleaseSavepoint s2).2
          (log ++ [⟨Stmt.Savepoint, none⟩] ++ [⟨insert it, none⟩] ++
            [⟨Stmt.ReleaseSavepoint, (db.ExecContext Stmt.ReleaseSavepoint s2).1.2⟩])
        refine ⟨⟨Stmt.Savepoint, none⟩ :: ⟨insert it, none⟩ ::
          ([⟨Stmt.ReleaseSavepoint, (db.ExecContext Stmt.ReleaseSavepoint s2).1.2⟩] ++ tr2),
          ?_, fun hp => ?_⟩
        · rw [hlog]; simp
        · have hp2 : savepointsPass tr2 := fun e he => hp e (by simp [he])
          obtain ⟨he, hstm, hr⟩ := hres hp2
          have hri := rowInserts_row (insert it) (hins it) none
            [⟨Stmt.ReleaseSavepoint, (db.ExecContext Stmt.ReleaseSavepoint s2).1.2⟩] tr2
            (by simp [Stmt.isRowInsert])
          refine ⟨he, ?_, ?_⟩
          · rw [hri]; simp [hstm]
          · rw [hr, hri]
            simp [failedRows, Nat.add_assoc, Nat.add_comm]
      · simp only [Bool.not_true, Bool.false_eq_true, if_false]
        obtain ⟨tr2, hlog, hres⟩ := ih (i + 1)
          { res with Failed := res.Failed + 1,
                     Errors := res.Errors ++ [{ Index := i, Error := err2.Error }] }
          (db.ExecContext Stmt.ReleaseSavepoint
            (db.ExecContext Stmt.RollbackToSavepoint s2).2).2
          (log ++ [⟨Stmt.Savepoint, none⟩] ++ [⟨insert it, some err2⟩] ++
            [⟨Stmt.RollbackToSavepoint, (db.ExecContext Stmt.RollbackToSavepoint s2).1.2⟩] ++
            [⟨Stmt.ReleaseSavepoint, (db.ExecContext Stmt.ReleaseSavepoint
              (db.ExecContext Stmt.RollbackToSavepoint s2).2).1.2⟩])
        refine ⟨⟨Stmt.Savepoint, none⟩ :: ⟨insert it, some err2⟩ ::
          ([⟨Stmt.RollbackToSavepoint, (db.ExecContext Stmt.RollbackToSavepoint s2).1.2⟩,
            ⟨Stmt.ReleaseSavepoint, (db.ExecContext Stmt.ReleaseSavepoint
              (db.ExecContext Stmt.RollbackToSavepoint s2).2).1.2⟩] ++ tr2),
          ?_, fun hp => ?_⟩
        · rw [hlog]; simp
        · have hp2 : savepointsPass tr2 := fun e he => hp e (by simp [he])
          obtain ⟨he, hstm, hr⟩ := hres hp2
          have hri := rowInserts_row (insert it) (hins it) (some err2)
            [⟨Stmt.RollbackToSavepoint, (db.ExecContext Stmt.RollbackToSavepoint s2).1.2⟩,
              ⟨Stmt.ReleaseSavepoint, (db.ExecContext Stmt.ReleaseSavepoint
                (db.ExecContext Stmt.RollbackToSavepoint s2).2).1.2⟩] tr2
            (by simp [Stmt.isRowInsert])
          refine ⟨he, ?_, ?_⟩
          · rw [hri]; simp [hstm]
          · rw [hr, hri]
            simp [failedRows, Nat.add_assoc, Nat.add_comm]
    · refine ⟨[⟨Stmt.Savepoint, some err1⟩], rfl, fun hp => ?_⟩
      have := hp ⟨Stmt.Savepoint, some err1⟩ (by simp) rfl
      simp at this
/-- One entry of `Errors` per failed insert. -/
theorem failedRows_length (l : List Sent) :
    ∀ i, (failedRows l i).length = (l.filter (fun e => e.err.isSome)).length := by
  induction l with
  | nil => intro i; rfl
  | cons e rest ih =>
    intro i
    unfold failedRows
    cases he : e.err with
    | none => simp [List.filter_cons, he, ih]
    | some err => simp [List.filter_cons, he, ih]

/-- The positions in `failedRows` start at `i` and strictly increase. -/
theorem failedRows_increasing (l : List Sent) :
    ∀ i, (∀ b ∈ failedRows l i, i ≤ b.Index) ∧
      ((failedRows l i).map (fun b => b.Index)).Pairwise (fun a b => a < b) := by
  induction l with
  | nil => intro i; exact ⟨fun b hb => by simp [failedRows] at hb, by simp [failedRows]⟩
  | cons e rest ih =>
    intro i
    obtain ⟨hge, hpw⟩ := ih (i + 1)
    unfold failedRows
    cases he : e.err with
    | none =>
      simp only
      exact ⟨fun b hb => Nat.le_of_succ_le (hge b hb), hpw⟩
    | some err =>
      simp only
      refine ⟨fun b hb => ?_, ?_⟩
      · rcases List.mem_cons.mp hb with h | h
        · rw [h]
        · exact Nat.le_of_succ_le (hge b h)
      · rw [List.map_cons, List.pairwise_cons]
        refine ⟨fun a ha => ?_, hpw⟩
        obtain ⟨b, hb, rfl⟩ := List.mem_map.mp ha
        exact hge b hb

/-- Passed and failed inserts add up to all inserts. -/
theorem passed_add_failed (l : List Sent) :
    (l.filter (fun e => e.err.isNone)).length + (l.filter (fun e => e.err.isSome)).length
      = l.length := by
  induction l with
  | nil => rfl
  | cons e rest ih =>
    cases he : e.err with
    | none => simp [List.filter_cons, he]; omega
    | some err => simp [List.filter_cons, he]; omega

/-- The summary of the shared loop started on a fresh result and an empty
record. -/
theorem importFrom_summary {σ α : Type} (db : SqlDB σ) (insert : α → Stmt) (failed : String)
    (hins : ∀ a, (insert a).isRowInsert = true) (items : List α) (s : σ)
    (hp : savepointsPass (importFrom db.recording insert failed true items 0
      { Total := items.length, Success := 0, Failed := 0, Errors := [] } (s, [])).2.2) :
    BatchSummary (items.map insert)
      (importFrom db.recording insert failed true items 0
        { Total := items.length, Success := 0, Failed := 0, Errors := [] } (s, [])).1.1
      (importFrom db.recording insert failed true items 0
        { Total := items.length, Success := 0, Failed := 0, Errors := [] } (s, [])).1.2
      (importFrom db.recording insert failed true items 0
        { Total := items.length, Success := 0, Failed := 0, Errors := [] } (s, [])).2.2 := by
  obtain ⟨tr, hlog, hres⟩ := importFrom_trace db insert failed hins items 0
    { Total := items.length, Success := 0, Failed := 0, Errors := [] } s []
  simp only [List.nil_append] at hlog
  rw [hlog] at hp ⊢
  obtain ⟨he, hstm, hr⟩ := hres hp
  have hlen : (rowInserts tr).length = items.length := by
    have := congrArg List.length hstm
    simpa using this
  have hsum := passed_add_failed (rowInserts tr)
  rw [hr]
  refine ⟨he, hstm, by simp, by simp, by simp, ?_, by simp, ?_, ?_⟩
  · simp only [Nat.zero_add]
    omega
  · simp [failedRows_length]
  · simpa using (failedRows_increasing (rowInserts tr) 0).2

/-- C20. With `continueOnError` set, when every `SAVEPOINT` sent succeeds, each
importer returns nil and the `Result` that `BatchSummary` describes: its row
inserts are those of the items, one per item in input order, `Total` is the
number of items, `Success` and `Failed` count the inserts that passed and
failed, and `Errors` lists the failed rows by position with their error
texts. Recording the statements does not change what the importer returns. -/
theorem import_continue_result {σ : Type} (db : SqlDB σ) (s : σ) :
    (∀ items : List ImportUsersItem,
      (BatchImporter.ImportUsers db.recording items true (s, [])).1
        = (BatchImporter.ImportUsers db items true s).1 ∧
      (savepointsPass (BatchImporter.ImportUsers db.recording items true (s, [])).2.2 →
        BatchSummary (items.map Stmt.InsertUser)
          (BatchImporter.ImportUsers db.recording items true (s, [])).1.1
          (BatchImporter.ImportUsers db.recording items true (s, [])).1.2
          (BatchImporter.ImportUsers db.recording items true (s, [])).2.2)) ∧
    (∀ items : List ImportEventsItem,
      (BatchImporter.ImportEvents db.recording items true (s, [])).1
        = (BatchImporter.ImportEvents db items true s).1 ∧
      (savepointsPass (BatchImporter.ImportEvents db.recording items true (s, [])).2.2 →
        BatchSummary (items.map Stmt.InsertEvent)
          (BatchImporter.ImportEvents db.recording items true (s, [])).1.1
          (BatchImporter.ImportEvents db.recording items true (s, [])).1.2
          (BatchImporter.ImportEvents db.recording items true (s, [])).2.2)) ∧
    (∀ items : List ImportTicketsItem,
      (BatchImporter.ImportTickets db.recording items true (s, [])).1
        = (BatchImporter.ImportTickets db items true s).1 ∧
      (savepointsPass (BatchImporter.ImportTickets db.recording items true (s, [])).2.2 →
        BatchSummary (items.map Stmt.InsertTicket)
          (BatchImporter.ImportTickets db.recording items true (s, [])).1.1
          (BatchImporter.ImportTickets db.recording items true (s, [])).1.2
          (BatchImporter.ImportTickets db.recording items true (s, [])).2.2)) := by
  refine ⟨fun items => ⟨?_, ?_⟩, fun items => ⟨?_, ?_⟩, fun items => ⟨?_, ?_⟩⟩
  · simp only [BatchImporter.ImportUsers, importUsersFrom_eq]
    exact (importFrom_recording db _ _ true items 0 _ s []).1
  · simp only [BatchImporter.ImportUsers, importUsersFrom_eq]
    exact importFrom_summary db Stmt.InsertUser _ (fun _ => rfl) items s
  · simp only [BatchImporter.ImportEvents, importEventsFrom_eq]
    exact (importFrom_recording db _ _ true items 0 _ s []).1
  · simp only [BatchImporter.ImportEvents, importEventsFrom_eq]
    exact importFrom_summary db Stmt.InsertEvent _ (fun _ => rfl) items s
  · simp only [BatchImporter.ImportTickets, importTicketsFrom_eq]
    exact (importFrom_recording db _ _ true items 0 _ s []).1
  · simp only [BatchImporter.ImportTickets, importTicketsFrom_eq]
    exact importFrom_summary db Stmt.InsertTicket _ (fun _ => rfl) items s

/-- C20 at the sample store, inside a transaction in which the insert of the
second of three users fails. -/
theorem import_continue_result_witness :
    (BatchImporter.ImportUsers pg.recording sampleUsers true
        ((pg.BeginTxx (sampleConn sampleTables secondRowFails)).2, [])).1
      = ({ Total := 3, Success := 2, Failed := 1,
           Errors := [{ Index := 1,
                        Error := "duplicate key value violates unique constraint" }] }, none) ∧
    BatchSummary (sampleUsers.map Stmt.InsertUser)
      (BatchImporter.ImportUsers pg.recording sampleUsers true
        ((pg.BeginTxx (sampleConn sampleTables secondRowFails)).2, [])).1.1
      (BatchImporter.ImportUsers pg.recording sampleUsers true
        ((pg.BeginTxx (sampleConn sampleTables secondRowFails)).2, [])).1.2
      (BatchImporter.ImportUsers pg.recording sampleUsers true
        ((pg.BeginTxx (sampleConn sampleTables secondRowFails)).2, [])).2.2 :=
  ⟨by decide,
   ((import_continue_result pg (pg.BeginTxx (sampleConn sampleTables secondRowFails)).2).1
      sampleUsers).2 (by decide)⟩

/-! ## Partial isolation of a batch -/

/-- `UseCase.ImportUsers` is `WithTx` on the shared callback. -/
theorem ImportUsers_importTx {σ : Type} (db : SqlDB σ) (audit : Setter σ) (imp : Importer σ)
    (inp : ImportUsersInput) (w : World σ) :
    UseCase.ImportUsers db audit imp inp w
      = (((TxManager.WithTx db (importTx audit inp.UserID inp.IP
            (Call.ImportUsers inp.Items inp.ContinueOnError)
            (imp.ImportUsers inp.Items inp.ContinueOnError)) Result.zero w).1.2,
          (TxManager.WithTx db (importTx audit inp.UserID inp.IP
            (Call.ImportUsers inp.Items inp.ContinueOnError)
            (imp.ImportUsers inp.Items inp.ContinueOnError)) Result.zero w).1.1),
         (TxManager.WithTx db (importTx audit inp.UserID inp.IP
            (Call.ImportUsers inp.Items inp.ContinueOnError)
            (imp.ImportUsers inp.Items inp.ContinueOnError)) Result.zero w).2) := rfl

/-- `UseCase.ImportEvents` is `WithTx` on the shared callback. -/
theorem ImportEvents_importTx {σ : Type} (db : SqlDB σ) (audit : Setter σ) (imp : Importer σ)
    (inp : ImportEventsInput) (w : World σ) :
    UseCase.ImportEvents db audit imp inp w
      = (((TxManager.WithTx db (importTx audit inp.UserID inp.IP
            (Call.ImportEvents inp.Items inp.ContinueOnError)
            (imp.ImportEvents inp.Items inp.ContinueOnError)) Result.zero w).1.2,
          (TxManager.WithTx db (importTx audit inp.UserID inp.IP
            (Call.ImportEvents inp.Items inp.ContinueOnError)
            (imp.ImportEvents inp.Items inp.ContinueOnError)) Result.zero w).1.1),
         (TxManager.WithTx db (importTx audit inp.UserID inp.IP
            (Call.ImportEvents inp.Items inp.ContinueOnError)
            (imp.ImportEvents inp.Items inp.ContinueOnError)) Result.zero w).2) := rfl

/-- `UseCase.ImportTickets` is `WithTx` on the shared callback. -/
theorem ImportTickets_importTx {σ : Type} (db : SqlDB σ) (audit : Setter σ) (imp : Importer σ)
    (inp : ImportTicketsInput) (w : World σ) :
    UseCase.ImportTickets db audit imp inp w
      = (((TxManager.WithTx db (importTx audit inp.UserID inp.IP
            (Call.ImportTickets inp.Items inp.ContinueOnError)
            (imp.ImportTickets inp.Items inp.ContinueOnError)) Result.zero w).1.2,
          (TxManager.WithTx db (importTx audit inp.UserID inp.IP
            (Call.ImportTickets inp.Items inp.ContinueOnError)
            (imp.ImportTickets inp.Items inp.ContinueOnError)) Result.zero w).1.1),
         (TxManager.WithTx db (importTx audit inp.UserID inp.IP
            (Call.ImportTickets inp.Items inp.ContinueOnError)
            (imp.ImportTickets inp.Items inp.ContinueOnError)) Result.zero w).2) := rfl

/-- A statement that nothing is injected into, in a transaction that is not
aborted (or the rollback to the savepoint in any transaction): the store
applies it. -/
theorem pg_exec_pass (stmt : Stmt) (C : Tables) (t : TxState) (sc : List (Option String))
    (n : Nat) (now : Time) (h : t.aborted = false ∨ stmt = Stmt.RollbackToSavepoint) :
    pg.ExecContext stmt ⟨C, some t, none :: sc, n, now⟩
      = (((t.apply (UUID.String n) now stmt).1.2.1, (t.apply (UUID.String n) now stmt).1.2.2),
         ⟨C, some (t.apply (UUID.String n) now stmt).2, sc, n + 1, now⟩) := by
  have hc : ¬ (t.aborted = true ∧ stmt ≠ Stmt.RollbackToSavepoint) := by
    rintro ⟨h1, h2⟩
    rcases h with h | h
    · rw [h] at h1; exact Bool.noConfusion h1
    · exact h2 h
  simp [pg, Conn.statement, hc]

/-- A statement that a failure is injected into, in a transaction that is not
aborted: it fails with the message and aborts the transaction. -/
theorem pg_exec_fail (stmt : Stmt) (C : Tables) (t : TxState) (msg : String)
    (sc : List (Option String)) (n : Nat) (now : Time) (h : t.aborted = false) :
    pg.ExecContext stmt ⟨C, some t, some msg :: sc, n, now⟩
      = ((0, some (GoError.other msg)), ⟨C, some { t with aborted := true }, sc, n, now⟩) := by
  simp [pg, Conn.statement, h]

/-- What a row insert does to a transaction: it returns no error and adds its
row to the working copy. -/
theorem apply_rowInsert (t : TxState) (fresh : String) (now : Time) (stmt : Stmt)
    (h : stmt.isRowInsert = true) :
    (t.apply fresh now stmt).1.2.2 = none ∧
    (t.apply fresh now stmt).2 = { t with tables := t.tables.withRow fresh now stmt } := by
  cases stmt <;> first
    | exact Bool.noConfusion h
    | exact ⟨rfl, rfl⟩

/-- `BatchImporter.ImportUsers` is the shared loop from row 0 on a fresh
result. -/
theorem ImportUsers_shared {σ : Type} (db : SqlDB σ) (items : List ImportUsersItem) (c : Bool) :
    BatchImporter.ImportUsers db items c
      = importFrom db Stmt.InsertUser "batch import users failed" c items 0
          { Total := items.length, Success := 0, Failed := 0, Errors := [] } :=
  funext (fun s => by simp only [BatchImporter.ImportUsers, importUsersFrom_eq])

/-- `BatchImporter.ImportEvents` is the shared loop from row 0 on a fresh
result. -/
theorem ImportEvents_shared {σ : Type} (db : SqlDB σ) (items : List ImportEventsItem)
    (c : Bool) :
    BatchImporter.ImportEvents db items c
      = importFrom db Stmt.InsertEvent "batch import events failed" c items 0
          { Total := items.length, Success := 0, Failed := 0, Errors := [] } :=
  funext (fun s => by simp only [BatchImporter.ImportEvents, importEventsFrom_eq])

/-- `BatchImporter.ImportTickets` is the shared loop from row 0 on a fresh
result. -/
theorem ImportTickets_shared {σ : Type} (db : SqlDB σ) (items : List ImportTicketsItem)
    (c : Bool) :
    BatchImporter.ImportTickets db items c
      = importFrom db Stmt.InsertTicket "batch import tickets failed" c items 0
          { Total := items.length, Success := 0, Failed := 0, Errors := [] } :=
  funext (fun s => by simp only [BatchImporter.ImportTickets, importTicketsFrom_eq])
/-- One row of a batch on the store whose insert passes: the working copy gains
the row, the savepoint is released, three ids are drawn. -/
theorem pg_row_pass (ins : Stmt) (hins : ins.isRowInsert = true) (C T : Tables)
    (sps : List Tables) (u ip : Option String) (sc : List (Option String)) (n : Nat)
    (now : Time) :
    (pg.ExecContext Stmt.Savepoint
      ⟨C, some ⟨T, sps, false, u, ip⟩, none :: none :: none :: sc, n, now⟩).1.2 = none ∧
    (pg.ExecContext ins (pg.ExecContext Stmt.Savepoint
      ⟨C, some ⟨T, sps, false, u, ip⟩, none :: none :: none :: sc, n, now⟩).2).1.2 = none ∧
    (pg.ExecContext Stmt.ReleaseSavepoint (pg.ExecContext ins (pg.ExecContext Stmt.Savepoint
      ⟨C, some ⟨T, sps, false, u, ip⟩, none :: none :: none :: sc, n, now⟩).2).2).2
        = ⟨C, some ⟨T.withRow (UUID.String (n + 1)) now ins, sps, false, u, ip⟩, sc,
            n + 3, now⟩ := by
  have h1 : pg.ExecContext Stmt.Savepoint
        ⟨C, some ⟨T, sps, false, u, ip⟩, none :: none :: none :: sc, n, now⟩
      = ((0, none), ⟨C, some ⟨T, T :: sps, false, u, ip⟩, none :: none :: sc, n + 1, now⟩) := by
    rw [pg_exec_pass _ _ _ _ _ _ (Or.inl rfl)]
    rfl
  have h2 : pg.ExecContext ins ⟨C, some ⟨T, T :: sps, false, u, ip⟩, none :: none :: sc, n + 1, now⟩
      = (((TxState.apply ⟨T, T :: sps, false, u, ip⟩ (UUID.String (n + 1)) now ins).1.2.1, none),
          ⟨C, some ⟨T.withRow (UUID.String (n + 1)) now ins, T :: sps, false, u, ip⟩,
            none :: sc, n + 2, now⟩) := by
    rw [pg_exec_pass _ _ _ _ _ _ (Or.inl rfl)]
    rw [(apply_rowInsert _ _ _ _ hins).1, (apply_rowInsert _ _ _ _ hins).2]
  have h3 : pg.ExecContext Stmt.ReleaseSavepoint
        ⟨C, some ⟨T.withRow (UUID.String (n + 1)) now ins, T :: sps, false, u, ip⟩,
          none :: sc, n + 2, now⟩
      = ((0, none), ⟨C, some ⟨T.withRow (UUID.String (n + 1)) now ins, sps, false, u, ip⟩,
          sc, n + 3, now⟩) := by
    rw [pg_exec_pass _ _ _ _ _ _ (Or.inl rfl)]
    rfl
  rw [h1]
  simp only
  rw [h2]
  simp only
  rw [h3]
  exact ⟨trivial, trivial, rfl⟩

/-- One row of a batch on the store whose insert fails: the rollback to the
savepoint revives the transaction, the savepoint is released, and the working
copy is the one before the row. -/
theorem pg_row_fail (ins : Stmt) (msg : String) (C T : Tables)
    (sps : List Tables) (u ip : Option String) (sc : List (Option String)) (n : Nat)
    (now : Time) :
    (pg.ExecContext Stmt.Savepoint
      ⟨C, some ⟨T, sps, false, u, ip⟩, none :: some msg :: none :: none :: sc, n, now⟩).1.2
        = none ∧
    (pg.ExecContext ins (pg.ExecContext Stmt.Savepoint
      ⟨C, some ⟨T, sps, false, u, ip⟩, none :: some msg :: none :: none :: sc, n, now⟩).2).1.2
        = some (GoError.other msg) ∧
    (pg.ExecContext Stmt.ReleaseSavepoint (pg.ExecContext Stmt.RollbackToSavepoint
      (pg.ExecContext ins (pg.ExecContext Stmt.Savepoint
        ⟨C, some ⟨T, sps, false, u, ip⟩, none :: some msg :: none :: none :: sc, n,
          now⟩).2).2).2).2
        = ⟨C, some ⟨T, sps, false, u, ip⟩, sc, n + 3, now⟩ := by
  have h1 : pg.ExecContext Stmt.Savepoint
        ⟨C, some ⟨T, sps, false, u, ip⟩, none :: some msg :: none :: none :: sc, n, now⟩
      = ((0, none), ⟨C, some ⟨T, T :: sps, false, u, ip⟩,
          some msg :: none :: none :: sc, n + 1, now⟩) := by
    rw [pg_exec_pass _ _ _ _ _ _ (Or.inl rfl)]
    rfl
  have h2 : pg.ExecContext ins ⟨C, some ⟨T, T :: sps, false, u, ip⟩,
        some msg :: none :: none :: sc, n + 1, now⟩
      = ((0, some (GoError.other msg)),
          ⟨C, some ⟨T, T :: sps, true, u, ip⟩, none :: none :: sc, n + 1, now⟩) := by
    rw [pg_exec_fail _ _ _ _ _ _ _ rfl]
  have h3 : pg.ExecContext Stmt.RollbackToSavepoint
        ⟨C, some ⟨T, T :: sps, true, u, ip⟩, none :: none :: sc, n + 1, now⟩
      = ((0, none), ⟨C, some ⟨T, T :: sps, false, u, ip⟩, none :: sc, n + 2, now⟩) := by
    rw [pg_exec_pass _ _ _ _ _ _ (Or.inr rfl)]
    rfl
  have h4 : pg.ExecContext Stmt.ReleaseSavepoint
        ⟨C, some ⟨T, T :: sps, false, u, ip⟩, none :: sc, n + 2, now⟩
      = ((0, none), ⟨C, some ⟨T, sps, false, u, ip⟩, sc, n + 3, now⟩) := by
    rw [pg_exec_pass _ _ _ _ _ _ (Or.inl rfl)]
    rfl
  rw [h1]
  simp only
  rw [h2]
  simp only
  rw [h3]
  simp only
  rw [h4]
  exact ⟨trivial, trivial, rfl⟩

/-- The shared loop on the store, continuing on error, under a script in which
nothing fails but the inserts marked in `outcomes`: it returns nil and the
counts of the outcomes, and leaves the transaction live with the rows whose
inserts passed, no savepoint more than before and the rest of the script. -/
theorem pg_importFrom {α : Type} (insert : α → Stmt) (failed : String)
    (hins : ∀ a, (insert a).isRowInsert = true) (C : Tables) (sps : List Tables)
    (u ip : Option String) (sc : List (Option String)) (now : Time) :
    ∀ (items : List α) (outcomes : List (Option String)), outcomes.length = items.length →
      ∀ (i : Nat) (res : Result) (T : Tables) (n : Nat),
        importFrom pg insert failed true items i res
            ⟨C, some ⟨T, sps, false, u, ip⟩, rowsScript outcomes ++ sc, n, now⟩
          = (({ Total := res.Total,
                Success := res.Success + (outcomes.filter (fun o => o.isNone)).length,
                Failed := res.Failed + (outcomes.filter (fun o => o.isSome)).length,
                Errors := res.Errors ++ failedAt outcomes i }, none),
             ⟨C, some ⟨keptRows now (items.map insert) outcomes n T, sps, false, u, ip⟩, sc,
               n + 3 * items.length, now⟩) := by
  intro items
  induction items with
  | nil =>
    intro outcomes hlen i res T n
    have ho : outcomes = [] := List.length_eq_zero.mp hlen
    subst ho
    simp [importFrom, rowsScript, keptRows, failedAt]
  | cons it rest ih =>
    intro outcomes hlen i res T n
    rcases outcomes with _ | ⟨o, os⟩
    · simp at hlen
    have hlen2 : os.length = rest.length := by simpa using hlen
    rcases o with _ | msg
    · obtain ⟨h1, h2, h3⟩ := pg_row_pass (insert it) (hins it) C T sps u ip
        (rowsScript os ++ sc) n now
      unfold importFrom
      simp only [rowsScript, rowScript, List.cons_append, List.nil_append]
      rcases e1 : pg.ExecContext Stmt.Savepoint
        ⟨C, some ⟨T, sps, false, u, ip⟩, none :: none :: none :: (rowsScript os ++ sc), n, now⟩
        with ⟨⟨n1, r1⟩, s1⟩
      rw [e1] at h1 h2 h3
      simp only at h1 h2 h3
      subst h1
      simp only
      rcases e2 : pg.ExecContext (insert it) s1 with ⟨⟨n2, r2⟩, s2⟩
      rw [e2] at h2 h3
      simp only at h2 h3
      subst h2
      simp only
      rw [h3, ih os hlen2]
      simp [keptRows, failedAt, List.filter_cons, Nat.add_assoc, Nat.add_comm, Nat.mul_add]
    · obtain ⟨h1, h2, h3⟩ := pg_row_fail (insert it) msg C T sps u ip
        (rowsScript os ++ sc) n now
      unfold importFrom
      simp only [rowsScript, rowScript, List.cons_append, List.nil_append]
      rcases e1 : pg.ExecContext Stmt.Savepoint
        ⟨C, some ⟨T, sps, false, u, ip⟩,
          none :: some msg :: none :: none :: (rowsScript os ++ sc), n, now⟩
        with ⟨⟨n1, r1⟩, s1⟩
      rw [e1] at h1 h2 h3
      simp only at h1 h2 h3
      subst h1
      simp only
      rcases e2 : pg.ExecContext (insert it) s1 with ⟨⟨n2, r2⟩, s2⟩
      rw [e2] at h2 h3
      simp only at h2 h3
      subst h2
      simp only [Bool.not_true, Bool.false_eq_true, if_false]
      rw [h3, ih os hlen2]
      simp [keptRows, failedAt, List.filter_cons, GoError.Error, Nat.add_assoc, Nat.add_comm,
        Nat.mul_add]
/-- The audit stamp on the store when nothing is injected into its statements:
it returns nil, writes the settings of the transaction and draws one id for
each statement. -/
theorem Set_pass (userID : UUID) (ip : String) (C T : Tables) (sps : List Tables)
    (u0 ip0 : Option String) (sc : List (Option String)) (n : Nat) (now : Time) :
    AuditContextSetter.Set pg userID ip
        ⟨C, some ⟨T, sps, false, u0, ip0⟩, List.replicate (stamps userID ip) none ++ sc, n, now⟩
      = (none, ⟨C, some ⟨T, sps, false,
            if userID = Nil then u0 else some (UUID.String userID),
            if ip = "" then ip0 else some ip⟩, sc, n + stamps userID ip, now⟩) := by
  by_cases hu : userID = Nil
  · by_cases hi : ip = ""
    · simp [AuditContextSetter.Set, stamps, hu, hi]
    · simp [AuditContextSetter.Set, stamps, hu, hi, List.replicate, pg_exec_pass, TxState.apply]
  · by_cases hi : ip = ""
    · simp [AuditContextSetter.Set, stamps, hu, hi, List.replicate, pg_exec_pass, TxState.apply]
    · simp [AuditContextSetter.Set, stamps, hu, hi, List.replicate, pg_exec_pass, TxState.apply]

/-- A batch use case on the store, continuing on error, under a script in
which nothing fails but the inserts marked in `outcomes`: the transaction is
committed with the rows whose inserts passed. -/
theorem importTx_commits {α : Type} (insert : α → Stmt) (failed : String)
    (hins : ∀ a, (insert a).isRowInsert = true) (userID : UUID) (ip : String) (call : Call)
    (items : List α) (outcomes : List (Option String)) (hlen : outcomes.length = items.length)
    (C : Tables) (n : Nat) (now : Time) (calls : List Call) :
    TxManager.WithTx pg (importTx (AuditContextSetter pg) userID ip call
        (importFrom pg insert failed true items 0
          { Total := items.length, Success := 0, Failed := 0, Errors := [] }))
        Result.zero ⟨⟨C, none, batchScript userID ip outcomes, n, now⟩, calls⟩
      = ((none, resultOf outcomes),
         ⟨⟨keptRows now (items.map insert) outcomes (n + stamps userID ip) C, none, [],
            n + stamps userID ip + 3 * items.length, now⟩,
          calls ++ [Call.WithTx, Call.BeginTxx, Call.Callback, Call.Set userID ip, call,
            Call.Commit, Call.Rollback]⟩) := by
  have hb : pg.BeginTxx ⟨C, none, batchScript userID ip outcomes, n, now⟩
      = (none, ⟨C, some ⟨C, [], false, none, none⟩,
          List.replicate (stamps userID ip) none ++ (rowsScript outcomes ++ []), n, now⟩) := by
    simp [pg, batchScript]
  have hs := Set_pass userID ip C C [] none none (rowsScript outcomes ++ []) n now
  have hi := pg_importFrom insert failed hins C []
    (if userID = Nil then none else some (UUID.String userID))
    (if ip = "" then none else some ip) [] now items outcomes hlen 0
    { Total := items.length, Success := 0, Failed := 0, Errors := [] } C (n + stamps userID ip)
  simp only [TxManager.WithTx, importTx, World.run, World.note, AuditContextSetter, hb, hs, hi]
  simp [pg, resultOf, hlen]

/-- The rows `keptRows` adds for a batch of users are the rows of the items
whose inserts passed, in their order; no other table changes. -/
theorem keptRows_users (now : Time) (items : List ImportUsersItem) :
    ∀ (outcomes : List (Option String)) (n : Nat) (T : Tables),
      keptRows now (items.map Stmt.InsertUser) outcomes n T
        = { T with users := T.users ++ (passed items outcomes).map userRow } := by
  induction items with
  | nil => intro outcomes n T; cases outcomes <;> simp [keptRows, passed]
  | cons it rest ih =>
    intro outcomes n T
    rcases outcomes with _ | ⟨_ | msg, os⟩
    · simp [keptRows, passed]
    · simp [keptRows, passed, ih, Tables.withRow, TxState.apply, userRow]
    · simp [keptRows, passed, ih]
/-- C21. A batch use case on the store that continues on error, under a script
in which nothing fails but the inserts marked in `outcomes`, whichever and
however many they are: the use case returns nil and the counts of the
outcomes, it commits (the calls end with `Commit` and the deferred `Rollback`)
and the committed tables are the old ones with the rows whose inserts passed
and none of the rows whose inserts failed. For users these are the old tables
with the rows of the passing items appended. -/
theorem import_partial_commit (C : Tables) (n : Nat) (now : Time) (calls : List Call)
    (outcomes : List (Option String)) :
    (∀ inp : ImportUsersInput, inp.ContinueOnError = true →
      outcomes.length = inp.Items.length →
      UseCase.ImportUsers pg (AuditContextSetter pg) (BatchImporter pg) inp
          ⟨⟨C, none, batchScript inp.UserID inp.IP outcomes, n, now⟩, calls⟩
        = ((resultOf outcomes, none),
           ⟨⟨{ C with users := C.users ++ (passed inp.Items outcomes).map userRow }, none, [],
              n + stamps inp.UserID inp.IP + 3 * inp.Items.length, now⟩,
            calls ++ [Call.WithTx, Call.BeginTxx, Call.Callback, Call.Set inp.UserID inp.IP,
              Call.ImportUsers inp.Items true, Call.Commit, Call.Rollback]⟩)) ∧
    (∀ inp : ImportEventsInput, inp.ContinueOnError = true →
      outcomes.length = inp.Items.length →
      UseCase.ImportEvents pg (AuditContextSetter pg) (BatchImporter pg) inp
          ⟨⟨C, none, batchScript inp.UserID inp.IP outcomes, n, now⟩, calls⟩
        = ((resultOf outcomes, none),
           ⟨⟨keptRows now (inp.Items.map Stmt.InsertEvent) outcomes
                (n + stamps inp.UserID inp.IP) C, none, [],
              n + stamps inp.UserID inp.IP + 3 * inp.Items.length, now⟩,
            calls ++ [Call.WithTx, Call.BeginTxx, Call.Callback, Call.Set inp.UserID inp.IP,
              Call.ImportEvents inp.Items true, Call.Commit, Call.Rollback]⟩)) ∧
    (∀ inp : ImportTicketsInput, inp.ContinueOnError = true →
      outcomes.length = inp.Items.length →
      UseCase.ImportTickets pg (AuditContextSetter pg) (BatchImporter pg) inp
          ⟨⟨C, none, batchScript inp.UserID inp.IP outcomes, n, now⟩, calls⟩
        = ((resultOf outcomes, none),
           ⟨⟨keptRows now (inp.Items.map Stmt.InsertTicket) outcomes
                (n + stamps inp.UserID inp.IP) C, none, [],
              n + stamps inp.UserID inp.IP + 3 * inp.Items.length, now⟩,
            calls ++ [Call.WithTx, Call.BeginTxx, Call.Callback, Call.Set inp.UserID inp.IP,
              Call.ImportTickets inp.Items true, Call.Commit, Call.Rollback]⟩)) := by
  refine ⟨fun inp hc hlen => ?_, fun inp hc hlen => ?_, fun inp hc hlen => ?_⟩
  · rw [ImportUsers_importTx, hc]
    simp only [BatchImporter, ImportUsers_shared]
    rw [importTx_commits Stmt.InsertUser _ (fun _ => rfl) _ _ _ _ _ hlen, keptRows_users]
  · rw [ImportEvents_importTx, hc]
    simp only [BatchImporter, ImportEvents_shared]
    rw [importTx_commits Stmt.InsertEvent _ (fun _ => rfl) _ _ _ _ _ hlen]
  · rw [ImportTickets_importTx, hc]
    simp only [BatchImporter, ImportTickets_shared]
    rw [importTx_commits Stmt.InsertTicket _ (fun _ => rfl) _ _ _ _ _ hlen]

/-- C21 at the sample store: of three users the second fails; the result is
three rows, two successes and one failure at position 1, with a nil error, and
the first and third users are committed. -/
theorem import_partial_commit_witness :
    (UseCase.ImportUsers pg (AuditContextSetter pg) (BatchImporter pg) sampleUsersInput
        ⟨⟨sampleTables, none, batchScript 3 "10.0.0.1" secondFails, 100, 5⟩, []⟩).1
      = ({ Total := 3, Success := 2, Failed := 1,
           Errors := [{ Index := 1,
                        Error := "duplicate key value violates unique constraint" }] }, none) ∧
    (UseCase.ImportUsers pg (AuditContextSetter pg) (BatchImporter pg) sampleUsersInput
        ⟨⟨sampleTables, none, batchScript 3 "10.0.0.1" secondFails, 100, 5⟩, []⟩).2.st.committed.users
      = [{ email := "a@x.io", password_hash := "h1", full_name := "A", phone := none,
           role := "user", is_active := true },
         { email := "c@x.io", password_hash := "h3", full_name := "C", phone := none,
           role := "admin", is_active := true }] :=
  ⟨(congrArg Prod.fst ((import_partial_commit sampleTables 100 5 [] secondFails).1
      sampleUsersInput rfl rfl)).trans (by decide),
   (congrArg (fun o => o.2.st.committed.users)
      ((import_partial_commit sampleTables 100 5 [] secondFails).1
        sampleUsersInput rfl rfl)).trans (by decide)⟩

/-! ## Hard abort of a batch -/

/-- The shared loop that does not continue on error: when one of the row
inserts it sent failed, that was the insert of some row `k`, the last
statements sent are those of that row, the inserts before it passed, and the
loop returned a `Conflict` with the counts so far. -/
theorem importFrom_stop {σ α : Type} (db : SqlDB σ) (insert : α → Stmt) (failed : String)
    (hins : ∀ a, (insert a).isRowInsert = true) (items : List α) :
    ∀ (i : Nat) (res : Result) (s : σ) (log : List Sent), ∃ tr,
      (importFrom db.recording insert failed false items i res (s, log)).2.2 = log ++ tr ∧
      ((∃ x ∈ rowInserts tr, x.err ≠ none) →
        ∃ (k : Nat) (e : GoError) (pre : List Sent) (st : Stmt) (r1 r2 : Option GoError),
          k < items.length ∧
          tr = pre ++ [⟨Stmt.Savepoint, none⟩, ⟨st, some e⟩, ⟨Stmt.RollbackToSavepoint, r1⟩,
            ⟨Stmt.ReleaseSavepoint, r2⟩] ∧
          (rowInserts tr).map Sent.stmt = (items.map insert).take (k + 1) ∧
          (rowInserts tr).map Sent.err = List.replicate k none ++ [some e] ∧
          (importFrom db.recording insert failed false items i res (s, log)).1.2
            = some (New Code.CodeConflict failed (some e)) ∧
          (importFrom db.recording insert failed false items i res (s, log)).1.1
            = { Total := res.Total, Success := res.Success + k, Failed := res.Failed + 1,
                Errors := res.Errors ++ [{ Index := i + k, Error := e.Error }] }) := by
  induction items with
  | nil =>
    intro i res s log
    exact ⟨[], by simp [importFrom], fun h => by simp [rowInserts] at h⟩
  | cons it rest ih =>
    intro i res s log
    unfold importFrom
    simp only [recording_exec]
    rcases h1 : db.ExecContext Stmt.Savepoint s with ⟨⟨n1, _ | err1⟩, s1⟩
    · simp only
      rcases h2 : db.ExecContext (insert it) s1 with ⟨⟨n2, _ | err2⟩, s2⟩
      · simp only
        obtain ⟨tr2, hlog, hres⟩ := ih (i + 1) { res with Success := res.Success + 1 }
          (db.ExecContext Stmt.ReleaseSavepoint s2).2
          (log ++ [⟨Stmt.Savepoint, none⟩] ++ [⟨insert it, none⟩] ++
            [⟨Stmt.ReleaseSavepoint, (db.ExecContext Stmt.ReleaseSavepoint s2).1.2⟩])
        have hri := rowInserts_row (insert it) (hins it) none
          [⟨Stmt.ReleaseSavepoint, (db.ExecContext Stmt.ReleaseSavepoint s2).1.2⟩] tr2
          (by simp [Stmt.isRowInsert])
        refine ⟨⟨Stmt.Savepoint, none⟩ :: ⟨insert it, none⟩ ::
          ([⟨Stmt.ReleaseSavepoint, (db.ExecContext Stmt.ReleaseSavepoint s2).1.2⟩] ++ tr2),
          ?_, fun hf => ?_⟩
        · rw [hlog]; simp
        · rw [hri] at hf ⊢
          have hf2 : ∃ x ∈ rowInserts tr2, x.err ≠ none := by
            obtain ⟨x, hx, hxe⟩ := hf
            rcases List.mem_cons.mp hx with rfl | hx2
            · exact absurd rfl hxe
            · exact ⟨x, hx2, hxe⟩
          obtain ⟨k, e, pre, st, r1, r2, hk, htr, hstm, herr, he, hr⟩ := hres hf2
          refine ⟨k + 1, e, ⟨Stmt.Savepoint, none⟩ :: ⟨insert it, none⟩ ::
            ⟨Stmt.ReleaseSavepoint, (db.ExecContext Stmt.ReleaseSavepoint s2).1.2⟩ :: pre,
            st, r1, r2, ?_, ?_, ?_, ?_, he, ?_⟩
          · simp only [List.length_cons]; omega
          · rw [htr]; simp
          · simp [hstm]
          · simp [herr, List.replicate_succ]
          · rw [hr]
            simp only [Result.mk.injEq, true_and, List.append_cancel_left_eq, List.cons.injEq,
              BatchError.mk.injEq, and_true]
            omega
      · simp only [Bool.not_false, if_true]
        refine ⟨[⟨Stmt.Savepoint, none⟩, ⟨insert it, some err2⟩,
          ⟨Stmt.RollbackToSavepoint, (db.ExecContext Stmt.RollbackToSavepoint s2).1.2⟩,
          ⟨Stmt.ReleaseSavepoint, (db.ExecContext Stmt.ReleaseSavepoint
            (db.ExecContext Stmt.RollbackToSavepoint s2).2).1.2⟩], by simp, fun _ => ?_⟩
        have hri := rowInserts_row (insert it) (hins it) (some err2)
          [⟨Stmt.RollbackToSavepoint, (db.ExecContext Stmt.RollbackToSavepoint s2).1.2⟩,
            ⟨Stmt.ReleaseSavepoint, (db.ExecContext Stmt.ReleaseSavepoint
              (db.ExecContext Stmt.RollbackToSavepoint s2).2).1.2⟩] []
          (by simp [Stmt.isRowInsert])
        simp only [List.append_nil] at hri
        refine ⟨0, err2, [], insert it, _, _, by simp, rfl, ?_, ?_, rfl, by simp⟩
        · rw [hri]; simp [rowInserts]
        · rw [hri]; simp [rowInserts]
    · exact ⟨[⟨Stmt.Savepoint, some err1⟩], by simp,
        fun h => by simp [rowInserts, Stmt.isRowInsert] at h⟩
/-- What the recording connection does on `BeginTxx`. -/
theorem recording_begin {σ : Type} (db : SqlDB σ) (p : σ × List Sent) :
    db.recording.BeginTxx p = ((db.BeginTxx p.1).1, ((db.BeginTxx p.1).2, p.2)) := rfl

/-- What the recording connection does on `Commit`. -/
theorem recording_commit {σ : Type} (db : SqlDB σ) (p : σ × List Sent) :
    db.recording.Commit p = ((db.Commit p.1).1, ((db.Commit p.1).2, p.2)) := rfl

/-- What the recording connection does on `Rollback`. -/
theorem recording_rollback {σ : Type} (db : SqlDB σ) (p : σ × List Sent) :
    db.recording.Rollback p = ((db.Rollback p.1).1, ((db.Rollback p.1).2, p.2)) := rfl

/-- The record of the audit stamp: what it sends is appended, none of it is a
row insert or a savepoint, and recording changes neither its result nor what it
does to the connection. -/
theorem Set_record {σ : Type} (db : SqlDB σ) (userID : UUID) (ip : String) (s : σ)
    (log : List Sent) :
    ∃ tr, AuditContextSetter.Set db.recording userID ip (s, log)
        = ((AuditContextSetter.Set db userID ip s).1,
           ((AuditContextSetter.Set db userID ip s).2, log ++ tr)) ∧
      (∀ x ∈ tr, x.stmt.isRowInsert = false ∧ x.stmt ≠ Stmt.Savepoint) := by
  by_cases hu : userID = Nil
  · by_cases hi : ip = ""
    · exact ⟨[], by simp [AuditContextSetter.Set, hu, hi], by simp⟩
    · rcases h2 : db.ExecContext (Stmt.SetConfigIP ip) s with ⟨⟨m, _ | e⟩, s2⟩
      · exact ⟨[⟨Stmt.SetConfigIP ip, none⟩],
          by simp [AuditContextSetter.Set, recording_exec, hu, hi, h2],
          by simp [Stmt.isRowInsert]⟩
      · exact ⟨[⟨Stmt.SetConfigIP ip, some e⟩],
          by simp [AuditContextSetter.Set, recording_exec, hu, hi, h2],
          by simp [Stmt.isRowInsert]⟩
  · rcases h1 : db.ExecContext (Stmt.SetConfigUserID (UUID.String userID)) s
      with ⟨⟨n, _ | e⟩, s1⟩
    · by_cases hi : ip = ""
      · exact ⟨[⟨Stmt.SetConfigUserID (UUID.String userID), none⟩],
          by simp [AuditContextSetter.Set, recording_exec, hu, hi, h1],
          by simp [Stmt.isRowInsert]⟩
      · rcases h2 : db.ExecContext (Stmt.SetConfigIP ip) s1 with ⟨⟨m, _ | e⟩, s2⟩
        · exact ⟨[⟨Stmt.SetConfigUserID (UUID.String userID), none⟩,
              ⟨Stmt.SetConfigIP ip, none⟩],
            by simp [AuditContextSetter.Set, recording_exec, hu, hi, h1, h2],
            by simp [Stmt.isRowInsert]⟩
        · exact ⟨[⟨Stmt.SetConfigUserID (UUID.String userID), none⟩,
              ⟨Stmt.SetConfigIP ip, some e⟩],
            by simp [AuditContextSetter.Set, recording_exec, hu, hi, h1, h2],
            by simp [Stmt.isRowInsert]⟩
    · exact ⟨[⟨Stmt.SetConfigUserID (UUID.String userID), some e⟩],
        by simp [AuditContextSetter.Set, recording_exec, hu, h1],
        by simp [Stmt.isRowInsert]⟩

/-- The shared loop does not touch the committed tables of the store. -/
theorem importFrom_committed {α : Type} (insert : α → Stmt) (failed : String) (c : Bool)
    (items : List α) :
    ∀ (i : Nat) (res : Result) (s : Conn),
      (importFrom pg insert failed c items i res s).2.committed = s.committed := by
  induction items with
  | nil => intro i res s; rfl
  | cons it rest ih =>
    intro i res s
    unfold importFrom
    have e1 := pg_exec_committed Stmt.Savepoint s
    rcases h1 : pg.ExecContext Stmt.Savepoint s with ⟨⟨n1, _ | err1⟩, s1⟩
    · rw [h1] at e1
      simp only at e1 ⊢
      have e2 := pg_exec_committed (insert it) s1
      rcases h2 : pg.ExecContext (insert it) s1 with ⟨⟨n2, _ | err2⟩, s2⟩
      · rw [h2] at e2
        simp only at e2 ⊢
        rw [ih, pg_exec_committed, e2, e1]
      · rw [h2] at e2
        simp only at e2 ⊢
        split
        · simp only
          rw [pg_exec_committed, pg_exec_committed, e2, e1]
        · rw [ih, pg_exec_committed, pg_exec_committed, e2, e1]
    · rw [h1] at e1
      exact e1
/-- A batch use case that does not continue on error, over any connection with
a record of the statements sent: when one of the row inserts sent failed, the
use case returns what `HardAbort` describes, it calls no `Commit`, and it
leaves the connection as the rollback of the plain run does. -/
theorem importTx_hard_abort {σ α : Type} (db : SqlDB σ) (insert : α → Stmt) (failed : String)
    (hins : ∀ a, (insert a).isRowInsert = true) (userID : UUID) (ip : String) (call : Call)
    (items : List α) (s : σ) (calls : List Call)
    (hfail : ∃ x ∈ rowInserts (TxManager.WithTx db.recording
        (importTx (AuditContextSetter db.recording) userID ip call
          (importFrom db.recording insert failed false items 0
            { Total := items.length, Success := 0, Failed := 0, Errors := [] }))
        Result.zero ⟨(s, []), calls⟩).2.st.2, x.err ≠ none) :
    HardAbort (items.map insert) failed
      (TxManager.WithTx db.recording
        (importTx (AuditContextSetter db.recording) userID ip call
          (importFrom db.recording insert failed false items 0
            { Total := items.length, Success := 0, Failed := 0, Errors := [] }))
        Result.zero ⟨(s, []), calls⟩).1.2
      (TxManager.WithTx db.recording
        (importTx (AuditContextSetter db.recording) userID ip call
          (importFrom db.recording insert failed false items 0
            { Total := items.length, Success := 0, Failed := 0, Errors := [] }))
        Result.zero ⟨(s, []), calls⟩).1.1
      (TxManager.WithTx db.recording
        (importTx (AuditContextSetter db.recording) userID ip call
          (importFrom db.recording insert failed false items 0
            { Total := items.length, Success := 0, Failed := 0, Errors := [] }))
        Result.zero ⟨(s, []), calls⟩).2.st.2 ∧
    (TxManager.WithTx db.recording
        (importTx (AuditContextSetter db.recording) userID ip call
          (importFrom db.recording insert failed false items 0
            { Total := items.length, Success := 0, Failed := 0, Errors := [] }))
        Result.zero ⟨(s, []), calls⟩).2.calls
      = calls ++ [Call.WithTx, Call.BeginTxx, Call.Callback, Call.Set userID ip, call,
          Call.Rollback] ∧
    (TxManager.WithTx db.recording
        (importTx (AuditContextSetter db.recording) userID ip call
          (importFrom db.recording insert failed false items 0
            { Total := items.length, Success := 0, Failed := 0, Errors := [] }))
        Result.zero ⟨(s, []), calls⟩).2.st.1
      = (db.Rollback (importFrom db insert failed false items 0
          { Total := items.length, Success := 0, Failed := 0, Errors := [] }
          (AuditContextSetter.Set db userID ip (db.BeginTxx s).2).2).2).2 := by
  obtain ⟨tr0, hset, hnone⟩ := Set_record db userID ip (db.BeginTxx s).2 []
  have hri0 : rowInserts tr0 = [] := by
    unfold rowInserts
    rw [List.filter_eq_nil_iff]
    intro x hx
    simp [(hnone x hx).1]
  obtain ⟨hrec1, hrec2⟩ := importFrom_recording db insert failed false items 0
    { Total := items.length, Success := 0, Failed := 0, Errors := [] }
    (AuditContextSetter.Set db userID ip (db.BeginTxx s).2).2 ([] ++ tr0)
  obtain ⟨tr, hlog, hstop⟩ := importFrom_stop db insert failed hins items 0
    { Total := items.length, Success := 0, Failed := 0, Errors := [] }
    (AuditContextSetter.Set db userID ip (db.BeginTxx s).2).2 ([] ++ tr0)
  rcases hb : db.BeginTxx s with ⟨_ | eb, s1⟩
  · rw [hb] at hset hrec1 hrec2 hlog hstop
    simp only at hset hrec1 hrec2 hlog hstop
    rcases hs : AuditContextSetter.Set db userID ip s1 with ⟨_ | es, s2⟩
    · rw [hs] at hset hrec1 hrec2 hlog hstop
      simp only at hset hrec1 hrec2 hlog hstop
      rcases hi : importFrom db.recording insert failed false items 0
          { Total := items.length, Success := 0, Failed := 0, Errors := [] } (s2, [] ++ tr0)
        with ⟨⟨r, err⟩, ⟨s3, l3⟩⟩
      rw [hi] at hrec1 hrec2 hlog hstop
      simp only at hrec1 hrec2 hlog hstop
      subst hlog
      have hrows : rowInserts ([] ++ tr0 ++ tr) = rowInserts tr := by
        simp [rowInserts, List.filter_append] at hri0 ⊢
        intro x hx
        exact hri0 x hx
      rcases err with _ | e
      · simp only [TxManager.WithTx, World.note, World.run, recording_begin, recording_commit,
          recording_rollback, hb, importTx, AuditContextSetter, hset, hi] at hfail
        have hf : ∃ x ∈ rowInserts tr, x.err ≠ none := by
          rw [← hrows]
          rcases hc : db.Commit s3 with ⟨_ | ec, s4⟩
          · simpa [hc] using hfail
          · simpa [hc] using hfail
        obtain ⟨k, e, pre, st, r1, r2, hk, htr, hstm, herr, he, hr⟩ := hstop hf
        exact Option.noConfusion he
      · simp only [TxManager.WithTx, World.note, World.run, recording_begin, recording_commit,
          recording_rollback, hb, importTx, AuditContextSetter, hset, hi] at hfail ⊢
        have hf : ∃ x ∈ rowInserts tr, x.err ≠ none := by
          rw [← hrows]
          simpa using hfail
        obtain ⟨k, e2, pre, st, r1, r2, hk, htr, hstm, herr, he, hr⟩ := hstop hf
        refine ⟨⟨k, e2, [] ++ tr0 ++ pre, st, r1, r2, by simpa using hk, ?_, ?_, ?_, he, ?_⟩,
          by simp, ?_⟩
        · rw [htr]; simp
        · rw [hrows, hstm]
        · rw [hrows, herr]
        · rw [hr]; simp
        · rw [← hrec2]
    · rw [hs] at hset
      simp only [TxManager.WithTx, World.note, World.run, recording_begin, recording_commit,
        recording_rollback, hb, importTx, AuditContextSetter, hset] at hfail
      simp [hri0] at hfail
  · simp only [TxManager.WithTx, World.note, World.run, recording_begin, hb] at hfail
    simp [rowInserts] at hfail
/-- Recording the statements changes neither what a batch use case returns,
nor the calls it makes, nor what it does to the connection. -/
theorem importTx_recording {σ α : Type} (db : SqlDB σ) (insert : α → Stmt) (failed : String)
    (c : Bool) (userID : UUID) (ip : String) (call : Call) (items : List α) (res0 : Result)
    (s : σ) (calls : List Call) :
    (TxManager.WithTx db.recording
        (importTx (AuditContextSetter db.recording) userID ip call
          (importFrom db.recording insert failed c items 0 res0))
        Result.zero ⟨(s, []), calls⟩).1
      = (TxManager.WithTx db
          (importTx (AuditContextSetter db) userID ip call
            (importFrom db insert failed c items 0 res0)) Result.zero ⟨s, calls⟩).1 ∧
    (TxManager.WithTx db.recording
        (importTx (AuditContextSetter db.recording) userID ip call
          (importFrom db.recording insert failed c items 0 res0))
        Result.zero ⟨(s, []), calls⟩).2.st.1
      = (TxManager.WithTx db
          (importTx (AuditContextSetter db) userID ip call
            (importFrom db insert failed c items 0 res0)) Result.zero ⟨s, calls⟩).2.st ∧
    (TxManager.WithTx db.recording
        (importTx (AuditContextSetter db.recording) userID ip call
          (importFrom db.recording insert failed c items 0 res0))
        Result.zero ⟨(s, []), calls⟩).2.calls
      = (TxManager.WithTx db
          (importTx (AuditContextSetter db) userID ip call
            (importFrom db insert failed c items 0 res0)) Result.zero ⟨s, calls⟩).2.calls := by
  obtain ⟨tr0, hset, _⟩ := Set_record db userID ip (db.BeginTxx s).2 []
  simp only [List.nil_append] at hset
  obtain ⟨hrec1, hrec2⟩ := importFrom_recording db insert failed c items 0 res0
    (AuditContextSetter.Set db userID ip (db.BeginTxx s).2).2 tr0
  rcases hb : db.BeginTxx s with ⟨_ | eb, s1⟩
  · rw [hb] at hset hrec1 hrec2
    simp only at hset hrec1 hrec2
    rcases hs : AuditContextSetter.Set db userID ip s1 with ⟨_ | es, s2⟩
    · rw [hs] at hset hrec1 hrec2
      simp only at hset hrec1 hrec2
      rcases hi : importFrom db.recording insert failed c items 0 res0 (s2, tr0)
        with ⟨⟨r, err⟩, ⟨s3, l3⟩⟩
      rcases hp : importFrom db insert failed c items 0 res0 s2 with ⟨⟨r', err'⟩, s3'⟩
      rw [hi, hp] at hrec1 hrec2
      simp only [Prod.mk.injEq] at hrec1 hrec2
      obtain ⟨⟨rfl, rfl⟩, rfl⟩ := And.intro hrec1 hrec2
      rcases err with _ | e
      · rcases hc : db.Commit s3 with ⟨_ | ec, s4⟩
        · simp [TxManager.WithTx, World.note, World.run, recording_begin, recording_commit,
            recording_rollback, hb, importTx, AuditContextSetter, hset, hs, hi, hp, hc]
        · simp [TxManager.WithTx, World.note, World.run, recording_begin, recording_commit,
            recording_rollback, hb, importTx, AuditContextSetter, hset, hs, hi, hp, hc]
      · simp [TxManager.WithTx, World.note, World.run, recording_begin, recording_commit,
          recording_rollback, hb, importTx, AuditContextSetter, hset, hs, hi, hp]
    · rw [hs] at hset
      simp [TxManager.WithTx, World.note, World.run, recording_begin, recording_commit,
        recording_rollback, hb, importTx, AuditContextSetter, hset, hs]
  · simp [TxManager.WithTx, World.note, World.run, recording_begin, hb]

/-- The committed tables and the open transaction after the rollback that ends
a batch use case on the store. -/
theorem batch_rolled_back {α : Type} (insert : α → Stmt) (failed : String) (c : Bool)
    (userID : UUID) (ip : String) (items : List α) (res0 : Result) (s : Conn) :
    (pg.Rollback (importFrom pg insert failed c items 0 res0
        (AuditContextSetter.Set pg userID ip (pg.BeginTxx s).2).2).2).2.committed = s.committed ∧
    (pg.Rollback (importFrom pg insert failed c items 0 res0
        (AuditContextSetter.Set pg userID ip (pg.BeginTxx s).2).2).2).2.tx = none := by
  refine ⟨?_, pg_rollback_closes _⟩
  rw [pg_rollback_committed, importFrom_committed, Set_committed, pg_begin_committed]

/-- C22. A batch use case on the store that does not continue on error, with a
record of the statements sent. When the insert of some row failed, whatever
made it fail: the importer stopped at the first such row (the statements end
with those of that row and the row inserts sent are those of the rows up to
it), the use case returns the `Conflict` of the importer with the counts so
far, it makes no `Commit`, and afterwards the committed tables are those
before the call and no transaction is open, so no row of the batch is in
storage. Recording the statements does not change what the use case
returns. -/
theorem import_hard_abort (w : World Conn) :
    (∀ inp : ImportUsersInput, inp.ContinueOnError = false →
      (recImportUsers inp w).1
        = (UseCase.ImportUsers pg (AuditContextSetter pg) (BatchImporter pg) inp w).1 ∧
      ((∃ x ∈ rowInserts (recImportUsers inp w).2.st.2, x.err ≠ none) →
        HardAbort (inp.Items.map Stmt.InsertUser) "batch import users failed"
          (recImportUsers inp w).1.1 (recImportUsers inp w).1.2 (recImportUsers inp w).2.st.2 ∧
        (recImportUsers inp w).2.calls
          = w.calls ++ [Call.WithTx, Call.BeginTxx, Call.Callback, Call.Set inp.UserID inp.IP,
              Call.ImportUsers inp.Items false, Call.Rollback] ∧
        (recImportUsers inp w).2.st.1.committed = w.st.committed ∧
        (recImportUsers inp w).2.st.1.tx = none)) ∧
    (∀ inp : ImportEventsInput, inp.ContinueOnError = false →
      (recImportEvents inp w).1
        = (UseCase.ImportEvents pg (AuditContextSetter pg) (BatchImporter pg) inp w).1 ∧
      ((∃ x ∈ rowInserts (recImportEvents inp w).2.st.2, x.err ≠ none) →
        HardAbort (inp.Items.map Stmt.InsertEvent) "batch import events failed"
          (recImportEvents inp w).1.1 (recImportEvents inp w).1.2
          (recImportEvents inp w).2.st.2 ∧
        (recImportEvents inp w).2.calls
          = w.calls ++ [Call.WithTx, Call.BeginTxx, Call.Callback, Call.Set inp.UserID inp.IP,
              Call.ImportEvents inp.Items false, Call.Rollback] ∧
        (recImportEvents inp w).2.st.1.committed = w.st.committed ∧
        (recImportEvents inp w).2.st.1.tx = none)) ∧
    (∀ inp : ImportTicketsInput, inp.ContinueOnError = false →
      (recImportTickets inp w).1
        = (UseCase.ImportTickets pg (AuditContextSetter pg) (BatchImporter pg) inp w).1 ∧
      ((∃ x ∈ rowInserts (recImportTickets inp w).2.st.2, x.err ≠ none) →
        HardAbort (inp.Items.map Stmt.InsertTicket) "batch import tickets failed"
          (recImportTickets inp w).1.1 (recImportTickets inp w).1.2
          (recImportTickets inp w).2.st.2 ∧
        (recImportTickets inp w).2.calls
          = w.calls ++ [Call.WithTx, Call.BeginTxx, Call.Callback, Call.Set inp.UserID inp.IP,
              Call.ImportTickets inp.Items false, Call.Rollback] ∧
        (recImportTickets inp w).2.st.1.committed = w.st.committed ∧
        (recImportTickets inp w).2.st.1.tx = none)) := by
  refine ⟨fun inp hc => ⟨?_, ?_⟩, fun inp hc => ⟨?_, ?_⟩, fun inp hc => ⟨?_, ?_⟩⟩
  · unfold recImportUsers
    rw [ImportUsers_importTx, ImportUsers_importTx, hc]
    simp only [BatchImporter, ImportUsers_shared]
    rw [(importTx_recording pg _ _ _ _ _ _ _ _ _ _).1]
  · unfold recImportUsers
    rw [ImportUsers_importTx, hc]
    simp only [BatchImporter, ImportUsers_shared]
    intro hf
    obtain ⟨h1, h2, h3⟩ := importTx_hard_abort pg Stmt.InsertUser _ (fun _ => rfl) _ _ _ _ _ _ hf
    refine ⟨h1, h2, ?_, ?_⟩
    · rw [h3]; exact (batch_rolled_back _ _ _ _ _ _ _ _).1
    · rw [h3]; exact (batch_rolled_back _ _ _ _ _ _ _ _).2
  · unfold recImportEvents
    rw [ImportEvents_importTx, ImportEvents_importTx, hc]
    simp only [BatchImporter, ImportEvents_shared]
    rw [(importTx_recording pg _ _ _ _ _ _ _ _ _ _).1]
  · unfold recImportEvents
    rw [ImportEvents_importTx, hc]
    simp only [BatchImporter, ImportEvents_shared]
    intro hf
    obtain ⟨h1, h2, h3⟩ := importTx_hard_abort pg Stmt.InsertEvent _ (fun _ => rfl) _ _ _ _ _ _ hf
    refine ⟨h1, h2, ?_, ?_⟩
    · rw [h3]; exact (batch_rolled_back _ _ _ _ _ _ _ _).1
    · rw [h3]; exact (batch_rolled_back _ _ _ _ _ _ _ _).2
  · unfold recImportTickets
    rw [ImportTickets_importTx, ImportTickets_importTx, hc]
    simp only [BatchImporter, ImportTickets_shared]
    rw [(importTx_recording pg _ _ _ _ _ _ _ _ _ _).1]
  · unfold recImportTickets
    rw [ImportTickets_importTx, hc]
    simp only [BatchImporter, ImportTickets_shared]
    intro hf
    obtain ⟨h1, h2, h3⟩ := importTx_hard_abort pg Stmt.InsertTicket _ (fun _ => rfl) _ _ _ _ _ _ hf
    refine ⟨h1, h2, ?_, ?_⟩
    · rw [h3]; exact (batch_rolled_back _ _ _ _ _ _ _ _).1
    · rw [h3]; exact (batch_rolled_back _ _ _ _ _ _ _ _).2
/-- C22 at the sample store: of three users the insert of the second fails; the
first was inserted, the third is never sent, the result is a `Conflict`, and
the committed tables hold no user afterwards. -/
theorem import_hard_abort_witness :
    (recImportUsers sampleUsersStop
        (sampleWorld sampleTables (batchScript 3 "10.0.0.1" secondFails))).1
      = ({ Total := 3, Success := 1, Failed := 1,
           Errors := [{ Index := 1,
                        Error := "duplicate key value violates unique constraint" }] },
         some (New Code.CodeConflict "batch import users failed"
           (some (GoError.other "duplicate key value violates unique constraint")))) ∧
    (rowInserts (recImportUsers sampleUsersStop
        (sampleWorld sampleTables (batchScript 3 "10.0.0.1" secondFails))).2.st.2).map Sent.stmt
      = (sampleUsers.take 2).map Stmt.InsertUser ∧
    (recImportUsers sampleUsersStop
        (sampleWorld sampleTables (batchScript 3 "10.0.0.1" secondFails))).2.st.1.committed
      = sampleTables ∧
    HardAbort (sampleUsers.map Stmt.InsertUser) "batch import users failed"
      (recImportUsers sampleUsersStop
        (sampleWorld sampleTables (batchScript 3 "10.0.0.1" secondFails))).1.1
      (recImportUsers sampleUsersStop
        (sampleWorld sampleTables (batchScript 3 "10.0.0.1" secondFails))).1.2
      (recImportUsers sampleUsersStop
        (sampleWorld sampleTables (batchScript 3 "10.0.0.1" secondFails))).2.st.2 :=
  ⟨by decide, by decide,
   ((((import_hard_abort (sampleWorld sampleTables (batchScript 3 "10.0.0.1" secondFails))).1
      sampleUsersStop rfl).2 (by decide)).2.2).1,
   (((import_hard_abort (sampleWorld sampleTables (batchScript 3 "10.0.0.1" secondFails))).1
      sampleUsersStop rfl).2 (by decide)).1⟩

/-! ## Every error is typed -/

/-- `WithTx` returns typed errors when its callback does. -/
theorem WithTx_typed {σ κ : Type} (db : SqlDB σ)
    (fn : κ → World σ → (Option GoError × κ) × World σ)
    (hfn : ∀ l w0 e, (fn l w0).1.1 = some e → e.typed) (locals : κ) (w : World σ)
    (e : GoError) (he : (TxManager.WithTx db fn locals w).1.1 = some e) : e.typed := by
  unfold TxManager.WithTx at he
  simp only [World.run, World.note] at he
  rcases hb : db.BeginTxx w.st with ⟨_ | eb, s1⟩
  · simp only [hb] at he
    have hf := hfn locals { st := s1, calls := w.calls ++ [Call.WithTx] ++ [Call.BeginTxx]
      ++ [Call.Callback] } 
    rcases hr : fn locals { st := s1, calls := w.calls ++ [Call.WithTx] ++ [Call.BeginTxx]
      ++ [Call.Callback] } with ⟨⟨_ | ef, l2⟩, w2⟩
    · simp only [hr] at he
      rcases hc : db.Commit w2.st with ⟨_ | ec, s3⟩
      · simp [hc] at he
      · simp only [hc] at he
        cases Option.some.inj he
        simp [New, GoError.typed, Code.inTaxonomy]
    · rw [hr] at hf
      simp only [hr] at he
      exact hf e he
  · simp only [hb] at he
    cases Option.some.inj he
    simp [New, GoError.typed, Code.inTaxonomy]

/-- The audit stamp returns typed errors. -/
theorem Set_typed {σ : Type} (db : SqlDB σ) (userID : UUID) (ip : String) (s : σ)
    (e : GoError) (he : (AuditContextSetter.Set db userID ip s).1 = some e) : e.typed := by
  unfold AuditContextSetter.Set at he
  by_cases hu : userID = Nil
  · by_cases hi : ip = ""
    · simp [hu, hi] at he
    · rcases h2 : db.ExecContext (Stmt.SetConfigIP ip) s with ⟨⟨m, _ | e2⟩, s2⟩
      · simp [hu, hi, h2] at he
      · simp [hu, hi, h2] at he
        subst he
        simp [New, GoError.typed, Code.inTaxonomy]
  · rcases h1 : db.ExecContext (Stmt.SetConfigUserID (UUID.String userID)) s
      with ⟨⟨n, _ | e1⟩, s1⟩
    · by_cases hi : ip = ""
      · simp [hu, hi, h1] at he
      · rcases h2 : db.ExecContext (Stmt.SetConfigIP ip) s1 with ⟨⟨m, _ | e2⟩, s2⟩
        · simp [hu, hi, h1, h2] at he
        · simp [hu, hi, h1, h2] at he
          subst he
          simp [New, GoError.typed, Code.inTaxonomy]
    · simp [hu, h1] at he
      subst he
      simp [New, GoError.typed, Code.inTaxonomy]

/-- `LockTicketTypeForUpdate` returns typed errors. -/
theorem Lock_typed {σ : Type} (db : SqlDB σ) (id : UUID) (s : σ) (e : GoError)
    (he : (TicketTxQueries.LockTicketTypeForUpdate db id s).1.2.2 = some e) : e.typed := by
  unfold TicketTxQueries.LockTicketTypeForUpdate at he
  rcases h : db.QueryRowxContext (Stmt.SelectTicketTypeForUpdate (UUID.String id)) s
    with ⟨⟨row, _ | err⟩, s1⟩
  · simp only [h] at he
    rcases hs : scanTwoInts row with _ | ⟨a, b⟩
    · simp only [hs] at he
      cases Option.some.inj he
      simp [New, GoError.typed, Code.inTaxonomy]
    · simp [hs] at he
  · simp only [h] at he
    by_cases hn : err = ErrNoRows
    · simp only [hn, if_true] at he
      cases Option.some.inj he
      simp [New, GoError.typed, Code.inTaxonomy]
    · simp only [hn, if_false] at he
      cases Option.some.inj he
      simp [New, GoError.typed, Code.inTaxonomy]

/-- `InsertPaidTicket` returns typed errors. -/
theorem Insert_typed {σ : Type} (db : SqlDB σ) (tt buyer : UUID) (date : Time)
    (qr amount : String) (s : σ) (e : GoError)
    (he : (TicketTxQueries.InsertPaidTicket db tt buyer date qr amount s).1.2 = some e) :
    e.typed := by
  unfold TicketTxQueries.InsertPaidTicket at he
  rcases h : db.QueryRowxContext
      (Stmt.InsertPaidTicket (UUID.String tt) (UUID.String buyer) date qr amount) s
    with ⟨⟨row, _ | err⟩, s1⟩
  · simp only [h] at he
    rcases hs : scanText row with _ | id
    · simp only [hs] at he
      cases Option.some.inj he
      simp [New, GoError.typed, Code.inTaxonomy]
    · simp only [hs] at he
      rcases hp : ParseUUID id with ⟨uid, _ | ep⟩
      · simp [hp] at he
      · simp only [hp] at he
        cases Option.some.inj he
        simp [New, GoError.typed, Code.inTaxonomy]
  · simp only [h] at he
    cases Option.some.inj he
    simp [New, GoError.typed, Code.inTaxonomy]

/-- `MarkTicketUsed` returns typed errors. -/
theorem Mark_typed {σ : Type} (db : SqlDB σ) (id : UUID) (usedAt : Time) (s : σ) (e : GoError)
    (he : (TicketTxQueries.MarkTicketUsed db id usedAt s).1.2 = some e) : e.typed := by
  unfold TicketTxQueries.MarkTicketUsed at he
  rcases h : db.ExecContext (Stmt.UpdateTicketUsed usedAt (UUID.String id)) s
    with ⟨⟨aff, _ | err⟩, s1⟩
  · simp [h] at he
  · simp only [h] at he
    cases Option.some.inj he
    simp [New, GoError.typed, Code.inTaxonomy]

/-- The shared loop of the importers returns typed errors. -/
theorem importFrom_typed {σ α : Type} (db : SqlDB σ) (insert : α → Stmt) (failed : String)
    (hf : failed ≠ "") (c : Bool) (items : List α) :
    ∀ (i : Nat) (res : Result) (s : σ) (e : GoError),
      (importFrom db insert failed c items i res s).1.2 = some e → e.typed := by
  induction items with
  | nil => intro i res s e he; simp [importFrom] at he
  | cons it rest ih =>
    intro i res s e he
    unfold importFrom at he
    rcases h1 : db.ExecContext Stmt.Savepoint s with ⟨⟨n1, _ | err1⟩, s1⟩
    · simp only [h1] at he
      rcases h2 : db.ExecContext (insert it) s1 with ⟨⟨n2, _ | err2⟩, s2⟩
      · simp only [h2] at he
        exact ih _ _ _ e he
      · simp only [h2] at he
        cases c
        · simp only [Bool.not_false, if_true] at he
          cases Option.some.inj he
          simp [New, GoError.typed, Code.inTaxonomy, hf]
        · simp only [Bool.not_true, Bool.false_eq_true, if_false] at he
          exact ih _ _ _ e he
    · simp only [h1] at he
      cases Option.some.inj he
      simp [New, GoError.typed, Code.inTaxonomy]
/-- The callback of `Purchase` over the postgres adapters returns typed
errors. -/
theorem purchaseTx_typed {σ : Type} (db : SqlDB σ) (now : Time) (inp : PurchaseInput)
    (money : Money) (out : PurchaseOutput) (w : World σ) (e : GoError)
    (he : (purchaseTx (AuditContextSetter db) (TicketTxQueries db) now inp money out w).1.1
      = some e) : e.typed := by
  unfold purchaseTx at he
  simp only [World.run, AuditContextSetter, TicketTxQueries] at he
  have e1 := Set_typed db inp.UserID inp.IP w.st
  rcases h1 : AuditContextSetter.Set db inp.UserID inp.IP w.st with ⟨_ | es, s1⟩
  · simp only [h1] at he
    have e2 := Lock_typed db inp.TicketTypeID s1
    rcases h2 : TicketTxQueries.LockTicketTypeForUpdate db inp.TicketTypeID s1
      with ⟨⟨total, sold, _ | el⟩, s2⟩
    · simp only [h2] at he
      by_cases hso : sold ≥ total
      · simp only [hso, if_true] at he
        cases Option.some.inj he
        simp [New, GoError.typed, Code.inTaxonomy]
      · simp only [hso, if_false] at he
        have e3 := Insert_typed db inp.TicketTypeID inp.UserID now inp.QRCode
          (money.Amount.StringFixed 2) s2
        rcases h3 : TicketTxQueries.InsertPaidTicket db inp.TicketTypeID inp.UserID now
          inp.QRCode (money.Amount.StringFixed 2) s2 with ⟨⟨id, _ | ei⟩, s3⟩
        · simp [h3] at he
        · rw [h3] at e3
          simp only [h3] at he
          exact e3 e he
    · rw [h2] at e2
      simp only [h2] at he
      exact e2 e he
  · rw [h1] at e1
    simp only [h1] at he
    exact e1 e he

/-- The callback of `Validate` over the postgres adapters returns typed
errors. -/
theorem validateTx_typed {σ : Type} (db : SqlDB σ) (now : Time) (inp : ValidateInput)
    (u : Unit) (w : World σ) (e : GoError)
    (he : (validateTx (AuditContextSetter db) (TicketTxQueries db) now inp u w).1.1 = some e) :
    e.typed := by
  unfold validateTx at he
  simp only [World.run, AuditContextSetter, TicketTxQueries] at he
  have e1 := Set_typed db inp.UserID inp.IP w.st
  rcases h1 : AuditContextSetter.Set db inp.UserID inp.IP w.st with ⟨_ | es, s1⟩
  · simp only [h1] at he
    have e2 := Mark_typed db inp.TicketID now s1
    rcases h2 : TicketTxQueries.MarkTicketUsed db inp.TicketID now s1 with ⟨⟨ok, _ | em⟩, s2⟩
    · simp only [h2] at he
      cases ok
      · simp only [Bool.not_false, if_true] at he
        cases Option.some.inj he
        simp [New, GoError.typed, Code.inTaxonomy]
      · simp at he
    · rw [h2] at e2
      simp only [h2] at he
      exact e2 e he
  · rw [h1] at e1
    simp only [h1] at he
    exact e1 e he

/-- The callback of a batch use case over the postgres adapters returns typed
errors. -/
theorem importTx_typed {σ α : Type} (db : SqlDB σ) (insert : α → Stmt) (failed : String)
    (hf : failed ≠ "") (c : Bool) (userID : UUID) (ip : String) (call : Call) (items : List α)
    (res0 res : Result) (w : World σ) (e : GoError)
    (he : (importTx (AuditContextSetter db) userID ip call
      (importFrom db insert failed c items 0 res0) res w).1.1 = some e) : e.typed := by
  unfold importTx at he
  simp only [World.run, AuditContextSetter] at he
  have e1 := Set_typed db userID ip w.st
  rcases h1 : AuditContextSetter.Set db userID ip w.st with ⟨_ | es, s1⟩
  · simp only [h1] at he
    exact importFrom_typed db insert failed hf c items 0 res0 s1 e he
  · rw [h1] at e1
    simp only [h1] at he
    exact e1 e he

/-- C23. Over any connection, with the postgres transaction manager, audit
setter, ticket queries and importer: every error that `Purchase`, `Validate`
or one of the three batch use cases returns is an `AppError` whose code is one
of `Validation`, `NotFound`, `Conflict`, `Internal` and `Unavailable` and whose
message is not empty. -/
theorem errors_are_typed {σ : Type} (db : SqlDB σ) (w : World σ) (e : GoError) :
    (∀ (now : Time) (inp : PurchaseInput),
      (Purchase db (AuditContextSetter db) (TicketTxQueries db) now inp w).1.2 = some e →
      e.typed) ∧
    (∀ (now : Time) (inp : ValidateInput),
      (Validate db (AuditContextSetter db) (TicketTxQueries db) now inp w).1 = some e →
      e.typed) ∧
    (∀ inp : ImportUsersInput,
      (UseCase.ImportUsers db (AuditContextSetter db) (BatchImporter db) inp w).1.2 = some e →
      e.typed) ∧
    (∀ inp : ImportEventsInput,
      (UseCase.ImportEvents db (AuditContextSetter db) (BatchImporter db) inp w).1.2 = some e →
      e.typed) ∧
    (∀ inp : ImportTicketsInput,
      (UseCase.ImportTickets db (AuditContextSetter db) (BatchImporter db) inp w).1.2 = some e →
      e.typed) := by
  refine ⟨fun now inp he => ?_, fun now inp he => ?_, fun inp he => ?_, fun inp he => ?_,
    fun inp he => ?_⟩
  · unfold Purchase at he
    by_cases hU : inp.UserID = Nil
    · simp only [hU, if_true] at he
      cases Option.some.inj he
      simp [New, GoError.typed, Code.inTaxonomy]
    by_cases hT : inp.TicketTypeID = Nil
    · simp only [hU, hT, if_true, if_false] at he
      cases Option.some.inj he
      simp [New, GoError.typed, Code.inTaxonomy]
    by_cases hQ : inp.QRCode = ""
    · simp only [hU, hT, hQ, if_true, if_false] at he
      cases Option.some.inj he
      simp [New, GoError.typed, Code.inTaxonomy]
    simp only [hU, hT, hQ, if_false] at he
    rcases hP : NewFromString inp.AmountPaid with ⟨amt, _ | ep⟩
    · simp only [hP] at he
      rcases hM : NewMoney amt with ⟨money, _ | em⟩
      · simp only [hM] at he
        have hw := WithTx_typed db
          (purchaseTx (AuditContextSetter db) (TicketTxQueries db) now inp money)
          (fun l w0 e0 h0 => purchaseTx_typed db now inp money l w0 e0 h0) { TicketID := Nil } w
        rcases hW : TxManager.WithTx db
            (purchaseTx (AuditContextSetter db) (TicketTxQueries db) now inp money)
            { TicketID := Nil } w with ⟨⟨_ | ew, out⟩, w1⟩
        · simp [hW] at he
        · rw [hW] at hw
          simp only [hW] at he
          exact hw e he
      · simp only [hM] at he
        cases Option.some.inj he
        simp [New, GoError.typed, Code.inTaxonomy]
    · simp only [hP] at he
      cases Option.some.inj he
      simp [New, GoError.typed, Code.inTaxonomy]
  · unfold Validate at he
    by_cases hU : inp.UserID = Nil
    · simp only [hU, if_true] at he
      cases Option.some.inj he
      simp [New, GoError.typed, Code.inTaxonomy]
    by_cases hT : inp.TicketID = Nil
    · simp only [hU, hT, if_true, if_false] at he
      cases Option.some.inj he
      simp [New, GoError.typed, Code.inTaxonomy]
    simp only [hU, hT, if_false] at he
    exact WithTx_typed db _ (fun l w0 e0 h0 => validateTx_typed db now inp l w0 e0 h0) () w e he
  · rw [ImportUsers_importTx] at he
    simp only [BatchImporter, ImportUsers_shared] at he
    exact WithTx_typed db _
      (fun l w0 e0 h0 => importTx_typed db Stmt.InsertUser _ (by decide) _ _ _ _ _ _ l w0 e0 h0)
      Result.zero w e he
  · rw [ImportEvents_importTx] at he
    simp only [BatchImporter, ImportEvents_shared] at he
    exact WithTx_typed db _
      (fun l w0 e0 h0 => importTx_typed db Stmt.InsertEvent _ (by decide) _ _ _ _ _ _ l w0 e0 h0)
      Result.zero w e he
  · rw [ImportTickets_importTx] at he
    simp only [BatchImporter, ImportTickets_shared] at he
    exact WithTx_typed db _
      (fun l w0 e0 h0 => importTx_typed db Stmt.InsertTicket _ (by decide) _ _ _ _ _ _ l w0 e0 h0)
      Result.zero w e he

/-- C23 at the sample store: the error of a purchase at the sold-out store and
the error of a purchase whose begin fails are typed. -/
theorem errors_are_typed_witness :
    (New Code.CodeConflict "sold out" none).typed ∧
    (New Code.CodeUnavailable "begin tx failed" (some (GoError.other "connection refused"))).typed :=
  ⟨(errors_are_typed pg (sampleWorld soldOutTables []) _).1 9 sampleInput (by decide),
   (errors_are_typed pg (sampleWorld sampleTables [some "connection refused"]) _).1 9 sampleInput
     (by decide)⟩

/-! ## A purchase of an unknown ticket type -/

/-- The lock query inside a live transaction of a quiet connection whose
working copy holds no ticket type with the id: `NotFound`. -/
theorem Lock_missing (id : UUID) (C T : Tables) (c : Conn) (h : c.liveOn C T)
    (hmiss : ∀ r ∈ T.ticket_types, r.id ≠ UUID.String id) :
    (TicketTxQueries.LockTicketTypeForUpdate pg id c).1
      = (0, 0, some (New Code.CodeNotFound "ticket type not found" (some ErrNoRows))) := by
  obtain ⟨hq, hc, t, htx, hlive, htab⟩ := h
  obtain ⟨hnf, htail⟩ := quiet_next c hq
  unfold Conn.nextFails at hnf
  have hfind : t.tables.ticket_types.find? (fun r => r.id = UUID.String id) = none := by
    rw [List.find?_eq_none]
    intro r hr
    rw [htab] at hr
    simpa using hmiss r hr
  have hst : (Conn.statement (Stmt.SelectTicketTypeForUpdate (UUID.String id)) c).1
      = ([], 0, some ErrNoRows) := by
    unfold Conn.statement
    simp only [htx, hlive, Bool.false_eq_true, false_and, if_false]
    split
    · rename_i msg hm
      simp [hm] at hnf
    · simp [TxState.apply, hfind]
  unfold TicketTxQueries.LockTicketTypeForUpdate
  simp only [pg, hst, if_true]

/-- C24. On a quiet store, a valid purchase of a ticket type whose id matches
no ticket type: the lock query fails with `NotFound`, `Purchase` returns that
error with the empty output, it makes no `InsertPaidTicket` call and no
`Commit`, and the committed tables are those before the call. Over any
connection the lock query turns `sql.ErrNoRows` into `NotFound`. -/
theorem Purchase_unknown_type (now : Time) (inp : PurchaseInput) (w : World Conn)
    (amt : Decimal) (hU : inp.UserID ≠ Nil) (hT : inp.TicketTypeID ≠ Nil)
    (hQ : inp.QRCode ≠ "") (hParse : NewFromString inp.AmountPaid = (amt, none))
    (hSign : amt.IsNegative = false) (hq : w.st.quiet)
    (hmiss : ∀ r ∈ w.st.committed.ticket_types, r.id ≠ UUID.String inp.TicketTypeID) :
    (pgPurchase now inp w).1
      = ({ TicketID := Nil },
         some (New Code.CodeNotFound "ticket type not found" (some ErrNoRows))) ∧
    (pgPurchase now inp w).2.calls
      = w.calls ++ [Call.WithTx, Call.BeginTxx, Call.Callback, Call.Set inp.UserID inp.IP,
          Call.LockTicketTypeForUpdate inp.TicketTypeID, Call.Rollback] ∧
    (pgPurchase now inp w).2.st.committed = w.st.committed ∧
    (pgPurchase now inp w).2.st.tx = none ∧
    (∀ {σ : Type} (db : SqlDB σ) (s : σ),
      (db.QueryRowxContext (Stmt.SelectTicketTypeForUpdate (UUID.String inp.TicketTypeID)) s).1.2
        = some ErrNoRows →
      (TicketTxQueries.LockTicketTypeForUpdate db inp.TicketTypeID s).1
        = (0, 0, some (New Code.CodeNotFound "ticket type not found" (some ErrNoRows)))) := by
  obtain ⟨hb, hlb⟩ := pg_begin_liveOn w.st hq
  obtain ⟨hs, hls⟩ := Set_liveOn inp.UserID inp.IP _ _ _ hlb
  have hl := Lock_missing inp.TicketTypeID _ _ _ hls hmiss
  have hrun : TxManager.WithTx pg
      (purchaseTx (AuditContextSetter pg) (TicketTxQueries pg) now inp { Amount := amt.Round 2 })
      { TicketID := Nil } w
      = ((some (New Code.CodeNotFound "ticket type not found" (some ErrNoRows)),
          { TicketID := Nil }),
         ⟨(pg.Rollback (TicketTxQueries.LockTicketTypeForUpdate pg inp.TicketTypeID
            (AuditContextSetter.Set pg inp.UserID inp.IP (pg.BeginTxx w.st).2).2).2).2,
          w.calls ++ [Call.WithTx, Call.BeginTxx, Call.Callback, Call.Set inp.UserID inp.IP,
            Call.LockTicketTypeForUpdate inp.TicketTypeID, Call.Rollback]⟩) := by
    rcases hbb : pg.BeginTxx w.st with ⟨b, c1⟩
    rw [hbb] at hb hs hl
    simp only at hb hs hl
    subst hb
    rcases hss : AuditContextSetter.Set pg inp.UserID inp.IP c1 with ⟨r, c2⟩
    rw [hss] at hs hl
    simp only at hs hl
    subst hs
    rcases hll : TicketTxQueries.LockTicketTypeForUpdate pg inp.TicketTypeID c2
      with ⟨⟨a, b, r⟩, c3⟩
    rw [hll] at hl
    simp only [Prod.mk.injEq] at hl
    obtain ⟨rfl, rfl, rfl⟩ := hl
    simp [TxManager.WithTx, purchaseTx, World.note, World.run, AuditContextSetter,
      TicketTxQueries, hbb, hss, hll]
  refine ⟨?_, ?_, ?_, ?_, ?_⟩
  · unfold pgPurchase
    rw [Purchase_of_valid pg _ _ now inp w amt hU hT hQ hParse hSign, hrun]
  · unfold pgPurchase
    rw [Purchase_of_valid pg _ _ now inp w amt hU hT hQ hParse hSign, hrun]
  · unfold pgPurchase
    rw [Purchase_of_valid pg _ _ now inp w amt hU hT hQ hParse hSign, hrun]
    simp only
    rw [pg_rollback_committed, Lock_committed, Set_committed, pg_begin_committed]
  · unfold pgPurchase
    rw [Purchase_of_valid pg _ _ now inp w amt hU hT hQ hParse hSign, hrun]
    exact pg_rollback_closes _
  · intro σ db s h
    unfold TicketTxQueries.LockTicketTypeForUpdate
    rcases hq2 : db.QueryRowxContext
        (Stmt.SelectTicketTypeForUpdate (UUID.String inp.TicketTypeID)) s with ⟨⟨row, r⟩, s1⟩
    rw [hq2] at h
    simp only at h
    subst h
    simp

/-- C24 at the sample store, which holds ticket type 7 only: a purchase of
ticket type 8 returns `NotFound` and inserts nothing. -/
theorem Purchase_unknown_type_witness :
    (pgPurchase 9 unknownTypeInput (sampleWorld sampleTables [])).1
      = ({ TicketID := Nil },
         some (New Code.CodeNotFound "ticket type not found" (some ErrNoRows))) ∧
    (pgPurchase 9 unknownTypeInput (sampleWorld sampleTables [])).2.st.committed.tickets = [] :=
  ⟨(Purchase_unknown_type 9 unknownTypeInput (sampleWorld sampleTables []) ⟨20, 0⟩
      (by decide) (by decide) (by decide) (by decide) (by decide) (by decide) (by decide)).1,
   (congrArg Tables.tickets
      (Purchase_unknown_type 9 unknownTypeInput (sampleWorld sampleTables []) ⟨20, 0⟩
        (by decide) (by decide) (by decide) (by decide) (by decide) (by decide)
        (by decide)).2.2.1).trans rfl⟩

/-! ## The savepoint protocol of the importers -/

/-- A block of a row insert establishes one savepoint and holds one release. -/
theorem RowBlock_balanced (ins : Stmt) (hins : ins.isRowInsert = true) (b : List Sent)
    (h : RowBlock ins b) : established b = 1 ∧ released b = 1 := by
  have h1 : ins ≠ Stmt.Savepoint := by
    intro he; rw [he] at hins; exact Bool.noConfusion hins
  have h2 : ins ≠ Stmt.ReleaseSavepoint := by
    intro he; rw [he] at hins; exact Bool.noConfusion hins
  rcases h with ⟨r, rfl⟩ | ⟨e, r1, r2, rfl⟩
  · simp [established, released, List.filter_cons, h1, h2]
  · simp [established, released, List.filter_cons, h1, h2]

/-- Blocks of row inserts establish as many savepoints as they hold releases:
one each. -/
theorem blocks_balanced (stmts : List Stmt) (blocks : List (List Sent))
    (hins : ∀ s ∈ stmts, s.isRowInsert = true) (h : List.Forall₂ RowBlock stmts blocks) :
    established blocks.flatten = blocks.length ∧ released blocks.flatten = blocks.length := by
  induction h with
  | nil => exact ⟨rfl, rfl⟩
  | @cons ins b stmts2 blocks2 hb _ ih =>
    obtain ⟨e1, e2⟩ := RowBlock_balanced ins (hins ins (List.mem_cons_self _ _)) b hb
    obtain ⟨i1, i2⟩ := ih (fun s hs => hins s (List.mem_cons_of_mem _ hs))
    unfold established released at *
    simp only [List.flatten_cons, List.filter_append, List.length_append, List.length_cons]
    omega
/-- The record of the shared loop is made of the blocks of the rows it
processed, followed by nothing or by the savepoint that failed. -/
theorem importFrom_blocks {σ α : Type} (db : SqlDB σ) (insert : α → Stmt) (failed : String)
    (c : Bool) (items : List α) :
    ∀ (i : Nat) (res : Result) (s : σ) (log : List Sent),
      ∃ (blocks : List (List Sent)) (tail : List Sent),
        (importFrom db.recording insert failed c items i res (s, log)).2.2
          = log ++ (blocks.flatten ++ tail) ∧
        blocks.length ≤ items.length ∧
        List.Forall₂ RowBlock ((items.map insert).take blocks.length) blocks ∧
        (tail = [] ∨ ∃ e, tail = [⟨Stmt.Savepoint, some e⟩]) ∧
        ((importFrom db.recording insert failed c items i res (s, log)).1.2 = none →
          blocks.length = items.length ∧ tail = []) := by
  induction items with
  | nil =>
    intro i res s log
    exact ⟨[], [], by simp [importFrom], by simp, by simp, Or.inl rfl, fun _ => ⟨rfl, rfl⟩⟩
  | cons it rest ih =>
    intro i res s log
    unfold importFrom
    simp only [recording_exec]
    rcases h1 : db.ExecContext Stmt.Savepoint s with ⟨⟨n1, _ | err1⟩, s1⟩
    · simp only
      rcases h2 : db.ExecContext (insert it) s1 with ⟨⟨n2, _ | err2⟩, s2⟩
      · simp only
        obtain ⟨blocks, tail, hlog, hlen, hall, htail, hdone⟩ := ih (i + 1)
          { res with Success := res.Success + 1 }
          (db.ExecContext Stmt.ReleaseSavepoint s2).2
          (log ++ [⟨Stmt.Savepoint, none⟩] ++ [⟨insert it, none⟩] ++
            [⟨Stmt.ReleaseSavepoint, (db.ExecContext Stmt.ReleaseSavepoint s2).1.2⟩])
        refine ⟨[⟨Stmt.Savepoint, none⟩, ⟨insert it, none⟩,
          ⟨Stmt.ReleaseSavepoint, (db.ExecContext Stmt.ReleaseSavepoint s2).1.2⟩] :: blocks,
          tail, ?_, ?_, ?_, htail, fun he => ?_⟩
        · rw [hlog]; simp
        · simpa using hlen
        · simp only [List.length_cons, List.map_cons, List.take_succ_cons]
          exact List.Forall₂.cons (Or.inl ⟨_, rfl⟩) hall
        · obtain ⟨h3, h4⟩ := hdone he
          exact ⟨by simp [h3], h4⟩
      · cases c
        · simp only [Bool.not_false, if_true]
          refine ⟨[[⟨Stmt.Savepoint, none⟩, ⟨insert it, some err2⟩,
            ⟨Stmt.RollbackToSavepoint, (db.ExecContext Stmt.RollbackToSavepoint s2).1.2⟩,
            ⟨Stmt.ReleaseSavepoint, (db.ExecContext Stmt.ReleaseSavepoint
              (db.ExecContext Stmt.RollbackToSavepoint s2).2).1.2⟩]], [], by simp, by simp,
            ?_, Or.inl rfl, fun he => Option.noConfusion he⟩
          simp only [List.length_cons, List.length_nil, List.map_cons, List.take_succ_cons,
            List.take_zero]
          exact List.Forall₂.cons (Or.inr ⟨_, _, _, rfl⟩) List.Forall₂.nil
        · simp only [Bool.not_true, Bool.false_eq_true, if_false]
          obtain ⟨blocks, tail, hlog, hlen, hall, htail, hdone⟩ := ih (i + 1)
            { res with Failed := res.Failed + 1,
                       Errors := res.Errors ++ [{ Index := i, Error := err2.Error }] }
            (db.ExecContext Stmt.ReleaseSavepoint
              (db.ExecContext Stmt.RollbackToSavepoint s2).2).2
            (log ++ [⟨Stmt.Savepoint, none⟩] ++ [⟨insert it, some err2⟩] ++
              [⟨Stmt.RollbackToSavepoint, (db.ExecContext Stmt.RollbackToSavepoint s2).1.2⟩] ++
              [⟨Stmt.ReleaseSavepoint, (db.ExecContext Stmt.ReleaseSavepoint
                (db.ExecContext Stmt.RollbackToSavepoint s2).2).1.2⟩])
          refine ⟨[⟨Stmt.Savepoint, none⟩, ⟨insert it, some err2⟩,
            ⟨Stmt.RollbackToSavepoint, (db.ExecContext Stmt.RollbackToSavepoint s2).1.2⟩,
            ⟨Stmt.ReleaseSavepoint, (db.ExecContext Stmt.ReleaseSavepoint
              (db.ExecContext Stmt.RollbackToSavepoint s2).2).1.2⟩] :: blocks,
            tail, ?_, ?_, ?_, htail, fun he => ?_⟩
          · rw [hlog]; simp
          · simpa using hlen
          · simp only [List.length_cons, List.map_cons, List.take_succ_cons]
            exact List.Forall₂.cons (Or.inr ⟨_, _, _, rfl⟩) hall
          · obtain ⟨h3, h4⟩ := hdone he
            exact ⟨by simp [h3], h4⟩
    · exact ⟨[], [⟨Stmt.Savepoint, some err1⟩], by simp, by simp, by simp,
        Or.inr ⟨_, rfl⟩, fun he => Option.noConfusion he⟩

/-- The shared loop started on an empty record follows the savepoint
protocol. -/
theorem importFrom_protocol {σ α : Type} (db : SqlDB σ) (insert : α → Stmt) (failed : String)
    (hins : ∀ a, (insert a).isRowInsert = true) (c : Bool) (items : List α) (i : Nat)
    (res : Result) (s : σ) :
    SavepointProtocol (items.map insert)
      (importFrom db.recording insert failed c items i res (s, [])).1.2
      (importFrom db.recording insert failed c items i res (s, [])).2.2 := by
  obtain ⟨blocks, tail, hlog, hlen, hall, htail, hdone⟩ :=
    importFrom_blocks db insert failed c items i res s []
  have hrow : ∀ k, ∀ st ∈ (items.map insert).take k, st.isRowInsert = true := by
    intro k st hst
    obtain ⟨a, _, rfl⟩ := List.mem_map.mp (List.mem_of_mem_take hst)
    exact hins a
  have hpre : ∀ k, established (blocks.take k).flatten = released (blocks.take k).flatten := by
    intro k
    have hk := List.forall₂_take k hall
    obtain ⟨e1, e2⟩ := blocks_balanced _ _
      (fun st hst => hrow _ st (List.mem_of_mem_take hst)) hk
    rw [e1, e2]
  have hlast : established tail = 0 ∧ released tail = 0 := by
    rcases htail with rfl | ⟨e, rfl⟩
    · exact ⟨rfl, rfl⟩
    · simp [established, released, List.filter_cons]
  obtain ⟨e1, e2⟩ := blocks_balanced _ _ (hrow _) hall
  refine ⟨blocks, tail, by simpa using hlog, by simpa using hlen, hall, htail,
    fun he => ?_, hpre, ?_⟩
  · obtain ⟨h3, h4⟩ := hdone he
    exact ⟨by simpa using h3, h4⟩
  · rw [hlog]
    unfold established released at *
    simp only [List.nil_append, List.filter_append, List.length_append]
    omega
/-- C25. Over any connection with a record of the statements sent, for either
value of `continueOnError`, each importer follows the savepoint protocol: the
statements it sends are, row after row in input order, a savepoint, the row
insert and one release when the insert passed, or a savepoint, the row insert,
the rollback to the savepoint and one release when it failed, followed by
nothing or by the one savepoint that failed; after every row, and when the
importer returns, as many releases were sent as savepoints were established.
On the store, when the rollbacks and releases pass, the stack of savepoints
after the importer is the stack before it. -/
theorem savepoint_protocol {σ : Type} (db : SqlDB σ) (s : σ) (c : Bool) :
    (∀ items : List ImportUsersItem,
      SavepointProtocol (items.map Stmt.InsertUser)
        (BatchImporter.ImportUsers db.recording items c (s, [])).1.2
        (BatchImporter.ImportUsers db.recording items c (s, [])).2.2) ∧
    (∀ items : List ImportEventsItem,
      SavepointProtocol (items.map Stmt.InsertEvent)
        (BatchImporter.ImportEvents db.recording items c (s, [])).1.2
        (BatchImporter.ImportEvents db.recording items c (s, [])).2.2) ∧
    (∀ items : List ImportTicketsItem,
      SavepointProtocol (items.map Stmt.InsertTicket)
        (BatchImporter.ImportTickets db.recording items c (s, [])).1.2
        (BatchImporter.ImportTickets db.recording items c (s, [])).2.2) ∧
    (∀ (C T : Tables) (sps : List Tables) (u ip : Option String) (sc : List (Option String))
        (n : Nat) (now : Time) (outcomes : List (Option String)),
      (∀ items : List ImportUsersItem, outcomes.length = items.length →
        (BatchImporter.ImportUsers pg items true
          ⟨C, some ⟨T, sps, false, u, ip⟩, rowsScript outcomes ++ sc, n, now⟩).2.tx.map
            TxState.savepoints = some sps) ∧
      (∀ items : List ImportEventsItem, outcomes.length = items.length →
        (BatchImporter.ImportEvents pg items true
          ⟨C, some ⟨T, sps, false, u, ip⟩, rowsScript outcomes ++ sc, n, now⟩).2.tx.map
            TxState.savepoints = some sps) ∧
      (∀ items : List ImportTicketsItem, outcomes.length = items.length →
        (BatchImporter.ImportTickets pg items true
          ⟨C, some ⟨T, sps, false, u, ip⟩, rowsScript outcomes ++ sc, n, now⟩).2.tx.map
            TxState.savepoints = some sps)) := by
  refine ⟨fun items => ?_, fun items => ?_, fun items => ?_, ?_⟩
  · rw [ImportUsers_shared]
    exact importFrom_protocol db Stmt.InsertUser _ (fun _ => rfl) c items 0 _ s
  · rw [ImportEvents_shared]
    exact importFrom_protocol db Stmt.InsertEvent _ (fun _ => rfl) c items 0 _ s
  · rw [ImportTickets_shared]
    exact importFrom_protocol db Stmt.InsertTicket _ (fun _ => rfl) c items 0 _ s
  · intro C T sps u ip sc n now outcomes
    refine ⟨fun items hlen => ?_, fun items hlen => ?_, fun items hlen => ?_⟩
    · rw [ImportUsers_shared,
        pg_importFrom Stmt.InsertUser _ (fun _ => rfl) C sps u ip sc now items outcomes hlen]
      rfl
    · rw [ImportEvents_shared,
        pg_importFrom Stmt.InsertEvent _ (fun _ => rfl) C sps u ip sc now items outcomes hlen]
      rfl
    · rw [ImportTickets_shared,
        pg_importFrom Stmt.InsertTicket _ (fun _ => rfl) C sps u ip sc now items outcomes hlen]
      rfl

/-- C25 at the sample store, inside a transaction in which the insert of the
second of three users fails: the statements sent, and the protocol they
follow. -/
theorem savepoint_protocol_witness :
    (BatchImporter.ImportUsers pg.recording sampleUsers true
        ((pg.BeginTxx (sampleConn sampleTables secondRowFails)).2, [])).2.2.map Sent.stmt
      = [Stmt.Savepoint, Stmt.InsertUser (sampleUsers.get ⟨0, by decide⟩),
         Stmt.ReleaseSavepoint,
         Stmt.Savepoint, Stmt.InsertUser (sampleUsers.get ⟨1, by decide⟩),
         Stmt.RollbackToSavepoint, Stmt.ReleaseSavepoint,
         Stmt.Savepoint, Stmt.InsertUser (sampleUsers.get ⟨2, by decide⟩),
         Stmt.ReleaseSavepoint] ∧
    SavepointProtocol (sampleUsers.map Stmt.InsertUser)
      (BatchImporter.ImportUsers pg.recording sampleUsers true
        ((pg.BeginTxx (sampleConn sampleTables secondRowFails)).2, [])).1.2
      (BatchImporter.ImportUsers pg.recording sampleUsers true
        ((pg.BeginTxx (sampleConn sampleTables secondRowFails)).2, [])).2.2 :=
  ⟨by decide,
   (savepoint_protocol pg (pg.BeginTxx (sampleConn sampleTables secondRowFails)).2 true).1
     sampleUsers⟩

/-! ## The three importers follow one protocol -/

/-- On a connection that treats every row insert alike, two instances of the
shared loop run on lists of the same length return the same result, leave the
same connection, and return errors with the same code and the same cause:
only the messages differ. -/
theorem importFrom_blind {σ α β : Type} (db : SqlDB σ) (hb : db.rowBlind)
    (ins1 : α → Stmt) (ins2 : β → Stmt) (f1 f2 : String)
    (h1 : ∀ a, (ins1 a).isRowInsert = true) (h2 : ∀ b, (ins2 b).isRowInsert = true)
    (c : Bool) (xs : List α) :
    ∀ (ys : List β), ys.length = xs.length → ∀ (i : Nat) (res : Result) (s : σ),
      (importFrom db ins2 f2 c ys i res s).1.1 = (importFrom db ins1 f1 c xs i res s).1.1 ∧
      (importFrom db ins2 f2 c ys i res s).1.2.map GoError.code?
        = (importFrom db ins1 f1 c xs i res s).1.2.map GoError.code? ∧
      (importFrom db ins2 f2 c ys i res s).1.2.map GoError.Unwrap
        = (importFrom db ins1 f1 c xs i res s).1.2.map GoError.Unwrap ∧
      (importFrom db ins2 f2 c ys i res s).2 = (importFrom db ins1 f1 c xs i res s).2 := by
  induction xs with
  | nil =>
    intro ys hlen i res s
    have hy : ys = [] := List.length_eq_zero.mp hlen
    subst hy
    exact ⟨rfl, rfl, rfl, rfl⟩
  | cons x rest ih =>
    intro ys hlen i res s
    rcases ys with _ | ⟨y, ys⟩
    · simp at hlen
    have hlen2 : ys.length = rest.length := by simpa using hlen
    have hxy : db.ExecContext (ins2 y) = db.ExecContext (ins1 x) :=
      funext (fun s0 => hb _ _ s0 (h2 y) (h1 x))
    unfold importFrom
    rw [hxy]
    rcases e1 : db.ExecContext Stmt.Savepoint s with ⟨⟨n1, _ | err1⟩, s1⟩
    · simp only
      rcases e2 : db.ExecContext (ins1 x) s1 with ⟨⟨n2, _ | err2⟩, s2⟩
      · simp only
        exact ih ys hlen2 _ _ _
      · simp only
        cases c
        · simp [New, GoError.code?, GoError.Unwrap]
        · simp only [Bool.not_true, Bool.false_eq_true, if_false]
          exact ih ys hlen2 _ _ _
    · simp [New, GoError.code?, GoError.Unwrap]

/-- C26. Each of the three importers is the one shared loop with its own row
insert and its own message. On a connection that treats every row insert
alike, so that the outcomes of the statements are the same for the three, and
for either value of `continueOnError`, the three importers run on lists of the
same length return identical results, errors with the same code and the same
cause, and leave the same connection. -/
theorem importers_one_protocol {σ : Type} (db : SqlDB σ) (hb : db.rowBlind) (c : Bool)
    (us : List ImportUsersItem) (es : List ImportEventsItem) (ts : List ImportTicketsItem)
    (he : es.length = us.length) (ht : ts.length = us.length) (s : σ) :
    (BatchImporter.ImportUsers db us c
        = importFrom db Stmt.InsertUser "batch import users failed" c us 0
            { Total := us.length, Success := 0, Failed := 0, Errors := [] } ∧
      BatchImporter.ImportEvents db es c
        = importFrom db Stmt.InsertEvent "batch import events failed" c es 0
            { Total := es.length, Success := 0, Failed := 0, Errors := [] } ∧
      BatchImporter.ImportTickets db ts c
        = importFrom db Stmt.InsertTicket "batch import tickets failed" c ts 0
            { Total := ts.length, Success := 0, Failed := 0, Errors := [] }) ∧
    ((BatchImporter.ImportEvents db es c s).1.1 = (BatchImporter.ImportUsers db us c s).1.1 ∧
      (BatchImporter.ImportEvents db es c s).1.2.map GoError.code?
        = (BatchImporter.ImportUsers db us c s).1.2.map GoError.code? ∧
      (BatchImporter.ImportEvents db es c s).1.2.map GoError.Unwrap
        = (BatchImporter.ImportUsers db us c s).1.2.map GoError.Unwrap ∧
      (BatchImporter.ImportEvents db es c s).2 = (BatchImporter.ImportUsers db us c s).2) ∧
    ((BatchImporter.ImportTickets db ts c s).1.1 = (BatchImporter.ImportUsers db us c s).1.1 ∧
      (BatchImporter.ImportTickets db ts c s).1.2.map GoError.code?
        = (BatchImporter.ImportUsers db us c s).1.2.map GoError.code? ∧
      (BatchImporter.ImportTickets db ts c s).1.2.map GoError.Unwrap
        = (BatchImporter.ImportUsers db us c s).1.2.map GoError.Unwrap ∧
      (BatchImporter.ImportTickets db ts c s).2 = (BatchImporter.ImportUsers db us c s).2) := by
  refine ⟨⟨ImportUsers_shared db us c, ImportEvents_shared db es c,
    ImportTickets_shared db ts c⟩, ?_, ?_⟩
  · rw [ImportUsers_shared, ImportEvents_shared, he]
    exact importFrom_blind db hb Stmt.InsertUser Stmt.InsertEvent _ _ (fun _ => rfl)
      (fun _ => rfl) c us es he 0 _ s
  · rw [ImportUsers_shared, ImportTickets_shared, ht]
    exact importFrom_blind db hb Stmt.InsertUser Stmt.InsertTicket _ _ (fun _ => rfl)
      (fun _ => rfl) c us ts ht 0 _ s

/-- C26 on a scripted connection whose second insert fails, the importers
stopping at the first failure: the three return the same result and a
`Conflict`. -/
theorem importers_one_protocol_witness :
    (BatchImporter.ImportEvents scripted twoEvents false secondInsertFails).1.1
      = (BatchImporter.ImportUsers scripted twoUsers false secondInsertFails).1.1 ∧
    (BatchImporter.ImportTickets scripted twoTickets false secondInsertFails).1.1
      = (BatchImporter.ImportUsers scripted twoUsers false secondInsertFails).1.1 ∧
    (BatchImporter.ImportUsers scripted twoUsers false secondInsertFails).1
      = ({ Total := 2, Success := 1, Failed := 1,
           Errors := [{ Index := 1, Error := "value too long" }] },
         some (New Code.CodeConflict "batch import users failed"
           (some (GoError.other "value too long")))) ∧
    (BatchImporter.ImportTickets scripted twoTickets false secondInsertFails).1.2
      = some (New Code.CodeConflict "batch import tickets failed"
          (some (GoError.other "value too long"))) :=
  ⟨(importers_one_protocol scripted (fun _ _ _ _ _ => rfl) false twoUsers twoEvents twoTickets
      rfl rfl secondInsertFails).2.1.1,
   (importers_one_protocol scripted (fun _ _ _ _ _ => rfl) false twoUsers twoEvents twoTickets
      rfl rfl secondInsertFails).2.2.1,
   by decide, by decide⟩

/-! ## Purchase does not look at the price -/

/-- The transaction of a purchase run with two amounts, the insert and the
commit after it answering alike for both: the same error and output, and the
same calls but for the amount passed to the insert. -/
theorem purchaseTx_amount {σ : Type} (db : SqlDB σ) (audit : Setter σ) (q : Queries σ)
    (now : Time) (inp : PurchaseInput) (x1 x2 : String) (m1 m2 : Money) (w : World σ)
    (hins : ∀ s, (q.InsertPaidTicket inp.TicketTypeID inp.UserID now inp.QRCode
        (m1.Amount.StringFixed 2) s).1
      = (q.InsertPaidTicket inp.TicketTypeID inp.UserID now inp.QRCode
        (m2.Amount.StringFixed 2) s).1)
    (hcommit : ∀ s, (db.Commit (q.InsertPaidTicket inp.TicketTypeID inp.UserID now inp.QRCode
        (m1.Amount.StringFixed 2) s).2).1
      = (db.Commit (q.InsertPaidTicket inp.TicketTypeID inp.UserID now inp.QRCode
        (m2.Amount.StringFixed 2) s).2).1) :
    (TxManager.WithTx db (purchaseTx audit q now { inp with AmountPaid := x1 } m1)
        { TicketID := Nil } w).1
      = (TxManager.WithTx db (purchaseTx audit q now { inp with AmountPaid := x2 } m2)
        { TicketID := Nil } w).1 ∧
    (TxManager.WithTx db (purchaseTx audit q now { inp with AmountPaid := x1 } m1)
        { TicketID := Nil } w).2.calls.map Call.withoutAmount
      = (TxManager.WithTx db (purchaseTx audit q now { inp with AmountPaid := x2 } m2)
        { TicketID := Nil } w).2.calls.map Call.withoutAmount := by
  unfold TxManager.WithTx purchaseTx
  simp only [World.run, World.note]
  rcases hb : db.BeginTxx w.st with ⟨_ | eb, s0⟩
  · simp only
    rcases h1 : audit.Set inp.UserID inp.IP s0 with ⟨_ | es, s1⟩
    · simp only
      rcases h2 : q.LockTicketTypeForUpdate inp.TicketTypeID s1 with ⟨⟨total, sold, _ | el⟩, s2⟩
      · simp only
        by_cases hso : sold ≥ total
        · simp [hso]
        · simp only [hso, if_false]
          have hi := hins s2
          have hc := hcommit s2
          rcases h3 : q.InsertPaidTicket inp.TicketTypeID inp.UserID now inp.QRCode
            (m1.Amount.StringFixed 2) s2 with ⟨⟨id1, r1⟩, s3⟩
          rcases h4 : q.InsertPaidTicket inp.TicketTypeID inp.UserID now inp.QRCode
            (m2.Amount.StringFixed 2) s2 with ⟨⟨id2, r2⟩, s4⟩
          rw [h3, h4] at hi hc
          simp only [Prod.mk.injEq] at hi
          obtain ⟨rfl, rfl⟩ := hi
          simp only at hc
          rcases r1 with _ | ei
          · simp only
            rcases h5 : db.Commit s3 with ⟨_ | ec, s5⟩
            · rcases h6 : db.Commit s4 with ⟨rc, s6⟩
              rw [h5, h6] at hc
              simp only at hc
              subst hc
              simp [Call.withoutAmount]
            · rcases h6 : db.Commit s4 with ⟨rc, s6⟩
              rw [h5, h6] at hc
              simp only at hc
              subst hc
              simp [Call.withoutAmount]
          · simp [Call.withoutAmount]
      · simp
    · simp
  · simp

/-- On the store, the insert of a purchase and the commit after it answer alike
whatever the amount is. -/
theorem pg_amount_blind (tt buyer : UUID) (date : Time) (qr x y : String) (c : Conn) :
    (TicketTxQueries.InsertPaidTicket pg tt buyer date qr x c).1
      = (TicketTxQueries.InsertPaidTicket pg tt buyer date qr y c).1 ∧
    (pg.Commit (TicketTxQueries.InsertPaidTicket pg tt buyer date qr x c).2).1
      = (pg.Commit (TicketTxQueries.InsertPaidTicket pg tt buyer date qr y c).2).1 := by
  obtain ⟨C, tx, sc, n, now⟩ := c
  rcases tx with _ | t
  · simp [TicketTxQueries.InsertPaidTicket, pg, Conn.statement]
  · by_cases ha : t.aborted = true
    · simp [TicketTxQueries.InsertPaidTicket, pg, Conn.statement, ha]
    · rcases sc with _ | ⟨_ | msg, sc⟩
      · rcases hp : ParseUUID (UUID.String n) with ⟨uid, _ | ep⟩
        · simp [TicketTxQueries.InsertPaidTicket, pg, Conn.statement, ha, TxState.apply,
            scanText, hp]
        · simp [TicketTxQueries.InsertPaidTicket, pg, Conn.statement, ha, TxState.apply,
            scanText, hp]
      · rcases hp : ParseUUID (UUID.String n) with ⟨uid, _ | ep⟩ <;>
          rcases sc with _ | ⟨_ | m2, sc2⟩ <;>
          simp [TicketTxQueries.InsertPaidTicket, pg, Conn.statement, ha, TxState.apply,
            scanText, hp]
      · simp [TicketTxQueries.InsertPaidTicket, pg, Conn.statement, ha]
/-- C27. Two purchases that differ only in their amount strings, both parsing
to non-negative decimals, run from the same state with collaborators whose
insert and commit answer alike for the two amounts: `Purchase` returns the same
output and the same error, and makes the same calls but for the amount passed
to `InsertPaidTicket`. The store with the postgres adapters is such a
collaborator: there the two purchases return the same output and error from
every state, whatever the amounts are. -/
theorem Purchase_ignores_price {σ : Type} (db : SqlDB σ) (audit : Setter σ) (q : Queries σ)
    (now : Time) (inp : PurchaseInput) (x1 x2 : String) (a1 a2 : Decimal) (w : World σ)
    (hp1 : NewFromString x1 = (a1, none)) (hn1 : a1.IsNegative = false)
    (hp2 : NewFromString x2 = (a2, none)) (hn2 : a2.IsNegative = false)
    (hins : ∀ s, (q.InsertPaidTicket inp.TicketTypeID inp.UserID now inp.QRCode
        ((a1.Round 2).StringFixed 2) s).1
      = (q.InsertPaidTicket inp.TicketTypeID inp.UserID now inp.QRCode
        ((a2.Round 2).StringFixed 2) s).1)
    (hcommit : ∀ s, (db.Commit (q.InsertPaidTicket inp.TicketTypeID inp.UserID now inp.QRCode
        ((a1.Round 2).StringFixed 2) s).2).1
      = (db.Commit (q.InsertPaidTicket inp.TicketTypeID inp.UserID now inp.QRCode
        ((a2.Round 2).StringFixed 2) s).2).1) :
    (Purchase db audit q now { inp with AmountPaid := x1 } w).1
      = (Purchase db audit q now { inp with AmountPaid := x2 } w).1 ∧
    (Purchase db audit q now { inp with AmountPaid := x1 } w).2.calls.map Call.withoutAmount
      = (Purchase db audit q now { inp with AmountPaid := x2 } w).2.calls.map
          Call.withoutAmount ∧
    (∀ wc : World Conn,
      (pgPurchase now { inp with AmountPaid := x1 } wc).1
        = (pgPurchase now { inp with AmountPaid := x2 } wc).1 ∧
      (pgPurchase now { inp with AmountPaid := x1 } wc).2.calls.map Call.withoutAmount
        = (pgPurchase now { inp with AmountPaid := x2 } wc).2.calls.map Call.withoutAmount) := by
  have key : ∀ {τ : Type} (d : SqlDB τ) (au : Setter τ) (qq : Queries τ) (w0 : World τ),
      (∀ s, (qq.InsertPaidTicket inp.TicketTypeID inp.UserID now inp.QRCode
          ((a1.Round 2).StringFixed 2) s).1
        = (qq.InsertPaidTicket inp.TicketTypeID inp.UserID now inp.QRCode
          ((a2.Round 2).StringFixed 2) s).1) →
      (∀ s, (d.Commit (qq.InsertPaidTicket inp.TicketTypeID inp.UserID now inp.QRCode
          ((a1.Round 2).StringFixed 2) s).2).1
        = (d.Commit (qq.InsertPaidTicket inp.TicketTypeID inp.UserID now inp.QRCode
          ((a2.Round 2).StringFixed 2) s).2).1) →
      (Purchase d au qq now { inp with AmountPaid := x1 } w0).1
        = (Purchase d au qq now { inp with AmountPaid := x2 } w0).1 ∧
      (Purchase d au qq now { inp with AmountPaid := x1 } w0).2.calls.map Call.withoutAmount
        = (Purchase d au qq now { inp with AmountPaid := x2 } w0).2.calls.map
            Call.withoutAmount := by
    intro τ d au qq w0 hi hc
    by_cases hU : inp.UserID = Nil
    · simp [Purchase, hU]
    by_cases hT : inp.TicketTypeID = Nil
    · simp [Purchase, hU, hT]
    by_cases hQ : inp.QRCode = ""
    · simp [Purchase, hU, hT, hQ]
    rw [Purchase_of_valid d au qq now { inp with AmountPaid := x1 } w0 a1 hU hT hQ hp1 hn1,
      Purchase_of_valid d au qq now { inp with AmountPaid := x2 } w0 a2 hU hT hQ hp2 hn2]
    obtain ⟨e1, e2⟩ := purchaseTx_amount d au qq now inp x1 x2 ⟨a1.Round 2⟩ ⟨a2.Round 2⟩ w0
      hi hc
    rcases hW1 : TxManager.WithTx d
        (purchaseTx au qq now { inp with AmountPaid := x1 } ⟨a1.Round 2⟩) { TicketID := Nil } w0
      with ⟨⟨r1, o1⟩, w1⟩
    rcases hW2 : TxManager.WithTx d
        (purchaseTx au qq now { inp with AmountPaid := x2 } ⟨a2.Round 2⟩) { TicketID := Nil } w0
      with ⟨⟨r2, o2⟩, w2⟩
    rw [hW1, hW2] at e1 e2
    simp only [Prod.mk.injEq] at e1 e2
    obtain ⟨rfl, rfl⟩ := e1
    cases r1 <;> exact ⟨rfl, e2⟩
  refine ⟨(key db audit q w hins hcommit).1, (key db audit q w hins hcommit).2, fun wc => ?_⟩
  exact key pg (AuditContextSetter pg) (TicketTxQueries pg) wc
    (fun s => (pg_amount_blind _ _ _ _ _ _ s).1) (fun s => (pg_amount_blind _ _ _ _ _ _ s).2)

/-- C27 at the sample store: the ticket type is bought for 19.999 and for 5
alike; both purchases succeed with the same ticket id, and the rows written
differ in the amount only. -/
theorem Purchase_ignores_price_witness :
    (pgPurchase 9 { sampleInput with AmountPaid := "19.999" } (sampleWorld sampleTables [])).1
      = (pgPurchase 9 { sampleInput with AmountPaid := "5" } (sampleWorld sampleTables [])).1 ∧
    (pgPurchase 9 { sampleInput with AmountPaid := "5" } (sampleWorld sampleTables [])).1
      = ({ TicketID := 103 }, none) ∧
    ((pgPurchase 9 { sampleInput with AmountPaid := "19.999" }
        (sampleWorld sampleTables [])).2.st.committed.tickets.map (fun r => r.amount_paid),
     (pgPurchase 9 { sampleInput with AmountPaid := "5" }
        (sampleWorld sampleTables [])).2.st.committed.tickets.map (fun r => r.amount_paid))
      = (["20.00"], ["5.00"]) :=
  ⟨(Purchase_ignores_price pg (AuditContextSetter pg) (TicketTxQueries pg) 9 sampleInput
      "19.999" "5" ⟨19999, -3⟩ ⟨5, 0⟩ (sampleWorld sampleTables []) (by decide) (by decide)
      (by decide) (by decide) (fun s => (pg_amount_blind _ _ _ _ _ _ s).1)
      (fun s => (pg_amount_blind _ _ _ _ _ _ s).2)).1,
   by decide, by decide⟩

/-! ## Failure of a savepoint -/

/-- The savepoints of a row's statements followed by more pass when those of
the rest do. -/
theorem savepointsPass_row (ins : Stmt) (hins : ins.isRowInsert = true) (e : Option GoError)
    (mid rest : List Sent) (hmid : ∀ x ∈ mid, x.stmt ≠ Stmt.Savepoint)
    (h : savepointsPass rest) :
    savepointsPass (⟨Stmt.Savepoint, none⟩ :: ⟨ins, e⟩ :: (mid ++ rest)) := by
  intro x hx hs
  rcases List.mem_cons.mp hx with rfl | hx
  · rfl
  rcases List.mem_cons.mp hx with rfl | hx
  · simp only at hs
    rw [hs] at hins
    exact Bool.noConfusion hins
  rcases List.mem_append.mp hx with hx | hx
  · exact absurd hs (hmid x hx)
  · exact h x hx hs

/-- The shared loop, for either value of `continueOnError`: when a savepoint it
sent failed, that savepoint is the last statement sent, the loop returned an
`Internal` error, it sent the inserts of the rows before only, and the result
counts those rows. -/
theorem importFrom_savepoint {σ α : Type} (db : SqlDB σ) (insert : α → Stmt) (failed : String)
    (hins : ∀ a, (insert a).isRowInsert = true) (c : Bool) (items : List α) :
    ∀ (i : Nat) (res : Result) (s : σ) (log : List Sent), ∃ tr,
      (importFrom db.recording insert failed c items i res (s, log)).2.2 = log ++ tr ∧
      (¬ savepointsPass tr →
        ∃ (pre : List Sent) (e : GoError),
          tr = pre ++ [⟨Stmt.Savepoint, some e⟩] ∧ savepointsPass pre ∧
          (importFrom db.recording insert failed c items i res (s, log)).1.2
            = some (New Code.CodeInternal "savepoint failed" (some e)) ∧
          (rowInserts tr).length < items.length ∧
          (rowInserts tr).map Sent.stmt = (items.map insert).take (rowInserts tr).length ∧
          (importFrom db.recording insert failed c items i res (s, log)).1.1
            = { Total := res.Total,
                Success := res.Success + ((rowInserts tr).filter (fun x => x.err.isNone)).length,
                Failed := res.Failed + ((rowInserts tr).filter (fun x => x.err.isSome)).length,
                Errors := res.Errors ++ failedRows (rowInserts tr) i }) := by
  induction items with
  | nil =>
    intro i res s log
    exact ⟨[], by simp [importFrom], fun h => absurd (fun e he => by simp at he) h⟩
  | cons it rest ih =>
    intro i res s log
    unfold importFrom
    simp only [recording_exec]
    rcases h1 : db.ExecContext Stmt.Savepoint s with ⟨⟨n1, _ | err1⟩, s1⟩
    · simp only
      rcases h2 : db.ExecContext (insert it) s1 with ⟨⟨n2, _ | err2⟩, s2⟩
      · simp only
        obtain ⟨tr2, hlog, hres⟩ := ih (i + 1) { res with Success := res.Success + 1 }
          (db.ExecContext Stmt.ReleaseSavepoint s2).2
          (log ++ [⟨Stmt.Savepoint, none⟩] ++ [⟨insert it, none⟩] ++
            [⟨Stmt.ReleaseSavepoint, (db.ExecContext Stmt.ReleaseSavepoint s2).1.2⟩])
        have hri := rowInserts_row (insert it) (hins it) none
          [⟨Stmt.ReleaseSavepoint, (db.ExecContext Stmt.ReleaseSavepoint s2).1.2⟩] tr2
          (by simp [Stmt.isRowInsert])
        refine ⟨⟨Stmt.Savepoint, none⟩ :: ⟨insert it, none⟩ ::
          ([⟨Stmt.ReleaseSavepoint, (db.ExecContext Stmt.ReleaseSavepoint s2).1.2⟩] ++ tr2),
          ?_, fun hp => ?_⟩
        · rw [hlog]; simp
        · have hp2 : ¬ savepointsPass tr2 := fun h =>
            hp (savepointsPass_row _ (hins it) _ _ _ (by simp) h)
          obtain ⟨pre, e, htr, hpre, he, hlt, hstm, hr⟩ := hres hp2
          refine ⟨⟨Stmt.Savepoint, none⟩ :: ⟨insert it, none⟩ ::
            ([⟨Stmt.ReleaseSavepoint, (db.ExecContext Stmt.ReleaseSavepoint s2).1.2⟩] ++ pre),
            e, ?_, savepointsPass_row _ (hins it) _ _ _ (by simp) hpre, he, ?_, ?_, ?_⟩
          · rw [htr]; simp
          · rw [hri]; simp only [List.length_cons]; omega
          · rw [hri]; simp [hstm]
          · rw [hr, hri]
            simp [failedRows, Nat.add_assoc, Nat.add_comm]
      · cases c
        · simp only [Bool.not_false, if_true]
          refine ⟨[⟨Stmt.Savepoint, none⟩, ⟨insert it, some err2⟩,
            ⟨Stmt.RollbackToSavepoint, (db.ExecContext Stmt.RollbackToSavepoint s2).1.2⟩,
            ⟨Stmt.ReleaseSavepoint, (db.ExecContext Stmt.ReleaseSavepoint
              (db.ExecContext Stmt.RollbackToSavepoint s2).2).1.2⟩], by simp, fun hp => ?_⟩
          exact absurd (savepointsPass_row _ (hins it) (some err2)
            [⟨Stmt.RollbackToSavepoint, (db.ExecContext Stmt.RollbackToSavepoint s2).1.2⟩,
              ⟨Stmt.ReleaseSavepoint, (db.ExecContext Stmt.ReleaseSavepoint
                (db.ExecContext Stmt.RollbackToSavepoint s2).2).1.2⟩] [] (by simp)
            (fun x hx => by simp at hx)) (by simpa using hp)
        · simp only [Bool.not_true, Bool.false_eq_true, if_false]
          obtain ⟨tr2, hlog, hres⟩ := ih (i + 1)
            { res with Failed := res.Failed + 1,
                       Errors := res.Errors ++ [{ Index := i, Error := err2.Error }] }
            (db.ExecContext Stmt.ReleaseSavepoint
              (db.ExecContext Stmt.RollbackToSavepoint s2).2).2
            (log ++ [⟨Stmt.Savepoint, none⟩] ++ [⟨insert it, some err2⟩] ++
              [⟨Stmt.RollbackToSavepoint, (db.ExecContext Stmt.RollbackToSavepoint s2).1.2⟩] ++
              [⟨Stmt.ReleaseSavepoint, (db.ExecContext Stmt.ReleaseSavepoint
                (db.ExecContext Stmt.RollbackToSavepoint s2).2).1.2⟩])
          have hri := rowInserts_row (insert it) (hins it) (some err2)
            [⟨Stmt.RollbackToSavepoint, (db.ExecContext Stmt.RollbackToSavepoint s2).1.2⟩,
              ⟨Stmt.ReleaseSavepoint, (db.ExecContext Stmt.ReleaseSavepoint
                (db.ExecContext Stmt.RollbackToSavepoint s2).2).1.2⟩] tr2
            (by simp [Stmt.isRowInsert])
          refine ⟨⟨Stmt.Savepoint, none⟩ :: ⟨insert it, some err2⟩ ::
            ([⟨Stmt.RollbackToSavepoint, (db.ExecContext Stmt.RollbackToSavepoint s2).1.2⟩,
              ⟨Stmt.ReleaseSavepoint, (db.ExecContext Stmt.ReleaseSavepoint
                (db.ExecContext Stmt.RollbackToSavepoint s2).2).1.2⟩] ++ tr2),
            ?_, fun hp => ?_⟩
          · rw [hlog]; simp
          · have hp2 : ¬ savepointsPass tr2 := fun h =>
              hp (savepointsPass_row _ (hins it) _ _ _ (by simp) h)
            obtain ⟨pre, e, htr, hpre, he, hlt, hstm, hr⟩ := hres hp2
            refine ⟨⟨Stmt.Savepoint, none⟩ :: ⟨insert it, some err2⟩ ::
              ([⟨Stmt.RollbackToSavepoint, (db.ExecContext Stmt.RollbackToSavepoint s2).1.2⟩,
                ⟨Stmt.ReleaseSavepoint, (db.ExecContext Stmt.ReleaseSavepoint
                  (db.ExecContext Stmt.RollbackToSavepoint s2).2).1.2⟩] ++ pre),
              e, ?_, savepointsPass_row _ (hins it) _ _ _ (by simp) hpre, he, ?_, ?_, ?_⟩
            · rw [htr]; simp
            · rw [hri]; simp only [List.length_cons]; omega
            · rw [hri]; simp [hstm]
            · rw [hr, hri]
              simp [failedRows, Nat.add_assoc, Nat.add_comm]
    · refine ⟨[⟨Stmt.Savepoint, some err1⟩], by simp, fun _ => ?_⟩
      exact ⟨[], err1, rfl, fun x hx => by simp at hx, rfl, by simp [rowInserts, Stmt.isRowInsert],
        by simp [rowInserts, Stmt.isRowInsert], by simp [rowInserts, Stmt.isRowInsert, failedRows]⟩
/-- The shared loop started on a fresh result and an empty record, when a
savepoint it sent failed. -/
theorem importFrom_stoppedAt {σ α : Type} (db : SqlDB σ) (insert : α → Stmt) (failed : String)
    (hins : ∀ a, (insert a).isRowInsert = true) (c : Bool) (items : List α) (s : σ)
    (hp : ¬ savepointsPass (importFrom db.recording insert failed c items 0
      { Total := items.length, Success := 0, Failed := 0, Errors := [] } (s, [])).2.2) :
    StoppedAtSavepoint (items.map insert)
      (importFrom db.recording insert failed c items 0
        { Total := items.length, Success := 0, Failed := 0, Errors := [] } (s, [])).1.1
      (importFrom db.recording insert failed c items 0
        { Total := items.length, Success := 0, Failed := 0, Errors := [] } (s, [])).1.2
      (importFrom db.recording insert failed c items 0
        { Total := items.length, Success := 0, Failed := 0, Errors := [] } (s, [])).2.2 := by
  obtain ⟨tr, hlog, hres⟩ := importFrom_savepoint db insert failed hins c items 0
    { Total := items.length, Success := 0, Failed := 0, Errors := [] } s []
  simp only [List.nil_append] at hlog
  rw [hlog] at hp ⊢
  obtain ⟨pre, e, htr, hpre, he, hlt, hstm, hr⟩ := hres hp
  have hsum := passed_add_failed (rowInserts tr)
  rw [hr]
  refine ⟨pre, e, htr, hpre, he, by simpa using hlt, by simpa using hstm, by simp, by simp,
    by simp, ?_, by simp⟩
  simp only [Nat.zero_add]
  exact hsum

/-- C28. Over any connection with a record of the statements sent and for
either value of `continueOnError`: when a savepoint fails, each importer
returns an `Internal` error at once. The failed savepoint is the last
statement sent, so no insert is attempted for its row or any later row; the
row inserts sent are those of the rows before, fewer than there are items;
`Total` is the number of items and `Success`, `Failed` and `Errors` count the
rows before only, so `Success + Failed` is the position of the row whose
savepoint failed. -/
theorem savepoint_failure_stops {σ : Type} (db : SqlDB σ) (s : σ) (c : Bool) :
    (∀ items : List ImportUsersItem,
      ¬ savepointsPass (BatchImporter.ImportUsers db.recording items c (s, [])).2.2 →
      StoppedAtSavepoint (items.map Stmt.InsertUser)
        (BatchImporter.ImportUsers db.recording items c (s, [])).1.1
        (BatchImporter.ImportUsers db.recording items c (s, [])).1.2
        (BatchImporter.ImportUsers db.recording items c (s, [])).2.2) ∧
    (∀ items : List ImportEventsItem,
      ¬ savepointsPass (BatchImporter.ImportEvents db.recording items c (s, [])).2.2 →
      StoppedAtSavepoint (items.map Stmt.InsertEvent)
        (BatchImporter.ImportEvents db.recording items c (s, [])).1.1
        (BatchImporter.ImportEvents db.recording items c (s, [])).1.2
        (BatchImporter.ImportEvents db.recording items c (s, [])).2.2) ∧
    (∀ items : List ImportTicketsItem,
      ¬ savepointsPass (BatchImporter.ImportTickets db.recording items c (s, [])).2.2 →
      StoppedAtSavepoint (items.map Stmt.InsertTicket)
        (BatchImporter.ImportTickets db.recording items c (s, [])).1.1
        (BatchImporter.ImportTickets db.recording items c (s, [])).1.2
        (BatchImporter.ImportTickets db.recording items c (s, [])).2.2) := by
  refine ⟨fun items => ?_, fun items => ?_, fun items => ?_⟩
  · rw [ImportUsers_shared]
    exact importFrom_stoppedAt db Stmt.InsertUser _ (fun _ => rfl) c items s
  · rw [ImportEvents_shared]
    exact importFrom_stoppedAt db Stmt.InsertEvent _ (fun _ => rfl) c items s
  · rw [ImportTickets_shared]
    exact importFrom_stoppedAt db Stmt.InsertTicket _ (fun _ => rfl) c items s

/-- C28 at the sample store, inside a transaction in which the savepoint of the
second of three users fails, the importer continuing on error: one user was
inserted, nothing is sent after the failed savepoint, and the result counts the
first row only. -/
theorem savepoint_failure_stops_witness :
    (BatchImporter.ImportUsers pg.recording sampleUsers true
        ((pg.BeginTxx (sampleConn sampleTables secondSavepointFails)).2, [])).1
      = ({ Total := 3, Success := 1, Failed := 0, Errors := [] },
         some (New Code.CodeInternal "savepoint failed"
           (some (GoError.other "connection reset")))) ∧
    (BatchImporter.ImportUsers pg.recording sampleUsers true
        ((pg.BeginTxx (sampleConn sampleTables secondSavepointFails)).2, [])).2.2.map Sent.stmt
      = [Stmt.Savepoint, Stmt.InsertUser (sampleUsers.get ⟨0, by decide⟩),
         Stmt.ReleaseSavepoint, Stmt.Savepoint] ∧
    StoppedAtSavepoint (sampleUsers.map Stmt.InsertUser)
      (BatchImporter.ImportUsers pg.recording sampleUsers true
        ((pg.BeginTxx (sampleConn sampleTables secondSavepointFails)).2, [])).1.1
      (BatchImporter.ImportUsers pg.recording sampleUsers true
        ((pg.BeginTxx (sampleConn sampleTables secondSavepointFails)).2, [])).1.2
      (BatchImporter.ImportUsers pg.recording sampleUsers true
        ((pg.BeginTxx (sampleConn sampleTables secondSavepointFails)).2, [])).2.2 :=
  ⟨by decide, by decide,
   (savepoint_failure_stops pg (pg.BeginTxx (sampleConn sampleTables secondSavepointFails)).2
      true).1 sampleUsers (by decide)⟩

/-! ## The result depends on the savepoints and the inserts only -/

/-- The savepoints and row inserts of one row's statements followed by more. -/
theorem keyOutcomes_row (ins : Stmt) (hins : ins.isRowInsert = true) (e : Option GoError)
    (mid tr : List Sent)
    (hmid : ∀ x ∈ mid, x.stmt.isRowInsert = false ∧ x.stmt ≠ Stmt.Savepoint) :
    keyOutcomes (⟨Stmt.Savepoint, none⟩ :: ⟨ins, e⟩ :: (mid ++ tr))
      = ⟨Stmt.Savepoint, none⟩ :: ⟨ins, e⟩ :: keyOutcomes tr := by
  have hm : mid.filter (fun x => decide (x.stmt = Stmt.Savepoint) || x.stmt.isRowInsert) = [] := by
    rw [List.filter_eq_nil_iff]
    intro x hx
    simp [(hmid x hx).1, (hmid x hx).2]
  simp [keyOutcomes, List.filter_cons, hins, hm]

/-- The result and the error of the shared loop are the verdict on the
outcomes of the savepoints and row inserts it sent. -/
theorem importFrom_verdict {σ α : Type} (db : SqlDB σ) (insert : α → Stmt) (failed : String)
    (hins : ∀ a, (insert a).isRowInsert = true) (c : Bool) (items : List α) :
    ∀ (i : Nat) (res : Result) (s : σ) (log : List Sent), ∃ tr,
      (importFrom db.recording insert failed c items i res (s, log)).2.2 = log ++ tr ∧
      (importFrom db.recording insert failed c items i res (s, log)).1
        = verdict failed c (keyOutcomes tr) i res := by
  induction items with
  | nil =>
    intro i res s log
    exact ⟨[], by simp [importFrom], by simp [importFrom, keyOutcomes, verdict]⟩
  | cons it rest ih =>
    intro i res s log
    have hne : insert it ≠ Stmt.Savepoint := by
      intro he
      have := hins it
      rw [he] at this
      exact Bool.noConfusion this
    unfold importFrom
    simp only [recording_exec]
    rcases h1 : db.ExecContext Stmt.Savepoint s with ⟨⟨n1, _ | err1⟩, s1⟩
    · simp only
      rcases h2 : db.ExecContext (insert it) s1 with ⟨⟨n2, _ | err2⟩, s2⟩
      · simp only
        obtain ⟨tr2, hlog, hres⟩ := ih (i + 1) { res with Success := res.Success + 1 }
          (db.ExecContext Stmt.ReleaseSavepoint s2).2
          (log ++ [⟨Stmt.Savepoint, none⟩] ++ [⟨insert it, none⟩] ++
            [⟨Stmt.ReleaseSavepoint, (db.ExecContext Stmt.ReleaseSavepoint s2).1.2⟩])
        have hk := keyOutcomes_row (insert it) (hins it) none
          [⟨Stmt.ReleaseSavepoint, (db.ExecContext Stmt.ReleaseSavepoint s2).1.2⟩] tr2
          (by simp [Stmt.isRowInsert])
        refine ⟨⟨Stmt.Savepoint, none⟩ :: ⟨insert it, none⟩ ::
          ([⟨Stmt.ReleaseSavepoint, (db.ExecContext Stmt.ReleaseSavepoint s2).1.2⟩] ++ tr2),
          ?_, ?_⟩
        · rw [hlog]; simp
        · rw [hres, hk]
          simp [verdict, hne]
      · cases c
        · simp only [Bool.not_false, if_true]
          have hk := keyOutcomes_row (insert it) (hins it) (some err2)
            [⟨Stmt.RollbackToSavepoint, (db.ExecContext Stmt.RollbackToSavepoint s2).1.2⟩,
              ⟨Stmt.ReleaseSavepoint, (db.ExecContext Stmt.ReleaseSavepoint
                (db.ExecContext Stmt.RollbackToSavepoint s2).2).1.2⟩] []
            (by simp [Stmt.isRowInsert])
          simp only [List.append_nil] at hk
          refine ⟨[⟨Stmt.Savepoint, none⟩, ⟨insert it, some err2⟩,
            ⟨Stmt.RollbackToSavepoint, (db.ExecContext Stmt.RollbackToSavepoint s2).1.2⟩,
            ⟨Stmt.ReleaseSavepoint, (db.ExecContext Stmt.ReleaseSavepoint
              (db.ExecContext Stmt.RollbackToSavepoint s2).2).1.2⟩], by simp, ?_⟩
          rw [hk]
          simp [verdict, hne, keyOutcomes]
        · simp only [Bool.not_true, Bool.false_eq_true, if_false]
          obtain ⟨tr2, hlog, hres⟩ := ih (i + 1)
            { res with Failed := res.Failed + 1,
                       Errors := res.Errors ++ [{ Index := i, Error := err2.Error }] }
            (db.ExecContext Stmt.ReleaseSavepoint
              (db.ExecContext Stmt.RollbackToSavepoint s2).2).2
            (log ++ [⟨Stmt.Savepoint, none⟩] ++ [⟨insert it, some err2⟩] ++
              [⟨Stmt.RollbackToSavepoint, (db.ExecContext Stmt.RollbackToSavepoint s2).1.2⟩] ++
              [⟨Stmt.ReleaseSavepoint, (db.ExecContext Stmt.ReleaseSavepoint
                (db.ExecContext Stmt.RollbackToSavepoint s2).2).1.2⟩])
          have hk := keyOutcomes_row (insert it) (hins it) (some err2)
            [⟨Stmt.RollbackToSavepoint, (db.ExecContext Stmt.RollbackToSavepoint s2).1.2⟩,
              ⟨Stmt.ReleaseSavepoint, (db.ExecContext Stmt.ReleaseSavepoint
                (db.ExecContext Stmt.RollbackToSavepoint s2).2).1.2⟩] tr2
            (by simp [Stmt.isRowInsert])
          refine ⟨⟨Stmt.Savepoint, none⟩ :: ⟨insert it, some err2⟩ ::
            ([⟨Stmt.RollbackToSavepoint, (db.ExecContext Stmt.RollbackToSavepoint s2).1.2⟩,
              ⟨Stmt.ReleaseSavepoint, (db.ExecContext Stmt.ReleaseSavepoint
                (db.ExecContext Stmt.RollbackToSavepoint s2).2).1.2⟩] ++ tr2),
            ?_, ?_⟩
          · rw [hlog]; simp
          · rw [hres, hk]
            simp [verdict, hne]
    · exact ⟨[⟨Stmt.Savepoint, some err1⟩], by simp, by simp [keyOutcomes, verdict]⟩

/-- Two runs of the shared loop, on any two connections, that agree on the
outcomes of their savepoints and row inserts return the same result and
error. -/
theorem importFrom_agree {σ τ α : Type} (db1 : SqlDB σ) (db2 : SqlDB τ) (insert : α → Stmt)
    (failed : String) (hins : ∀ a, (insert a).isRowInsert = true) (c : Bool) (items : List α)
    (res : Result) (s1 : σ) (s2 : τ) :
    (importFrom db1.recording insert failed c items 0 res (s1, [])).1
        = verdict failed c
            (keyOutcomes (importFrom db1.recording insert failed c items 0 res (s1, [])).2.2)
            0 res ∧
    (keyOutcomes (importFrom db1.recording insert failed c items 0 res (s1, [])).2.2
        = keyOutcomes (importFrom db2.recording insert failed c items 0 res (s2, [])).2.2 →
      (importFrom db1 insert failed c items 0 res s1).1
        = (importFrom db2 insert failed c items 0 res s2).1) := by
  obtain ⟨tr1, hlog1, hres1⟩ := importFrom_verdict db1 insert failed hins c items 0 res s1 []
  obtain ⟨tr2, hlog2, hres2⟩ := importFrom_verdict db2 insert failed hins c items 0 res s2 []
  simp only [List.nil_append] at hlog1 hlog2
  refine ⟨by rw [hres1, hlog1], fun h => ?_⟩
  rw [← (importFrom_recording db1 insert failed c items 0 res s1 []).1,
    ← (importFrom_recording db2 insert failed c items 0 res s2 []).1, hres1, hres2,
    ← hlog1, ← hlog2, h]
/-- C29. For each importer and either value of `continueOnError`: the result
and the error it returns are the verdict on the outcomes of the savepoints and
row inserts it sent, a function in which what `ROLLBACK TO SAVEPOINT` and
`RELEASE SAVEPOINT` returned does not occur. So two runs on the same items, on
any two connections, that agree on the outcomes of their savepoints and row
inserts return the same result and the same error. -/
theorem result_from_key_outcomes {σ τ : Type} (db1 : SqlDB σ) (db2 : SqlDB τ) (s1 : σ) (s2 : τ)
    (c : Bool) :
    (∀ items : List ImportUsersItem,
      (BatchImporter.ImportUsers db1.recording items c (s1, [])).1
        = verdict "batch import users failed" c
            (keyOutcomes (BatchImporter.ImportUsers db1.recording items c (s1, [])).2.2) 0
            { Total := items.length, Success := 0, Failed := 0, Errors := [] } ∧
      (keyOutcomes (BatchImporter.ImportUsers db1.recording items c (s1, [])).2.2
          = keyOutcomes (BatchImporter.ImportUsers db2.recording items c (s2, [])).2.2 →
        (BatchImporter.ImportUsers db1 items c s1).1
          = (BatchImporter.ImportUsers db2 items c s2).1)) ∧
    (∀ items : List ImportEventsItem,
      (BatchImporter.ImportEvents db1.recording items c (s1, [])).1
        = verdict "batch import events failed" c
            (keyOutcomes (BatchImporter.ImportEvents db1.recording items c (s1, [])).2.2) 0
            { Total := items.length, Success := 0, Failed := 0, Errors := [] } ∧
      (keyOutcomes (BatchImporter.ImportEvents db1.recording items c (s1, [])).2.2
          = keyOutcomes (BatchImporter.ImportEvents db2.recording items c (s2, [])).2.2 →
        (BatchImporter.ImportEvents db1 items c s1).1
          = (BatchImporter.ImportEvents db2 items c s2).1)) ∧
    (∀ items : List ImportTicketsItem,
      (BatchImporter.ImportTickets db1.recording items c (s1, [])).1
        = verdict "batch import tickets failed" c
            (keyOutcomes (BatchImporter.ImportTickets db1.recording items c (s1, [])).2.2) 0
            { Total := items.length, Success := 0, Failed := 0, Errors := [] } ∧
      (keyOutcomes (BatchImporter.ImportTickets db1.recording items c (s1, [])).2.2
          = keyOutcomes (BatchImporter.ImportTickets db2.recording items c (s2, [])).2.2 →
        (BatchImporter.ImportTickets db1 items c s1).1
          = (BatchImporter.ImportTickets db2 items c s2).1)) := by
  refine ⟨fun items => ?_, fun items => ?_, fun items => ?_⟩
  · simp only [ImportUsers_shared]
    exact importFrom_agree db1 db2 Stmt.InsertUser _ (fun _ => rfl) c items _ s1 s2
  · simp only [ImportEvents_shared]
    exact importFrom_agree db1 db2 Stmt.InsertEvent _ (fun _ => rfl) c items _ s1 s2
  · simp only [ImportTickets_shared]
    exact importFrom_agree db1 db2 Stmt.InsertTicket _ (fun _ => rfl) c items _ s1 s2

/-- C29 on two scripted connections: the insert of the first of two users
fails on both; on the first the rollback and the release of that row fail as
well, on the second the last release fails. The savepoints and the inserts
have the same outcomes, and so the results are the same: one success, one
failure at position 0, and a nil error. -/
theorem result_from_key_outcomes_witness :
    (BatchImporter.ImportUsers scripted twoUsers true cleanupFails).1
      = (BatchImporter.ImportUsers scripted twoUsers true lastReleaseFails).1 ∧
    (BatchImporter.ImportUsers scripted twoUsers true cleanupFails).1
      = ({ Total := 2, Success := 1, Failed := 1,
           Errors := [{ Index := 0, Error := "duplicate key" }] }, none) ∧
    ((BatchImporter.ImportUsers scripted.recording twoUsers true (cleanupFails, [])).2.2.map
        Sent.err,
     (BatchImporter.ImportUsers scripted.recording twoUsers true (lastReleaseFails, [])).2.2.map
        Sent.err)
      = ([none, some (GoError.other "duplicate key"), some (GoError.other "rollback failed"),
          some (GoError.other "release failed"), none, none, none],
         [none, some (GoError.other "duplicate key"), none, none, none, none,
          some (GoError.other "release failed")]) :=
  ⟨((result_from_key_outcomes scripted scripted cleanupFails lastReleaseFails true).1
      twoUsers).2 (by decide),
   by decide, by decide⟩

/-! ## The round trip of a money value through storage -/

/-- The character of a digit below ten has the code of that digit. -/
theorem digitChar_toNat : ∀ k, k < 10 → (Nat.digitChar k).toNat - 48 = k := by decide

/-- A decimal digit is none of the characters that `NewFromString` treats
specially. -/
theorem isDigit_plain (c : Char) (h : c.isDigit = true) :
    c ≠ '.' ∧ c ≠ 'E' ∧ c ≠ 'e' ∧ c ≠ '+' ∧ c ≠ '-' := by
  refine ⟨?_, ?_, ?_, ?_, ?_⟩ <;>
    (intro hc; rw [hc] at h; exact absurd h (by decide))

/-- Reading the digits that the base-ten digit loop produces for `n` in front
of `ds`, from zero, is reading `ds` from `n`. The reader `f` is any function
that reads a digit as `parseDigits` does. -/
theorem foldl_toDigitsCore (f : Option Nat → Char → Option Nat)
    (hf : ∀ a c, c.isDigit = true → f (some a) c = some (a * 10 + (c.toNat - 48)))
    (fuel : Nat) : ∀ (n : Nat) (ds : List Char), n < fuel →
      List.foldl f (some 0) (Nat.toDigitsCore 10 fuel n ds) = List.foldl f (some n) ds := by
  induction fuel with
  | zero => intro n ds h; exact absurd h (Nat.not_lt_zero _)
  | succ k ih =>
    intro n ds h
    have hd := digitChar_isDigit (n % 10) (Nat.mod_lt _ (by decide))
    have ht := digitChar_toNat (n % 10) (Nat.mod_lt _ (by decide))
    simp only [Nat.toDigitsCore]
    split
    · rename_i h0
      have hn : n % 10 = n := by omega
      rw [List.foldl_cons, hf 0 _ hd, ht, hn]
      simp
    · rename_i h0
      rw [ih (n / 10) _ (by omega), List.foldl_cons, hf _ _ hd, ht]
      congr 2
      omega

/-- The numeral of a natural number is not empty. -/
theorem natString_ne_nil (n : Nat) : natString n ≠ [] := by
  have key : ∀ fuel n (ds : List Char), ds ≠ [] → Nat.toDigitsCore 10 fuel n ds ≠ [] := by
    intro fuel
    induction fuel with
    | zero => intro n ds h; simpa [Nat.toDigitsCore] using h
    | succ k ih =>
      intro n ds h
      simp only [Nat.toDigitsCore]
      split
      · simp
      · exact ih _ _ (by simp)
  unfold natString Nat.toDigits
  simp only [Nat.toDigitsCore]
  split
  · simp
  · exact key _ _ _ (by simp)

/-- Reading zeros from zero leaves zero. -/
theorem foldl_zeros (f : Option Nat → Char → Option Nat)
    (hf : ∀ a c, c.isDigit = true → f (some a) c = some (a * 10 + (c.toNat - 48)))
    (k : Nat) (l : List Char) :
    List.foldl f (some 0) (List.replicate k '0' ++ l) = List.foldl f (some 0) l := by
  induction k with
  | zero => rfl
  | succ k ih =>
    rw [List.replicate_succ, List.cons_append, List.foldl_cons, hf 0 '0' (by decide)]
    exact ih

/-- `parseDigits` reads the numeral of `n`, with or without zeros in front, as
`n`. -/
theorem parseDigits_natString (n k : Nat) :
    parseDigits (natString n) = some n ∧
    parseDigits ('0' :: (List.replicate k '0' ++ natString n)) = some n := by
  have hf : ∀ (a : Nat) (c : Char), c.isDigit = true →
      (fun (acc : Option Nat) (c : Char) =>
        match acc with
        | none => none
        | some n => if c.isDigit then some (n * 10 + (c.toNat - 48)) else none) (some a) c
        = some (a * 10 + (c.toNat - 48)) := by
    intro a c hc
    simp [hc]
  have hn : List.foldl (fun (acc : Option Nat) (c : Char) =>
        match acc with
        | none => none
        | some n => if c.isDigit then some (n * 10 + (c.toNat - 48)) else none) (some 0)
        (natString n) = some n :=
    foldl_toDigitsCore _ hf (n + 1) n [] (Nat.lt_succ_self n)
  refine ⟨?_, ?_⟩
  · unfold parseDigits
    rw [if_neg (natString_ne_nil n)]
    exact hn
  · unfold parseDigits
    rw [if_neg (by simp), List.foldl_cons]
    have h0 := hf 0 '0' (by decide)
    exact (congrArg (fun a => List.foldl _ a (List.replicate k '0' ++ natString n)) h0).trans
      ((foldl_zeros _ hf k (natString n)).trans hn)
/-- A non-negative decimal with exponent `-2` prints as digits, a point and two
digits, and the digits read as the value. -/
theorem string_two_parse (d : Decimal) (he : d.exp = -2) (hv : 0 ≤ d.value) :
    ∃ intPart frac, d.string = intPart ++ '.' :: frac ∧ intPart ≠ [] ∧ frac.length = 2 ∧
      (∀ c ∈ intPart ++ frac, c.isDigit = true) ∧
      parseDigits (intPart ++ frac) = some d.value.natAbs := by
  have hneg : ¬ d.exp ≥ 0 := by omega
  have hv2 : ¬ d.value < 0 := by omega
  have hdig := natString_isDigit d.value.natAbs
  by_cases hl : (natString d.value.natAbs).length > 2
  · refine ⟨(natString d.value.natAbs).take ((natString d.value.natAbs).length - 2),
      (natString d.value.natAbs).drop ((natString d.value.natAbs).length - 2), ?_, ?_, ?_, ?_, ?_⟩
    · simp [Decimal.string, hneg, hv2, he, hl]
      intro hnil
      rw [hnil] at hl
      simp at hl
    · intro h
      have := congrArg List.length h
      simp at this
      omega
    · simp; omega
    · intro c hc
      rw [List.take_append_drop] at hc
      exact hdig c hc
    · rw [List.take_append_drop]
      exact (parseDigits_natString _ 0).1
  · refine ⟨[ '0'], List.replicate (2 - (natString d.value.natAbs).length) '0'
      ++ natString d.value.natAbs, ?_, ?_, ?_, ?_, ?_⟩
    · simp [Decimal.string, hneg, hv2, he, hl]
      intro h hnil
      rw [hnil] at h
      simp at h
    · simp
    · simp; omega
    · intro c hc
      simp only [List.mem_append, List.mem_singleton, List.mem_replicate] at hc
      rcases hc with h1 | ⟨_, h1⟩ | h1
      · rw [h1]; decide
      · rw [h1]; decide
      · exact hdig c h1
    · exact (parseDigits_natString _ _).2

/-- `takeWhile` stops at the first element that fails the test. -/
theorem takeWhile_stop {α : Type} (p : α → Bool) (l : List α) (x : α) (r : List α)
    (hl : ∀ c ∈ l, p c = true) (hx : p x = false) : (l ++ x :: r).takeWhile p = l := by
  induction l with
  | nil => simp [List.takeWhile, hx]
  | cons a l ih =>
    have ha := hl a (List.mem_cons_self _ _)
    have hi := ih (fun c hc => hl c (List.mem_cons_of_mem _ hc))
    simp only [List.cons_append, List.takeWhile_cons, ha, if_true, hi]

/-- `NewFromString` reads back what a non-negative decimal with exponent `-2`
prints. -/
theorem NewFromString_string (d : Decimal) (he : d.exp = -2) (hv : 0 ≤ d.value) :
    NewFromString (String.mk d.string) = (d, none) := by
  obtain ⟨ip, fp, hstr, hne, hlen, hdig, hparse⟩ := string_two_parse d he hv
  have hm : List.takeWhile (fun c => !(c == 'E' || c == 'e')) (ip ++ '.' :: fp)
      = ip ++ '.' :: fp := by
    rw [List.takeWhile_eq_self_iff]
    intro c hc
    rcases List.mem_append.mp hc with h | h
    · have := isDigit_plain c (hdig c (List.mem_append_left _ h))
      simp [this.2.1, this.2.2.1]
    · rcases List.mem_cons.mp h with h | h
      · rw [h]; decide
      · have := isDigit_plain c (hdig c (List.mem_append_right _ h))
        simp [this.2.1, this.2.2.1]
  have hcount : List.count '.' (ip ++ '.' :: fp) = 1 := by
    have h1 : List.count '.' ip = 0 := List.count_eq_zero_of_not_mem (fun h =>
      (isDigit_plain _ (hdig _ (List.mem_append_left _ h))).1 rfl)
    have h2 : List.count '.' fp = 0 := List.count_eq_zero_of_not_mem (fun h =>
      (isDigit_plain _ (hdig _ (List.mem_append_right _ h))).1 rfl)
    simp [List.count_append, List.count_cons, h1, h2]
  have hip : List.takeWhile (fun c => !(c == '.')) (ip ++ '.' :: fp) = ip := by
    apply takeWhile_stop
    · intro c hc
      have := isDigit_plain c (hdig c (List.mem_append_left _ hc))
      simp [this.1]
    · decide
  have hfp : List.drop (ip.length + 1) (ip ++ '.' :: fp) = fp := by
    simp
  have hpi : parseInteger (ip ++ fp) = some d.value := by
    rcases ip with _ | ⟨a, ip⟩
    · exact absurd rfl hne
    have ha := isDigit_plain a (hdig a (by simp))
    have hnat : ((d.value.natAbs : Nat) : Int) = d.value := Int.natAbs_of_nonneg hv
    unfold parseInteger
    split
    · rename_i r heq
      simp only [List.cons_append, List.cons.injEq] at heq
      exact absurd heq.1 ha.2.2.2.1
    · rename_i r heq
      simp only [List.cons_append, List.cons.injEq] at heq
      exact absurd heq.1 ha.2.2.2.2
    · rw [hparse]
      simp [hnat]
  obtain ⟨v, e⟩ := d
  simp only at he hv hpi
  subst he
  unfold NewFromString
  simp only [hstr, hm, hcount, hip, hfp, hpi, hlen]
  simp
/-- C30. For every money value `m` that `NewMoney` produces: the text written
to storage, `m.Amount.StringFixed(2)`, parses back with `NewFromString` to the
very decimal of `m`, and `NewMoney` of what was parsed succeeds and is `m`. In
particular `NewMoney` applied to the amount of its own result returns that
result, and what `mapTicketRow` reads of what `TicketRepo.Create` wrote is
`m`. -/
theorem Money_round_trip (a : Decimal) (h : (NewMoney a).2 = none) :
    NewFromString ((NewMoney a).1.Amount.StringFixed 2) = ((NewMoney a).1.Amount, none) ∧
    NewMoney (NewFromString ((NewMoney a).1.Amount.StringFixed 2)).1 = ((NewMoney a).1, none) ∧
    NewMoney (NewMoney a).1.Amount = ((NewMoney a).1, none) ∧
    mapTicketRow.amountPaid (TicketRepo.Create.amountPaid (NewMoney a).1)
      = ((NewMoney a).1, none) := by
  have hsign : a.IsNegative = false := by
    unfold NewMoney at h
    by_cases hn : a.IsNegative = true
    · simp [hn] at h
    · simpa using hn
  have hv : 0 ≤ a.value := by
    unfold Decimal.IsNegative at hsign
    simpa using hsign
  have hm : NewMoney a = (⟨a.Round 2⟩, none) := by simp [NewMoney, hsign]
  have he := Round_two_exp a
  have hr := Round_two_nonneg a hv
  have hfix := Round_two_of_exp (a.Round 2) he
  have hback : NewFromString ((a.Round 2).StringFixed 2) = (a.Round 2, none) := by
    unfold Decimal.StringFixed
    rw [hfix]
    exact NewFromString_string _ he hr
  have hagain : NewMoney (a.Round 2) = (⟨a.Round 2⟩, none) := by
    have hn : (a.Round 2).IsNegative = false := by
      unfold Decimal.IsNegative
      simpa using hr
    simp [NewMoney, hn, hfix]
  rw [hm]
  simp only
  unfold mapTicketRow.amountPaid TicketRepo.Create.amountPaid
  simp only [hback, hagain, and_self]

/-- C30 at the amount 19.999: the money value is 20.00, it is written as the
text 20.00, and that text reads back as the same money value. -/
theorem Money_round_trip_witness :
    (NewMoney ⟨19999, -3⟩).1.Amount.StringFixed 2 = "20.00" ∧
    NewFromString "20.00" = (⟨2000, -2⟩, none) ∧
    NewMoney (NewFromString ((NewMoney ⟨19999, -3⟩).1.Amount.StringFixed 2)).1
      = ((NewMoney ⟨19999, -3⟩).1, none) :=
  ⟨by decide, by decide, (Money_round_trip ⟨19999, -3⟩ (by decide)).2.1⟩

end Time2Meet
